import Mathlib

/-! # ARISR framing codec: a shallow embedding of `lib_arisr.c`

Bytes and machine words are natural numbers; every narrowing conversion of the
C source is an explicit `%`.  A heap pointer is an `Option (List Nat)`
(`none` is `NULL`).  A function of the C source that reads or writes outside a
buffer has undefined behaviour there; the embedding returns `none` in that
case, so `some r` always is a defined run of the C code.

The protocol constants (`lib_arisr_interface.h`), the error codes
(`lib_arisr_err.h`) and the CRC/AES primitives (`lib_arisr_crypt.h`) are not
part of `lib_arisr.c`; they are parameters of the embedding.  So is the layout of
the two frame structures, on which the extent of the `memset` in
`ARISR_proto_chunk_clean` depends.
-/

namespace ARISR

/-! ## Error codes, constants, external primitives -/

/-- Modelled from the spec: the error kinds of `lib_arisr_err.h` (section 7 of
the specification); `kARISR_ERR_OTHER` stands for any further code an external
primitive may return. -/
inductive ARISR_ERR where
  | kARISR_OK
  | kARISR_ERR_GENERIC
  | kARISR_ERR_NOT_SAME_ID
  | kARISR_ERR_NOT_SAME_ARIS
  | kARISR_ERR_NOT_SAME_CRC_HEADER
  | kARISR_ERR_NOT_SAME_CRC_DATA
  | kARISR_ERR_NOT_SAME_END
  | kARISR_ERR_NULL_ORIGIN
  | kARISR_ERR_NULL_DESTINATION
  | kARISR_ERR_OTHER (code : Nat)
  deriving DecidableEq, Repr

open ARISR_ERR

/-- Modelled from the spec: size constants of `lib_arisr_interface.h`
(section 6 of the specification). -/
def ARISR_PROTO_ID_SIZE : Nat := 4

/-- Modelled from the spec: size of the `aris` tag. -/
def ARISR_PROTO_ARIS_SIZE : Nat := 4

/-- Modelled from the spec: size of `id` plus `aris`. -/
def ARISR_PROTO_CRYPT_SIZE : Nat := 8

/-- Modelled from the spec: size of one address. -/
def ARISR_ADDRESS_SIZE : Nat := 6

/-- Modelled from the spec: size of the first control word. -/
def ARISR_CTRL_SECTION_SIZE : Nat := 4

/-- Modelled from the spec: size of the second control word. -/
def ARISR_CTRL2_SECTION_SIZE : Nat := 4

/-- Modelled from the spec: size of a CRC field. -/
def ARISR_CRC_SIZE : Nat := 2

/-- The (mask, shift) constants of the two control words and the payload length
multiplier.  Their values are fixed by `lib_arisr_interface.h`, which the
embedding takes as a parameter. -/
structure Interface where
  ARISR_CTRL_VERSION_MASK : Nat
  ARISR_CTRL_VERSION_SHIFT : Nat
  ARISR_CTRL_DESTS_MASK : Nat
  ARISR_CTRL_DESTS_SHIFT : Nat
  ARISR_CTRL_FROM_MASK : Nat
  ARISR_CTRL_FROM_SHIFT : Nat
  ARISR_CTRL_OPTION_MASK : Nat
  ARISR_CTRL_OPTION_SHIFT : Nat
  ARISR_CTRL_SEQUENCE_MASK : Nat
  ARISR_CTRL_SEQUENCE_SHIFT : Nat
  ARISR_CTRL_RETRY_MASK : Nat
  ARISR_CTRL_RETRY_SHIFT : Nat
  ARISR_CTRL_MD_MASK : Nat
  ARISR_CTRL_MD_SHIFT : Nat
  ARISR_CTRL_ID_MASK : Nat
  ARISR_CTRL_ID_SHIFT : Nat
  ARISR_CTRL_MH_MASK : Nat
  ARISR_CTRL_MH_SHIFT : Nat
  ARISR_CTRL2_DATA_LENGTH_MASK : Nat
  ARISR_CTRL2_DATA_LENGTH_SHIFT : Nat
  ARISR_CTRL2_FEATURE_MASK : Nat
  ARISR_CTRL2_FEATURE_SHIFT : Nat
  ARISR_CTRL2_NEG_ANSWER_MASK : Nat
  ARISR_CTRL2_NEG_ANSWER_SHIFT : Nat
  ARISR_CTRL2_FREQ_SWITCH_MASK : Nat
  ARISR_CTRL2_FREQ_SWITCH_SHIFT : Nat
  ARISR_DATA_MULT : Nat

/-- The key `ARISR_DEFAULT_NULL_KEY = { 0x00 }`: sixteen zero bytes. -/
def ARISR_DEFAULT_NULL_KEY : List Nat := List.replicate 16 0

/-- Modelled from the spec: the macro `ARISR_AES_IS_ZERO_KEY` of
`lib_arisr_crypt.h`; the supplied key compares bytewise equal to zero. -/
def ARISR_AES_IS_ZERO_KEY (key : List Nat) : Bool :=
  decide (key = ARISR_DEFAULT_NULL_KEY)

/-- The expression `(!ARISR_AES_IS_ZERO_KEY(key)) ? key : ARISR_DEFAULT_NULL_KEY`. -/
def dataKey (key : List Nat) : List Nat :=
  if !(ARISR_AES_IS_ZERO_KEY key) then key else ARISR_DEFAULT_NULL_KEY

/-! ## Memory helpers -/

/-- View of a list as a C array of exactly `n` bytes. -/
def arr (n : Nat) (l : List Nat) : List Nat :=
  (l ++ List.replicate n 0).take n

/-- Effect of `memcpy(dst + p, src, |src|)` on the buffer `dst`; `none` when the
write leaves the buffer. -/
def memcpy (dst : List Nat) (p : Nat) (src : List Nat) : Option (List Nat) :=
  if p + src.length ≤ dst.length then
    some (dst.take p ++ src ++ dst.drop (p + src.length))
  else none

/-- The `n` bytes at `src + p`; `none` when the read leaves the buffer. -/
def readBytes (src : List Nat) (p n : Nat) : Option (List Nat) :=
  if p + n ≤ src.length then some ((src.drop p).take n) else none

/-- The first `n` bytes behind a heap pointer; `none` for `NULL` or a buffer
that is too short. -/
def readPtr (src : Option (List Nat)) (n : Nat) : Option (List Nat) :=
  match src with
  | none => none
  | some l => readBytes l 0 n

/-- The 32-bit word held big-endian in the first four bytes of `c`. -/
def be32 (c : List Nat) : Nat :=
  ((c.getD 0 0 % 256) <<< 24) ||| ((c.getD 1 0 % 256) <<< 16) |||
  ((c.getD 2 0 % 256) <<< 8) ||| (c.getD 3 0 % 256)

/-- The four bytes of a 32-bit word, most significant first. -/
def be32Bytes (w : Nat) : List Nat :=
  [(w >>> 24) % 256, (w >>> 16) % 256, (w >>> 8) % 256, w % 256]

/-! ## Bitfield codec -/

/-- Function `ARISR_proto_ctrl_getField`: `ctrl` points to four bytes; `mask`
is an `ARISR_UINT32`, `shift` an `ARISR_UINT8`, the result an `ARISR_UINT8`
(`return -1` is 255).  A shift of 32 or more is undefined in C; the statements
about this function assume `shift < 32`. -/
def ARISR_proto_ctrl_getField (ctrl : Option (List Nat)) (mask shift : Nat) : Nat :=
  match ctrl with
  | none => 255
  | some c => ((be32 c &&& (mask % 2 ^ 32)) >>> (shift % 256)) % 256

/-- Function `ARISR_proto_ctrl_setField`: returns the status and the bytes
behind `ctrl` after the call; `data` and `shift` are `ARISR_UINT8`. -/
def ARISR_proto_ctrl_setField (ctrl : Option (List Nat)) (data shift : Nat) :
    ARISR_ERR × Option (List Nat) :=
  match ctrl with
  | none => (kARISR_ERR_GENERIC, none)
  | some c =>
    let ctrl32 := be32 c
    let ctrl32 := ctrl32 ||| (((data % 256) <<< (shift % 256)) % 2 ^ 32)
    (kARISR_OK, some (be32Bytes ctrl32 ++ c.drop 4))

/-- The local array `ctrl` after `ARISR_proto_ctrl_setField(ctrl, data, shift)`
(the status of the call is ignored by the callers). -/
def setLocal (ctrl : List Nat) (data shift : Nat) : List Nat :=
  ((ARISR_proto_ctrl_setField (some ctrl) data shift).2).getD ctrl

/-! ## Frames -/

/-- Modelled from the spec: the unpacked first control word `ARISR_CHUNK_CTRL`
(section 3.3), declared in `lib_arisr_interface.h`; every field is an
`ARISR_UINT8`, and `from_` is the C field `from`. -/
structure ARISR_CHUNK_CTRL where
  version : Nat
  destinations : Nat
  option : Nat
  from_ : Nat
  sequence : Nat
  retry : Nat
  more_data : Nat
  identifier : Nat
  more_header : Nat
  deriving DecidableEq, Repr

/-- Modelled from the spec: the unpacked second control word
`ARISR_CHUNK_CTRL2` (section 3.3), declared in `lib_arisr_interface.h`. -/
structure ARISR_CHUNK_CTRL2 where
  data_length : Nat
  feature : Nat
  neg_answer : Nat
  freq_switch : Nat
  deriving DecidableEq, Repr

/-- Modelled from the spec: the decoded frame `ARISR_CHUNK` (section 3.2),
declared in `lib_arisr_interface.h`; `end_` is the C field `end`.  The fixed
arrays are lists (of 4, 4, 6, 6, 6, 2, 2 and 4 bytes), the two owned regions
are heap pointers, and `ctrl2.data_length` holds a length without narrowing. -/
structure ARISR_CHUNK where
  id : List Nat
  aris : List Nat
  ctrl : ARISR_CHUNK_CTRL
  origin : List Nat
  destinationA : List Nat
  destinationsB : Option (List Nat)
  destinationC : List Nat
  ctrl2 : ARISR_CHUNK_CTRL2
  crc_header : List Nat
  data : Option (List Nat)
  crc_data : List Nat
  end_ : List Nat
  deriving DecidableEq, Repr

/-- The frame after `memset(buffer, 0, sizeof(ARISR_CHUNK))`. -/
def zeroChunk : ARISR_CHUNK :=
  { id := List.replicate 4 0, aris := List.replicate 4 0,
    ctrl := ⟨0, 0, 0, 0, 0, 0, 0, 0, 0⟩,
    origin := List.replicate 6 0, destinationA := List.replicate 6 0,
    destinationsB := none, destinationC := List.replicate 6 0,
    ctrl2 := ⟨0, 0, 0, 0⟩, crc_header := List.replicate 2 0,
    data := none, crc_data := List.replicate 2 0, end_ := List.replicate 4 0 }

/-- What `lib_arisr.c` takes from outside, as parameters: the primitives of
`lib_arisr_crypt.h`, the allocator, and the extent of
`memset(buffer, 0, sizeof(ARISR_CHUNK_RAW))` on a decoded frame.
A primitive that fills an output buffer returns its status together with the
bytes it produced (the reported length is the length of that list).
`malloc n` tells whether a request for `n` bytes succeeds.
`memsetRaw b` is the decoded frame `b` after its first `sizeof(ARISR_CHUNK_RAW)`
bytes have been set to zero: `ARISR_CHUNK` and `ARISR_CHUNK_RAW` are declared in
`lib_arisr_interface.h`, so which fields of the decoded frame lie in these bytes
is not fixed by `lib_arisr.c`. -/
structure Crypt where
  ARISR_crypt_crc16_calculate : List Nat → Nat
  ARISR_aes_aris_encrypt : List Nat → List Nat → ARISR_ERR × List Nat
  ARISR_aes_aris_decrypt : List Nat → List Nat → ARISR_ERR × List Nat
  ARISR_aes_data_encrypt : List Nat → Option (List Nat) → Nat → ARISR_ERR × List Nat
  ARISR_aes_data_decrypt : List Nat → List Nat → Nat → ARISR_ERR × List Nat
  malloc : Nat → Bool
  memsetRaw : ARISR_CHUNK → ARISR_CHUNK

/-- Function `ARISR_proto_chunk_clean`: both owned regions are freed and their
pointers set to `NULL`, then `memset(buffer, 0, sizeof(ARISR_CHUNK_RAW))` zeroes
the first `sizeof(ARISR_CHUNK_RAW)` bytes of the decoded frame. -/
def ARISR_proto_chunk_clean (E : Crypt) (buffer : Option ARISR_CHUNK) :
    ARISR_ERR × Option ARISR_CHUNK :=
  match buffer with
  | none => (kARISR_ERR_GENERIC, none)
  | some b =>
    -- free destinationsB array if allocated
    let b := { b with destinationsB := none }
    -- free data array if allocated
    let b := { b with data := none }
    (kARISR_OK, some (E.memsetRaw b))

/-- The macro `ARISR_CLEAN_AND_RETURN(err_code)` applied to the frame `b`. -/
def ARISR_CLEAN_AND_RETURN (E : Crypt) (err_code : ARISR_ERR) (b : ARISR_CHUNK) :
    ARISR_ERR × ARISR_CHUNK :=
  (err_code, ((ARISR_proto_chunk_clean E (some b)).2).getD b)

/-! ## Builder -/

/-- Outcome of `ARISR_proto_build`: the status, the buffer handed to the caller
(`none` when no buffer is owned on return) and the value stored in `*length`
(`none` when it was not written). -/
structure BuildResult where
  err : ARISR_ERR
  buffer : Option (List Nat)
  length : Option Nat
  deriving DecidableEq, Repr

/-- The scratch word of `ARISR_proto_build` after the nine `setField` calls on
the zeroed array. -/
def buildCtrl1 (P : Interface) (c : ARISR_CHUNK_CTRL) : List Nat :=
  let ctrl := List.replicate ARISR_CTRL_SECTION_SIZE 0
  let ctrl := setLocal ctrl c.version P.ARISR_CTRL_VERSION_SHIFT
  let ctrl := setLocal ctrl c.destinations P.ARISR_CTRL_DESTS_SHIFT
  let ctrl := setLocal ctrl c.from_ P.ARISR_CTRL_FROM_SHIFT
  let ctrl := setLocal ctrl c.option P.ARISR_CTRL_OPTION_SHIFT
  let ctrl := setLocal ctrl c.sequence P.ARISR_CTRL_SEQUENCE_SHIFT
  let ctrl := setLocal ctrl c.retry P.ARISR_CTRL_RETRY_SHIFT
  let ctrl := setLocal ctrl c.more_data P.ARISR_CTRL_MD_SHIFT
  let ctrl := setLocal ctrl c.identifier P.ARISR_CTRL_ID_SHIFT
  let ctrl := setLocal ctrl c.more_header P.ARISR_CTRL_MH_SHIFT
  ctrl

/-- The scratch word of `ARISR_proto_build` after the four ctrl2 `setField`
calls on the zeroed array; `encrypted_length` is an `ARISR_UINT32`. -/
def buildCtrl2 (P : Interface) (c : ARISR_CHUNK_CTRL2) (encrypted_length : Nat) : List Nat :=
  let ctrl := List.replicate ARISR_CTRL2_SECTION_SIZE 0
  let ctrl := setLocal ctrl (encrypted_length / P.ARISR_DATA_MULT) P.ARISR_CTRL2_DATA_LENGTH_SHIFT
  let ctrl := setLocal ctrl c.feature P.ARISR_CTRL2_FEATURE_SHIFT
  let ctrl := setLocal ctrl c.neg_answer P.ARISR_CTRL2_NEG_ANSWER_SHIFT
  let ctrl := setLocal ctrl c.freq_switch P.ARISR_CTRL2_FREQ_SWITCH_SHIFT
  ctrl

/-- The two bytes `(ARISR_UINT8)(crc >> 8) & 0xFF`, `(ARISR_UINT8)(crc) & 0xFF`
of an `ARISR_UINT16 crc`. -/
def crcBytes (crc : Nat) : List Nat :=
  [((crc % 65536) >>> 8) % 256, (crc % 65536) % 256]

/-- Emission phase of `ARISR_proto_build` (from `p = 0` on): `size` is the
allocated size, `enc` the ciphertext (`encrypted_data`, of length
`encrypted_length`; empty when no encryption took place). -/
def buildEmit (P : Interface) (E : Crypt) (d : ARISR_CHUNK) (key : List Nat)
    (size : Nat) (enc : List Nat) : Option BuildResult :=
  let buffer := List.replicate size 0
  -- ID and ARIS
  (memcpy buffer 0 (d.id ++ d.aris)).bind fun buffer =>
  let p := ARISR_PROTO_CRYPT_SIZE
  (readBytes buffer ARISR_PROTO_ID_SIZE ARISR_PROTO_ARIS_SIZE).bind fun tag =>
  let r := E.ARISR_aes_aris_encrypt key tag
  (memcpy buffer ARISR_PROTO_ID_SIZE (arr ARISR_PROTO_ARIS_SIZE r.2)).bind fun buffer =>
  if r.1 ≠ kARISR_OK then some ⟨r.1, none, some size⟩ else
  -- CTRL 1
  (memcpy buffer p (buildCtrl1 P d.ctrl)).bind fun buffer =>
  let p := p + ARISR_CTRL_SECTION_SIZE
  -- ORIGIN and DESTINATION
  (memcpy buffer p (d.origin ++ d.destinationA)).bind fun buffer =>
  let p := p + ARISR_ADDRESS_SIZE * 2
  -- DESTINATIONS B
  (if d.ctrl.destinations > 0 then
      (readPtr d.destinationsB (d.ctrl.destinations * ARISR_ADDRESS_SIZE)).bind fun src =>
      (memcpy buffer p src).map fun buffer =>
        (buffer, p + d.ctrl.destinations * ARISR_ADDRESS_SIZE)
    else some (buffer, p)).bind fun (buffer, p) =>
  -- DESTINATION C
  (if d.ctrl.from_ ≠ 0 then
      (memcpy buffer p d.destinationC).map fun buffer => (buffer, p + ARISR_ADDRESS_SIZE)
    else some (buffer, p)).bind fun (buffer, p) =>
  -- CTRL 2
  (if d.ctrl.more_header ≠ 0 then
      (memcpy buffer p (buildCtrl2 P d.ctrl2 enc.length)).map fun buffer =>
        (buffer, p + ARISR_CTRL2_SECTION_SIZE)
    else some (buffer, p)).bind fun (buffer, p) =>
  -- CRC HEADER
  let crc := E.ARISR_crypt_crc16_calculate (buffer.take p)
  (memcpy buffer p (crcBytes crc)).bind fun buffer =>
  let p := p + 2
  -- DATA
  (memcpy buffer p enc).bind fun buffer =>
  let p := p + enc.length
  -- CRC DATA
  (if d.ctrl.more_header ≠ 0 ∧ d.ctrl2.data_length > 0 then
      let crc := E.ARISR_crypt_crc16_calculate enc
      (memcpy buffer p (crcBytes crc)).map fun buffer => (buffer, p + 2)
    else some (buffer, p)).bind fun (buffer, p) =>
  -- END
  (memcpy buffer p d.id).bind fun buffer =>
  some ⟨kARISR_OK, some buffer, some size⟩

/-- Size phase of `ARISR_proto_build`: the status, the ciphertext
(`encrypted_data`, empty when no encryption took place) and the value of `size`
before the allocation. -/
def buildSize (E : Crypt) (d : ARISR_CHUNK) (key : List Nat) : ARISR_ERR × List Nat × Nat :=
  -- Minimum size of the buffer
  let size := ARISR_PROTO_ID_SIZE + ARISR_PROTO_ARIS_SIZE + ARISR_CTRL_SECTION_SIZE
    + ARISR_ADDRESS_SIZE * 2 + ARISR_CRC_SIZE + ARISR_PROTO_ID_SIZE
  let size := if d.ctrl.destinations > 0 then
    size + d.ctrl.destinations * ARISR_ADDRESS_SIZE else size
  let size := if d.ctrl.from_ ≠ 0 then size + ARISR_ADDRESS_SIZE else size
  -- more headers: the data section is encrypted first
  if d.ctrl.more_header ≠ 0 then
    let size := size + ARISR_CTRL2_SECTION_SIZE
    if d.ctrl2.data_length > 0 then
      let e := E.ARISR_aes_data_encrypt (dataKey key) d.data d.ctrl2.data_length
      if e.1 ≠ kARISR_OK then (e.1, [], size)
      else (kARISR_OK, e.2, size + e.2.length + ARISR_CRC_SIZE)
    else (kARISR_OK, [], size)
  else (kARISR_OK, [], size)

/-- Function `ARISR_proto_build(buffer, length, data, key)`; the two output pointers are
taken to be valid.  `size` is an `unsigned int`. -/
def ARISR_proto_build (P : Interface) (E : Crypt) (data : Option ARISR_CHUNK)
    (key : List Nat) : Option BuildResult :=
  match data with
  | none => some ⟨kARISR_ERR_GENERIC, none, none⟩
  | some d =>
    let r := buildSize E d key
    if r.1 ≠ kARISR_OK then some ⟨r.1, none, none⟩ else
    let size := r.2.2 % 2 ^ 32
    if !(E.malloc size) then some ⟨kARISR_ERR_GENERIC, none, none⟩ else
    buildEmit P E d key size r.2.1

/-! ## Parser -/

/-- The nine fields of the first control word, as `ARISR_proto_parse` reads
them from the local array `ctrl`. -/
def parseCtrl1 (P : Interface) (ctrl : List Nat) : ARISR_CHUNK_CTRL :=
  { version := ARISR_proto_ctrl_getField (some ctrl) P.ARISR_CTRL_VERSION_MASK P.ARISR_CTRL_VERSION_SHIFT
    destinations := ARISR_proto_ctrl_getField (some ctrl) P.ARISR_CTRL_DESTS_MASK P.ARISR_CTRL_DESTS_SHIFT
    from_ := ARISR_proto_ctrl_getField (some ctrl) P.ARISR_CTRL_FROM_MASK P.ARISR_CTRL_FROM_SHIFT
    option := ARISR_proto_ctrl_getField (some ctrl) P.ARISR_CTRL_OPTION_MASK P.ARISR_CTRL_OPTION_SHIFT
    sequence := ARISR_proto_ctrl_getField (some ctrl) P.ARISR_CTRL_SEQUENCE_MASK P.ARISR_CTRL_SEQUENCE_SHIFT
    retry := ARISR_proto_ctrl_getField (some ctrl) P.ARISR_CTRL_RETRY_MASK P.ARISR_CTRL_RETRY_SHIFT
    more_data := ARISR_proto_ctrl_getField (some ctrl) P.ARISR_CTRL_MD_MASK P.ARISR_CTRL_MD_SHIFT
    identifier := ARISR_proto_ctrl_getField (some ctrl) P.ARISR_CTRL_ID_MASK P.ARISR_CTRL_ID_SHIFT
    more_header := ARISR_proto_ctrl_getField (some ctrl) P.ARISR_CTRL_MH_MASK P.ARISR_CTRL_MH_SHIFT }

/-- The four fields of the second control word, as `ARISR_proto_parse` reads
them from the local array `ctrl` (`data_length` already multiplied). -/
def parseCtrl2 (P : Interface) (ctrl : List Nat) : ARISR_CHUNK_CTRL2 :=
  { data_length := ARISR_proto_ctrl_getField (some ctrl) P.ARISR_CTRL2_DATA_LENGTH_MASK
      P.ARISR_CTRL2_DATA_LENGTH_SHIFT * P.ARISR_DATA_MULT
    feature := ARISR_proto_ctrl_getField (some ctrl) P.ARISR_CTRL2_FEATURE_MASK P.ARISR_CTRL2_FEATURE_SHIFT
    neg_answer := ARISR_proto_ctrl_getField (some ctrl) P.ARISR_CTRL2_NEG_ANSWER_MASK
      P.ARISR_CTRL2_NEG_ANSWER_SHIFT
    freq_switch := ARISR_proto_ctrl_getField (some ctrl) P.ARISR_CTRL2_FREQ_SWITCH_MASK
      P.ARISR_CTRL2_FREQ_SWITCH_SHIFT }

/-- The value `((ARISR_UINT16)b[0] << 8) | b[1]` of a two-byte CRC field. -/
def crcValue (b : List Nat) : Nat :=
  (((b.getD 0 0 % 256) <<< 8) % 65536) ||| (b.getD 1 0 % 256)

/-- State of `ARISR_proto_parse` between two sections: the frame behind
`buffer` and the cursor `p`. -/
abbrev ParseState := ARISR_CHUNK × Nat

/-- Outcome of one section of `ARISR_proto_parse`: a `return` with a status and
the frame left behind `buffer` (left), or the state the next section starts
from (right); `none` when the section reads outside the input. -/
abbrev Step := Option ((ARISR_ERR × ARISR_CHUNK) ⊕ ParseState)

/-- Sequencing of two sections: a `return` ends the function. -/
def Step.next (x : Step) (f : ParseState → Step) : Step :=
  x.bind fun s =>
    match s with
    | Sum.inl ret => some (Sum.inl ret)
    | Sum.inr st => f st

/-- Section "ID & ARIS": copy the first 8 bytes, compare `id`, decrypt `aris`. -/
def parseIdAris (E : Crypt) (data key id : List Nat) (st : ParseState) : Step :=
  (readBytes data 0 ARISR_PROTO_CRYPT_SIZE).bind fun crypt =>
  let buffer := { st.1 with id := crypt.take ARISR_PROTO_ID_SIZE,
                            aris := crypt.drop ARISR_PROTO_ID_SIZE }
  (readBytes id 0 ARISR_PROTO_ID_SIZE).bind fun idx =>
  if buffer.id ≠ idx then some (Sum.inl (kARISR_ERR_NOT_SAME_ID, buffer)) else
  let r := E.ARISR_aes_aris_decrypt key buffer.aris
  let buffer := { buffer with aris := arr ARISR_PROTO_ARIS_SIZE r.2 }
  if r.1 ≠ kARISR_OK then some (Sum.inl (kARISR_ERR_NOT_SAME_ARIS, buffer)) else
  some (Sum.inr (buffer, st.2 + ARISR_PROTO_CRYPT_SIZE))

/-- Section "CTRL 1": copy the control word and extract its nine fields. -/
def parseCtrl1Section (P : Interface) (data : List Nat) (st : ParseState) : Step :=
  (readBytes data st.2 ARISR_CTRL_SECTION_SIZE).bind fun ctrl =>
  some (Sum.inr ({ st.1 with ctrl := parseCtrl1 P ctrl }, st.2 + ARISR_CTRL_SECTION_SIZE))

/-- Section "ORIGIN & DESTINATION": one copy of twelve bytes into `origin` and
the adjacent `destinationA`. -/
def parseAddresses (data : List Nat) (st : ParseState) : Step :=
  (readBytes data st.2 (ARISR_ADDRESS_SIZE * 2)).bind fun od =>
  some (Sum.inr ({ st.1 with origin := od.take ARISR_ADDRESS_SIZE,
                             destinationA := od.drop ARISR_ADDRESS_SIZE },
    st.2 + ARISR_ADDRESS_SIZE * 2))

/-- Section "DESTINATIONS B": allocate and copy `destinations` addresses. -/
def parseDestinationsB (E : Crypt) (data : List Nat) (st : ParseState) : Step :=
  if st.1.ctrl.destinations > 0 then
    if E.malloc (st.1.ctrl.destinations * ARISR_ADDRESS_SIZE) = false then
      some (Sum.inl (ARISR_CLEAN_AND_RETURN E kARISR_ERR_GENERIC st.1))
    else
      (readBytes data st.2 (st.1.ctrl.destinations * ARISR_ADDRESS_SIZE)).bind fun dB =>
      some (Sum.inr ({ st.1 with destinationsB := some dB },
        st.2 + st.1.ctrl.destinations * ARISR_ADDRESS_SIZE))
  else some (Sum.inr st)

/-- Section "DESTINATION C": zero the field, copy six bytes when `from` is set. -/
def parseDestinationC (data : List Nat) (st : ParseState) : Step :=
  let buffer := { st.1 with destinationC := List.replicate ARISR_ADDRESS_SIZE 0 }
  if buffer.ctrl.from_ ≠ 0 then
    (readBytes data st.2 ARISR_ADDRESS_SIZE).bind fun dC =>
    some (Sum.inr ({ buffer with destinationC := dC }, st.2 + ARISR_ADDRESS_SIZE))
  else some (Sum.inr (buffer, st.2))

/-- Section "CTRL 2": copy and extract the second control word when
`more_header` is set, zero `ctrl2` otherwise. -/
def parseCtrl2Section (P : Interface) (data : List Nat) (st : ParseState) : Step :=
  if st.1.ctrl.more_header ≠ 0 then
    (readBytes data st.2 ARISR_CTRL_SECTION_SIZE).bind fun ctrl =>
    some (Sum.inr ({ st.1 with ctrl2 := parseCtrl2 P ctrl }, st.2 + ARISR_CTRL2_SECTION_SIZE))
  else some (Sum.inr ({ st.1 with ctrl2 := ⟨0, 0, 0, 0⟩ }, st.2))

/-- Section "CRC HEADER": copy the stored CRC, compare it with the CRC of the
bytes `[0, p)`. -/
def parseCrcHeader (E : Crypt) (data : List Nat) (st : ParseState) : Step :=
  (readBytes data st.2 ARISR_CRC_SIZE).bind fun crch =>
  let buffer := { st.1 with crc_header := crch }
  let expected_crc_header := crcValue buffer.crc_header
  (readBytes data 0 st.2).bind fun header =>
  let crc := E.ARISR_crypt_crc16_calculate header % 65536
  if crc ≠ expected_crc_header then
    some (Sum.inl (ARISR_CLEAN_AND_RETURN E kARISR_ERR_NOT_SAME_CRC_HEADER buffer))
  else some (Sum.inr (buffer, st.2 + ARISR_CRC_SIZE))

/-- Section "DATA": when `more_header` is set and `data_length > 0`, copy the
stored data CRC, compare it with the CRC of the ciphertext, decrypt. -/
def parseData (E : Crypt) (data key : List Nat) (st : ParseState) : Step :=
  if st.1.ctrl.more_header ≠ 0 ∧ st.1.ctrl2.data_length > 0 then
    (readBytes data (st.2 + st.1.ctrl2.data_length) ARISR_CRC_SIZE).bind fun crcd =>
    let buffer := { st.1 with crc_data := crcd }
    let expected_crc_data := crcValue buffer.crc_data
    (readBytes data st.2 buffer.ctrl2.data_length).bind fun cipher =>
    let crc := E.ARISR_crypt_crc16_calculate cipher % 65536
    if crc ≠ expected_crc_data then
      some (Sum.inl (ARISR_CLEAN_AND_RETURN E kARISR_ERR_NOT_SAME_CRC_DATA buffer))
    else
      let r := E.ARISR_aes_data_decrypt (dataKey key) cipher buffer.ctrl2.data_length
      if r.1 ≠ kARISR_OK then some (Sum.inl (ARISR_CLEAN_AND_RETURN E r.1 buffer))
      else
        let buffer1 := { buffer with data := some r.2 }
        let p := st.2 + buffer1.ctrl2.data_length + ARISR_CRC_SIZE
        some (Sum.inr ({ buffer1 with ctrl2 := { buffer1.ctrl2 with data_length := r.2.length } },
          p))
  else some (Sum.inr st)

/-- Section "END": copy the trailer and compare it with the expected id. -/
def parseEnd (data id : List Nat) (st : ParseState) : Option (ARISR_ERR × ARISR_CHUNK) :=
  (readBytes data st.2 ARISR_PROTO_ID_SIZE).bind fun e =>
  let buffer := { st.1 with end_ := e }
  (readBytes id 0 ARISR_PROTO_ID_SIZE).bind fun idx =>
  if buffer.end_ ≠ idx then some (kARISR_ERR_NOT_SAME_END, buffer)
  else some (kARISR_OK, buffer)

/-- Body of `ARISR_proto_parse` on non-null arguments: the status and the content of
`*buffer` on return.  The prior content of `*buffer` is overwritten by the
initial `memset`, so it is no argument. -/
def parseBody (P : Interface) (E : Crypt) (data key id : List Nat) :
    Option (ARISR_ERR × ARISR_CHUNK) :=
  ((((((((parseIdAris E data key id (zeroChunk, 0)).next
    (parseCtrl1Section P data)).next
    (parseAddresses data)).next
    (parseDestinationsB E data)).next
    (parseDestinationC data)).next
    (parseCtrl2Section P data)).next
    (parseCrcHeader E data)).next
    (parseData E data key)).bind fun s =>
      match s with
      | Sum.inl ret => some ret
      | Sum.inr st => parseEnd data id st

/-- Function `ARISR_proto_parse(buffer, data, key, id)`: `buffer` is the frame behind
the output pointer before the call, `data` the input bytes (`none` for a null
pointer).  Returns the status and the frame behind `buffer` after the call. -/
def ARISR_proto_parse (P : Interface) (E : Crypt) (buffer : Option ARISR_CHUNK)
    (data : Option (List Nat)) (key id : List Nat) :
    Option (ARISR_ERR × Option ARISR_CHUNK) :=
  match buffer, data with
  | some _, some d => (parseBody P E d key id).map fun r => (r.1, some r.2)
  | b, _ => some (kARISR_ERR_GENERIC, b)

/-! ## Wire layout and auxiliary notions used by the statements -/

/-- The word `w` with `(ARISR_UINT32)data << shift` ORed into it, as
`ARISR_proto_ctrl_setField` computes it. -/
def orField (w v s : Nat) : Nat := w ||| (((v % 256) <<< (s % 256)) % 2 ^ 32)

/-- The first control word of a frame: the nine field values ORed at their
shifts, in the order `ARISR_proto_build` sets them. -/
def ctrl1Word (P : Interface) (c : ARISR_CHUNK_CTRL) : Nat :=
  orField (orField (orField (orField (orField (orField (orField (orField (orField 0
    c.version P.ARISR_CTRL_VERSION_SHIFT)
    c.destinations P.ARISR_CTRL_DESTS_SHIFT)
    c.from_ P.ARISR_CTRL_FROM_SHIFT)
    c.option P.ARISR_CTRL_OPTION_SHIFT)
    c.sequence P.ARISR_CTRL_SEQUENCE_SHIFT)
    c.retry P.ARISR_CTRL_RETRY_SHIFT)
    c.more_data P.ARISR_CTRL_MD_SHIFT)
    c.identifier P.ARISR_CTRL_ID_SHIFT)
    c.more_header P.ARISR_CTRL_MH_SHIFT

/-- The second control word of a frame whose ciphertext has `encLen` bytes. -/
def ctrl2Word (P : Interface) (c : ARISR_CHUNK_CTRL2) (encLen : Nat) : Nat :=
  orField (orField (orField (orField 0
    (encLen / P.ARISR_DATA_MULT) P.ARISR_CTRL2_DATA_LENGTH_SHIFT)
    c.feature P.ARISR_CTRL2_FEATURE_SHIFT)
    c.neg_answer P.ARISR_CTRL2_NEG_ANSWER_SHIFT)
    c.freq_switch P.ARISR_CTRL2_FREQ_SWITCH_SHIFT

/-- Frames whose fixed arrays have the extents declared for `ARISR_CHUNK`
(the arrays `ARISR_proto_build` reads). -/
structure WfBuild (d : ARISR_CHUNK) : Prop where
  id_len : d.id.length = 4
  aris_len : d.aris.length = 4
  origin_len : d.origin.length = 6
  destinationA_len : d.destinationA.length = 6
  destinationC_len : d.destinationC.length = 6

/-- The buffer `b` of `n` bytes holds `pre` in its first `p` bytes. -/
def Holds (b : List Nat) (p : Nat) (pre : List Nat) (n : Nat) : Prop :=
  b.length = n ∧ pre.length = p ∧ b.take p = pre

/-- The `aris` tag as `ARISR_proto_build` emits it. -/
def wireAris (E : Crypt) (d : ARISR_CHUNK) (key : List Nat) : List Nat :=
  arr ARISR_PROTO_ARIS_SIZE (E.ARISR_aes_aris_encrypt key d.aris).2

/-- The `destinationsB` section of the wire layout. -/
def wireDestinationsB (d : ARISR_CHUNK) : List Nat :=
  if d.ctrl.destinations > 0 then
    (d.destinationsB.getD []).take (d.ctrl.destinations * ARISR_ADDRESS_SIZE)
  else []

/-- The wire layout (section 3.1) up to `crc_header`, for a ciphertext of
`encLen` bytes. -/
def wireHeader (P : Interface) (E : Crypt) (d : ARISR_CHUNK) (key : List Nat)
    (encLen : Nat) : List Nat :=
  d.id ++ wireAris E d key ++ buildCtrl1 P d.ctrl ++ (d.origin ++ d.destinationA) ++
    wireDestinationsB d ++ (if d.ctrl.from_ ≠ 0 then d.destinationC else []) ++
    (if d.ctrl.more_header ≠ 0 then buildCtrl2 P d.ctrl2 encLen else [])

/-- The whole wire layout (section 3.1) for the ciphertext `enc`. -/
def wire (P : Interface) (E : Crypt) (d : ARISR_CHUNK) (key : List Nat)
    (enc : List Nat) : List Nat :=
  wireHeader P E d key enc.length ++
    crcBytes (E.ARISR_crypt_crc16_calculate (wireHeader P E d key enc.length)) ++ enc ++
    (if d.ctrl.more_header ≠ 0 ∧ d.ctrl2.data_length > 0 then
      crcBytes (E.ARISR_crypt_crc16_calculate enc) else []) ++ d.id

/-- The ciphertext `ARISR_proto_build` emits: the output of the data
encryption when `more_header` is set and `data_length > 0`, nothing otherwise. -/
def buildEnc (E : Crypt) (d : ARISR_CHUNK) (key : List Nat) : List Nat :=
  if d.ctrl.more_header ≠ 0 ∧ d.ctrl2.data_length > 0 then
    (E.ARISR_aes_data_encrypt (dataKey key) d.data d.ctrl2.data_length).2
  else []

/-- The control fields of a frame are bytes (`ARISR_UINT8`). -/
structure CtrlBytes (d : ARISR_CHUNK) : Prop where
  version : d.ctrl.version < 256
  destinations : d.ctrl.destinations < 256
  option : d.ctrl.option < 256
  from_ : d.ctrl.from_ < 256
  sequence : d.ctrl.sequence < 256
  retry : d.ctrl.retry < 256
  more_data : d.ctrl.more_data < 256
  identifier : d.ctrl.identifier < 256
  more_header : d.ctrl.more_header < 256
  feature : d.ctrl2.feature < 256
  neg_answer : d.ctrl2.neg_answer < 256
  freq_switch : d.ctrl2.freq_switch < 256

/-- Every shift constant of the interface is a valid shift of a 32-bit word. -/
structure ShiftsValid (P : Interface) : Prop where
  version : P.ARISR_CTRL_VERSION_SHIFT < 32
  destinations : P.ARISR_CTRL_DESTS_SHIFT < 32
  from_ : P.ARISR_CTRL_FROM_SHIFT < 32
  option : P.ARISR_CTRL_OPTION_SHIFT < 32
  sequence : P.ARISR_CTRL_SEQUENCE_SHIFT < 32
  retry : P.ARISR_CTRL_RETRY_SHIFT < 32
  more_data : P.ARISR_CTRL_MD_SHIFT < 32
  identifier : P.ARISR_CTRL_ID_SHIFT < 32
  more_header : P.ARISR_CTRL_MH_SHIFT < 32
  data_length : P.ARISR_CTRL2_DATA_LENGTH_SHIFT < 32
  feature : P.ARISR_CTRL2_FEATURE_SHIFT < 32
  neg_answer : P.ARISR_CTRL2_NEG_ANSWER_SHIFT < 32
  freq_switch : P.ARISR_CTRL2_FREQ_SWITCH_SHIFT < 32

/-- Offset of `crc_header` in the wire layout of the frame `d`. -/
def headerEnd (d : ARISR_CHUNK) : Nat :=
  24 + 6 * d.ctrl.destinations + (if d.ctrl.from_ ≠ 0 then 6 else 0) +
    (if d.ctrl.more_header ≠ 0 then 4 else 0)

/-! ## A sample instance, used to run the definitions on concrete frames -/

/-- A sample bit layout: version 3 bits, destinations 3, option 5, from 1,
sequence 8, retry 3, more_data 1, identifier 7, more_header 1; ctrl2 with
data_length 8 bits, feature 8, neg_answer 1, freq_switch 8; multiplier 8. -/
def sampleInterface : Interface :=
  { ARISR_CTRL_VERSION_MASK := 0xE0000000, ARISR_CTRL_VERSION_SHIFT := 29
    ARISR_CTRL_DESTS_MASK := 0x1C000000, ARISR_CTRL_DESTS_SHIFT := 26
    ARISR_CTRL_OPTION_MASK := 0x03E00000, ARISR_CTRL_OPTION_SHIFT := 21
    ARISR_CTRL_FROM_MASK := 0x00100000, ARISR_CTRL_FROM_SHIFT := 20
    ARISR_CTRL_SEQUENCE_MASK := 0x000FF000, ARISR_CTRL_SEQUENCE_SHIFT := 12
    ARISR_CTRL_RETRY_MASK := 0x00000E00, ARISR_CTRL_RETRY_SHIFT := 9
    ARISR_CTRL_MD_MASK := 0x00000100, ARISR_CTRL_MD_SHIFT := 8
    ARISR_CTRL_ID_MASK := 0x000000FE, ARISR_CTRL_ID_SHIFT := 1
    ARISR_CTRL_MH_MASK := 0x00000001, ARISR_CTRL_MH_SHIFT := 0
    ARISR_CTRL2_DATA_LENGTH_MASK := 0xFF000000, ARISR_CTRL2_DATA_LENGTH_SHIFT := 24
    ARISR_CTRL2_FEATURE_MASK := 0x00FF0000, ARISR_CTRL2_FEATURE_SHIFT := 16
    ARISR_CTRL2_NEG_ANSWER_MASK := 0x00008000, ARISR_CTRL2_NEG_ANSWER_SHIFT := 15
    ARISR_CTRL2_FREQ_SWITCH_MASK := 0x00007F80, ARISR_CTRL2_FREQ_SWITCH_SHIFT := 7
    ARISR_DATA_MULT := 8 }

/-- Sample primitives: a byte-wise additive cipher keyed by the first key byte,
a running checksum, an allocator that always succeeds, and a layout in which
the first `sizeof(ARISR_CHUNK_RAW)` bytes cover the whole decoded frame. -/
def sampleCrypt : Crypt :=
  { ARISR_crypt_crc16_calculate := fun l => l.foldl (fun acc b => (acc * 31 + b + 1) % 65536) 7
    ARISR_aes_aris_encrypt := fun k x => (kARISR_OK, x.map fun b => (b + k.getD 0 0) % 256)
    ARISR_aes_aris_decrypt := fun k x =>
      (kARISR_OK, x.map fun b => (b + 256 - k.getD 0 0 % 256) % 256)
    ARISR_aes_data_encrypt := fun k x n =>
      (kARISR_OK, ((x.getD []).take n).map fun b => (b + k.getD 0 0) % 256)
    ARISR_aes_data_decrypt := fun k x n =>
      (kARISR_OK, (x.take n).map fun b => (b + 256 - k.getD 0 0 % 256) % 256)
    malloc := fun _ => true
    memsetRaw := fun _ => zeroChunk }

/-- A sample key. -/
def sampleKey : List Nat := [5, 1, 2, 3, 4, 5, 6, 7, 8, 9, 10, 11, 12, 13, 14, 15]

/-- Scenario S1: minimal frame, all ctrl1 fields zero. -/
def frameS1 : ARISR_CHUNK :=
  { zeroChunk with
    id := [0x11, 0x22, 0x33, 0x44], aris := [65, 82, 73, 83],
    origin := [1, 1, 1, 1, 1, 1], destinationA := [2, 2, 2, 2, 2, 2],
    end_ := [0x11, 0x22, 0x33, 0x44] }

/-- Scenario S2: three `destinationsB` addresses. -/
def frameS2 : ARISR_CHUNK :=
  { frameS1 with
    ctrl := { frameS1.ctrl with destinations := 3 },
    destinationsB := some [3, 3, 3, 3, 3, 3, 4, 4, 4, 4, 4, 4, 5, 5, 5, 5, 5, 5] }

/-- Scenario S4: payload frame with sixteen bytes `0xAA`, and all optional
sections present. -/
def frameS4 : ARISR_CHUNK :=
  { frameS2 with
    ctrl := { version := 5, destinations := 3, option := 17, from_ := 1, sequence := 200,
              retry := 6, more_data := 1, identifier := 100, more_header := 1 },
    destinationC := [9, 9, 9, 9, 9, 9],
    ctrl2 := { data_length := 16, feature := 77, neg_answer := 1, freq_switch := 130 },
    data := some (List.replicate 16 0xAA) }

/-- The 76 bytes `ARISR_proto_build` returns for `frameS4` under the sample
instance. -/
def wireS4 : List Nat :=
  [17, 34, 51, 68, 70, 87, 78, 88, 174, 60, 141, 201, 1, 1, 1, 1, 1, 1, 2, 2, 2, 2, 2, 2,
   3, 3, 3, 3, 3, 3, 4, 4, 4, 4, 4, 4, 5, 5, 5, 5, 5, 5, 9, 9, 9, 9, 9, 9, 2, 77, 193, 0,
   91, 216, 175, 175, 175, 175, 175, 175, 175, 175, 175, 175, 175, 175, 175, 175, 175, 175,
   194, 7, 17, 34, 51, 68]

/-- The 30 bytes `ARISR_proto_build` returns for `frameS1` under the sample
instance. -/
def wireS1 : List Nat :=
  [17, 34, 51, 68, 70, 87, 78, 88, 0, 0, 0, 0, 1, 1, 1, 1, 1, 1, 2, 2, 2, 2, 2, 2,
   197, 100, 17, 34, 51, 68]

/-- Scenario S2 with `destinationC`, `ctrl2` and `data` filled in although
`ctrl.from` and `ctrl.more_header` are 0. -/
def frameS2x : ARISR_CHUNK :=
  { frameS2 with
    destinationC := [9, 9, 9, 9, 9, 9],
    ctrl2 := { data_length := 16, feature := 77, neg_answer := 1, freq_switch := 130 },
    data := some (List.replicate 16 0xAA) }

/-- The 48 bytes `ARISR_proto_build` returns for `frameS2` (and `frameS2x`)
under the sample instance. -/
def wireS2 : List Nat :=
  [17, 34, 51, 68, 70, 87, 78, 88, 12, 0, 0, 0, 1, 1, 1, 1, 1, 1, 2, 2, 2, 2, 2, 2,
   3, 3, 3, 3, 3, 3, 4, 4, 4, 4, 4, 4, 5, 5, 5, 5, 5, 5, 219, 120, 17, 34, 51, 68]

/-! ## Bit windows of the control fields -/

/-- Bit widths of the nine ctrl1 fields and the four ctrl2 fields. -/
structure Widths where
  version : Nat
  destinations : Nat
  from_ : Nat
  option : Nat
  sequence : Nat
  retry : Nat
  more_data : Nat
  identifier : Nat
  more_header : Nat
  data_length : Nat
  feature : Nat
  neg_answer : Nat
  freq_switch : Nat

/-- Two bit windows `(shift, width)` do not overlap. -/
def disjointWin (a b : Nat × Nat) : Prop := a.1 + a.2 ≤ b.1 ∨ b.1 + b.2 ≤ a.1

instance (a b : Nat × Nat) : Decidable (disjointWin a b) := by
  unfold disjointWin; infer_instance

/-- The windows `(shift, width)` of the nine ctrl1 fields. -/
def windows1 (P : Interface) (W : Widths) : List (Nat × Nat) :=
  [(P.ARISR_CTRL_VERSION_SHIFT, W.version), (P.ARISR_CTRL_DESTS_SHIFT, W.destinations),
   (P.ARISR_CTRL_FROM_SHIFT, W.from_), (P.ARISR_CTRL_OPTION_SHIFT, W.option),
   (P.ARISR_CTRL_SEQUENCE_SHIFT, W.sequence), (P.ARISR_CTRL_RETRY_SHIFT, W.retry),
   (P.ARISR_CTRL_MD_SHIFT, W.more_data), (P.ARISR_CTRL_ID_SHIFT, W.identifier),
   (P.ARISR_CTRL_MH_SHIFT, W.more_header)]

/-- The windows `(shift, width)` of the four ctrl2 fields. -/
def windows2 (P : Interface) (W : Widths) : List (Nat × Nat) :=
  [(P.ARISR_CTRL2_DATA_LENGTH_SHIFT, W.data_length), (P.ARISR_CTRL2_FEATURE_SHIFT, W.feature),
   (P.ARISR_CTRL2_NEG_ANSWER_SHIFT, W.neg_answer),
   (P.ARISR_CTRL2_FREQ_SWITCH_SHIFT, W.freq_switch)]

/-- The mask of the window `(shift, width)`. -/
def winMask (shift width : Nat) : Nat := (2 ^ width - 1) <<< shift

/-- The interface is a proper bit layout with the widths `W`: every mask is the
mask of its window, every window has at most 8 bits and lies inside the 32-bit
word, the windows of one word are pairwise disjoint, and the multiplier is not
zero. -/
structure Layout (P : Interface) (W : Widths) : Prop where
  version : P.ARISR_CTRL_VERSION_MASK = winMask P.ARISR_CTRL_VERSION_SHIFT W.version
  destinations : P.ARISR_CTRL_DESTS_MASK = winMask P.ARISR_CTRL_DESTS_SHIFT W.destinations
  from_ : P.ARISR_CTRL_FROM_MASK = winMask P.ARISR_CTRL_FROM_SHIFT W.from_
  option : P.ARISR_CTRL_OPTION_MASK = winMask P.ARISR_CTRL_OPTION_SHIFT W.option
  sequence : P.ARISR_CTRL_SEQUENCE_MASK = winMask P.ARISR_CTRL_SEQUENCE_SHIFT W.sequence
  retry : P.ARISR_CTRL_RETRY_MASK = winMask P.ARISR_CTRL_RETRY_SHIFT W.retry
  more_data : P.ARISR_CTRL_MD_MASK = winMask P.ARISR_CTRL_MD_SHIFT W.more_data
  identifier : P.ARISR_CTRL_ID_MASK = winMask P.ARISR_CTRL_ID_SHIFT W.identifier
  more_header : P.ARISR_CTRL_MH_MASK = winMask P.ARISR_CTRL_MH_SHIFT W.more_header
  data_length :
    P.ARISR_CTRL2_DATA_LENGTH_MASK = winMask P.ARISR_CTRL2_DATA_LENGTH_SHIFT W.data_length
  feature : P.ARISR_CTRL2_FEATURE_MASK = winMask P.ARISR_CTRL2_FEATURE_SHIFT W.feature
  neg_answer :
    P.ARISR_CTRL2_NEG_ANSWER_MASK = winMask P.ARISR_CTRL2_NEG_ANSWER_SHIFT W.neg_answer
  freq_switch :
    P.ARISR_CTRL2_FREQ_SWITCH_MASK = winMask P.ARISR_CTRL2_FREQ_SWITCH_SHIFT W.freq_switch
  inside1 : ∀ w ∈ windows1 P W, w.2 ≤ 8 ∧ w.1 + w.2 ≤ 32
  inside2 : ∀ w ∈ windows2 P W, w.2 ≤ 8 ∧ w.1 + w.2 ≤ 32
  disjoint1 : (windows1 P W).Pairwise disjointWin
  disjoint2 : (windows2 P W).Pairwise disjointWin
  mult : 0 < P.ARISR_DATA_MULT

/-- Every control field value of the frame fits the width of its window. -/
structure Fits (W : Widths) (d : ARISR_CHUNK) : Prop where
  version : d.ctrl.version < 2 ^ W.version
  destinations : d.ctrl.destinations < 2 ^ W.destinations
  from_ : d.ctrl.from_ < 2 ^ W.from_
  option : d.ctrl.option < 2 ^ W.option
  sequence : d.ctrl.sequence < 2 ^ W.sequence
  retry : d.ctrl.retry < 2 ^ W.retry
  more_data : d.ctrl.more_data < 2 ^ W.more_data
  identifier : d.ctrl.identifier < 2 ^ W.identifier
  more_header : d.ctrl.more_header < 2 ^ W.more_header
  feature : d.ctrl2.feature < 2 ^ W.feature
  neg_answer : d.ctrl2.neg_answer < 2 ^ W.neg_answer
  freq_switch : d.ctrl2.freq_switch < 2 ^ W.freq_switch

/-- A list of fields `(value, shift, width)` ORed into the word `w0`, one
`ARISR_proto_ctrl_setField` after the other. -/
def packFields (fs : List (Nat × Nat × Nat)) (w0 : Nat) : Nat :=
  fs.foldl (fun w f => orField w f.1 f.2.1) w0

/-- The nine ctrl1 fields `(value, shift, width)` of a frame, in the order
`ARISR_proto_build` sets them. -/
def fields1 (P : Interface) (W : Widths) (c : ARISR_CHUNK_CTRL) : List (Nat × Nat × Nat) :=
  [(c.version, P.ARISR_CTRL_VERSION_SHIFT, W.version),
   (c.destinations, P.ARISR_CTRL_DESTS_SHIFT, W.destinations),
   (c.from_, P.ARISR_CTRL_FROM_SHIFT, W.from_),
   (c.option, P.ARISR_CTRL_OPTION_SHIFT, W.option),
   (c.sequence, P.ARISR_CTRL_SEQUENCE_SHIFT, W.sequence),
   (c.retry, P.ARISR_CTRL_RETRY_SHIFT, W.retry),
   (c.more_data, P.ARISR_CTRL_MD_SHIFT, W.more_data),
   (c.identifier, P.ARISR_CTRL_ID_SHIFT, W.identifier),
   (c.more_header, P.ARISR_CTRL_MH_SHIFT, W.more_header)]

/-- The four ctrl2 fields `(value, shift, width)` that `ARISR_proto_build` sets
for a ciphertext of `encLen` bytes. -/
def fields2 (P : Interface) (W : Widths) (c : ARISR_CHUNK_CTRL2) (encLen : Nat) :
    List (Nat × Nat × Nat) :=
  [(encLen / P.ARISR_DATA_MULT, P.ARISR_CTRL2_DATA_LENGTH_SHIFT, W.data_length),
   (c.feature, P.ARISR_CTRL2_FEATURE_SHIFT, W.feature),
   (c.neg_answer, P.ARISR_CTRL2_NEG_ANSWER_SHIFT, W.neg_answer),
   (c.freq_switch, P.ARISR_CTRL2_FREQ_SWITCH_SHIFT, W.freq_switch)]

/-! ## Round trip: invariants of a frame and the property itself -/

/-- Invariants I1 to I6 of the specification (section 3.2) for a decoded frame
that is about to be built under `key`: `end = id`; `destinationsB` holds
`6 * destinations` bytes; without `more_header` all ctrl2 fields are zero, `data`
is empty and no `crc_data` is stored; without `from`, `destinationC` is zero;
`crc_header` is the CRC of the header bytes of the wire layout; `crc_data` is
the CRC of the ciphertext. -/
structure Invariants (P : Interface) (E : Crypt) (d : ARISR_CHUNK) (key : List Nat) : Prop where
  i1 : d.end_ = d.id
  i2 : (d.destinationsB.getD []).length = 6 * d.ctrl.destinations ∧
    (d.ctrl.destinations > 0 → d.destinationsB ≠ none)
  i3 : d.ctrl.more_header = 0 →
    d.ctrl2 = ⟨0, 0, 0, 0⟩ ∧ d.data.getD [] = [] ∧ d.crc_data = [0, 0]
  i4 : d.ctrl.from_ = 0 → d.destinationC = List.replicate 6 0
  i5 : d.crc_header = crcBytes (E.ARISR_crypt_crc16_calculate
    (wireHeader P E d key (buildEnc E d key).length))
  i6 : d.ctrl.more_header ≠ 0 → d.ctrl2.data_length > 0 →
    d.crc_data = crcBytes (E.ARISR_crypt_crc16_calculate (buildEnc E d key))

/-- The decryption primitives undo the encryption primitives on the frame `d`
under `key`: both encryptions succeed, decrypting the emitted tag gives back
`aris`, and decrypting the emitted ciphertext gives back `data`. -/
structure Inverse (E : Crypt) (d : ARISR_CHUNK) (key : List Nat) : Prop where
  aris_ok : (E.ARISR_aes_aris_encrypt key d.aris).1 = kARISR_OK
  aris_inv : E.ARISR_aes_aris_decrypt key
    (arr 4 (E.ARISR_aes_aris_encrypt key d.aris).2) = (kARISR_OK, d.aris)
  data_ok : d.ctrl.more_header ≠ 0 → d.ctrl2.data_length > 0 →
    (E.ARISR_aes_data_encrypt (dataKey key) d.data d.ctrl2.data_length).1 = kARISR_OK
  data_inv : d.ctrl.more_header ≠ 0 → d.ctrl2.data_length > 0 →
    E.ARISR_aes_data_decrypt (dataKey key) (buildEnc E d key) (buildEnc E d key).length
      = (kARISR_OK, d.data.getD [])

/-- The payload of the frame can be described by the ctrl2 length field: when a
payload is emitted, the ciphertext length is a positive multiple of
`ARISR_DATA_MULT` whose quotient fits the width of the field; when
`more_header` is set without payload, `data` is empty and `crc_data` zero. -/
structure PayloadFits (P : Interface) (E : Crypt) (W : Widths) (d : ARISR_CHUNK)
    (key : List Nat) : Prop where
  positive : d.ctrl.more_header ≠ 0 → d.ctrl2.data_length > 0 →
    0 < (buildEnc E d key).length
  multiple : P.ARISR_DATA_MULT ∣ (buildEnc E d key).length
  quotient : (buildEnc E d key).length / P.ARISR_DATA_MULT < 2 ^ W.data_length
  no_data : d.ctrl.more_header ≠ 0 → d.ctrl2.data_length = 0 →
    d.data.getD [] = [] ∧ d.crc_data = [0, 0]

/-- Round trip of the frame `d` under `key`: `ARISR_proto_build` returns
`kARISR_OK` with some bytes `B`, and `ARISR_proto_parse` of `B` with the
expected id `d.id` returns `kARISR_OK`, whatever the output frame held before,
with a frame equal to `d` in every field, `ctrl2.data_length` being the
plaintext length the data decryption reports. -/
def RoundTrip (P : Interface) (E : Crypt) (d : ARISR_CHUNK) (key : List Nat) : Prop :=
  ∃ (B : List Nat) (n : Nat) (G : ARISR_CHUNK),
    ARISR_proto_build P E (some d) key = some ⟨kARISR_OK, some B, some n⟩ ∧
    (∀ prior : ARISR_CHUNK,
      ARISR_proto_parse P E (some prior) (some B) key d.id = some (kARISR_OK, some G)) ∧
    G.id = d.id ∧ G.aris = d.aris ∧ G.ctrl = d.ctrl ∧ G.origin = d.origin ∧
    G.destinationA = d.destinationA ∧
    G.destinationsB.getD [] = d.destinationsB.getD [] ∧
    G.destinationC = d.destinationC ∧
    G.ctrl2.feature = d.ctrl2.feature ∧ G.ctrl2.neg_answer = d.ctrl2.neg_answer ∧
    G.ctrl2.freq_switch = d.ctrl2.freq_switch ∧
    G.crc_header = d.crc_header ∧ G.crc_data = d.crc_data ∧
    G.data.getD [] = d.data.getD [] ∧ G.end_ = d.end_ ∧
    G.ctrl2.data_length =
      (if d.ctrl.more_header ≠ 0 ∧ d.ctrl2.data_length > 0 then
        (E.ARISR_aes_data_decrypt (dataKey key) (buildEnc E d key)
          (buildEnc E d key).length).2.length
      else 0)

/-- The widths of the sample bit layout. -/
def sampleWidths : Widths :=
  { version := 3, destinations := 3, from_ := 1, option := 5, sequence := 8, retry := 3,
    more_data := 1, identifier := 7, more_header := 1,
    data_length := 8, feature := 8, neg_answer := 1, freq_switch := 8 }

/-- Scenario S4 with the two CRC fields the sample checksum gives for its wire
layout, so that invariants I5 and I6 hold. -/
def frameS4r : ARISR_CHUNK :=
  { frameS4 with crc_header := [91, 216], crc_data := [194, 7] }

/-- A section of the parser that leaves `ctrl` unchanged and never returns
`kARISR_OK` itself. -/
def KeepsCtrl (f : ParseState → Step) : Prop :=
  ∀ st s, f st = some s →
    (∀ r, s = Sum.inl r → r.1 ≠ kARISR_OK) ∧ (∀ st2, s = Sum.inr st2 → st2.1.ctrl = st.1.ctrl)

/-! ## Probes for the round trip without the field-width hypothesis -/

/-- The all-zero frame with the first control word `c` and with the
`crc_header` that invariant I5 requires under the primitives `E`. -/
def probeFrame (P : Interface) (E : Crypt) (key : List Nat) (c : ARISR_CHUNK_CTRL) :
    ARISR_CHUNK :=
  { zeroChunk with
    ctrl := c,
    crc_header := crcBytes (E.ARISR_crypt_crc16_calculate
      (wireHeader P E { zeroChunk with ctrl := c } key 0)) }

/-- The tag decryption undoes the tag encryption under `key`, on every tag. -/
def TagInverse (E : Crypt) (key : List Nat) : Prop :=
  ∀ a : List Nat, a.length = 4 →
    (E.ARISR_aes_aris_encrypt key a).1 = kARISR_OK ∧
    E.ARISR_aes_aris_decrypt key (arr 4 (E.ARISR_aes_aris_encrypt key a).2) = (kARISR_OK, a)

/-- Control word with `version = 255` and every other field 0. -/
def probeVersion : ARISR_CHUNK_CTRL := ⟨255, 0, 0, 0, 0, 0, 0, 0, 0⟩

/-- Control word with `option = 255` and every other field 0. -/
def probeOption : ARISR_CHUNK_CTRL := ⟨0, 0, 255, 0, 0, 0, 0, 0, 0⟩

/-- Control word with `sequence = 255` and every other field 0. -/
def probeSequence : ARISR_CHUNK_CTRL := ⟨0, 0, 0, 0, 255, 0, 0, 0, 0⟩

/-- Control word with `retry = 255` and every other field 0. -/
def probeRetry : ARISR_CHUNK_CTRL := ⟨0, 0, 0, 0, 0, 255, 0, 0, 0⟩

/-- Control word with `more_data = 255` and every other field 0. -/
def probeMoreData : ARISR_CHUNK_CTRL := ⟨0, 0, 0, 0, 0, 0, 255, 0, 0⟩

/-! ## Bitfield isolation -/

/-- The four control bytes after `ARISR_proto_ctrl_setField(w, x, shift_a)`
followed by `ARISR_proto_ctrl_setField(w, y, shift_b)` on a zeroed word `w`. -/
def setPair (x shift_a y shift_b : Nat) : Option (List Nat) :=
  (ARISR_proto_ctrl_setField
    (ARISR_proto_ctrl_setField (some (List.replicate 4 0)) x shift_a).2 y shift_b).2

/-- Reading the two fields back from the word of `setPair` gives the values
that were set. -/
def Isolated (mask_a shift_a mask_b shift_b x y : Nat) : Prop :=
  ARISR_proto_ctrl_getField (setPair x shift_a y shift_b) mask_a shift_a = x ∧
  ARISR_proto_ctrl_getField (setPair x shift_a y shift_b) mask_b shift_b = y

/-- The value `v`, shifted to `shift`, has no bit outside `mask`. -/
def FitsMask (v mask shift : Nat) : Prop := (v <<< shift) &&& mask = v <<< shift

instance (mask_a shift_a mask_b shift_b x y : Nat) :
    Decidable (Isolated mask_a shift_a mask_b shift_b x y) := by
  unfold Isolated; infer_instance

instance (v mask shift : Nat) : Decidable (FitsMask v mask shift) := by
  unfold FitsMask; infer_instance

/-! ## Layout of an input buffer, as `ARISR_proto_parse` reads it -/

/-- The `n` bytes of the input at offset `p`. -/
def slice (data : List Nat) (p n : Nat) : List Nat := (data.drop p).take n

/-- The nine ctrl1 fields `ARISR_proto_parse` extracts from the bytes [8,12)
of the input. -/
def inCtrl (P : Interface) (data : List Nat) : ARISR_CHUNK_CTRL :=
  parseCtrl1 P (slice data 8 4)

/-- Offset of the `destinationC` slot of the input: `24 + 6 * N`. -/
def inPosC (P : Interface) (data : List Nat) : Nat :=
  24 + 6 * (inCtrl P data).destinations

/-- Offset of the second control word of the input. -/
def inPosCtrl2 (P : Interface) (data : List Nat) : Nat :=
  inPosC P data + (if (inCtrl P data).from_ ≠ 0 then 6 else 0)

/-- Offset `h` of `crc_header` in the input:
`24 + 6 * N + (6 if from ≠ 0) + (4 if more_header ≠ 0)`, computed from the
control word at bytes [8,12). -/
def inHeaderEnd (P : Interface) (data : List Nat) : Nat :=
  24 + 6 * (inCtrl P data).destinations + (if (inCtrl P data).from_ ≠ 0 then 6 else 0) +
    (if (inCtrl P data).more_header ≠ 0 then 4 else 0)

/-- The ctrl2 fields `ARISR_proto_parse` extracts from the input (`data_length`
already multiplied by `ARISR_DATA_MULT`); all zero without `more_header`. -/
def inCtrl2 (P : Interface) (data : List Nat) : ARISR_CHUNK_CTRL2 :=
  if (inCtrl P data).more_header ≠ 0 then parseCtrl2 P (slice data (inPosCtrl2 P data) 4)
  else ⟨0, 0, 0, 0⟩

/-- The on-wire payload length `L` of the input. -/
def inDataLen (P : Interface) (data : List Nat) : Nat := (inCtrl2 P data).data_length

/-- The input carries a payload: `more_header ≠ 0` and `L > 0`. -/
def inHasData (P : Interface) (data : List Nat) : Prop :=
  (inCtrl P data).more_header ≠ 0 ∧ inDataLen P data > 0

instance (P : Interface) (data : List Nat) : Decidable (inHasData P data) :=
  inferInstanceAs (Decidable ((inCtrl P data).more_header ≠ 0 ∧ inDataLen P data > 0))

/-- Offset of the trailer `end` in the input: right after `crc_header`, or
after `crc_data` when the input carries a payload. -/
def inEndPos (P : Interface) (data : List Nat) : Nat :=
  inHeaderEnd P data + 2 + (if inHasData P data then inDataLen P data + 2 else 0)

/-- The frame behind `buffer` when `ARISR_proto_parse` reaches the header CRC:
the sections up to `ctrl2` copied from the input. -/
def inHeaderFrame (P : Interface) (E : Crypt) (data key : List Nat) : ARISR_CHUNK :=
  { zeroChunk with
    id := slice data 0 4
    aris := arr 4 (E.ARISR_aes_aris_decrypt key (slice data 4 4)).2
    ctrl := inCtrl P data
    origin := slice data 12 6
    destinationA := slice data 18 6
    destinationsB :=
      if (inCtrl P data).destinations > 0 then
        some (slice data 24 (6 * (inCtrl P data).destinations))
      else none
    destinationC :=
      if (inCtrl P data).from_ ≠ 0 then slice data (inPosC P data) 6 else List.replicate 6 0
    ctrl2 := inCtrl2 P data }

/-- The ciphertext of the input: the `L` bytes after `crc_header`. -/
def inCipher (P : Interface) (data : List Nat) : List Nat :=
  slice data (inHeaderEnd P data + 2) (inDataLen P data)

/-- The frame behind `buffer` when `ARISR_proto_parse` has read the trailer. -/
def inFrame (P : Interface) (E : Crypt) (data key : List Nat) : ARISR_CHUNK :=
  if inHasData P data then
    { inHeaderFrame P E data key with
      crc_header := slice data (inHeaderEnd P data) 2
      crc_data := slice data (inHeaderEnd P data + 2 + inDataLen P data) 2
      data := some (E.ARISR_aes_data_decrypt (dataKey key) (inCipher P data)
        (inDataLen P data)).2
      ctrl2 := { inCtrl2 P data with
        data_length := (E.ARISR_aes_data_decrypt (dataKey key) (inCipher P data)
          (inDataLen P data)).2.length }
      end_ := slice data (inEndPos P data) 4 }
  else
    { inHeaderFrame P E data key with
      crc_header := slice data (inHeaderEnd P data) 2
      end_ := slice data (inEndPos P data) 4 }

/-- The frame `ARISR_proto_chunk_clean` leaves behind `buffer` when it is called
on the frame `b`. -/
def cleaned (E : Crypt) (b : ARISR_CHUNK) : ARISR_CHUNK :=
  E.memsetRaw { b with destinationsB := none, data := none }

/-- The frame behind `buffer` when `ARISR_proto_parse` allocates
`destinationsB`: the sections up to `destinationA` copied from the input. -/
def inFixedFrame (P : Interface) (E : Crypt) (data key : List Nat) : ARISR_CHUNK :=
  { zeroChunk with
    id := slice data 0 4
    aris := arr 4 (E.ARISR_aes_aris_decrypt key (slice data 4 4)).2
    ctrl := inCtrl P data
    origin := slice data 12 6
    destinationA := slice data 18 6 }

/-- The frame behind `buffer` when `ARISR_proto_parse` compares the header CRC:
the header sections and the stored CRC. -/
def inCrcFrame (P : Interface) (E : Crypt) (data key : List Nat) : ARISR_CHUNK :=
  { inHeaderFrame P E data key with crc_header := slice data (inHeaderEnd P data) 2 }

/-- The frame behind `buffer` when `ARISR_proto_parse` compares the data CRC
and decrypts: the header sections and the two stored CRC fields. -/
def inDataFrame (P : Interface) (E : Crypt) (data key : List Nat) : ARISR_CHUNK :=
  { inCrcFrame P E data key with
    crc_data := slice data (inHeaderEnd P data + 2 + inDataLen P data) 2 }

/-- The trailer check of `ARISR_proto_parse` on the input. -/
def traceEnd (P : Interface) (E : Crypt) (data key id : List Nat) :
    Option (ARISR_ERR × ARISR_CHUNK) :=
  if data.length < inEndPos P data + 4 then none
  else if slice data (inEndPos P data) 4 ≠ slice id 0 4 then
    some (kARISR_ERR_NOT_SAME_END, inFrame P E data key)
  else some (kARISR_OK, inFrame P E data key)

/-- The checks of `ARISR_proto_parse` in the order the function makes them,
written over the offsets of the input; `none` where the function reads outside
the input.  `parseBody_eq_trace` shows that `parseBody` computes this. -/
def parseTrace (P : Interface) (E : Crypt) (data key id : List Nat) :
    Option (ARISR_ERR × ARISR_CHUNK) :=
  if data.length < 8 ∨ id.length < 4 then none
  else if slice data 0 4 ≠ slice id 0 4 then
    some (kARISR_ERR_NOT_SAME_ID,
      { zeroChunk with id := slice data 0 4, aris := slice data 4 4 })
  else if (E.ARISR_aes_aris_decrypt key (slice data 4 4)).1 ≠ kARISR_OK then
    some (kARISR_ERR_NOT_SAME_ARIS,
      { zeroChunk with
        id := slice data 0 4
        aris := arr 4 (E.ARISR_aes_aris_decrypt key (slice data 4 4)).2 })
  else if data.length < 24 then none
  else if (inCtrl P data).destinations > 0 ∧
      E.malloc ((inCtrl P data).destinations * ARISR_ADDRESS_SIZE) = false then
    some (kARISR_ERR_GENERIC, cleaned E (inFixedFrame P E data key))
  else if data.length < inHeaderEnd P data + 2 then none
  else if E.ARISR_crypt_crc16_calculate (data.take (inHeaderEnd P data)) % 65536 ≠
      crcValue (slice data (inHeaderEnd P data) 2) then
    some (kARISR_ERR_NOT_SAME_CRC_HEADER, cleaned E (inCrcFrame P E data key))
  else if inHasData P data then
    if data.length < inHeaderEnd P data + 2 + inDataLen P data + 2 then none
    else if E.ARISR_crypt_crc16_calculate (inCipher P data) % 65536 ≠
        crcValue (slice data (inHeaderEnd P data + 2 + inDataLen P data) 2) then
      some (kARISR_ERR_NOT_SAME_CRC_DATA, cleaned E (inDataFrame P E data key))
    else if (E.ARISR_aes_data_decrypt (dataKey key) (inCipher P data)
        (inDataLen P data)).1 ≠ kARISR_OK then
      some ((E.ARISR_aes_data_decrypt (dataKey key) (inCipher P data) (inDataLen P data)).1,
        cleaned E (inDataFrame P E data key))
    else traceEnd P E data key id
  else traceEnd P E data key id

/-! ## Runs of `ARISR_proto_parse` -/

/-- The input passes the id check and the tag decryption and holds the fixed
part of the header (24 bytes). -/
structure PassesIdAris (E : Crypt) (data key id : List Nat) : Prop where
  id_len : 4 ≤ id.length
  len : 24 ≤ data.length
  id_eq : slice data 0 4 = slice id 0 4
  aris_ok : (E.ARISR_aes_aris_decrypt key (slice data 4 4)).1 = kARISR_OK

/-- The parser reaches the header CRC check: the input passes the id and aris
steps, the `destinationsB` allocation succeeds, and the header with its CRC
lies inside the input. -/
structure ReachesCrc (P : Interface) (E : Crypt) (data key id : List Nat) : Prop where
  start : PassesIdAris E data key id
  malloc_ok : (inCtrl P data).destinations > 0 →
    E.malloc ((inCtrl P data).destinations * ARISR_ADDRESS_SIZE) = true
  len : inHeaderEnd P data + 2 ≤ data.length

/-- The stored header CRC of the input equals the CRC of the bytes `[0, h)`. -/
def HeaderCrcOk (P : Interface) (E : Crypt) (data : List Nat) : Prop :=
  E.ARISR_crypt_crc16_calculate (data.take (inHeaderEnd P data)) % 65536 =
    crcValue (slice data (inHeaderEnd P data) 2)

instance (P : Interface) (E : Crypt) (data : List Nat) : Decidable (HeaderCrcOk P E data) :=
  inferInstanceAs (Decidable (_ = _))

/-- The stored data CRC of the input equals the CRC of the ciphertext. -/
def DataCrcOk (P : Interface) (E : Crypt) (data : List Nat) : Prop :=
  E.ARISR_crypt_crc16_calculate (inCipher P data) % 65536 =
    crcValue (slice data (inHeaderEnd P data + 2 + inDataLen P data) 2)

instance (P : Interface) (E : Crypt) (data : List Nat) : Decidable (DataCrcOk P E data) :=
  inferInstanceAs (Decidable (_ = _))

/-- The status and the plaintext the payload decryption reports on the
ciphertext of the input. -/
def inDecrypt (P : Interface) (E : Crypt) (data key : List Nat) : ARISR_ERR × List Nat :=
  E.ARISR_aes_data_decrypt (dataKey key) (inCipher P data) (inDataLen P data)

/-- The parser reaches the data CRC check: the header CRC matches, the input
carries a payload, and the payload with its CRC lies inside the input. -/
structure ReachesData (P : Interface) (E : Crypt) (data key id : List Nat) : Prop where
  crc : ReachesCrc P E data key id
  crc_ok : HeaderCrcOk P E data
  has_data : inHasData P data
  len : inHeaderEnd P data + 2 + inDataLen P data + 2 ≤ data.length

/-- The parser reaches the trailer check: every earlier step passes and the
trailer lies inside the input. -/
structure ReachesEnd (P : Interface) (E : Crypt) (data key id : List Nat) : Prop where
  crc : ReachesCrc P E data key id
  crc_ok : HeaderCrcOk P E data
  data_ok : inHasData P data →
    DataCrcOk P E data ∧ (inDecrypt P E data key).1 = kARISR_OK
  len : inEndPos P data + 4 ≤ data.length

/-- The runs of `ARISR_proto_parse` on an input: the status and the frame left
behind `buffer`, with the checks that lead there (`parseTrace_iff_run`). -/
inductive ParseRun (P : Interface) (E : Crypt) (data key id : List Nat) :
    ARISR_ERR × ARISR_CHUNK → Prop
  | not_same_id (h8 : 8 ≤ data.length) (h4 : 4 ≤ id.length)
      (hid : slice data 0 4 ≠ slice id 0 4) :
      ParseRun P E data key id (kARISR_ERR_NOT_SAME_ID,
        { zeroChunk with id := slice data 0 4, aris := slice data 4 4 })
  | not_same_aris (h8 : 8 ≤ data.length) (h4 : 4 ≤ id.length)
      (hid : slice data 0 4 = slice id 0 4)
      (har : (E.ARISR_aes_aris_decrypt key (slice data 4 4)).1 ≠ kARISR_OK) :
      ParseRun P E data key id (kARISR_ERR_NOT_SAME_ARIS,
        { zeroChunk with
          id := slice data 0 4
          aris := arr 4 (E.ARISR_aes_aris_decrypt key (slice data 4 4)).2 })
  | no_memory (hs : PassesIdAris E data key id) (hN : (inCtrl P data).destinations > 0)
      (hm : E.malloc ((inCtrl P data).destinations * ARISR_ADDRESS_SIZE) = false) :
      ParseRun P E data key id (kARISR_ERR_GENERIC, cleaned E (inFixedFrame P E data key))
  | crc_header (hc : ReachesCrc P E data key id) (hx : ¬ HeaderCrcOk P E data) :
      ParseRun P E data key id
        (kARISR_ERR_NOT_SAME_CRC_HEADER, cleaned E (inCrcFrame P E data key))
  | crc_data (hd : ReachesData P E data key id) (hx : ¬ DataCrcOk P E data) :
      ParseRun P E data key id
        (kARISR_ERR_NOT_SAME_CRC_DATA, cleaned E (inDataFrame P E data key))
  | decrypt (hd : ReachesData P E data key id) (hx : DataCrcOk P E data)
      (he : (inDecrypt P E data key).1 ≠ kARISR_OK) :
      ParseRun P E data key id
        ((inDecrypt P E data key).1, cleaned E (inDataFrame P E data key))
  | not_same_end (he : ReachesEnd P E data key id)
      (hx : slice data (inEndPos P data) 4 ≠ slice id 0 4) :
      ParseRun P E data key id (kARISR_ERR_NOT_SAME_END, inFrame P E data key)
  | ok (he : ReachesEnd P E data key id)
      (hx : slice data (inEndPos P data) 4 = slice id 0 4) :
      ParseRun P E data key id (kARISR_OK, inFrame P E data key)

/-- The primitives `E` with the bytes the tag decryption writes replaced by
`tag key buf`; the status it reports is kept. -/
def withTag (E : Crypt) (tag : List Nat → List Nat → List Nat) : Crypt :=
  { E with ARISR_aes_aris_decrypt := fun k b => ((E.ARISR_aes_aris_decrypt k b).1, tag k b) }

/-- The sample primitives with a tag decryption that fails with code 7. -/
def sampleCryptTagFails : Crypt :=
  { sampleCrypt with ARISR_aes_aris_decrypt := fun _ x => (kARISR_ERR_OTHER 7, x) }

/-- Scenario S5: the 30 bytes of `wireS1` with bit 0 of byte 8 flipped. -/
def wireS5 : List Nat := wireS1.set 8 1

/-- The primitives `E` with the payload decryption replaced by `dec`. -/
def withDecrypt (E : Crypt) (dec : List Nat → List Nat → Nat → ARISR_ERR × List Nat) : Crypt :=
  { E with ARISR_aes_data_decrypt := dec }

/-- The 76 bytes of `wireS4` with one payload byte (offset 60) changed. -/
def wireS4x : List Nat := wireS4.set 60 0

/-- Scenario S6: the 30 bytes of `wireS1` with the trailing four bytes
overwritten by zeros. -/
def wireS6 : List Nat := wireS1.take 26 ++ [0, 0, 0, 0] ++ wireS1.drop 30

/-- The frame `ARISR_proto_parse` decodes from `wireS1` under the sample
instance: `frameS1` with the stored header CRC. -/
def frameS1r : ARISR_CHUNK := { frameS1 with crc_header := [197, 100] }

/-! ## Single-bit corruption of a wire buffer -/

/-- The buffer with bit `k` of byte `i` flipped. -/
def flipBit (l : List Nat) (i k : Nat) : List Nat := l.set i (l.getD i 0 ^^^ 2 ^ k)

/-- The status is one of the five protocol violations `ARISR_proto_parse`
reports. -/
def IsViolation (e : ARISR_ERR) : Prop :=
  e = kARISR_ERR_NOT_SAME_ID ∨ e = kARISR_ERR_NOT_SAME_ARIS ∨
  e = kARISR_ERR_NOT_SAME_CRC_HEADER ∨ e = kARISR_ERR_NOT_SAME_CRC_DATA ∨
  e = kARISR_ERR_NOT_SAME_END

/-- The CRC primitive tells every byte string from the strings got by flipping
one bit of it. -/
def DetectsFlips (E : Crypt) : Prop :=
  ∀ (l : List Nat) (i k : Nat), (∀ b ∈ l, b < 256) → i < l.length → k < 8 →
    E.ARISR_crypt_crc16_calculate (flipBit l i k) % 65536 ≠
      E.ARISR_crypt_crc16_calculate l % 65536

/-- The input `d2` has the header layout of `d1`: the same `destinations` in
the first control word, and `from` and `more_header` zero in both or non-zero
in both, so that `destinationC` and the second control word are present in both
or in neither. -/
def SameLayout (P : Interface) (d1 d2 : List Nat) : Prop :=
  (inCtrl P d2).destinations = (inCtrl P d1).destinations ∧
  ((inCtrl P d2).from_ ≠ 0 ↔ (inCtrl P d1).from_ ≠ 0) ∧
  ((inCtrl P d2).more_header ≠ 0 ↔ (inCtrl P d1).more_header ≠ 0)

instance (P : Interface) (d1 d2 : List Nat) : Decidable (SameLayout P d1 d2) := by
  unfold SameLayout; infer_instance

/-- Claim C17 read literally, for the interface `P` and the primitives `E`:
every single-bit flip of a buffer that `ARISR_proto_build` returns and
`ARISR_proto_parse` accepts makes `ARISR_proto_parse` return one of the five
protocol violations. -/
def Sensitive (P : Interface) (E : Crypt) (key : List Nat) : Prop :=
  ∀ (prior F : ARISR_CHUNK) (B : List Nat) (n : Nat) (G : ARISR_CHUNK) (i k : Nat),
    WfBuild F → CtrlBytes F →
    ARISR_proto_build P E (some F) key = some ⟨kARISR_OK, some B, some n⟩ →
    ARISR_proto_parse P E (some prior) (some B) key F.id = some (kARISR_OK, some G) →
    i < B.length → k < 8 →
    ∃ e og, ARISR_proto_parse P E (some prior) (some (flipBit B i k)) key F.id = some (e, og) ∧
      IsViolation e

/-- The 24 header bytes of a frame without optional sections: id `11 22 33 44`,
the encrypted tag "ARIS", a zero control word, origin `01…` and destinationA
`02…`. -/
def relayShort (E : Crypt) (key : List Nat) : List Nat :=
  [0x11, 0x22, 0x33, 0x44] ++ arr 4 (E.ARISR_aes_aris_encrypt key [65, 82, 73, 83]).2 ++
    [0, 0, 0, 0] ++ ([1, 1, 1, 1, 1, 1] ++ [2, 2, 2, 2, 2, 2])

/-- A relay frame (`from = 1`) whose `destinationC` holds the CRC of
`relayShort` followed by the id: the six bytes a frame without relay carries
after its header. -/
def relayTrap (E : Crypt) (key : List Nat) : ARISR_CHUNK :=
  { zeroChunk with
    id := [0x11, 0x22, 0x33, 0x44], aris := [65, 82, 73, 83],
    ctrl := { version := 0, destinations := 0, option := 0, from_ := 1, sequence := 0,
              retry := 0, more_data := 0, identifier := 0, more_header := 0 },
    origin := [1, 1, 1, 1, 1, 1], destinationA := [2, 2, 2, 2, 2, 2],
    destinationC := crcBytes (E.ARISR_crypt_crc16_calculate (relayShort E key)) ++
      [0x11, 0x22, 0x33, 0x44],
    end_ := [0x11, 0x22, 0x33, 0x44] }

/-- The 36 bytes `ARISR_proto_build` returns for `relayTrap` under the sample
instance. -/
def wireTrap : List Nat :=
  [17, 34, 51, 68, 70, 87, 78, 88, 0, 16, 0, 0, 1, 1, 1, 1, 1, 1, 2, 2, 2, 2, 2, 2,
   197, 100, 17, 34, 51, 68, 11, 245, 17, 34, 51, 68]

/-- A frame with one `destinationsB` address that holds the CRC of the 24
header bytes of scenario S1 followed by the id: the six bytes S1 carries after
its header. -/
def destTrap : ARISR_CHUNK :=
  { frameS1 with
    ctrl := { frameS1.ctrl with destinations := 1 },
    destinationsB := some [197, 100, 0x11, 0x22, 0x33, 0x44] }

/-- The 36 bytes `ARISR_proto_build` returns for `destTrap` under the sample
instance. -/
def wireDestTrap : List Nat :=
  [17, 34, 51, 68, 70, 87, 78, 88, 4, 0, 0, 0, 1, 1, 1, 1, 1, 1, 2, 2, 2, 2, 2, 2,
   197, 100, 17, 34, 51, 68, 158, 97, 17, 34, 51, 68]

/-- A frame with `more_header = 1` and no payload whose id `10 00 96 D7` makes
the second control word `00 73 10 00` and the header CRC `96 D7` read, without
the second control word, as the header CRC `00 73` followed by the id. -/
def mhTrap : ARISR_CHUNK :=
  { frameS1 with
    id := [16, 0, 150, 215],
    ctrl := { frameS1.ctrl with more_header := 1 },
    ctrl2 := { data_length := 0, feature := 115, neg_answer := 0, freq_switch := 32 },
    end_ := [16, 0, 150, 215] }

/-- The 34 bytes `ARISR_proto_build` returns for `mhTrap` under the sample
instance. -/
def wireMhTrap : List Nat :=
  [16, 0, 150, 215, 70, 87, 78, 88, 0, 0, 0, 1, 1, 1, 1, 1, 1, 1, 2, 2, 2, 2, 2, 2,
   0, 115, 16, 0, 150, 215, 16, 0, 150, 215]

/-! ## Raw frames and the partial-mode functions -/

/-- Modelled from the spec: the raw frame `ARISR_CHUNK_RAW` (section 3.2 and the
glossary), declared in `lib_arisr_interface.h`.  The two control words are kept
packed; `destinationsB`, `destinationC`, `ctrl2` and `data` are heap pointers;
`end_` is the C field `end`.  The arrays `id`, `aris`, `ctrl`, `origin` and
`destinationA` (4, 4, 4, 6 and 6 bytes) are adjacent at the start of the
structure: `ARISR_proto_send` copies them with one `memcpy`. -/
structure ARISR_CHUNK_RAW where
  id : List Nat
  aris : List Nat
  ctrl : List Nat
  origin : List Nat
  destinationA : List Nat
  destinationsB : Option (List Nat)
  destinationC : Option (List Nat)
  ctrl2 : Option (List Nat)
  crc_header : List Nat
  data : Option (List Nat)
  crc_data : List Nat
  end_ : List Nat
  deriving DecidableEq, Repr

/-- The raw frame after `memset(buffer, 0, sizeof(ARISR_CHUNK_RAW))`. -/
def zeroRaw : ARISR_CHUNK_RAW :=
  { id := List.replicate 4 0, aris := List.replicate 4 0, ctrl := List.replicate 4 0,
    origin := List.replicate 6 0, destinationA := List.replicate 6 0,
    destinationsB := none, destinationC := none, ctrl2 := none,
    crc_header := List.replicate 2 0, data := none, crc_data := List.replicate 2 0,
    end_ := List.replicate 4 0 }

/-- Function `ARISR_proto_raw_chunk_clean`: the four owned regions are freed and
their pointers set to `NULL`, then the structure is zeroed. -/
def ARISR_proto_raw_chunk_clean (buffer : Option ARISR_CHUNK_RAW) :
    ARISR_ERR × Option ARISR_CHUNK_RAW :=
  match buffer with
  | none => (kARISR_ERR_GENERIC, none)
  | some _ => (kARISR_OK, some zeroRaw)

/-- The macro `ARISR_RAW_CLEAN_AND_RETURN(err_code)` applied to the raw frame `b`. -/
def ARISR_RAW_CLEAN_AND_RETURN (err_code : ARISR_ERR) (b : ARISR_CHUNK_RAW) :
    ARISR_ERR × ARISR_CHUNK_RAW :=
  (err_code, ((ARISR_proto_raw_chunk_clean (some b)).2).getD b)

/-- Modelled from the spec: the constant `ARISR_PROTO_ARIS_TEXT = "ARIS"` of
`lib_arisr_interface.h` (section 6), as four ASCII bytes. -/
def ARISR_PROTO_ARIS_TEXT : List Nat := [65, 82, 73, 83]

/-- The word `buffer->ctrl` of `ARISR_proto_pack` after its nine `setField`
calls; `ctrl` is the content of the word before the first call (the function
does not zero it). -/
def packCtrl1 (P : Interface) (c : ARISR_CHUNK_CTRL) (ctrl : List Nat) : List Nat :=
  let ctrl := setLocal ctrl c.version P.ARISR_CTRL_VERSION_SHIFT
  let ctrl := setLocal ctrl c.destinations P.ARISR_CTRL_DESTS_SHIFT
  let ctrl := setLocal ctrl c.option P.ARISR_CTRL_OPTION_SHIFT
  let ctrl := setLocal ctrl c.from_ P.ARISR_CTRL_FROM_SHIFT
  let ctrl := setLocal ctrl c.sequence P.ARISR_CTRL_SEQUENCE_SHIFT
  let ctrl := setLocal ctrl c.retry P.ARISR_CTRL_RETRY_SHIFT
  let ctrl := setLocal ctrl c.more_data P.ARISR_CTRL_MD_SHIFT
  let ctrl := setLocal ctrl c.identifier P.ARISR_CTRL_ID_SHIFT
  let ctrl := setLocal ctrl c.more_header P.ARISR_CTRL_MH_SHIFT
  ctrl

/-- State of `ARISR_proto_recv` between two sections: the raw frame behind
`buffer` and the cursor `p`. -/
abbrev RawState := ARISR_CHUNK_RAW × Nat

/-- Outcome of one section of `ARISR_proto_recv`: a `return` with a status and
the raw frame left behind `buffer` (left), or the state the next section
starts from (right); `none` when the section reads outside the input. -/
abbrev RawStep := Option ((ARISR_ERR × ARISR_CHUNK_RAW) ⊕ RawState)

/-- Sequencing of two sections of `ARISR_proto_recv`: a `return` ends the
function. -/
def RawStep.next (x : RawStep) (f : RawState → RawStep) : RawStep :=
  x.bind fun s =>
    match s with
    | Sum.inl ret => some (Sum.inl ret)
    | Sum.inr st => f st

/-- The local `destinations` of `ARISR_proto_recv` and `dst_num` of
`ARISR_proto_send`: the field read from the packed control word. -/
def rawDestinations (P : Interface) (b : ARISR_CHUNK_RAW) : Nat :=
  ARISR_proto_ctrl_getField (some b.ctrl) P.ARISR_CTRL_DESTS_MASK P.ARISR_CTRL_DESTS_SHIFT

/-- The local `from_relay` of `ARISR_proto_recv` and `from` of
`ARISR_proto_send`. -/
def rawFrom (P : Interface) (b : ARISR_CHUNK_RAW) : Nat :=
  ARISR_proto_ctrl_getField (some b.ctrl) P.ARISR_CTRL_FROM_MASK P.ARISR_CTRL_FROM_SHIFT

/-- The local `more_headers` of `ARISR_proto_recv` and `ARISR_proto_send`. -/
def rawMoreHeaders (P : Interface) (b : ARISR_CHUNK_RAW) : Nat :=
  ARISR_proto_ctrl_getField (some b.ctrl) P.ARISR_CTRL_MH_MASK P.ARISR_CTRL_MH_SHIFT

/-- The local `ARISR_UINT8 data_length` of `ARISR_proto_recv` and
`ARISR_proto_send`: the length field of `buffer->ctrl2` times
`ARISR_DATA_MULT`, narrowed to eight bits. -/
def rawDataLength (P : Interface) (b : ARISR_CHUNK_RAW) : Nat :=
  (ARISR_proto_ctrl_getField b.ctrl2 P.ARISR_CTRL2_DATA_LENGTH_MASK
    P.ARISR_CTRL2_DATA_LENGTH_SHIFT * P.ARISR_DATA_MULT) % 256

/-- Section "id and aris" of `ARISR_proto_recv`. -/
def recvIdAris (E : Crypt) (data key id : List Nat) (st : RawState) : RawStep :=
  (readBytes data 0 ARISR_PROTO_CRYPT_SIZE).bind fun crypt =>
  let buffer := { st.1 with id := crypt.take ARISR_PROTO_ID_SIZE,
                            aris := crypt.drop ARISR_PROTO_ID_SIZE }
  (readBytes id 0 ARISR_PROTO_ID_SIZE).bind fun idx =>
  if buffer.id ≠ idx then some (Sum.inl (kARISR_ERR_NOT_SAME_ID, buffer)) else
  let r := E.ARISR_aes_aris_decrypt key buffer.aris
  let buffer := { buffer with aris := arr ARISR_PROTO_ARIS_SIZE r.2 }
  if r.1 ≠ kARISR_OK then some (Sum.inl (kARISR_ERR_NOT_SAME_ARIS, buffer)) else
  some (Sum.inr (buffer, st.2 + ARISR_PROTO_CRYPT_SIZE))

/-- Section "ctrl" of `ARISR_proto_recv`: the control word is copied packed. -/
def recvCtrl (data : List Nat) (st : RawState) : RawStep :=
  (readBytes data st.2 ARISR_CTRL_SECTION_SIZE).bind fun ctrl =>
  some (Sum.inr ({ st.1 with ctrl := ctrl }, st.2 + ARISR_CTRL_SECTION_SIZE))

/-- Section "origin and destinationA" of `ARISR_proto_recv`. -/
def recvAddresses (data : List Nat) (st : RawState) : RawStep :=
  (readBytes data st.2 (ARISR_ADDRESS_SIZE * 2)).bind fun od =>
  some (Sum.inr ({ st.1 with origin := od.take ARISR_ADDRESS_SIZE,
                             destinationA := od.drop ARISR_ADDRESS_SIZE },
    st.2 + ARISR_ADDRESS_SIZE * 2))

/-- Section "destinationsB" of `ARISR_proto_recv`. -/
def recvDestinationsB (P : Interface) (E : Crypt) (data : List Nat) (st : RawState) : RawStep :=
  if rawDestinations P st.1 > 0 then
    if E.malloc (rawDestinations P st.1 * ARISR_ADDRESS_SIZE) = false then
      some (Sum.inl (ARISR_RAW_CLEAN_AND_RETURN kARISR_ERR_GENERIC st.1))
    else
      (readBytes data st.2 (rawDestinations P st.1 * ARISR_ADDRESS_SIZE)).bind fun dB =>
      some (Sum.inr ({ st.1 with destinationsB := some dB },
        st.2 + rawDestinations P st.1 * ARISR_ADDRESS_SIZE))
  else some (Sum.inr st)

/-- Section "destinationC" of `ARISR_proto_recv`. -/
def recvDestinationC (P : Interface) (E : Crypt) (data : List Nat) (st : RawState) : RawStep :=
  if rawFrom P st.1 ≠ 0 then
    if E.malloc ARISR_ADDRESS_SIZE = false then
      some (Sum.inl (ARISR_RAW_CLEAN_AND_RETURN kARISR_ERR_GENERIC st.1))
    else
      (readBytes data st.2 ARISR_ADDRESS_SIZE).bind fun dC =>
      some (Sum.inr ({ st.1 with destinationC := some dC }, st.2 + ARISR_ADDRESS_SIZE))
  else some (Sum.inr st)

/-- Section "ctrl2" of `ARISR_proto_recv`. -/
def recvCtrl2 (P : Interface) (E : Crypt) (data : List Nat) (st : RawState) : RawStep :=
  if rawMoreHeaders P st.1 ≠ 0 then
    if E.malloc ARISR_CTRL2_SECTION_SIZE = false then
      some (Sum.inl (ARISR_RAW_CLEAN_AND_RETURN kARISR_ERR_GENERIC st.1))
    else
      (readBytes data st.2 ARISR_CTRL2_SECTION_SIZE).bind fun c2 =>
      some (Sum.inr ({ st.1 with ctrl2 := some c2 }, st.2 + ARISR_CTRL2_SECTION_SIZE))
  else some (Sum.inr ({ st.1 with ctrl2 := none }, st.2))

/-- Section "crc_header" of `ARISR_proto_recv`. -/
def recvCrcHeader (E : Crypt) (data : List Nat) (st : RawState) : RawStep :=
  (readBytes data st.2 ARISR_CRC_SIZE).bind fun crch =>
  let buffer := { st.1 with crc_header := crch }
  let expected_crc_header := crcValue buffer.crc_header
  (readBytes data 0 st.2).bind fun header =>
  let crc := E.ARISR_crypt_crc16_calculate header % 65536
  if crc ≠ expected_crc_header then
    some (Sum.inl (ARISR_RAW_CLEAN_AND_RETURN kARISR_ERR_NOT_SAME_CRC_HEADER buffer))
  else some (Sum.inr (buffer, st.2 + ARISR_CRC_SIZE))

/-- Section "data" of `ARISR_proto_recv`: with `more_headers` set and `ctrl2`
allocated, the eight-bit `data_length` bytes after `crc_header` are copied
still encrypted and their CRC is compared with the two bytes that follow. -/
def recvData (P : Interface) (E : Crypt) (data : List Nat) (st : RawState) : RawStep :=
  if rawMoreHeaders P st.1 ≠ 0 ∧ st.1.ctrl2 ≠ none then
    let data_length := rawDataLength P st.1
    if data_length > 0 then
      if E.malloc data_length = false then
        some (Sum.inl (ARISR_RAW_CLEAN_AND_RETURN kARISR_ERR_GENERIC st.1))
      else
        (readBytes data st.2 data_length).bind fun cipher =>
        let buffer := { st.1 with data := some cipher }
        let p := st.2 + data_length
        (readBytes data p ARISR_CRC_SIZE).bind fun crcd =>
        let buffer := { buffer with crc_data := crcd }
        let expected_crc_data := crcValue buffer.crc_data
        let crc := E.ARISR_crypt_crc16_calculate cipher % 65536
        if crc ≠ expected_crc_data then
          some (Sum.inl (ARISR_RAW_CLEAN_AND_RETURN kARISR_ERR_NOT_SAME_CRC_DATA buffer))
        else some (Sum.inr (buffer, p + ARISR_CRC_SIZE))
    else some (Sum.inr st)
  else some (Sum.inr st)

/-- Section "end" of `ARISR_proto_recv`: a trailer that differs from the
expected id is reported after the raw frame has been cleaned. -/
def recvEnd (data id : List Nat) (st : RawState) : Option (ARISR_ERR × ARISR_CHUNK_RAW) :=
  (readBytes data st.2 ARISR_PROTO_ID_SIZE).bind fun e =>
  let buffer := { st.1 with end_ := e }
  (readBytes id 0 ARISR_PROTO_ID_SIZE).bind fun idx =>
  if buffer.end_ ≠ idx then some (ARISR_RAW_CLEAN_AND_RETURN kARISR_ERR_NOT_SAME_END buffer)
  else some (kARISR_OK, buffer)

/-- Body of `ARISR_proto_recv` on non-null arguments: the status and the
content of `*buffer` on return; the prior content of `*buffer` is overwritten
by the initial `memset`. -/
def recvBody (P : Interface) (E : Crypt) (data key id : List Nat) :
    Option (ARISR_ERR × ARISR_CHUNK_RAW) :=
  ((((((((recvIdAris E data key id (zeroRaw, 0)).next
    (recvCtrl data)).next
    (recvAddresses data)).next
    (recvDestinationsB P E data)).next
    (recvDestinationC P E data)).next
    (recvCtrl2 P E data)).next
    (recvCrcHeader E data)).next
    (recvData P E data)).bind fun s =>
      match s with
      | Sum.inl ret => some ret
      | Sum.inr st => recvEnd data id st

/-- Function `ARISR_proto_recv(buffer, data, key, id)`: the status and the raw
frame behind `buffer` after the call. -/
def ARISR_proto_recv (P : Interface) (E : Crypt) (buffer : Option ARISR_CHUNK_RAW)
    (data : Option (List Nat)) (key id : List Nat) :
    Option (ARISR_ERR × Option ARISR_CHUNK_RAW) :=
  match buffer, data with
  | some _, some d => (recvBody P E d key id).map fun r => (r.1, some r.2)
  | b, _ => some (kARISR_ERR_GENERIC, b)

/-- Steps "destinationsB" and "destinationC" of `ARISR_proto_pack`: each
present section is allocated and copied from the decoded frame. -/
def packAddresses (E : Crypt) (d : ARISR_CHUNK) (buffer : ARISR_CHUNK_RAW) :
    Option ((ARISR_ERR × ARISR_CHUNK_RAW) ⊕ ARISR_CHUNK_RAW) :=
  (if d.ctrl.destinations > 0 then
      if E.malloc (d.ctrl.destinations * ARISR_ADDRESS_SIZE) = false then
        some (Sum.inl (ARISR_RAW_CLEAN_AND_RETURN kARISR_ERR_GENERIC buffer))
      else
        (readPtr d.destinationsB (d.ctrl.destinations * ARISR_ADDRESS_SIZE)).bind fun dB =>
        some (Sum.inr { buffer with destinationsB := some dB })
    else some (Sum.inr buffer)).bind fun s =>
  match s with
  | Sum.inl ret => some (Sum.inl ret)
  | Sum.inr buffer =>
    if d.ctrl.from_ ≠ 0 then
      if E.malloc ARISR_ADDRESS_SIZE = false then
        some (Sum.inl (ARISR_RAW_CLEAN_AND_RETURN kARISR_ERR_GENERIC buffer))
      else some (Sum.inr { buffer with destinationC := some d.destinationC })
    else some (Sum.inr buffer)

/-- Step "ctrl2" of `ARISR_proto_pack`: with `more_header` set, the payload is
encrypted when `data_length > 0` and `data` is not null, then the second
control word is allocated, zeroed and populated with `encrypted_length /
ARISR_DATA_MULT` and the three other fields. -/
def packCtrl2 (P : Interface) (E : Crypt) (d : ARISR_CHUNK) (key : List Nat)
    (buffer : ARISR_CHUNK_RAW) : (ARISR_ERR × ARISR_CHUNK_RAW) ⊕ ARISR_CHUNK_RAW :=
  if d.ctrl.more_header ≠ 0 then
    -- the raw frame and `encrypted_length` after the encryption step
    let s : (ARISR_ERR × ARISR_CHUNK_RAW) ⊕ (ARISR_CHUNK_RAW × Nat) :=
      if d.ctrl2.data_length > 0 ∧ d.data ≠ none then
        let e := E.ARISR_aes_data_encrypt (dataKey key) d.data d.ctrl2.data_length
        if e.1 ≠ kARISR_OK then Sum.inl (ARISR_RAW_CLEAN_AND_RETURN e.1 buffer)
        else Sum.inr ({ buffer with data := some e.2 }, e.2.length)
      else Sum.inr (buffer, 0)
    match s with
    | Sum.inl ret => Sum.inl ret
    | Sum.inr (buffer, encrypted_length) =>
      if E.malloc ARISR_CTRL2_SECTION_SIZE = false then
        Sum.inl (ARISR_RAW_CLEAN_AND_RETURN kARISR_ERR_GENERIC buffer)
      else Sum.inr { buffer with ctrl2 := some (buildCtrl2 P d.ctrl2 encrypted_length) }
  else Sum.inr buffer

/-- Second part of `ARISR_proto_pack`, after the address checks: the control
word is ORed into `buffer->ctrl` as it is, the addresses are copied, the
optional sections are allocated and filled, the CRC fields are zeroed and the
trailer is set. -/
def packSections (P : Interface) (E : Crypt) (d : ARISR_CHUNK) (key : List Nat)
    (buffer : ARISR_CHUNK_RAW) : Option (ARISR_ERR × ARISR_CHUNK_RAW) :=
  let buffer := { buffer with ctrl := packCtrl1 P d.ctrl buffer.ctrl }
  let buffer := { buffer with origin := d.origin, destinationA := d.destinationA }
  (packAddresses E d buffer).bind fun s =>
  match s with
  | Sum.inl ret => some ret
  | Sum.inr buffer =>
    match packCtrl2 P E d key buffer with
    | Sum.inl ret => some ret
    | Sum.inr buffer =>
      some (kARISR_OK,
        { buffer with
          crc_header := List.replicate ARISR_CRC_SIZE 0
          crc_data := List.replicate ARISR_CRC_SIZE 0
          end_ := d.id })

/-- Body of `ARISR_proto_pack` on non-null arguments: `buffer` is the raw
frame behind the output pointer before the call (the function does not zero
it); the result is the status and the raw frame after the call. -/
def packBody (P : Interface) (E : Crypt) (buffer : ARISR_CHUNK_RAW) (d : ARISR_CHUNK)
    (key : List Nat) : Option (ARISR_ERR × ARISR_CHUNK_RAW) :=
  -- ID and ARIS, with the default tag when the first byte is zero
  let buffer := { buffer with id := d.id, aris := d.aris }
  let buffer := if buffer.aris.getD 0 0 = 0 then
    { buffer with aris := ARISR_PROTO_ARIS_TEXT } else buffer
  let r := E.ARISR_aes_aris_encrypt key buffer.aris
  let buffer := { buffer with aris := arr ARISR_PROTO_ARIS_SIZE r.2 }
  if r.1 ≠ kARISR_OK then some (r.1, buffer) else
  -- origin and destinationA must not be all zero
  if d.origin = List.replicate ARISR_ADDRESS_SIZE 0 then some (kARISR_ERR_NULL_ORIGIN, buffer) else
  if d.destinationA = List.replicate ARISR_ADDRESS_SIZE 0 then
    some (kARISR_ERR_NULL_DESTINATION, buffer) else
  packSections P E d key buffer

/-- Function `ARISR_proto_pack(buffer, data, key)`: the status and the raw
frame behind `buffer` after the call. -/
def ARISR_proto_pack (P : Interface) (E : Crypt) (buffer : Option ARISR_CHUNK_RAW)
    (data : Option ARISR_CHUNK) (key : List Nat) :
    Option (ARISR_ERR × Option ARISR_CHUNK_RAW) :=
  match buffer, data with
  | some b, some d => (packBody P E b d key).map fun r => (r.1, some r.2)
  | b, _ => some (kARISR_ERR_GENERIC, b)

/-- The value of `size` in `ARISR_proto_send` before the allocation (an
`unsigned int`). -/
def sendSize (P : Interface) (d : ARISR_CHUNK_RAW) : Nat :=
  let size := ARISR_PROTO_ID_SIZE + ARISR_PROTO_ARIS_SIZE + ARISR_CTRL_SECTION_SIZE
    + ARISR_ADDRESS_SIZE * 2 + ARISR_CRC_SIZE + ARISR_PROTO_ID_SIZE
  let size := if rawDestinations P d > 0 then size + ARISR_ADDRESS_SIZE * rawDestinations P d
    else size
  let size := if rawFrom P d ≠ 0 then size + ARISR_ADDRESS_SIZE else size
  let size := if rawMoreHeaders P d ≠ 0 then
    size + ARISR_CTRL_SECTION_SIZE +
      (if rawDataLength P d > 0 then rawDataLength P d + ARISR_CRC_SIZE else 0)
    else size
  size % 2 ^ 32

/-- Emission phase of `ARISR_proto_send`: `buffer` is the fresh allocation of
`size` bytes, whose content is indeterminate. -/
def sendEmit (P : Interface) (E : Crypt) (d : ARISR_CHUNK_RAW) (size : Nat)
    (buffer : List Nat) : Option BuildResult :=
  -- the first 24 bytes of the raw frame
  (memcpy buffer 0 (d.id ++ d.aris ++ d.ctrl ++ d.origin ++ d.destinationA)).bind fun buffer =>
  let p := ARISR_PROTO_CRYPT_SIZE + ARISR_CTRL_SECTION_SIZE + ARISR_ADDRESS_SIZE * 2
  (if rawDestinations P d > 0 then
      (readPtr d.destinationsB (ARISR_ADDRESS_SIZE * rawDestinations P d)).bind fun src =>
      (memcpy buffer p src).map fun buffer =>
        (buffer, p + ARISR_ADDRESS_SIZE * rawDestinations P d)
    else some (buffer, p)).bind fun (buffer, p) =>
  (if rawFrom P d ≠ 0 then
      (readPtr d.destinationC ARISR_ADDRESS_SIZE).bind fun src =>
      (memcpy buffer p src).map fun buffer => (buffer, p + ARISR_ADDRESS_SIZE)
    else some (buffer, p)).bind fun (buffer, p) =>
  (if rawMoreHeaders P d ≠ 0 then
      (readPtr d.ctrl2 ARISR_CTRL2_SECTION_SIZE).bind fun src =>
      (memcpy buffer p src).map fun buffer => (buffer, p + ARISR_CTRL2_SECTION_SIZE)
    else some (buffer, p)).bind fun (buffer, p) =>
  -- CRC of the header
  let crc := E.ARISR_crypt_crc16_calculate (buffer.take p)
  (memcpy buffer p (crcBytes crc)).bind fun buffer =>
  let p := p + 2
  -- data and its CRC
  (if rawMoreHeaders P d ≠ 0 ∧ rawDataLength P d > 0 then
      (readPtr d.data (rawDataLength P d)).bind fun src =>
      (memcpy buffer p src).bind fun buffer =>
      let p := p + rawDataLength P d
      let crc := E.ARISR_crypt_crc16_calculate src
      (memcpy buffer p (crcBytes crc)).map fun buffer => (buffer, p + 2)
    else some (buffer, p)).bind fun (buffer, p) =>
  -- END
  (memcpy buffer p d.end_).bind fun buffer =>
  some ⟨kARISR_OK, some buffer, some size⟩

/-- Function `ARISR_proto_send(buffer, data, length)`; the two output pointers
are taken to be valid.  `fresh` gives the indeterminate content of the
allocated buffer, of which the first `size` bytes are the allocation. -/
def ARISR_proto_send (P : Interface) (E : Crypt) (data : Option ARISR_CHUNK_RAW)
    (fresh : List Nat) : Option BuildResult :=
  match data with
  | none => some ⟨kARISR_ERR_GENERIC, none, none⟩
  | some d =>
    let size := sendSize P d
    if !(E.malloc size) then some ⟨kARISR_ERR_GENERIC, none, some size⟩ else
    sendEmit P E d size (arr size fresh)

/-- The 76 bytes of `wireS4` with the trailing four bytes overwritten by zeros:
a payload frame with three `destinationsB` addresses and a wrong trailer. -/
def wireS4e : List Nat := wireS4.take 72 ++ [0, 0, 0, 0]

/-- The frame `ARISR_proto_parse` leaves behind for `wireS4e` under the sample
instance: every section of `frameS4r`, with the trailer that was read. -/
def frameS4e : ARISR_CHUNK := { frameS4r with end_ := [0, 0, 0, 0] }

/-- Scenario S1 with an all-zero `origin`. -/
def frameNullOrigin : ARISR_CHUNK := { frameS1 with origin := List.replicate 6 0 }

/-- Scenario S1 with an all-zero `destinationA`. -/
def frameNullDestination : ARISR_CHUNK := { frameS1 with destinationA := List.replicate 6 0 }

/-- Scenario S4 with a payload of 2048 bytes `0xAA`: under the sample instance
the ciphertext has 2048 = 8 * 256 bytes, one more than the 8-bit length field
can describe in units of `ARISR_DATA_MULT = 8`. -/
def frameBig : ARISR_CHUNK :=
  { frameS4 with
    ctrl2 := { data_length := 2048, feature := 77, neg_answer := 1, freq_switch := 130 },
    data := some (List.replicate 2048 0xAA) }

/-! ## Runs of `ARISR_proto_pack` -/

/-- The tag `ARISR_proto_pack` encrypts: the constant text `"ARIS"` when the
first byte of `aris` is zero, `aris` otherwise. -/
def packTag (d : ARISR_CHUNK) : List Nat :=
  if d.aris.getD 0 0 = 0 then ARISR_PROTO_ARIS_TEXT else d.aris

/-- The raw frame behind `buffer` when `ARISR_proto_pack` has encrypted the tag:
`id` and `aris` are written, everything else is as before the call. -/
def packHead (E : Crypt) (b : ARISR_CHUNK_RAW) (d : ARISR_CHUNK) (key : List Nat) :
    ARISR_CHUNK_RAW :=
  { b with id := d.id, aris := arr 4 (E.ARISR_aes_aris_encrypt key (packTag d)).2 }

/-- `ARISR_proto_pack` encrypts the payload: `more_header` is set,
`data_length > 0` and `data` is not null. -/
def PackHasData (d : ARISR_CHUNK) : Prop :=
  d.ctrl.more_header ≠ 0 ∧ d.ctrl2.data_length > 0 ∧ d.data ≠ none

instance (d : ARISR_CHUNK) : Decidable (PackHasData d) :=
  inferInstanceAs (Decidable (_ ∧ _ ∧ _))

/-- The ciphertext `ARISR_proto_pack` stores in the raw frame; empty when it
does not encrypt. -/
def packEnc (E : Crypt) (d : ARISR_CHUNK) (key : List Nat) : List Nat :=
  if PackHasData d then (E.ARISR_aes_data_encrypt (dataKey key) d.data d.ctrl2.data_length).2
  else []

/-- The raw frame a successful `ARISR_proto_pack` leaves behind `buffer`, where
`b` is the raw frame before the call. -/
def packRaw (P : Interface) (E : Crypt) (b : ARISR_CHUNK_RAW) (d : ARISR_CHUNK)
    (key : List Nat) : ARISR_CHUNK_RAW :=
  { id := d.id
    aris := arr 4 (E.ARISR_aes_aris_encrypt key (packTag d)).2
    ctrl := packCtrl1 P d.ctrl b.ctrl
    origin := d.origin
    destinationA := d.destinationA
    destinationsB := if d.ctrl.destinations > 0 then some (wireDestinationsB d)
      else b.destinationsB
    destinationC := if d.ctrl.from_ ≠ 0 then some d.destinationC else b.destinationC
    ctrl2 := if d.ctrl.more_header ≠ 0 then some (buildCtrl2 P d.ctrl2 (packEnc E d key).length)
      else b.ctrl2
    crc_header := List.replicate 2 0
    data := if PackHasData d then some (packEnc E d key) else b.data
    crc_data := List.replicate 2 0
    end_ := d.id }

/-- The conditions under which `ARISR_proto_pack` returns `kARISR_OK`: the tag
encryption succeeds, `origin` and `destinationA` are not all zero, every present
section is allocated, `destinationsB` is readable, and the payload encryption
succeeds when it takes place. -/
structure PackOk (E : Crypt) (d : ARISR_CHUNK) (key : List Nat) : Prop where
  aris_ok : (E.ARISR_aes_aris_encrypt key (packTag d)).1 = kARISR_OK
  origin : d.origin ≠ List.replicate 6 0
  destinationA : d.destinationA ≠ List.replicate 6 0
  destinationsB : d.ctrl.destinations > 0 →
    E.malloc (d.ctrl.destinations * ARISR_ADDRESS_SIZE) = true ∧
    ∃ l, d.destinationsB = some l ∧ d.ctrl.destinations * ARISR_ADDRESS_SIZE ≤ l.length
  destinationC : d.ctrl.from_ ≠ 0 → E.malloc ARISR_ADDRESS_SIZE = true
  ctrl2 : d.ctrl.more_header ≠ 0 → E.malloc ARISR_CTRL2_SECTION_SIZE = true
  data_ok : PackHasData d →
    (E.ARISR_aes_data_encrypt (dataKey key) d.data d.ctrl2.data_length).1 = kARISR_OK

/-- The raw frame after the steps "destinationsB" and "destinationC" of
`ARISR_proto_pack`, when both succeed. -/
def packAddressed (d : ARISR_CHUNK) (b : ARISR_CHUNK_RAW) : ARISR_CHUNK_RAW :=
  { b with
    destinationsB := if d.ctrl.destinations > 0 then some (wireDestinationsB d)
      else b.destinationsB
    destinationC := if d.ctrl.from_ ≠ 0 then some d.destinationC else b.destinationC }

/-- The raw frame after the step "ctrl2" of `ARISR_proto_pack`, when it
succeeds. -/
def packSecond (P : Interface) (E : Crypt) (d : ARISR_CHUNK) (key : List Nat)
    (b : ARISR_CHUNK_RAW) : ARISR_CHUNK_RAW :=
  { b with
    ctrl2 := if d.ctrl.more_header ≠ 0 then some (buildCtrl2 P d.ctrl2 (packEnc E d key).length)
      else b.ctrl2
    data := if PackHasData d then some (packEnc E d key) else b.data }

/-- A zeroed raw frame whose control word still holds `AE 3C 8D C9`, the word
of scenario S4. -/
def rawStale : ARISR_CHUNK_RAW := { zeroRaw with ctrl := [174, 60, 141, 201] }

/-! ## Cleanup -/

/-- A `memset` with zero bytes over some part of the decoded shell: doing it
twice is doing it once, and a null pointer stays null. -/
structure ZeroesPart (reach : ARISR_CHUNK → ARISR_CHUNK) : Prop where
  idem : ∀ b, reach (reach b) = reach b
  destinationsB : ∀ b, b.destinationsB = none → (reach b).destinationsB = none
  data : ∀ b, b.data = none → (reach b).data = none

/-- A `memset` that reaches every field of the decoded shell but the trailing
`end`. -/
def reachButEnd (b : ARISR_CHUNK) : ARISR_CHUNK := { zeroChunk with end_ := b.end_ }

/-- The sample primitives with a layout in which the raw structure is shorter
than the decoded one: the first `sizeof(ARISR_CHUNK_RAW)` bytes of a decoded
frame end before its last field `end`. -/
def sampleCryptShort : Crypt := { sampleCrypt with memsetRaw := reachButEnd }

/-! ## Layout of an input buffer, as `ARISR_proto_recv` reads it -/

/-- The payload length `ARISR_proto_recv` uses: the length field of the second
control word times `ARISR_DATA_MULT`, narrowed to eight bits; 0 without
`more_header`. -/
def recvLen (P : Interface) (data : List Nat) : Nat :=
  if (inCtrl P data).more_header ≠ 0 then
    (ARISR_proto_ctrl_getField (some (slice data (inPosCtrl2 P data) 4))
      P.ARISR_CTRL2_DATA_LENGTH_MASK P.ARISR_CTRL2_DATA_LENGTH_SHIFT * P.ARISR_DATA_MULT) % 256
  else 0

/-- `ARISR_proto_recv` takes the input to carry a payload. -/
def recvHasData (P : Interface) (data : List Nat) : Prop :=
  (inCtrl P data).more_header ≠ 0 ∧ recvLen P data > 0

instance (P : Interface) (data : List Nat) : Decidable (recvHasData P data) :=
  inferInstanceAs (Decidable ((inCtrl P data).more_header ≠ 0 ∧ recvLen P data > 0))

/-- Offset at which `ARISR_proto_recv` reads the trailer. -/
def recvEndPos (P : Interface) (data : List Nat) : Nat :=
  inHeaderEnd P data + 2 + (if recvHasData P data then recvLen P data + 2 else 0)

/-- The raw frame behind `buffer` when `ARISR_proto_recv` reaches the header
CRC: the sections up to `ctrl2` copied from the input. -/
def inRawHeader (P : Interface) (E : Crypt) (data key : List Nat) : ARISR_CHUNK_RAW :=
  { zeroRaw with
    id := slice data 0 4
    aris := arr 4 (E.ARISR_aes_aris_decrypt key (slice data 4 4)).2
    ctrl := slice data 8 4
    origin := slice data 12 6
    destinationA := slice data 18 6
    destinationsB :=
      if (inCtrl P data).destinations > 0 then
        some (slice data 24 (6 * (inCtrl P data).destinations))
      else none
    destinationC :=
      if (inCtrl P data).from_ ≠ 0 then some (slice data (inPosC P data) 6) else none
    ctrl2 :=
      if (inCtrl P data).more_header ≠ 0 then some (slice data (inPosCtrl2 P data) 4) else none }

/-- The raw frame behind `buffer` when `ARISR_proto_recv` has read the trailer. -/
def inRaw (P : Interface) (E : Crypt) (data key : List Nat) : ARISR_CHUNK_RAW :=
  if recvHasData P data then
    { inRawHeader P E data key with
      crc_header := slice data (inHeaderEnd P data) 2
      data := some (slice data (inHeaderEnd P data + 2) (recvLen P data))
      crc_data := slice data (inHeaderEnd P data + 2 + recvLen P data) 2
      end_ := slice data (recvEndPos P data) 4 }
  else
    { inRawHeader P E data key with
      crc_header := slice data (inHeaderEnd P data) 2
      end_ := slice data (recvEndPos P data) 4 }

/-- The allocations `ARISR_proto_recv` makes beyond the one of `destinationsB`
succeed on the input: six bytes for `destinationC`, four for `ctrl2`, and the
payload. -/
structure RecvAllocs (P : Interface) (E : Crypt) (data : List Nat) : Prop where
  destinationC : (inCtrl P data).from_ ≠ 0 → E.malloc ARISR_ADDRESS_SIZE = true
  ctrl2 : (inCtrl P data).more_header ≠ 0 → E.malloc ARISR_CTRL2_SECTION_SIZE = true
  data : recvHasData P data → E.malloc (recvLen P data) = true

/-- The trailer check of `ARISR_proto_recv` on the input. -/
def recvTraceEnd (P : Interface) (E : Crypt) (data key id : List Nat) :
    Option (ARISR_ERR × ARISR_CHUNK_RAW) :=
  if data.length < recvEndPos P data + 4 then none
  else if slice data (recvEndPos P data) 4 ≠ slice id 0 4 then
    some (kARISR_ERR_NOT_SAME_END, zeroRaw)
  else some (kARISR_OK, inRaw P E data key)

/-- The checks of `ARISR_proto_recv` in the order the function makes them when
its additional allocations succeed, written over the offsets of the input;
`none` where the function reads outside the input. -/
def recvTrace (P : Interface) (E : Crypt) (data key id : List Nat) :
    Option (ARISR_ERR × ARISR_CHUNK_RAW) :=
  if data.length < 8 ∨ id.length < 4 then none
  else if slice data 0 4 ≠ slice id 0 4 then
    some (kARISR_ERR_NOT_SAME_ID,
      { zeroRaw with id := slice data 0 4, aris := slice data 4 4 })
  else if (E.ARISR_aes_aris_decrypt key (slice data 4 4)).1 ≠ kARISR_OK then
    some (kARISR_ERR_NOT_SAME_ARIS,
      { zeroRaw with
        id := slice data 0 4
        aris := arr 4 (E.ARISR_aes_aris_decrypt key (slice data 4 4)).2 })
  else if data.length < 24 then none
  else if (inCtrl P data).destinations > 0 ∧
      E.malloc ((inCtrl P data).destinations * ARISR_ADDRESS_SIZE) = false then
    some (kARISR_ERR_GENERIC, zeroRaw)
  else if data.length < inHeaderEnd P data + 2 then none
  else if E.ARISR_crypt_crc16_calculate (data.take (inHeaderEnd P data)) % 65536 ≠
      crcValue (slice data (inHeaderEnd P data) 2) then
    some (kARISR_ERR_NOT_SAME_CRC_HEADER, zeroRaw)
  else if recvHasData P data then
    if data.length < inHeaderEnd P data + 2 + recvLen P data + 2 then none
    else if E.ARISR_crypt_crc16_calculate
          (slice data (inHeaderEnd P data + 2) (recvLen P data)) % 65536 ≠
        crcValue (slice data (inHeaderEnd P data + 2 + recvLen P data) 2) then
      some (kARISR_ERR_NOT_SAME_CRC_DATA, zeroRaw)
    else recvTraceEnd P E data key id
  else recvTraceEnd P E data key id

/-- The first `n` bytes behind a pointer of a raw frame (nothing for `NULL`). -/
def rawSection (p : Option (List Nat)) (n : Nat) : List Nat := (p.getD []).take n

/-- The bytes `ARISR_proto_send` emits up to `crc_header` for the raw frame `R`:
the 24 leading bytes of the structure, then the sections the control word
announces. -/
def rawWireHeader (P : Interface) (R : ARISR_CHUNK_RAW) : List Nat :=
  (R.id ++ R.aris ++ R.ctrl ++ R.origin ++ R.destinationA) ++
    (if rawDestinations P R > 0 then
      rawSection R.destinationsB (ARISR_ADDRESS_SIZE * rawDestinations P R) else []) ++
    (if rawFrom P R ≠ 0 then rawSection R.destinationC ARISR_ADDRESS_SIZE else []) ++
    (if rawMoreHeaders P R ≠ 0 then rawSection R.ctrl2 ARISR_CTRL2_SECTION_SIZE else [])

/-- The payload section `ARISR_proto_send` emits: `data_length` bytes (the
eight-bit local) and their CRC, when `more_headers` is set and the length is not
zero. -/
def rawWireData (P : Interface) (E : Crypt) (R : ARISR_CHUNK_RAW) : List Nat :=
  if rawMoreHeaders P R ≠ 0 ∧ rawDataLength P R > 0 then
    rawSection R.data (rawDataLength P R) ++
      crcBytes (E.ARISR_crypt_crc16_calculate (rawSection R.data (rawDataLength P R)))
  else []

/-- The bytes `ARISR_proto_send` emits for the raw frame `R`. -/
def rawWire (P : Interface) (E : Crypt) (R : ARISR_CHUNK_RAW) : List Nat :=
  rawWireHeader P R ++ crcBytes (E.ARISR_crypt_crc16_calculate (rawWireHeader P R)) ++
    rawWireData P E R ++ R.end_

/-- The fixed arrays of a raw frame have the extents declared for
`ARISR_CHUNK_RAW`. -/
structure WfRaw (R : ARISR_CHUNK_RAW) : Prop where
  id_len : R.id.length = 4
  aris_len : R.aris.length = 4
  ctrl_len : R.ctrl.length = 4
  origin_len : R.origin.length = 6
  destinationA_len : R.destinationA.length = 6
  end_len : R.end_.length = 4

/-- Every region `ARISR_proto_send` reads behind a pointer of the raw frame is
allocated and large enough. -/
structure SendReadable (P : Interface) (R : ARISR_CHUNK_RAW) : Prop where
  destinationsB : rawDestinations P R > 0 →
    ∃ l, R.destinationsB = some l ∧ ARISR_ADDRESS_SIZE * rawDestinations P R ≤ l.length
  destinationC : rawFrom P R ≠ 0 →
    ∃ l, R.destinationC = some l ∧ ARISR_ADDRESS_SIZE ≤ l.length
  ctrl2 : rawMoreHeaders P R ≠ 0 →
    ∃ l, R.ctrl2 = some l ∧ ARISR_CTRL2_SECTION_SIZE ≤ l.length
  data : rawMoreHeaders P R ≠ 0 ∧ rawDataLength P R > 0 →
    ∃ l, R.data = some l ∧ rawDataLength P R ≤ l.length

/-- The 58 bytes `ARISR_proto_send` emits for scenario S4 with a ciphertext of
256 bytes: the header of `wireS4` with the length field 32 (times
`ARISR_DATA_MULT = 8`), the header CRC and the trailer, without the payload. -/
def wireWrap : List Nat :=
  wireS4.take 48 ++ [32, 77, 193, 0, 254, 250, 17, 34, 51, 68]

/-- The raw frame `ARISR_proto_pack` leaves for scenario S4 with a payload of
256 bytes `0xAA` under the sample instance: the length field of `ctrl2` is 32 and
`data` holds the 256 ciphertext bytes. -/
def rawWrap : ARISR_CHUNK_RAW :=
  { id := [17, 34, 51, 68], aris := [70, 87, 78, 88], ctrl := [174, 60, 141, 201],
    origin := [1, 1, 1, 1, 1, 1], destinationA := [2, 2, 2, 2, 2, 2],
    destinationsB := some [3, 3, 3, 3, 3, 3, 4, 4, 4, 4, 4, 4, 5, 5, 5, 5, 5, 5],
    destinationC := some [9, 9, 9, 9, 9, 9], ctrl2 := some [32, 77, 193, 0],
    crc_header := [0, 0], data := some (List.replicate 256 175), crc_data := [0, 0],
    end_ := [17, 34, 51, 68] }

/-- The raw frame `ARISR_proto_recv` leaves for `wireWrap` under the sample
instance: no payload and a zero `crc_data`, with the length field 32 in
`ctrl2`. -/
def rawWrapRecv : ARISR_CHUNK_RAW :=
  { rawWrap with aris := [65, 82, 73, 83], crc_header := [254, 250], data := none }

/-- The raw frame `ARISR_proto_pack` leaves for scenario S4 under the sample
instance: the length field of `ctrl2` is 2 (times `ARISR_DATA_MULT = 8`) and
`data` holds the 16 ciphertext bytes. -/
def rawS4 : ARISR_CHUNK_RAW :=
  { rawWrap with ctrl2 := some [2, 77, 193, 0], data := some (List.replicate 16 175) }

/-- The raw frame `ARISR_proto_recv` leaves for `wireS4` under the sample
instance: the decrypted tag, the two stored CRC fields and the 16 ciphertext
bytes. -/
def rawS4Recv : ARISR_CHUNK_RAW :=
  { rawS4 with aris := [65, 82, 73, 83], crc_header := [91, 216], crc_data := [194, 7] }

/-! # Verification -/

theorem testBit_mod_256 (x i : Nat) :
    (x % 256).testBit i = (decide (i < 8) && x.testBit i) :=
  Nat.testBit_mod_two_pow x 8 i

theorem be32_cons4 (a b c d : Nat) (l : List Nat) :
    be32 (a :: b :: c :: d :: l) =
      ((a % 256) <<< 24) ||| ((b % 256) <<< 16) ||| ((c % 256) <<< 8) ||| (d % 256) := by
  simp [be32]

theorem be32_be32Bytes (w : Nat) (l : List Nat) : be32 (be32Bytes w ++ l) = w % 2 ^ 32 := by
  apply Nat.eq_of_testBit_eq
  intro i
  simp only [be32Bytes, List.cons_append, List.nil_append, be32_cons4, Nat.testBit_or, Nat.testBit_shiftLeft, testBit_mod_256,
    Nat.testBit_shiftRight, Nat.testBit_mod_two_pow, Nat.mod_mod]
  by_cases h24 : 24 ≤ i <;> by_cases h16 : 16 ≤ i <;> by_cases h8 : 8 ≤ i <;>
    by_cases h32 : i < 32 <;>
    simp (disch := omega) [h24, h16, h8, h32, Nat.add_sub_of_le] <;>
    first | omega | (cases w.testBit i <;> simp; omega)

theorem be32_lt (c : List Nat) : be32 c < 2 ^ 32 := by
  unfold be32
  apply Nat.lt_pow_two_of_testBit
  intro i hi
  simp only [Nat.testBit_or, Nat.testBit_shiftLeft, testBit_mod_256]
  by_cases h24 : 24 ≤ i <;> simp (disch := omega) [h24] <;> omega


theorem orField_lt {w : Nat} (v s : Nat) (h : w < 2 ^ 32) : orField w v s < 2 ^ 32 :=
  Nat.or_lt_two_pow h (Nat.mod_lt _ (by norm_num))

theorem be32_be32Bytes_nil (w : Nat) : be32 (be32Bytes w) = w % 2 ^ 32 := by
  simpa using be32_be32Bytes w []

theorem setLocal_word {w : Nat} (v s : Nat) (h : w < 2 ^ 32) :
    setLocal (be32Bytes w) v s = be32Bytes (orField w v s) := by
  simp only [setLocal, ARISR_proto_ctrl_setField, be32_be32Bytes_nil, Nat.mod_eq_of_lt h,
    Option.getD_some, orField]
  simp [be32Bytes]

theorem zeros_eq_be32Bytes : List.replicate 4 0 = be32Bytes 0 := by
  simp [be32Bytes]

theorem buildCtrl1_eq (P : Interface) (c : ARISR_CHUNK_CTRL) :
    buildCtrl1 P c = be32Bytes (ctrl1Word P c) := by
  have h0 : (0 : Nat) < 2 ^ 32 := by norm_num
  simp only [buildCtrl1, ARISR_CTRL_SECTION_SIZE, zeros_eq_be32Bytes, ctrl1Word]
  repeat first
    | rw [setLocal_word _ _ h0]
    | rw [setLocal_word _ _ (orField_lt _ _ (by first | exact h0 | (repeat apply orField_lt); exact h0))]

theorem buildCtrl2_eq (P : Interface) (c : ARISR_CHUNK_CTRL2) (n : Nat) :
    buildCtrl2 P c n = be32Bytes (ctrl2Word P c n) := by
  have h0 : (0 : Nat) < 2 ^ 32 := by norm_num
  simp only [buildCtrl2, ARISR_CTRL2_SECTION_SIZE, zeros_eq_be32Bytes, ctrl2Word]
  repeat first
    | rw [setLocal_word _ _ h0]
    | rw [setLocal_word _ _ (orField_lt _ _ (by first | exact h0 | (repeat apply orField_lt); exact h0))]


theorem memcpy_holds {b b2 pre src : List Nat} {p n : Nat} (h : Holds b p pre n)
    (hm : memcpy b p src = some b2) : Holds b2 (p + src.length) (pre ++ src) n := by
  obtain ⟨hn, hp, ht⟩ := h
  unfold memcpy at hm
  split at hm
  · rename_i hle
    simp only [Option.some.injEq] at hm
    subst hm
    refine ⟨?_, ?_, ?_⟩
    · simp; omega
    · simp [hp]
    · rw [ht]
      have : (pre ++ src).length = p + src.length := by simp [hp]
      rw [List.append_assoc, ← List.append_assoc pre, List.take_append_eq_append_take]
      simp [this]
  · simp at hm

theorem holds_take {b pre : List Nat} {p n q : Nat} (h : Holds b p pre n) (hq : q ≤ p) :
    Holds b q (pre.take q) n := by
  obtain ⟨hn, hp, ht⟩ := h
  refine ⟨hn, by simp [hp, hq], ?_⟩
  rw [← ht, List.take_take]; simp [hq]

theorem holds_zero (n : Nat) : Holds (List.replicate n 0) 0 [] n := by
  simp [Holds]

theorem buildCtrl1_length (P : Interface) (c : ARISR_CHUNK_CTRL) :
    (buildCtrl1 P c).length = 4 := by
  simp [buildCtrl1_eq, be32Bytes]

theorem buildCtrl2_length (P : Interface) (c : ARISR_CHUNK_CTRL2) (n : Nat) :
    (buildCtrl2 P c n).length = 4 := by
  simp [buildCtrl2_eq, be32Bytes]

theorem arr_length (n : Nat) (l : List Nat) : (arr n l).length = n := by
  simp [arr]

theorem crcBytes_length (c : Nat) : (crcBytes c).length = 2 := by
  simp [crcBytes]

theorem readBytes_eq_some {src r : List Nat} {p n : Nat} (h : readBytes src p n = some r) :
    p + n ≤ src.length ∧ r = (src.drop p).take n ∧ r.length = n := by
  unfold readBytes at h
  split at h
  · simp only [Option.some.injEq] at h
    subst h
    refine ⟨by assumption, rfl, ?_⟩
    simp; omega
  · simp at h

theorem holds_read {b pre t : List Nat} {p n q k : Nat} (h : Holds b p pre n)
    (hq : q + k ≤ p) (hr : readBytes b q k = some t) : t = (pre.drop q).take k := by
  rw [(readBytes_eq_some hr).2.1, ← h.2.2, List.drop_take, List.take_take]
  congr 1
  omega

theorem holds_le {b pre : List Nat} {p n : Nat} (h : Holds b p pre n)
    {src b2 : List Nat} (hm : memcpy b p src = some b2) : p + src.length ≤ n := by
  unfold memcpy at hm
  split at hm
  · rw [← h.1]; assumption
  · simp at hm

theorem memcpy_holds_eq {b b2 pre src pre2 : List Nat} {p n q : Nat} (h : Holds b p pre n)
    (hm : memcpy b p src = some b2) (hq : q = p + src.length) (hpre : pre2 = pre ++ src) :
    Holds b2 q pre2 n := by
  subst hq hpre
  exact memcpy_holds h hm

/-- One optional section of the emission: the cursor and the held prefix grow
by the section exactly when its condition holds. -/
theorem holds_optional {c : Prop} [Decidable c] {b pre src : List Nat} {p n k : Nat}
    {x : List Nat × Nat} (H : Holds b p pre n) (hlen : src.length = k)
    (h : (if c then (memcpy b p src).map (fun buffer => (buffer, p + k))
          else some (b, p)) = some x) :
    Holds x.1 x.2 (pre ++ if c then src else []) n := by
  by_cases hc : c
  · rw [if_pos hc] at h
    rw [if_pos hc]
    simp only [Option.map_eq_some'] at h
    obtain ⟨b2, hb2, rfl⟩ := h
    exact memcpy_holds_eq H hb2 (by rw [hlen]) rfl
  · rw [if_neg hc] at h
    rw [if_neg hc]
    simp only [Option.some.injEq] at h
    subst h
    rw [List.append_nil]
    exact H

theorem wireDestinationsB_eq {d : ARISR_CHUNK} {src : List Nat}
    (h : readPtr d.destinationsB (d.ctrl.destinations * ARISR_ADDRESS_SIZE) = some src)
    (hpos : d.ctrl.destinations > 0) :
    wireDestinationsB d = src ∧ src.length = d.ctrl.destinations * ARISR_ADDRESS_SIZE := by
  unfold readPtr at h
  split at h
  · simp at h
  · rename_i l hl
    have := readBytes_eq_some h
    refine ⟨?_, this.2.2⟩
    simp [wireDestinationsB, hpos, hl, this.2.1]

theorem buildEmit_ok {P : Interface} {E : Crypt} {d : ARISR_CHUNK} {key : List Nat}
    {size : Nat} {enc : List Nat} {r : BuildResult} (wf : WfBuild d)
    (h : buildEmit P E d key size enc = some r) (hr : r.err = kARISR_OK) :
    ∃ B, r = ⟨kARISR_OK, some B, some size⟩ ∧
      Holds B (wire P E d key enc).length (wire P E d key enc) size ∧
      (wire P E d key enc).length ≤ size ∧
      (wireDestinationsB d).length =
        (if d.ctrl.destinations > 0 then d.ctrl.destinations * ARISR_ADDRESS_SIZE else 0) ∧
      (E.ARISR_aes_aris_encrypt key d.aris).1 = kARISR_OK := by
  obtain ⟨h1, h2, h3, h4, h5⟩ := wf
  simp only [buildEmit, Option.bind_eq_some] at h
  obtain ⟨b1, hb1, tag, htag, b2, hb2, h⟩ := h
  have I1 : Holds b1 8 (d.id ++ d.aris) size :=
    memcpy_holds_eq (holds_zero size) hb1 (by simp [h1, h2]) (by simp)
  have htag2 : tag = d.aris := by
    rw [holds_read I1 (by simp [ARISR_PROTO_ID_SIZE, ARISR_PROTO_ARIS_SIZE]) htag]
    simp [ARISR_PROTO_ID_SIZE, ARISR_PROTO_ARIS_SIZE, h1, h2]
  subst htag2
  have I1a : Holds b1 4 d.id size := by
    have := holds_take I1 (q := 4) (by omega)
    simpa [h1] using this
  have I2 : Holds b2 8 (d.id ++ wireAris E d key) size :=
    memcpy_holds_eq I1a hb2 (by simp [arr_length, ARISR_PROTO_ARIS_SIZE]) rfl
  by_cases hne : (E.ARISR_aes_aris_encrypt key d.aris).1 ≠ kARISR_OK
  · rw [if_pos hne] at h
    simp only [Option.some.injEq] at h
    subst h
    exact absurd hr hne
  rw [if_neg hne] at h
  have hok : (E.ARISR_aes_aris_encrypt key d.aris).1 = kARISR_OK := by
    simpa using hne
  simp only [Option.bind_eq_some] at h
  obtain ⟨b3, hb3, b4, hb4, x5, hx5, x6, hx6, x7, hx7, b8, hb8, b9, hb9, x10, hx10, B, hB, h⟩ := h
  simp only [Option.some.injEq] at h
  subst h
  have I3 : Holds b3 12 (d.id ++ wireAris E d key ++ buildCtrl1 P d.ctrl) size :=
    memcpy_holds_eq I2 hb3 (by simp [buildCtrl1_length]) rfl
  have I4 : Holds b4 24 (d.id ++ wireAris E d key ++ buildCtrl1 P d.ctrl ++
      (d.origin ++ d.destinationA)) size :=
    memcpy_holds_eq I3 hb4 (by simp [h3, h4]) rfl
  have I5 : Holds x5.1 x5.2 (d.id ++ wireAris E d key ++ buildCtrl1 P d.ctrl ++
      (d.origin ++ d.destinationA) ++ wireDestinationsB d) size ∧
      (wireDestinationsB d).length =
        (if d.ctrl.destinations > 0 then d.ctrl.destinations * ARISR_ADDRESS_SIZE else 0) := by
    by_cases hpos : d.ctrl.destinations > 0
    · rw [if_pos hpos] at hx5
      rw [if_pos hpos]
      simp only [Option.bind_eq_some, Option.map_eq_some'] at hx5
      obtain ⟨src, hsrc, b5, hb5, rfl⟩ := hx5
      obtain ⟨e1, e2⟩ := wireDestinationsB_eq hsrc hpos
      rw [e1]
      exact ⟨memcpy_holds_eq I4 hb5 (by
        simp [e2, ARISR_PROTO_CRYPT_SIZE, ARISR_CTRL_SECTION_SIZE, ARISR_ADDRESS_SIZE]) rfl, e2⟩
    · rw [if_neg hpos] at hx5
      rw [if_neg hpos]
      simp only [Option.some.injEq] at hx5
      subst hx5
      have : wireDestinationsB d = [] := by simp [wireDestinationsB, hpos]
      rw [this]
      exact ⟨by simpa using I4, rfl⟩
  have I6 := holds_optional I5.1 (by rw [h5]; rfl) hx6
  have I7 := holds_optional I6 (by rw [buildCtrl2_length]; rfl) hx7
  have hhead : wireHeader P E d key enc.length = List.take x7.2 x7.1 := by
    rw [I7.2.2]; rfl
  rw [← hhead] at hb8
  have I8 := memcpy_holds I7 hb8
  rw [crcBytes_length] at I8
  have I9 := memcpy_holds I8 hb9
  have I10 := holds_optional I9 (crcBytes_length _) hx10
  have I11 := memcpy_holds I10 hB
  have hle := holds_le I10 hB
  have hw : wire P E d key enc = (d.id ++ wireAris E d key ++ buildCtrl1 P d.ctrl ++
      (d.origin ++ d.destinationA) ++ wireDestinationsB d ++
      (if d.ctrl.from_ ≠ 0 then d.destinationC else []) ++
      (if d.ctrl.more_header ≠ 0 then buildCtrl2 P d.ctrl2 enc.length else []) ++
      crcBytes (E.ARISR_crypt_crc16_calculate (wireHeader P E d key enc.length)) ++ enc ++
      (if d.ctrl.more_header ≠ 0 ∧ d.ctrl2.data_length > 0 then
        crcBytes (E.ARISR_crypt_crc16_calculate enc) else [])) ++ d.id := rfl
  rw [← hw] at I11
  have hlen : (wire P E d key enc).length = x10.2 + d.id.length := I11.2.1
  refine ⟨B, rfl, ?_, ?_, I5.2, hok⟩
  · rw [hlen]; exact I11
  · rw [hlen]; exact hle

theorem wireHeader_length {P : Interface} {E : Crypt} {d : ARISR_CHUNK} {key : List Nat}
    (wf : WfBuild d) (n : Nat)
    (hB : (wireDestinationsB d).length =
      (if d.ctrl.destinations > 0 then d.ctrl.destinations * ARISR_ADDRESS_SIZE else 0)) :
    (wireHeader P E d key n).length = 24 + 6 * d.ctrl.destinations +
      (if d.ctrl.from_ ≠ 0 then 6 else 0) + (if d.ctrl.more_header ≠ 0 then 4 else 0) := by
  obtain ⟨h1, h2, h3, h4, h5⟩ := wf
  simp only [wireHeader, List.length_append, h1, h3, h4, hB, wireAris, arr_length,
    buildCtrl1_length, ARISR_PROTO_ARIS_SIZE, ARISR_ADDRESS_SIZE]
  by_cases c1 : d.ctrl.destinations > 0 <;> by_cases c2 : d.ctrl.from_ ≠ 0 <;>
    by_cases c3 : d.ctrl.more_header ≠ 0 <;>
    simp [c1, c2, c3, h5, buildCtrl2_length] <;> omega

theorem wire_length (P : Interface) (E : Crypt) {d : ARISR_CHUNK} (key : List Nat)
    (wf : WfBuild d) (enc : List Nat)
    (hB : (wireDestinationsB d).length =
      (if d.ctrl.destinations > 0 then d.ctrl.destinations * ARISR_ADDRESS_SIZE else 0)) :
    (wire P E d key enc).length = 30 + 6 * d.ctrl.destinations +
      (if d.ctrl.from_ ≠ 0 then 6 else 0) + (if d.ctrl.more_header ≠ 0 then 4 else 0) +
      enc.length + (if d.ctrl.more_header ≠ 0 ∧ d.ctrl2.data_length > 0 then 2 else 0) := by
  simp only [wire, List.length_append, wireHeader_length wf _ hB, crcBytes_length, wf.id_len]
  by_cases c : d.ctrl.more_header ≠ 0 ∧ d.ctrl2.data_length > 0
  · simp only [if_pos c, crcBytes_length]; omega
  · simp only [if_neg c, List.length_nil]; omega

theorem holds_full {b pre : List Nat} {n : Nat} (h : Holds b n pre n) : b = pre := by
  obtain ⟨h1, _, h3⟩ := h
  rw [← h3, ← h1, List.take_length]

theorem build_close {P : Interface} {E : Crypt} {d : ARISR_CHUNK} {key : List Nat}
    {r : BuildResult} {size : Nat} {enc : List Nat} (wf : WfBuild d)
    (hsize : size = (30 + 6 * d.ctrl.destinations +
      (if d.ctrl.from_ ≠ 0 then 6 else 0) + (if d.ctrl.more_header ≠ 0 then 4 else 0) +
      enc.length + (if d.ctrl.more_header ≠ 0 ∧ d.ctrl2.data_length > 0 then 2 else 0)) % 2 ^ 32)
    (h : buildEmit P E d key size enc = some r) (hr : r.err = kARISR_OK) :
    r.buffer = some (wire P E d key enc) ∧ r.length = some (wire P E d key enc).length ∧
      (wireDestinationsB d).length =
        (if d.ctrl.destinations > 0 then d.ctrl.destinations * ARISR_ADDRESS_SIZE else 0) ∧
      (E.ARISR_aes_aris_encrypt key d.aris).1 = kARISR_OK := by
  obtain ⟨B, rfl, hH, hle, hB, hok⟩ := buildEmit_ok wf h hr
  have hlen := wire_length P E key wf enc hB
  rw [← hlen] at hsize
  have hmod := Nat.mod_le (wire P E d key enc).length (2 ^ 32)
  have heq : (wire P E d key enc).length = size := by omega
  rw [heq] at hH
  have := holds_full hH
  subst this
  exact ⟨rfl, by rw [heq], hB, hok⟩

theorem buildSize_ok {E : Crypt} {d : ARISR_CHUNK} {key : List Nat}
    (h : (buildSize E d key).1 = kARISR_OK) :
    (buildSize E d key).2.1 = buildEnc E d key ∧
    (buildSize E d key).2.2 = 30 + 6 * d.ctrl.destinations +
      (if d.ctrl.from_ ≠ 0 then 6 else 0) + (if d.ctrl.more_header ≠ 0 then 4 else 0) +
      (buildEnc E d key).length +
      (if d.ctrl.more_header ≠ 0 ∧ d.ctrl2.data_length > 0 then 2 else 0) ∧
    (d.ctrl.more_header ≠ 0 ∧ d.ctrl2.data_length > 0 →
        (E.ARISR_aes_data_encrypt (dataKey key) d.data d.ctrl2.data_length).1 = kARISR_OK) := by
  unfold buildSize at h ⊢
  unfold buildEnc
  simp only [ARISR_PROTO_ID_SIZE, ARISR_PROTO_ARIS_SIZE, ARISR_CTRL_SECTION_SIZE,
    ARISR_ADDRESS_SIZE, ARISR_CRC_SIZE, ARISR_CTRL2_SECTION_SIZE] at h ⊢
  by_cases c1 : d.ctrl.destinations > 0 <;> by_cases c2 : d.ctrl.from_ = 0 <;>
    by_cases c3 : d.ctrl.more_header = 0 <;> by_cases c4 : d.ctrl2.data_length > 0 <;>
    by_cases c5 : (E.ARISR_aes_data_encrypt (dataKey key) d.data d.ctrl2.data_length).1
          = kARISR_OK <;>
    simp [c1, c2, c3, c4, c5] at h ⊢ <;> omega

/-- A successful run of `ARISR_proto_build` returns exactly the wire layout, and
reports its length. -/
theorem build_ok {P : Interface} {E : Crypt} {d : ARISR_CHUNK} {key : List Nat}
    {r : BuildResult} (wf : WfBuild d)
    (h : ARISR_proto_build P E (some d) key = some r) (hr : r.err = kARISR_OK) :
    r.buffer = some (wire P E d key (buildEnc E d key)) ∧
      r.length = some (wire P E d key (buildEnc E d key)).length ∧
      (wireDestinationsB d).length =
        (if d.ctrl.destinations > 0 then d.ctrl.destinations * ARISR_ADDRESS_SIZE else 0) ∧
      (E.ARISR_aes_aris_encrypt key d.aris).1 = kARISR_OK ∧
      (d.ctrl.more_header ≠ 0 ∧ d.ctrl2.data_length > 0 →
        (E.ARISR_aes_data_encrypt (dataKey key) d.data d.ctrl2.data_length).1 = kARISR_OK) ∧
      E.malloc (wire P E d key (buildEnc E d key)).length = true := by
  simp only [ARISR_proto_build] at h
  by_cases c : (buildSize E d key).1 ≠ kARISR_OK
  · rw [if_pos c] at h
    simp only [Option.some.injEq] at h
    subst h
    exact absurd hr c
  rw [if_neg c] at h
  have hok : (buildSize E d key).1 = kARISR_OK := by simpa using c
  obtain ⟨e1, e2, e3⟩ := buildSize_ok hok
  by_cases hm : (!(E.malloc ((buildSize E d key).2.2 % 2 ^ 32))) = true
  · rw [if_pos hm] at h
    simp only [Option.some.injEq] at h
    subst h
    simp at hr
  rw [if_neg hm] at h
  rw [e1] at h
  obtain ⟨r1, r2, r3, r4⟩ := build_close wf (by rw [e2]) h hr
  refine ⟨r1, r2, r3, r4, e3, ?_⟩
  have hlen := wire_length P E key wf (buildEnc E d key) r3
  have hsz : r.length = some ((buildSize E d key).2.2 % 2 ^ 32) := by
    obtain ⟨B, rfl, _⟩ := buildEmit_ok wf h hr
    rfl
  rw [r2] at hsz
  simp only [Option.some.injEq] at hsz
  rw [hsz]
  simpa using hm

theorem section_at {pre sec post : List Nat} {off k : Nat} (ho : pre.length = off)
    (hk : sec.length = k) : ((pre ++ sec ++ post).drop off).take k = sec := by
  rw [List.append_assoc, List.drop_left' ho, List.take_left' hk]

theorem leading_at {pre post : List Nat} {off : Nat} (ho : pre.length = off) :
    (pre ++ post).take off = pre := List.take_left' ho

theorem trailing_at {pre post : List Nat} {off : Nat} (ho : pre.length = off) :
    (pre ++ post).drop off = post := List.drop_left' ho

theorem take_drop_within {l : List Nat} {m a k : Nat} (h : a + k ≤ m) :
    ((l.take m).drop a).take k = (l.drop a).take k := by
  rw [List.drop_take, List.take_take]
  congr 1
  omega

theorem dataKey_eq (key : List Nat) : dataKey key = key := by
  unfold dataKey ARISR_AES_IS_ZERO_KEY
  by_cases h : key = ARISR_DEFAULT_NULL_KEY <;> simp [h]

theorem build_ok_buffer {P : Interface} {E : Crypt} {d : ARISR_CHUNK} {key B : List Nat}
    {n : Nat} (wf : WfBuild d)
    (h : ARISR_proto_build P E (some d) key = some ⟨kARISR_OK, some B, some n⟩) :
    B = wire P E d key (buildEnc E d key) ∧ n = B.length ∧
      (wireDestinationsB d).length =
        (if d.ctrl.destinations > 0 then d.ctrl.destinations * ARISR_ADDRESS_SIZE else 0) := by
  obtain ⟨h1, h2, h3, -⟩ := build_ok wf h rfl
  simp only [Option.some.injEq] at h1 h2
  subst h1
  exact ⟨rfl, h2, h3⟩

theorem wireDestinationsB_eq_take {d : ARISR_CHUNK}
    (hB : (wireDestinationsB d).length =
      (if d.ctrl.destinations > 0 then d.ctrl.destinations * ARISR_ADDRESS_SIZE else 0)) :
    wireDestinationsB d = (d.destinationsB.getD []).take (6 * d.ctrl.destinations) ∧
      (wireDestinationsB d).length = 6 * d.ctrl.destinations := by
  unfold wireDestinationsB at hB ⊢
  by_cases c : d.ctrl.destinations > 0
  · simp only [if_pos c, ARISR_ADDRESS_SIZE] at hB ⊢
    rw [Nat.mul_comm] at hB ⊢
    exact ⟨rfl, hB⟩
  · have : d.ctrl.destinations = 0 := by omega
    simp [this]

/-- The sections of a buffer returned by `ARISR_proto_build` with `kARISR_OK`,
up to the second control word. -/
theorem build_header_sections (P : Interface) (E : Crypt) (d : ARISR_CHUNK)
    (key B : List Nat) (n : Nat) (wf : WfBuild d)
    (h : ARISR_proto_build P E (some d) key = some ⟨kARISR_OK, some B, some n⟩) :
    (∃ rest, B = d.id ++ arr 4 (E.ARISR_aes_aris_encrypt key d.aris).2 ++ buildCtrl1 P d.ctrl
        ++ d.origin ++ d.destinationA
        ++ (d.destinationsB.getD []).take (6 * d.ctrl.destinations)
        ++ (if d.ctrl.from_ ≠ 0 then d.destinationC else [])
        ++ (if d.ctrl.more_header ≠ 0 then
              buildCtrl2 P d.ctrl2 (buildEnc E d key).length else [])
        ++ rest) ∧
    B.take 4 = d.id ∧
    (B.drop 4).take 4 = arr 4 (E.ARISR_aes_aris_encrypt key d.aris).2 ∧
    (B.drop 8).take 4 = buildCtrl1 P d.ctrl ∧
    (B.drop 12).take 6 = d.origin ∧
    (B.drop 18).take 6 = d.destinationA ∧
    (B.drop 24).take (6 * d.ctrl.destinations)
      = (d.destinationsB.getD []).take (6 * d.ctrl.destinations) ∧
    ((d.destinationsB.getD []).take (6 * d.ctrl.destinations)).length
      = 6 * d.ctrl.destinations ∧
    (∀ i, i < d.ctrl.destinations →
      (B.drop (24 + 6 * i)).take 6 = ((d.destinationsB.getD []).drop (6 * i)).take 6) ∧
    (d.ctrl.from_ ≠ 0 → (B.drop (24 + 6 * d.ctrl.destinations)).take 6 = d.destinationC) ∧
    (d.ctrl.more_header ≠ 0 →
      (B.drop (24 + 6 * d.ctrl.destinations + (if d.ctrl.from_ ≠ 0 then 6 else 0))).take 4
        = buildCtrl2 P d.ctrl2 (buildEnc E d key).length) := by
  obtain ⟨hB, -, hdB⟩ := build_ok_buffer wf h
  obtain ⟨e1, e2⟩ := wireDestinationsB_eq_take hdB
  obtain ⟨h1, h2, h3, h4, h5⟩ := wf
  have hA : (arr 4 (E.ARISR_aes_aris_encrypt key d.aris).2).length = 4 := arr_length _ _
  have hC := buildCtrl1_length P d.ctrl
  rw [← e1]
  have hw : ∃ rest, B = d.id ++ arr 4 (E.ARISR_aes_aris_encrypt key d.aris).2
        ++ buildCtrl1 P d.ctrl ++ d.origin ++ d.destinationA ++ wireDestinationsB d
        ++ (if d.ctrl.from_ ≠ 0 then d.destinationC else [])
        ++ (if d.ctrl.more_header ≠ 0 then
              buildCtrl2 P d.ctrl2 (buildEnc E d key).length else [])
        ++ rest := by
    refine ⟨crcBytes (E.ARISR_crypt_crc16_calculate
        (wireHeader P E d key (buildEnc E d key).length)) ++ buildEnc E d key ++
      (if d.ctrl.more_header ≠ 0 ∧ d.ctrl2.data_length > 0 then
        crcBytes (E.ARISR_crypt_crc16_calculate (buildEnc E d key)) else []) ++ d.id, ?_⟩
    rw [hB]
    simp only [wire, wireHeader, wireAris, ARISR_PROTO_ARIS_SIZE, List.append_assoc]
  obtain ⟨rest, hw⟩ := hw
  refine ⟨⟨rest, hw⟩, ?_, ?_, ?_, ?_, ?_, ?_, e2, ?_, ?_, ?_⟩
  · rw [hw]; simp only [List.append_assoc]; exact leading_at h1
  · rw [hw]; simp only [List.append_assoc]
    rw [← List.append_assoc]
    exact section_at h1 hA
  · rw [hw]; simp only [List.append_assoc]
    rw [← List.append_assoc, ← List.append_assoc]
    exact section_at (by simp [h1, hA]) hC
  · rw [hw]; simp only [List.append_assoc]
    rw [← List.append_assoc, ← List.append_assoc, ← List.append_assoc]
    exact section_at (by simp [h1, hA, hC]) h3
  · rw [hw]; simp only [List.append_assoc]
    rw [← List.append_assoc, ← List.append_assoc, ← List.append_assoc, ← List.append_assoc]
    exact section_at (by simp [h1, hA, hC, h3]) h4
  · rw [hw]; simp only [List.append_assoc]
    rw [← List.append_assoc, ← List.append_assoc, ← List.append_assoc, ← List.append_assoc,
      ← List.append_assoc]
    exact section_at (by simp [h1, hA, hC, h3, h4]) e2
  · intro i hi
    have hsec : (B.drop 24).take (6 * d.ctrl.destinations) = wireDestinationsB d := by
      rw [hw]; simp only [List.append_assoc]
      rw [← List.append_assoc, ← List.append_assoc, ← List.append_assoc, ← List.append_assoc,
        ← List.append_assoc]
      exact section_at (by simp [h1, hA, hC, h3, h4]) e2
    have hle : 6 * i + 6 ≤ 6 * d.ctrl.destinations := by omega
    rw [← take_drop_within hle, ← e1, ← hsec, take_drop_within hle, List.drop_drop]
  · intro hf
    rw [hw, if_pos hf]; simp only [List.append_assoc]
    rw [← List.append_assoc, ← List.append_assoc, ← List.append_assoc, ← List.append_assoc,
      ← List.append_assoc, ← List.append_assoc]
    exact section_at (by simp [h1, hA, hC, h3, h4, e2]; omega) h5
  · intro hm
    rw [hw, if_pos hm]; simp only [List.append_assoc]
    rw [← List.append_assoc, ← List.append_assoc, ← List.append_assoc, ← List.append_assoc,
      ← List.append_assoc, ← List.append_assoc, ← List.append_assoc]
    refine section_at ?_ (buildCtrl2_length _ _ _)
    by_cases c : d.ctrl.from_ = 0 <;> simp [h1, hA, hC, h3, h4, e2, h5, c] <;> omega

theorem wfBuild_frameS4 : WfBuild frameS4 := ⟨rfl, rfl, rfl, rfl, rfl⟩

theorem wfBuild_frameS1 : WfBuild frameS1 := ⟨rfl, rfl, rfl, rfl, rfl⟩

set_option maxRecDepth 100000 in
theorem build_frameS4 :
    ARISR_proto_build sampleInterface sampleCrypt (some frameS4) sampleKey
      = some ⟨kARISR_OK, some wireS4, some 76⟩ := by decide

set_option maxRecDepth 100000 in
theorem build_frameS1 :
    ARISR_proto_build sampleInterface sampleCrypt (some frameS1) sampleKey
      = some ⟨kARISR_OK, some wireS1, some 30⟩ := by decide

/-- C2. Header layout of build: a buffer returned with `kARISR_OK` is, in order
and without padding, `id`, the encrypted `aris`, the ctrl1 word, `origin`,
`destinationA`, the `6 * N` bytes of `destinationsB` (address `i` at offset
`24 + 6 * i`), then `destinationC` exactly when `ctrl.from` is non-zero, then
the ctrl2 word exactly when `ctrl.more_header` is non-zero, then the rest. -/
theorem C2_build_header_layout (P : Interface) (E : Crypt) (d : ARISR_CHUNK)
    (key B : List Nat) (n : Nat) (wf : WfBuild d)
    (h : ARISR_proto_build P E (some d) key = some ⟨kARISR_OK, some B, some n⟩) :
    (∃ rest, B = d.id ++ arr 4 (E.ARISR_aes_aris_encrypt key d.aris).2 ++ buildCtrl1 P d.ctrl
        ++ d.origin ++ d.destinationA
        ++ (d.destinationsB.getD []).take (6 * d.ctrl.destinations)
        ++ (if d.ctrl.from_ ≠ 0 then d.destinationC else [])
        ++ (if d.ctrl.more_header ≠ 0 then
              buildCtrl2 P d.ctrl2 (buildEnc E d key).length else [])
        ++ rest) ∧
    B.take 4 = d.id ∧
    (B.drop 4).take 4 = arr 4 (E.ARISR_aes_aris_encrypt key d.aris).2 ∧
    (B.drop 8).take 4 = buildCtrl1 P d.ctrl ∧
    (B.drop 12).take 6 = d.origin ∧
    (B.drop 18).take 6 = d.destinationA ∧
    (B.drop 24).take (6 * d.ctrl.destinations)
      = (d.destinationsB.getD []).take (6 * d.ctrl.destinations) ∧
    ((d.destinationsB.getD []).take (6 * d.ctrl.destinations)).length
      = 6 * d.ctrl.destinations ∧
    (∀ i, i < d.ctrl.destinations →
      (B.drop (24 + 6 * i)).take 6 = ((d.destinationsB.getD []).drop (6 * i)).take 6) ∧
    (d.ctrl.from_ ≠ 0 → (B.drop (24 + 6 * d.ctrl.destinations)).take 6 = d.destinationC) ∧
    (d.ctrl.more_header ≠ 0 →
      (B.drop (24 + 6 * d.ctrl.destinations + (if d.ctrl.from_ ≠ 0 then 6 else 0))).take 4
        = buildCtrl2 P d.ctrl2 (buildEnc E d key).length) :=
  build_header_sections P E d key B n wf h

/-- Witness of C2 on the payload frame S4: the frame is well formed, the build
succeeds, and address 2 of `destinationsB` sits at offset 36. -/
theorem C2_build_header_layout_witness :
    WfBuild frameS4 ∧
    ARISR_proto_build sampleInterface sampleCrypt (some frameS4) sampleKey
      = some ⟨kARISR_OK, some wireS4, some 76⟩ ∧
    wireS4.take 4 = frameS4.id ∧
    (2 < frameS4.ctrl.destinations →
      (wireS4.drop (24 + 6 * 2)).take 6 = ((frameS4.destinationsB.getD []).drop (6 * 2)).take 6) :=
  have h := C2_build_header_layout sampleInterface sampleCrypt frameS4 sampleKey wireS4 76
    wfBuild_frameS4 build_frameS4
  ⟨wfBuild_frameS4, build_frameS4, h.2.1, h.2.2.2.2.2.2.2.2.1 2⟩

/-- C3. Shape determinism: the length `ARISR_proto_build` reports with
`kARISR_OK` is the number of bytes of the buffer and equals
`30 + 6 * destinations + (6 if from) + (4 + (enc_len + 2 if data_length > 0) if
more_header)`, `enc_len` being the length the data encryption returned; so it is
30 when the three shape fields are 0, 48 with three `destinationsB` alone and 36
with `from` alone. -/
theorem C3_build_length (P : Interface) (E : Crypt) (d : ARISR_CHUNK)
    (key B : List Nat) (n : Nat) (wf : WfBuild d)
    (h : ARISR_proto_build P E (some d) key = some ⟨kARISR_OK, some B, some n⟩) :
    n = B.length ∧
    n = 30 + 6 * d.ctrl.destinations + (if d.ctrl.from_ ≠ 0 then 6 else 0) +
      (if d.ctrl.more_header ≠ 0 then
        4 + (if d.ctrl2.data_length > 0 then
              (E.ARISR_aes_data_encrypt (dataKey key) d.data d.ctrl2.data_length).2.length + 2
            else 0)
      else 0) ∧
    (d.ctrl.destinations = 0 ∧ d.ctrl.from_ = 0 ∧ d.ctrl.more_header = 0 → n = 30) ∧
    (d.ctrl.destinations = 3 ∧ d.ctrl.from_ = 0 ∧ d.ctrl.more_header = 0 → n = 48) ∧
    (d.ctrl.destinations = 0 ∧ d.ctrl.from_ = 1 ∧ d.ctrl.more_header = 0 → n = 36) := by
  obtain ⟨hB, hn, hdB⟩ := build_ok_buffer wf h
  have hlen := wire_length P E key wf (buildEnc E d key) hdB
  rw [← hB, ← hn] at hlen
  have hf : n = 30 + 6 * d.ctrl.destinations + (if d.ctrl.from_ ≠ 0 then 6 else 0) +
      (if d.ctrl.more_header ≠ 0 then
        4 + (if d.ctrl2.data_length > 0 then
              (E.ARISR_aes_data_encrypt (dataKey key) d.data d.ctrl2.data_length).2.length + 2
            else 0)
      else 0) := by
    rw [hlen]
    unfold buildEnc
    by_cases c3 : d.ctrl.more_header = 0 <;> by_cases c4 : d.ctrl2.data_length > 0 <;>
      simp [c3, c4]
    omega
  refine ⟨hn, hf, ?_, ?_, ?_⟩
  · rintro ⟨a, b, c⟩; rw [hf]; simp [a, b, c]
  · rintro ⟨a, b, c⟩; rw [hf]; simp [a, b, c]
  · rintro ⟨a, b, c⟩; rw [hf]; simp [a, b, c]

/-- Witness of C3 on the payload frame S4: 30 + 18 + 6 + 4 + 16 + 2 = 76. -/
theorem C3_build_length_witness :
    WfBuild frameS4 ∧
    ARISR_proto_build sampleInterface sampleCrypt (some frameS4) sampleKey
      = some ⟨kARISR_OK, some wireS4, some 76⟩ ∧
    76 = wireS4.length :=
  ⟨wfBuild_frameS4, build_frameS4,
    (C3_build_length sampleInterface sampleCrypt frameS4 sampleKey wireS4 76
      wfBuild_frameS4 build_frameS4).1⟩

theorem orField_eq {w v s : Nat} (hv : v < 256) (hs : s < 32) :
    orField w v s = w ||| (v <<< s) % 2 ^ 32 := by
  unfold orField
  rw [Nat.mod_eq_of_lt hv, Nat.mod_eq_of_lt (by omega : s < 256)]

theorem ctrl1Word_lt (P : Interface) (c : ARISR_CHUNK_CTRL) : ctrl1Word P c < 2 ^ 32 := by
  unfold ctrl1Word
  repeat apply orField_lt
  norm_num

theorem ctrl2Word_lt (P : Interface) (c : ARISR_CHUNK_CTRL2) (n : Nat) :
    ctrl2Word P c n < 2 ^ 32 := by
  unfold ctrl2Word
  repeat apply orField_lt
  norm_num

theorem be32_buildCtrl1 (P : Interface) (c : ARISR_CHUNK_CTRL) :
    be32 (buildCtrl1 P c) = ctrl1Word P c := by
  rw [buildCtrl1_eq, be32_be32Bytes_nil, Nat.mod_eq_of_lt (ctrl1Word_lt P c)]

theorem be32_buildCtrl2 (P : Interface) (c : ARISR_CHUNK_CTRL2) (n : Nat) :
    be32 (buildCtrl2 P c n) = ctrl2Word P c n := by
  rw [buildCtrl2_eq, be32_be32Bytes_nil, Nat.mod_eq_of_lt (ctrl2Word_lt P c n)]

/-- C4. Control-word packing in build: bytes [8,12) of a buffer returned with
`kARISR_OK`, read as a big-endian 32-bit word, are the OR of the nine ctrl1 field
values, each shifted by its shift modulo 2^32; when `more_header` is set, the
ctrl2 word is the OR of `(enc_len / DATA_MULT) mod 256` and of `feature`,
`neg_answer`, `freq_switch`, each shifted by its shift modulo 2^32. -/
theorem C4_build_ctrl_packing (P : Interface) (E : Crypt) (d : ARISR_CHUNK)
    (key B : List Nat) (n : Nat) (wf : WfBuild d) (hb : CtrlBytes d) (hs : ShiftsValid P)
    (h : ARISR_proto_build P E (some d) key = some ⟨kARISR_OK, some B, some n⟩) :
    be32 ((B.drop 8).take 4) =
      ((d.ctrl.version <<< P.ARISR_CTRL_VERSION_SHIFT) % 2 ^ 32 |||
       (d.ctrl.destinations <<< P.ARISR_CTRL_DESTS_SHIFT) % 2 ^ 32 |||
       (d.ctrl.from_ <<< P.ARISR_CTRL_FROM_SHIFT) % 2 ^ 32 |||
       (d.ctrl.option <<< P.ARISR_CTRL_OPTION_SHIFT) % 2 ^ 32 |||
       (d.ctrl.sequence <<< P.ARISR_CTRL_SEQUENCE_SHIFT) % 2 ^ 32 |||
       (d.ctrl.retry <<< P.ARISR_CTRL_RETRY_SHIFT) % 2 ^ 32 |||
       (d.ctrl.more_data <<< P.ARISR_CTRL_MD_SHIFT) % 2 ^ 32 |||
       (d.ctrl.identifier <<< P.ARISR_CTRL_ID_SHIFT) % 2 ^ 32 |||
       (d.ctrl.more_header <<< P.ARISR_CTRL_MH_SHIFT) % 2 ^ 32) ∧
    (d.ctrl.more_header ≠ 0 →
      be32 ((B.drop (24 + 6 * d.ctrl.destinations
          + (if d.ctrl.from_ ≠ 0 then 6 else 0))).take 4) =
        ((((buildEnc E d key).length / P.ARISR_DATA_MULT % 256)
            <<< P.ARISR_CTRL2_DATA_LENGTH_SHIFT) % 2 ^ 32 |||
         (d.ctrl2.feature <<< P.ARISR_CTRL2_FEATURE_SHIFT) % 2 ^ 32 |||
         (d.ctrl2.neg_answer <<< P.ARISR_CTRL2_NEG_ANSWER_SHIFT) % 2 ^ 32 |||
         (d.ctrl2.freq_switch <<< P.ARISR_CTRL2_FREQ_SWITCH_SHIFT) % 2 ^ 32)) := by
  have hl := build_header_sections P E d key B n wf h
  refine ⟨?_, ?_⟩
  · rw [hl.2.2.2.1, be32_buildCtrl1]
    unfold ctrl1Word
    rw [orField_eq hb.more_header hs.more_header, orField_eq hb.identifier hs.identifier,
      orField_eq hb.more_data hs.more_data, orField_eq hb.retry hs.retry,
      orField_eq hb.sequence hs.sequence, orField_eq hb.option hs.option,
      orField_eq hb.from_ hs.from_, orField_eq hb.destinations hs.destinations,
      orField_eq hb.version hs.version, Nat.zero_or]
  · intro hm
    rw [hl.2.2.2.2.2.2.2.2.2.2 hm, be32_buildCtrl2]
    unfold ctrl2Word
    rw [orField_eq hb.freq_switch hs.freq_switch, orField_eq hb.neg_answer hs.neg_answer,
      orField_eq hb.feature hs.feature]
    unfold orField
    rw [Nat.mod_eq_of_lt (by have := hs.data_length; omega :
      P.ARISR_CTRL2_DATA_LENGTH_SHIFT < 256), Nat.zero_or]

theorem ctrlBytes_frameS4 : CtrlBytes frameS4 := by
  constructor <;> decide

theorem shiftsValid_sample : ShiftsValid sampleInterface := by
  constructor <;> decide

/-- Witness of C4 on the payload frame S4: the ctrl1 word is `0xAE3C8DC9`. -/
theorem C4_build_ctrl_packing_witness :
    WfBuild frameS4 ∧ CtrlBytes frameS4 ∧ ShiftsValid sampleInterface ∧
    ARISR_proto_build sampleInterface sampleCrypt (some frameS4) sampleKey
      = some ⟨kARISR_OK, some wireS4, some 76⟩ ∧
    be32 ((wireS4.drop 8).take 4) =
      ((5 <<< 29) % 2 ^ 32 ||| (3 <<< 26) % 2 ^ 32 ||| (1 <<< 20) % 2 ^ 32 |||
       (17 <<< 21) % 2 ^ 32 ||| (200 <<< 12) % 2 ^ 32 ||| (6 <<< 9) % 2 ^ 32 |||
       (1 <<< 8) % 2 ^ 32 ||| (100 <<< 1) % 2 ^ 32 ||| (1 <<< 0) % 2 ^ 32) :=
  ⟨wfBuild_frameS4, ctrlBytes_frameS4, shiftsValid_sample, build_frameS4,
    (C4_build_ctrl_packing sampleInterface sampleCrypt frameS4 sampleKey wireS4 76
      wfBuild_frameS4 ctrlBytes_frameS4 shiftsValid_sample build_frameS4).1⟩

theorem crcBytes_eq (c : Nat) : crcBytes c = [c % 65536 / 256, c % 65536 % 256] := by
  simp only [crcBytes, Nat.shiftRight_eq_div_pow]
  have : c % 65536 / 2 ^ 8 < 256 := by omega
  rw [Nat.mod_eq_of_lt this]
  norm_num

theorem headerEnd_eq (P : Interface) (E : Crypt) {d : ARISR_CHUNK} (key : List Nat)
    (wf : WfBuild d) (n : Nat)
    (hB : (wireDestinationsB d).length =
      (if d.ctrl.destinations > 0 then d.ctrl.destinations * ARISR_ADDRESS_SIZE else 0)) :
    (wireHeader P E d key n).length = headerEnd d :=
  wireHeader_length wf n hB

/-- The part of a buffer returned by `ARISR_proto_build` with `kARISR_OK` from
`crc_header` on. -/
theorem build_tail_sections (P : Interface) (E : Crypt) (d : ARISR_CHUNK)
    (key B : List Nat) (n : Nat) (wf : WfBuild d)
    (h : ARISR_proto_build P E (some d) key = some ⟨kARISR_OK, some B, some n⟩) :
    B.take (headerEnd d) = wireHeader P E d key (buildEnc E d key).length ∧
    B.drop (headerEnd d) =
      crcBytes (E.ARISR_crypt_crc16_calculate (B.take (headerEnd d))) ++
        (buildEnc E d key ++
          ((if d.ctrl.more_header ≠ 0 ∧ d.ctrl2.data_length > 0 then
            crcBytes (E.ARISR_crypt_crc16_calculate (buildEnc E d key)) else []) ++ d.id)) := by
  obtain ⟨hB, -, hdB⟩ := build_ok_buffer wf h
  have hl := headerEnd_eq P E key wf (buildEnc E d key).length hdB
  have hw : B = wireHeader P E d key (buildEnc E d key).length ++
      (crcBytes (E.ARISR_crypt_crc16_calculate
          (wireHeader P E d key (buildEnc E d key).length)) ++
        (buildEnc E d key ++
          ((if d.ctrl.more_header ≠ 0 ∧ d.ctrl2.data_length > 0 then
            crcBytes (E.ARISR_crypt_crc16_calculate (buildEnc E d key)) else []) ++ d.id))) := by
    rw [hB]
    simp only [wire, List.append_assoc]
  have ht : B.take (headerEnd d) = wireHeader P E d key (buildEnc E d key).length := by
    rw [hw]; exact leading_at hl
  refine ⟨ht, ?_⟩
  rw [ht]
  conv_lhs => rw [hw]
  exact trailing_at hl

/-- C5. Header CRC window in build: with `h` the offset
`24 + 6 * destinations + (6 if from) + (4 if more_header)`, bytes `h` and `h + 1`
of the buffer are the high and the low byte of the 16-bit CRC of exactly the
bytes `[0, h)` of the buffer. -/
theorem C5_build_crc_header (P : Interface) (E : Crypt) (d : ARISR_CHUNK)
    (key B : List Nat) (n : Nat) (wf : WfBuild d)
    (h : ARISR_proto_build P E (some d) key = some ⟨kARISR_OK, some B, some n⟩) :
    (B.drop (24 + 6 * d.ctrl.destinations + (if d.ctrl.from_ ≠ 0 then 6 else 0)
        + (if d.ctrl.more_header ≠ 0 then 4 else 0))).take 2 =
      [E.ARISR_crypt_crc16_calculate (B.take (24 + 6 * d.ctrl.destinations
          + (if d.ctrl.from_ ≠ 0 then 6 else 0)
          + (if d.ctrl.more_header ≠ 0 then 4 else 0))) % 65536 / 256,
       E.ARISR_crypt_crc16_calculate (B.take (24 + 6 * d.ctrl.destinations
          + (if d.ctrl.from_ ≠ 0 then 6 else 0)
          + (if d.ctrl.more_header ≠ 0 then 4 else 0))) % 65536 % 256] := by
  have ht := (build_tail_sections P E d key B n wf h).2
  unfold headerEnd at ht
  rw [ht, ← crcBytes_eq]
  exact List.take_left' (crcBytes_length _)

set_option maxRecDepth 100000 in
/-- Witness of C5 on the payload frame S4 (`h = 52`). -/
theorem C5_build_crc_header_witness :
    WfBuild frameS4 ∧
    ARISR_proto_build sampleInterface sampleCrypt (some frameS4) sampleKey
      = some ⟨kARISR_OK, some wireS4, some 76⟩ ∧
    (wireS4.drop 52).take 2 =
      [sampleCrypt.ARISR_crypt_crc16_calculate (wireS4.take 52) % 65536 / 256,
       sampleCrypt.ARISR_crypt_crc16_calculate (wireS4.take 52) % 65536 % 256] :=
  ⟨wfBuild_frameS4, build_frameS4,
    C5_build_crc_header sampleInterface sampleCrypt frameS4 sampleKey wireS4 76
      wfBuild_frameS4 build_frameS4⟩

/-- C6. Data CRC window in build: for a frame with `more_header` set and
`data_length > 0`, the buffer holds right behind `crc_header` the ciphertext
returned by the data encryption of `(data, data_length)`, followed by the
big-endian 16-bit CRC of exactly that ciphertext. -/
theorem C6_build_crc_data (P : Interface) (E : Crypt) (d : ARISR_CHUNK)
    (key B : List Nat) (n : Nat) (wf : WfBuild d)
    (h : ARISR_proto_build P E (some d) key = some ⟨kARISR_OK, some B, some n⟩)
    (hm : d.ctrl.more_header ≠ 0) (hl : d.ctrl2.data_length > 0) :
    (B.drop (24 + 6 * d.ctrl.destinations + (if d.ctrl.from_ ≠ 0 then 6 else 0) + 4 + 2)).take
        (E.ARISR_aes_data_encrypt key d.data d.ctrl2.data_length).2.length
      = (E.ARISR_aes_data_encrypt key d.data d.ctrl2.data_length).2 ∧
    (B.drop (24 + 6 * d.ctrl.destinations + (if d.ctrl.from_ ≠ 0 then 6 else 0) + 4 + 2
        + (E.ARISR_aes_data_encrypt key d.data d.ctrl2.data_length).2.length)).take 2
      = [E.ARISR_crypt_crc16_calculate
            (E.ARISR_aes_data_encrypt key d.data d.ctrl2.data_length).2 % 65536 / 256,
         E.ARISR_crypt_crc16_calculate
            (E.ARISR_aes_data_encrypt key d.data d.ctrl2.data_length).2 % 65536 % 256] := by
  have ht := (build_tail_sections P E d key B n wf h).2
  have he : buildEnc E d key = (E.ARISR_aes_data_encrypt key d.data d.ctrl2.data_length).2 := by
    simp [buildEnc, hm, hl, dataKey_eq]
  have hh : headerEnd d
      = 24 + 6 * d.ctrl.destinations + (if d.ctrl.from_ ≠ 0 then 6 else 0) + 4 := by
    simp [headerEnd, hm]
  rw [he, hh, if_pos (show d.ctrl.more_header ≠ 0 ∧ d.ctrl2.data_length > 0 from ⟨hm, hl⟩)] at ht
  have hc := crcBytes_length (E.ARISR_crypt_crc16_calculate (B.take
    (24 + 6 * d.ctrl.destinations + (if d.ctrl.from_ ≠ 0 then 6 else 0) + 4)))
  constructor
  · rw [← List.drop_drop, ht, List.drop_left' hc]
    exact List.take_left' rfl
  · rw [← List.drop_drop, ← List.drop_drop, ht, List.drop_left' hc, List.drop_left' rfl,
      ← crcBytes_eq]
    exact List.take_left' (crcBytes_length _)

set_option maxRecDepth 100000 in
/-- Witness of C6 on the payload frame S4: sixteen ciphertext bytes at offset
54, their CRC at offset 70. -/
theorem C6_build_crc_data_witness :
    WfBuild frameS4 ∧
    ARISR_proto_build sampleInterface sampleCrypt (some frameS4) sampleKey
      = some ⟨kARISR_OK, some wireS4, some 76⟩ ∧
    frameS4.ctrl.more_header ≠ 0 ∧ frameS4.ctrl2.data_length > 0 ∧
    (wireS4.drop 54).take 16 = List.replicate 16 175 ∧
    (wireS4.drop 70).take 2 =
      [sampleCrypt.ARISR_crypt_crc16_calculate (List.replicate 16 175) % 65536 / 256,
       sampleCrypt.ARISR_crypt_crc16_calculate (List.replicate 16 175) % 65536 % 256] :=
  ⟨wfBuild_frameS4, build_frameS4, by decide, by decide,
    C6_build_crc_data sampleInterface sampleCrypt frameS4 sampleKey wireS4 76
      wfBuild_frameS4 build_frameS4 (by decide) (by decide)⟩

/-- C7. Trailer of build: the last four bytes of a buffer returned with
`kARISR_OK` are `id`, hence equal its first four bytes; the field `end` of the
frame is not read. -/
theorem C7_build_trailer (P : Interface) (E : Crypt) (d : ARISR_CHUNK)
    (key B : List Nat) (n : Nat) (wf : WfBuild d)
    (h : ARISR_proto_build P E (some d) key = some ⟨kARISR_OK, some B, some n⟩) :
    4 ≤ n ∧ B.drop (n - 4) = d.id ∧ B.drop (n - 4) = B.take 4 ∧
    (∀ e : List Nat, ARISR_proto_build P E (some { d with end_ := e }) key
      = some ⟨kARISR_OK, some B, some n⟩) := by
  obtain ⟨hB, hn, hdB⟩ := build_ok_buffer wf h
  have h4 := (build_header_sections P E d key B n wf h).2.1
  have hlen := wire_length P E key wf (buildEnc E d key) hdB
  rw [← hB, ← hn] at hlen
  have hd : B.drop (n - 4) = d.id := by
    have hw : B = (wireHeader P E d key (buildEnc E d key).length ++
      crcBytes (E.ARISR_crypt_crc16_calculate
        (wireHeader P E d key (buildEnc E d key).length)) ++ buildEnc E d key ++
      (if d.ctrl.more_header ≠ 0 ∧ d.ctrl2.data_length > 0 then
        crcBytes (E.ARISR_crypt_crc16_calculate (buildEnc E d key)) else [])) ++ d.id := hB
    have hl : B.length = (wireHeader P E d key (buildEnc E d key).length ++
      crcBytes (E.ARISR_crypt_crc16_calculate
        (wireHeader P E d key (buildEnc E d key).length)) ++ buildEnc E d key ++
      (if d.ctrl.more_header ≠ 0 ∧ d.ctrl2.data_length > 0 then
        crcBytes (E.ARISR_crypt_crc16_calculate (buildEnc E d key)) else [])).length + 4 := by
      conv_lhs => rw [hw]
      rw [List.length_append, wf.id_len]
    conv_lhs => rw [hw]
    exact List.drop_left' (by omega)
  refine ⟨by omega, hd, by rw [hd, h4], ?_⟩
  intro e
  exact h

theorem wfBuild_frameS4_end : WfBuild { frameS4 with end_ := [0, 0, 0, 0] } :=
  ⟨rfl, rfl, rfl, rfl, rfl⟩

set_option maxRecDepth 100000 in
theorem build_frameS4_end :
    ARISR_proto_build sampleInterface sampleCrypt (some { frameS4 with end_ := [0, 0, 0, 0] })
      sampleKey = some ⟨kARISR_OK, some wireS4, some 76⟩ := by decide

/-- Witness of C7 on the payload frame S4 with its `end` overwritten by
zeros. -/
theorem C7_build_trailer_witness :
    WfBuild { frameS4 with end_ := [0, 0, 0, 0] } ∧
    ARISR_proto_build sampleInterface sampleCrypt (some { frameS4 with end_ := [0, 0, 0, 0] })
      sampleKey = some ⟨kARISR_OK, some wireS4, some 76⟩ ∧
    wireS4.drop (76 - 4) = [0x11, 0x22, 0x33, 0x44] :=
  ⟨wfBuild_frameS4_end, build_frameS4_end,
    (C7_build_trailer sampleInterface sampleCrypt { frameS4 with end_ := [0, 0, 0, 0] }
      sampleKey wireS4 76 wfBuild_frameS4_end build_frameS4_end).2.1⟩

/-- C8. Optional-section absence in build.  With `ctrl.from = 0` the buffer has
no `destinationC` slot: the ctrl2 word (when `more_header` is set) or else
`crc_header` follows `destinationsB` directly, and the buffer does not depend on
`destinationC`.  With `ctrl.more_header = 0` the buffer has no ctrl2, no data and
no `crc_data`: the four bytes of `end` follow `crc_header` directly, and the
result depends neither on `ctrl2`, nor on `data`, nor on the data encryption. -/
theorem C8_build_optional_absence (P : Interface) (E : Crypt) (d : ARISR_CHUNK)
    (key B : List Nat) (n : Nat) (wf : WfBuild d)
    (h : ARISR_proto_build P E (some d) key = some ⟨kARISR_OK, some B, some n⟩) :
    (d.ctrl.from_ = 0 →
      (d.ctrl.more_header ≠ 0 →
        (B.drop (24 + 6 * d.ctrl.destinations)).take 4
          = buildCtrl2 P d.ctrl2 (buildEnc E d key).length) ∧
      (d.ctrl.more_header = 0 →
        (B.drop (24 + 6 * d.ctrl.destinations)).take 2
          = crcBytes (E.ARISR_crypt_crc16_calculate (B.take (24 + 6 * d.ctrl.destinations)))) ∧
      (∀ c : List Nat, ARISR_proto_build P E (some { d with destinationC := c }) key
        = some ⟨kARISR_OK, some B, some n⟩)) ∧
    (d.ctrl.more_header = 0 →
      B.drop (24 + 6 * d.ctrl.destinations + (if d.ctrl.from_ ≠ 0 then 6 else 0))
        = crcBytes (E.ARISR_crypt_crc16_calculate
            (B.take (24 + 6 * d.ctrl.destinations + (if d.ctrl.from_ ≠ 0 then 6 else 0))))
          ++ d.id ∧
      n = 30 + 6 * d.ctrl.destinations + (if d.ctrl.from_ ≠ 0 then 6 else 0) ∧
      (∀ (c2 : ARISR_CHUNK_CTRL2) (dat : Option (List Nat))
          (f : List Nat → Option (List Nat) → Nat → ARISR_ERR × List Nat),
        ARISR_proto_build P { E with ARISR_aes_data_encrypt := f }
            (some { d with ctrl2 := c2, data := dat }) key
          = some ⟨kARISR_OK, some B, some n⟩)) := by
  have hs := build_header_sections P E d key B n wf h
  have ht := build_tail_sections P E d key B n wf h
  obtain ⟨hB, hn, hdB⟩ := build_ok_buffer wf h
  have hlen := wire_length P E key wf (buildEnc E d key) hdB
  rw [← hB, ← hn] at hlen
  constructor
  · intro hf
    refine ⟨?_, ?_, ?_⟩
    · intro hm
      have := hs.2.2.2.2.2.2.2.2.2.2 hm
      simpa [hf] using this
    · intro hm
      have h2 := ht.2
      simp only [headerEnd, hf, hm, ne_eq, not_true_eq_false, if_false, Nat.add_zero] at h2
      rw [h2]
      exact List.take_left' (crcBytes_length _)
    · intro c
      rw [← h]
      simp [ARISR_proto_build, buildSize, buildEmit, hf]
  · intro hm
    refine ⟨?_, ?_, ?_⟩
    · have h2 := ht.2
      have he : buildEnc E d key = [] := by simp [buildEnc, hm]
      simp only [headerEnd, hm, ne_eq, not_true_eq_false, if_false, Nat.add_zero, he,
        false_and, List.nil_append] at h2
      simpa using h2
    · have he : buildEnc E d key = [] := by simp [buildEnc, hm]
      rw [hlen, he]
      simp [hm]
    · intro c2 dat f
      rw [← h]
      simp [ARISR_proto_build, buildSize, buildEmit, hm]

theorem wfBuild_frameS2x : WfBuild frameS2x := ⟨rfl, rfl, rfl, rfl, rfl⟩

set_option maxRecDepth 100000 in
theorem build_frameS2x :
    ARISR_proto_build sampleInterface sampleCrypt (some frameS2x) sampleKey
      = some ⟨kARISR_OK, some wireS2, some 48⟩ := by decide

set_option maxRecDepth 100000 in
/-- Witness of C8 on the frame S2 with unused `destinationC`, `ctrl2` and
`data`: `crc_header` sits at offset 42 and `end` at offset 44. -/
theorem C8_build_optional_absence_witness :
    WfBuild frameS2x ∧
    ARISR_proto_build sampleInterface sampleCrypt (some frameS2x) sampleKey
      = some ⟨kARISR_OK, some wireS2, some 48⟩ ∧
    (frameS2x.ctrl.more_header = 0 →
      wireS2.drop 42 =
        crcBytes (sampleCrypt.ARISR_crypt_crc16_calculate (wireS2.take 42)) ++ frameS2x.id ∧
      48 = 30 + 6 * 3 + 0 ∧
      (∀ (c2 : ARISR_CHUNK_CTRL2) (dat : Option (List Nat))
          (f : List Nat → Option (List Nat) → Nat → ARISR_ERR × List Nat),
        ARISR_proto_build sampleInterface { sampleCrypt with ARISR_aes_data_encrypt := f }
            (some { frameS2x with ctrl2 := c2, data := dat }) sampleKey
          = some ⟨kARISR_OK, some wireS2, some 48⟩)) :=
  ⟨wfBuild_frameS2x, build_frameS2x,
    (C8_build_optional_absence sampleInterface sampleCrypt frameS2x sampleKey wireS2 48
      wfBuild_frameS2x build_frameS2x).2⟩

theorem be32_value (c0 c1 c2 c3 : Nat) (h1 : c1 < 256) (h2 : c2 < 256) (h3 : c3 < 256) :
    (c0 <<< 24) ||| (c1 <<< 16) ||| (c2 <<< 8) ||| c3
      = c0 * 2 ^ 24 + c1 * 2 ^ 16 + c2 * 2 ^ 8 + c3 := by
  have e1 : (c2 <<< 8) ||| c3 = 2 ^ 8 * c2 + c3 := by
    rw [Nat.shiftLeft_eq, Nat.mul_comm]
    exact (Nat.mul_add_lt_is_or (by omega) c2).symm
  have e2 : (c1 <<< 16) ||| (2 ^ 8 * c2 + c3) = 2 ^ 16 * c1 + (2 ^ 8 * c2 + c3) := by
    rw [Nat.shiftLeft_eq, Nat.mul_comm]
    exact (Nat.mul_add_lt_is_or (by omega) c1).symm
  have e3 : (c0 <<< 24) ||| (2 ^ 16 * c1 + (2 ^ 8 * c2 + c3))
      = 2 ^ 24 * c0 + (2 ^ 16 * c1 + (2 ^ 8 * c2 + c3)) := by
    rw [Nat.shiftLeft_eq, Nat.mul_comm]
    exact (Nat.mul_add_lt_is_or (by omega) c0).symm
  rw [Nat.or_assoc, Nat.or_assoc, e1, e2, e3]
  omega

theorem be32_bytes (c0 c1 c2 c3 : Nat) (h0 : c0 < 256) (h1 : c1 < 256) (h2 : c2 < 256)
    (h3 : c3 < 256) :
    be32 [c0, c1, c2, c3] = (c0 <<< 24) ||| (c1 <<< 16) ||| (c2 <<< 8) ||| c3 := by
  rw [be32_cons4, Nat.mod_eq_of_lt h0, Nat.mod_eq_of_lt h1, Nat.mod_eq_of_lt h2,
    Nat.mod_eq_of_lt h3]

/-- C9. `ARISR_proto_ctrl_getField`: for a control word of four bytes, a 32-bit
mask and a shift below 32, the result is the low 8 bits of
`((c0 << 24 | c1 << 16 | c2 << 8 | c3) AND mask) >> shift`, the word being the
big-endian value of the four bytes; on a null input the result is `0xFF`. -/
theorem C9_getField (c0 c1 c2 c3 mask shift : Nat) (h0 : c0 < 256) (h1 : c1 < 256)
    (h2 : c2 < 256) (h3 : c3 < 256) (hm : mask < 2 ^ 32) (hs : shift < 32) :
    ARISR_proto_ctrl_getField (some [c0, c1, c2, c3]) mask shift
      = (((((c0 <<< 24) ||| (c1 <<< 16) ||| (c2 <<< 8) ||| c3) &&& mask) >>> shift) % 256) ∧
    ARISR_proto_ctrl_getField (some [c0, c1, c2, c3]) mask shift
      = ((c0 * 2 ^ 24 + c1 * 2 ^ 16 + c2 * 2 ^ 8 + c3) &&& mask) / 2 ^ shift % 256 ∧
    (∀ m s : Nat, ARISR_proto_ctrl_getField none m s = 0xFF) := by
  have e : ARISR_proto_ctrl_getField (some [c0, c1, c2, c3]) mask shift
      = (((((c0 <<< 24) ||| (c1 <<< 16) ||| (c2 <<< 8) ||| c3) &&& mask) >>> shift) % 256) := by
    simp only [ARISR_proto_ctrl_getField]
    rw [be32_bytes c0 c1 c2 c3 h0 h1 h2 h3, Nat.mod_eq_of_lt hm,
      Nat.mod_eq_of_lt (by omega : shift < 256)]
  refine ⟨e, ?_, fun _ _ => rfl⟩
  rw [e, be32_value c0 c1 c2 c3 h1 h2 h3, Nat.shiftRight_eq_div_pow]

/-- Witness of C9: the 3-bit field at shift 26 of the word `AE 3C 8D C9`. -/
theorem C9_getField_witness :
    (0xAE < 256 ∧ 0x3C < 256 ∧ 0x8D < 256 ∧ 0xC9 < 256 ∧ 0x1C000000 < 2 ^ 32 ∧ 26 < 32) ∧
    ARISR_proto_ctrl_getField (some [0xAE, 0x3C, 0x8D, 0xC9]) 0x1C000000 26
      = (((((0xAE <<< 24) ||| (0x3C <<< 16) ||| (0x8D <<< 8) ||| 0xC9) &&& 0x1C000000)
          >>> 26) % 256) :=
  ⟨by decide, (C9_getField 0xAE 0x3C 0x8D 0xC9 0x1C000000 26 (by decide) (by decide)
    (by decide) (by decide) (by decide) (by decide)).1⟩

/-- C10. `ARISR_proto_ctrl_setField`: for a control word of four bytes, an
8-bit value and a shift below 32, the call returns `kARISR_OK` and leaves the
four bytes equal to the big-endian encoding of the old word ORed with
`(v << shift) mod 2^32`; every bit set before the call stays set; on a null word
the call returns `kARISR_ERR_GENERIC`. -/
theorem C10_setField (c0 c1 c2 c3 v shift : Nat) (h0 : c0 < 256) (h1 : c1 < 256)
    (h2 : c2 < 256) (h3 : c3 < 256) (hv : v < 256) (hs : shift < 32) :
    ARISR_proto_ctrl_setField (some [c0, c1, c2, c3]) v shift
      = (kARISR_OK, some
          [((((c0 <<< 24) ||| (c1 <<< 16) ||| (c2 <<< 8) ||| c3) ||| (v <<< shift) % 2 ^ 32)
              >>> 24) % 256,
           ((((c0 <<< 24) ||| (c1 <<< 16) ||| (c2 <<< 8) ||| c3) ||| (v <<< shift) % 2 ^ 32)
              >>> 16) % 256,
           ((((c0 <<< 24) ||| (c1 <<< 16) ||| (c2 <<< 8) ||| c3) ||| (v <<< shift) % 2 ^ 32)
              >>> 8) % 256,
           (((c0 <<< 24) ||| (c1 <<< 16) ||| (c2 <<< 8) ||| c3) ||| (v <<< shift) % 2 ^ 32)
              % 256]) ∧
    (∀ r, ARISR_proto_ctrl_setField (some [c0, c1, c2, c3]) v shift = (kARISR_OK, some r) →
      be32 r = (((c0 <<< 24) ||| (c1 <<< 16) ||| (c2 <<< 8) ||| c3) ||| (v <<< shift) % 2 ^ 32) ∧
      be32 r = (c0 * 2 ^ 24 + c1 * 2 ^ 16 + c2 * 2 ^ 8 + c3) ||| (v * 2 ^ shift) % 2 ^ 32 ∧
      (∀ i, (be32 [c0, c1, c2, c3]).testBit i = true → (be32 r).testBit i = true)) ∧
    (∀ w s : Nat, ARISR_proto_ctrl_setField none w s = (kARISR_ERR_GENERIC, none)) := by
  have e : ARISR_proto_ctrl_setField (some [c0, c1, c2, c3]) v shift
      = (kARISR_OK, some (be32Bytes
          (((c0 <<< 24) ||| (c1 <<< 16) ||| (c2 <<< 8) ||| c3) ||| (v <<< shift) % 2 ^ 32))) := by
    simp only [ARISR_proto_ctrl_setField]
    rw [be32_bytes c0 c1 c2 c3 h0 h1 h2 h3, Nat.mod_eq_of_lt hv,
      Nat.mod_eq_of_lt (by omega : shift < 256)]
    simp
  have hlt : ((c0 <<< 24) ||| (c1 <<< 16) ||| (c2 <<< 8) ||| c3) ||| (v <<< shift) % 2 ^ 32
      < 2 ^ 32 := by
    rw [← be32_bytes c0 c1 c2 c3 h0 h1 h2 h3]
    exact Nat.or_lt_two_pow (be32_lt _) (Nat.mod_lt _ (by norm_num))
  refine ⟨e, ?_, fun _ _ => rfl⟩
  intro r hr
  rw [e] at hr
  simp only [Prod.mk.injEq, Option.some.injEq, true_and] at hr
  subst hr
  have hb : be32 (be32Bytes
      (((c0 <<< 24) ||| (c1 <<< 16) ||| (c2 <<< 8) ||| c3) ||| (v <<< shift) % 2 ^ 32))
      = (((c0 <<< 24) ||| (c1 <<< 16) ||| (c2 <<< 8) ||| c3) ||| (v <<< shift) % 2 ^ 32) := by
    rw [be32_be32Bytes_nil, Nat.mod_eq_of_lt hlt]
  refine ⟨hb, ?_, ?_⟩
  · rw [hb, be32_value c0 c1 c2 c3 h1 h2 h3, Nat.shiftLeft_eq]
  · intro i hi
    rw [hb, Nat.testBit_or]
    rw [be32_bytes c0 c1 c2 c3 h0 h1 h2 h3] at hi
    rw [hi]
    rfl

/-- Witness of C10: ORing the value 3 at shift 4 into a word whose target bits
are already set (`00 00 00 50`) gives `00 00 00 70`, not `00 00 00 30`. -/
theorem C10_setField_witness :
    (0 < 256 ∧ 0x50 < 256 ∧ 3 < 256 ∧ 4 < 32) ∧
    ARISR_proto_ctrl_setField (some [0, 0, 0, 0x50]) 3 4 = (kARISR_OK, some [0, 0, 0, 0x70]) :=
  ⟨by decide, (C10_setField 0 0 0 0x50 3 4 (by decide) (by decide) (by decide) (by decide)
    (by decide) (by decide)).1⟩

theorem testBit_orField (w v s t : Nat) (hv : v < 256) (hs : s < 256) :
    (orField w v s).testBit t =
      (w.testBit t || (decide (t < 32) && (decide (s ≤ t) && v.testBit (t - s)))) := by
  unfold orField
  rw [Nat.mod_eq_of_lt hv, Nat.mod_eq_of_lt hs, Nat.testBit_or, Nat.testBit_mod_two_pow,
    Nat.testBit_shiftLeft]

theorem testBit_packFields (fs : List (Nat × Nat × Nat)) (w0 t : Nat)
    (h : ∀ f ∈ fs, f.1 < 256 ∧ f.2.1 < 256) :
    (packFields fs w0).testBit t =
      (w0.testBit t ||
        fs.any fun f => decide (t < 32) && (decide (f.2.1 ≤ t) && f.1.testBit (t - f.2.1))) := by
  induction fs generalizing w0 with
  | nil => simp [packFields]
  | cons f fs ih =>
    have hf := h f (List.mem_cons_self _ _)
    have ih2 := ih (orField w0 f.1 f.2.1) (fun g hg => h g (List.mem_cons_of_mem _ hg))
    unfold packFields at ih2 ⊢
    rw [List.foldl_cons, ih2, testBit_orField _ _ _ _ hf.1 hf.2, List.any_cons, Bool.or_assoc]

theorem pow_le_256 {w : Nat} (h : w ≤ 8) : 2 ^ w ≤ 256 := by
  have := Nat.pow_le_pow_right (n := 2) (by norm_num) h
  simpa using this

/-- Reading back one field of a packed word: if the windows of the fields are
pairwise disjoint and every value fits its window, the field extracted with the
mask and the shift of a member of the list is the value of that member. -/
theorem getField_packFields (fs : List (Nat × Nat × Nat))
    (hd : fs.Pairwise fun a b => disjointWin a.2 b.2)
    (hfit : ∀ f ∈ fs, f.1 < 2 ^ f.2.2 ∧ f.2.2 ≤ 8 ∧ f.2.1 + f.2.2 ≤ 32)
    (v s w : Nat) (hm : (v, s, w) ∈ fs) :
    ((packFields fs 0 &&& winMask s w) >>> s) % 256 = v := by
  obtain ⟨hv, hw, hsw⟩ := hfit _ hm
  simp only at hv hw hsw
  have hbytes : ∀ f ∈ fs, f.1 < 256 ∧ f.2.1 < 256 := by
    intro f hf
    obtain ⟨a, b, c⟩ := hfit f hf
    have := pow_le_256 b
    omega
  apply Nat.eq_of_testBit_eq
  intro k
  rw [testBit_mod_256, Nat.testBit_shiftRight, Nat.testBit_and, testBit_packFields fs 0 _ hbytes]
  unfold winMask
  rw [Nat.testBit_shiftLeft, Nat.testBit_two_pow_sub_one]
  simp only [Nat.zero_testBit, Bool.false_or, Nat.le_add_right, decide_True, Bool.true_and,
    Nat.add_sub_cancel_left]
  by_cases hk : k < w
  · have hk8 : k < 8 := by omega
    simp only [hk, hk8, decide_True, Bool.true_and, Bool.and_true]
    have h32 : s + k < 32 := by omega
    simp only [h32, decide_True, Bool.true_and]
    cases hb : v.testBit k
    · -- no member contributes the bit
      rw [List.any_eq_false]
      intro f hf
      by_cases hfe : f = (v, s, w)
      · subst hfe
        simp [hb]
      · have hdis : disjointWin f.2 (v, s, w).2 :=
          List.Pairwise.forall (fun a b hab => by
            unfold disjointWin at hab ⊢; omega) hd hf hm hfe
        unfold disjointWin at hdis
        simp only at hdis
        obtain ⟨fv, -, -⟩ := hfit f hf
        rcases hdis with h1 | h1
        · have : f.1.testBit (s + k - f.2.1) = false :=
            Nat.testBit_lt_two_pow (lt_of_lt_of_le fv
              (Nat.pow_le_pow_right (by norm_num) (by omega)))
          simp [this]
        · have : ¬ f.2.1 ≤ s + k := by omega
          simp [this]
    · rw [List.any_eq_true]
      exact ⟨(v, s, w), hm, by simp [hb]⟩
  · have : v.testBit k = false :=
      Nat.testBit_lt_two_pow (lt_of_lt_of_le hv (Nat.pow_le_pow_right (by norm_num) (by omega)))
    simp [hk, this]

theorem winMask_lt {s w : Nat} (h : s + w ≤ 32) : winMask s w < 2 ^ 32 := by
  unfold winMask
  rw [Nat.shiftLeft_eq]
  have h1 : 0 < 2 ^ w := Nat.pow_pos (by norm_num)
  have h2 : (2 ^ w - 1) * 2 ^ s < 2 ^ w * 2 ^ s :=
    Nat.mul_lt_mul_of_pos_right (by omega) (Nat.pow_pos (by norm_num))
  have h3 : 2 ^ w * 2 ^ s = 2 ^ (w + s) := (Nat.pow_add 2 w s).symm
  have h4 : 2 ^ (w + s) ≤ 2 ^ 32 := Nat.pow_le_pow_right (by norm_num) (by omega)
  omega

theorem getField_be32Bytes {word s w : Nat} (hword : word < 2 ^ 32) (h : s + w ≤ 32) :
    ARISR_proto_ctrl_getField (some (be32Bytes word)) (winMask s w) s
      = ((word &&& winMask s w) >>> s) % 256 := by
  simp only [ARISR_proto_ctrl_getField]
  rw [be32_be32Bytes_nil, Nat.mod_eq_of_lt hword, Nat.mod_eq_of_lt (winMask_lt h),
    Nat.mod_eq_of_lt (by omega : s < 256)]

theorem ctrl1Word_eq_packFields (P : Interface) (W : Widths) (c : ARISR_CHUNK_CTRL) :
    ctrl1Word P c = packFields (fields1 P W c) 0 := rfl

theorem ctrl2Word_eq_packFields (P : Interface) (W : Widths) (c : ARISR_CHUNK_CTRL2)
    (n : Nat) : ctrl2Word P c n = packFields (fields2 P W c n) 0 := rfl

theorem fields1_disjoint {P : Interface} {W : Widths} (hL : Layout P W)
    (c : ARISR_CHUNK_CTRL) : (fields1 P W c).Pairwise fun a b => disjointWin a.2 b.2 := by
  have h := hL.disjoint1
  have e : windows1 P W = (fields1 P W c).map Prod.snd := rfl
  rw [e, List.pairwise_map] at h
  exact h

theorem fields2_disjoint {P : Interface} {W : Widths} (hL : Layout P W)
    (c : ARISR_CHUNK_CTRL2) (n : Nat) :
    (fields2 P W c n).Pairwise fun a b => disjointWin a.2 b.2 := by
  have h := hL.disjoint2
  have e : windows2 P W = (fields2 P W c n).map Prod.snd := rfl
  rw [e, List.pairwise_map] at h
  exact h

theorem fields1_fit {P : Interface} {W : Widths} {d : ARISR_CHUNK} (hL : Layout P W)
    (hF : Fits W d) :
    ∀ f ∈ fields1 P W d.ctrl, f.1 < 2 ^ f.2.2 ∧ f.2.2 ≤ 8 ∧ f.2.1 + f.2.2 ≤ 32 := by
  intro f hf
  have hin : f.2 ∈ windows1 P W := by
    have e : windows1 P W = (fields1 P W d.ctrl).map Prod.snd := rfl
    rw [e]
    exact List.mem_map_of_mem _ hf
  refine ⟨?_, hL.inside1 _ hin⟩
  simp only [fields1, List.mem_cons, List.mem_singleton, List.not_mem_nil, or_false] at hf
  rcases hf with h | h | h | h | h | h | h | h | h <;> subst h
  · exact hF.version
  · exact hF.destinations
  · exact hF.from_
  · exact hF.option
  · exact hF.sequence
  · exact hF.retry
  · exact hF.more_data
  · exact hF.identifier
  · exact hF.more_header

/-- The parser reads back the nine ctrl1 fields the builder packed. -/
theorem parseCtrl1_buildCtrl1 {P : Interface} {W : Widths} {d : ARISR_CHUNK}
    (hL : Layout P W) (hF : Fits W d) : parseCtrl1 P (buildCtrl1 P d.ctrl) = d.ctrl := by
  have hd := fields1_disjoint hL d.ctrl
  have hfit := fields1_fit hL hF
  have hin := hL.inside1
  have key : ∀ v s w, (v, s, w) ∈ fields1 P W d.ctrl →
      ARISR_proto_ctrl_getField (some (buildCtrl1 P d.ctrl)) (winMask s w) s = v := by
    intro v s w hm
    rw [buildCtrl1_eq, getField_be32Bytes (ctrl1Word_lt P d.ctrl) (hfit _ hm).2.2,
      ctrl1Word_eq_packFields P W]
    exact getField_packFields _ hd hfit v s w hm
  have e1 := key d.ctrl.version P.ARISR_CTRL_VERSION_SHIFT W.version (by simp [fields1])
  have e2 := key d.ctrl.destinations P.ARISR_CTRL_DESTS_SHIFT W.destinations
    (by simp [fields1])
  have e3 := key d.ctrl.from_ P.ARISR_CTRL_FROM_SHIFT W.from_ (by simp [fields1])
  have e4 := key d.ctrl.option P.ARISR_CTRL_OPTION_SHIFT W.option (by simp [fields1])
  have e5 := key d.ctrl.sequence P.ARISR_CTRL_SEQUENCE_SHIFT W.sequence (by simp [fields1])
  have e6 := key d.ctrl.retry P.ARISR_CTRL_RETRY_SHIFT W.retry (by simp [fields1])
  have e7 := key d.ctrl.more_data P.ARISR_CTRL_MD_SHIFT W.more_data (by simp [fields1])
  have e8 := key d.ctrl.identifier P.ARISR_CTRL_ID_SHIFT W.identifier (by simp [fields1])
  have e9 := key d.ctrl.more_header P.ARISR_CTRL_MH_SHIFT W.more_header (by simp [fields1])
  unfold parseCtrl1
  rw [hL.version, hL.destinations, hL.from_, hL.option, hL.sequence, hL.retry, hL.more_data,
    hL.identifier, hL.more_header, e1, e2, e3, e4, e5, e6, e7, e8, e9]

theorem readBytes_in {l : List Nat} {p n : Nat} (h : p + n ≤ l.length) :
    readBytes l p n = some ((l.drop p).take n) := by
  simp [readBytes, h]

theorem readBytes_all (l : List Nat) : readBytes l 0 l.length = some l := by
  simp [readBytes]

theorem arr_of_length {n : Nat} {l : List Nat} (h : l.length = n) : arr n l = l := by
  unfold arr
  rw [List.take_append_of_le_length (by omega), ← h, List.take_length]

theorem crcValue_crcBytes (c : Nat) : crcValue (crcBytes c) = c % 65536 := by
  rw [crcBytes_eq]
  simp only [crcValue, List.getD_cons_zero, List.getD_cons_succ]
  have h1 : c % 65536 / 256 < 256 := by omega
  have h2 : c % 65536 % 256 < 256 := by omega
  rw [Nat.mod_eq_of_lt h1, Nat.mod_eq_of_lt h2]
  have h3 : (c % 65536 / 256) <<< 8 % 65536 = 2 ^ 8 * (c % 65536 / 256) := by
    rw [Nat.shiftLeft_eq]; omega
  rw [h3, ← Nat.mul_add_lt_is_or (by omega)]
  omega

/-- Section "ID & ARIS" on a built buffer. -/
theorem parseIdAris_wire {E : Crypt} {d : ARISR_CHUNK} {key B : List Nat}
    (wf : WfBuild d) (hlen : 8 ≤ B.length) (h4 : B.take 4 = d.id)
    (h8 : (B.drop 4).take 4 = arr 4 (E.ARISR_aes_aris_encrypt key d.aris).2)
    (hinv : E.ARISR_aes_aris_decrypt key (arr 4 (E.ARISR_aes_aris_encrypt key d.aris).2)
      = (kARISR_OK, d.aris))
    (b : ARISR_CHUNK) :
    parseIdAris E B key d.id (b, 0)
      = some (Sum.inr ({ b with id := d.id, aris := d.aris }, 8)) := by
  unfold parseIdAris
  have r1 : readBytes B 0 ARISR_PROTO_CRYPT_SIZE = some (B.take 8) := by
    rw [readBytes_in (by simpa [ARISR_PROTO_CRYPT_SIZE] using hlen)]
    simp [ARISR_PROTO_CRYPT_SIZE]
  have r2 : readBytes d.id 0 ARISR_PROTO_ID_SIZE = some d.id := by
    have := readBytes_all d.id
    rwa [wf.id_len] at this
  have e1 : (B.take 8).take ARISR_PROTO_ID_SIZE = d.id := by
    rw [List.take_take]; simpa [ARISR_PROTO_ID_SIZE] using h4
  have e2 : (B.take 8).drop ARISR_PROTO_ID_SIZE
      = arr 4 (E.ARISR_aes_aris_encrypt key d.aris).2 := by
    rw [List.drop_take]; simpa [ARISR_PROTO_ID_SIZE] using h8
  rw [r1, Option.some_bind, r2, Option.some_bind]
  simp only [e1, e2, hinv, ne_eq, not_true_eq_false, if_false,
    arr_of_length wf.aris_len, ARISR_PROTO_ARIS_SIZE, ARISR_PROTO_CRYPT_SIZE, Nat.zero_add]

theorem fields2_fit {P : Interface} {W : Widths} {d : ARISR_CHUNK} (hL : Layout P W)
    (hF : Fits W d) {n : Nat} (hn : n / P.ARISR_DATA_MULT < 2 ^ W.data_length) :
    ∀ f ∈ fields2 P W d.ctrl2 n, f.1 < 2 ^ f.2.2 ∧ f.2.2 ≤ 8 ∧ f.2.1 + f.2.2 ≤ 32 := by
  intro f hf
  have hin : f.2 ∈ windows2 P W := by
    have e : windows2 P W = (fields2 P W d.ctrl2 n).map Prod.snd := rfl
    rw [e]
    exact List.mem_map_of_mem _ hf
  refine ⟨?_, hL.inside2 _ hin⟩
  simp only [fields2, List.mem_cons, List.mem_singleton, List.not_mem_nil, or_false] at hf
  rcases hf with h | h | h | h <;> subst h
  · exact hn
  · exact hF.feature
  · exact hF.neg_answer
  · exact hF.freq_switch

/-- The parser reads back the four ctrl2 fields the builder packed; the length
field comes back multiplied by `ARISR_DATA_MULT`. -/
theorem parseCtrl2_buildCtrl2 {P : Interface} {W : Widths} {d : ARISR_CHUNK}
    (hL : Layout P W) (hF : Fits W d) {n : Nat}
    (hn : n / P.ARISR_DATA_MULT < 2 ^ W.data_length) :
    parseCtrl2 P (buildCtrl2 P d.ctrl2 n) =
      { data_length := n / P.ARISR_DATA_MULT * P.ARISR_DATA_MULT,
        feature := d.ctrl2.feature, neg_answer := d.ctrl2.neg_answer,
        freq_switch := d.ctrl2.freq_switch } := by
  have hd := fields2_disjoint hL d.ctrl2 n
  have hfit := fields2_fit hL hF hn
  have key : ∀ v s w, (v, s, w) ∈ fields2 P W d.ctrl2 n →
      ARISR_proto_ctrl_getField (some (buildCtrl2 P d.ctrl2 n)) (winMask s w) s = v := by
    intro v s w hm
    rw [buildCtrl2_eq, getField_be32Bytes (ctrl2Word_lt P d.ctrl2 n) (hfit _ hm).2.2,
      ctrl2Word_eq_packFields P W]
    exact getField_packFields _ hd hfit v s w hm
  have e1 := key (n / P.ARISR_DATA_MULT) P.ARISR_CTRL2_DATA_LENGTH_SHIFT W.data_length
    (by simp [fields2])
  have e2 := key d.ctrl2.feature P.ARISR_CTRL2_FEATURE_SHIFT W.feature (by simp [fields2])
  have e3 := key d.ctrl2.neg_answer P.ARISR_CTRL2_NEG_ANSWER_SHIFT W.neg_answer
    (by simp [fields2])
  have e4 := key d.ctrl2.freq_switch P.ARISR_CTRL2_FREQ_SWITCH_SHIFT W.freq_switch
    (by simp [fields2])
  unfold parseCtrl2
  rw [hL.data_length, hL.feature, hL.neg_answer, hL.freq_switch, e1, e2, e3, e4]

/-- Section "CTRL 1" on a built buffer. -/
theorem parseCtrl1Section_wire {P : Interface} {W : Widths} {d : ARISR_CHUNK} {B : List Nat}
    (hL : Layout P W) (hF : Fits W d) (hlen : 12 ≤ B.length)
    (h12 : (B.drop 8).take 4 = buildCtrl1 P d.ctrl) (b : ARISR_CHUNK) :
    parseCtrl1Section P B (b, 8) = some (Sum.inr ({ b with ctrl := d.ctrl }, 12)) := by
  unfold parseCtrl1Section
  have r1 : readBytes B 8 ARISR_CTRL_SECTION_SIZE = some (buildCtrl1 P d.ctrl) := by
    rw [readBytes_in (by simpa [ARISR_CTRL_SECTION_SIZE] using hlen)]
    simpa [ARISR_CTRL_SECTION_SIZE] using h12
  rw [r1, Option.some_bind, parseCtrl1_buildCtrl1 hL hF]
  rfl

/-- Section "ORIGIN & DESTINATION" on a built buffer. -/
theorem parseAddresses_wire {d : ARISR_CHUNK} {B : List Nat}
    (hlen : 24 ≤ B.length) (h18 : (B.drop 12).take 6 = d.origin)
    (h24 : (B.drop 18).take 6 = d.destinationA) (b : ARISR_CHUNK) :
    parseAddresses B (b, 12)
      = some (Sum.inr ({ b with origin := d.origin, destinationA := d.destinationA }, 24)) := by
  unfold parseAddresses
  have r1 : readBytes B 12 (ARISR_ADDRESS_SIZE * 2) = some ((B.drop 12).take 12) := by
    rw [readBytes_in (by simpa [ARISR_ADDRESS_SIZE] using hlen)]
    simp [ARISR_ADDRESS_SIZE]
  have e1 : ((B.drop 12).take 12).take ARISR_ADDRESS_SIZE = d.origin := by
    rw [List.take_take]; simpa [ARISR_ADDRESS_SIZE] using h18
  have e2 : ((B.drop 12).take 12).drop ARISR_ADDRESS_SIZE = d.destinationA := by
    rw [List.drop_take, List.drop_drop]; simpa [ARISR_ADDRESS_SIZE] using h24
  rw [r1, Option.some_bind, e1, e2]
  rfl

/-- Section "DESTINATIONS B" on a built buffer. -/
theorem parseDestinationsB_wire {E : Crypt} {d : ARISR_CHUNK} {B : List Nat}
    (hlen : 24 + 6 * d.ctrl.destinations ≤ B.length)
    (hB : (B.drop 24).take (6 * d.ctrl.destinations)
      = (d.destinationsB.getD []).take (6 * d.ctrl.destinations))
    (i2 : d.ctrl.destinations > 0 →
        ∃ l, d.destinationsB = some l ∧ l.length = 6 * d.ctrl.destinations)
    (hmalloc : d.ctrl.destinations > 0 →
      E.malloc (d.ctrl.destinations * ARISR_ADDRESS_SIZE) = true)
    (b : ARISR_CHUNK) (hc : b.ctrl = d.ctrl) (hn : b.destinationsB = none) :
    parseDestinationsB E B (b, 24)
      = some (Sum.inr ({ b with destinationsB :=
            if d.ctrl.destinations > 0 then d.destinationsB else none },
          24 + 6 * d.ctrl.destinations)) := by
  unfold parseDestinationsB
  simp only [hc]
  by_cases hN : d.ctrl.destinations > 0
  · obtain ⟨l, hl, hll⟩ := i2 hN
    have r1 : readBytes B 24 (d.ctrl.destinations * ARISR_ADDRESS_SIZE) = some l := by
      rw [readBytes_in (by simp only [ARISR_ADDRESS_SIZE]; omega)]
      simp only [ARISR_ADDRESS_SIZE, Nat.mul_comm d.ctrl.destinations 6, hB, hl,
        Option.getD_some]
      rw [← hll, List.take_length]
    rw [if_pos hN, hmalloc hN, r1, Option.some_bind, hl]
    simp [ARISR_ADDRESS_SIZE, hc, Nat.mul_comm, hN]
  · have h0 : d.ctrl.destinations = 0 := by omega
    simp only [hN, if_false, h0]
    cases b
    simp_all

/-- Section "DESTINATION C" on a built buffer. -/
theorem parseDestinationC_wire {d : ARISR_CHUNK} {B : List Nat}
    (hlen : 24 + 6 * d.ctrl.destinations + (if d.ctrl.from_ ≠ 0 then 6 else 0) ≤ B.length)
    (hC : d.ctrl.from_ ≠ 0 → (B.drop (24 + 6 * d.ctrl.destinations)).take 6 = d.destinationC)
    (i4 : d.ctrl.from_ = 0 → d.destinationC = List.replicate 6 0)
    (b : ARISR_CHUNK) (hc : b.ctrl = d.ctrl) :
    parseDestinationC B (b, 24 + 6 * d.ctrl.destinations)
      = some (Sum.inr ({ b with destinationC := d.destinationC },
          24 + 6 * d.ctrl.destinations + (if d.ctrl.from_ ≠ 0 then 6 else 0))) := by
  unfold parseDestinationC
  by_cases hf : d.ctrl.from_ ≠ 0
  · rw [if_pos hf] at hlen
    have r1 : readBytes B (24 + 6 * d.ctrl.destinations) ARISR_ADDRESS_SIZE
        = some d.destinationC := by
      rw [readBytes_in (by simp only [ARISR_ADDRESS_SIZE]; omega)]
      simpa [ARISR_ADDRESS_SIZE] using hC hf
    simp only [hc]
    rw [if_pos hf, if_pos hf, r1, Option.some_bind]
    rfl
  · have h0 : d.ctrl.from_ = 0 := by simpa using hf
    simp only [hc]
    rw [if_neg hf, if_neg hf, i4 h0]
    rfl

/-- Section "CTRL 2" on a built buffer whose ciphertext has `n` bytes. -/
theorem parseCtrl2Section_wire {P : Interface} {W : Widths} {d : ARISR_CHUNK} {B : List Nat}
    (hL : Layout P W) (hF : Fits W d) {n : Nat}
    (hn : n / P.ARISR_DATA_MULT < 2 ^ W.data_length)
    (hlen : headerEnd d ≤ B.length)
    (h2 : d.ctrl.more_header ≠ 0 →
      (B.drop (24 + 6 * d.ctrl.destinations + (if d.ctrl.from_ ≠ 0 then 6 else 0))).take 4
        = buildCtrl2 P d.ctrl2 n)
    (b : ARISR_CHUNK) (hc : b.ctrl = d.ctrl) :
    parseCtrl2Section P B
        (b, 24 + 6 * d.ctrl.destinations + (if d.ctrl.from_ ≠ 0 then 6 else 0))
      = some (Sum.inr ({ b with ctrl2 :=
            if d.ctrl.more_header ≠ 0 then
              { data_length := n / P.ARISR_DATA_MULT * P.ARISR_DATA_MULT,
                feature := d.ctrl2.feature, neg_answer := d.ctrl2.neg_answer,
                freq_switch := d.ctrl2.freq_switch }
            else ⟨0, 0, 0, 0⟩ }, headerEnd d)) := by
  unfold parseCtrl2Section headerEnd
  unfold headerEnd at hlen
  by_cases hm : d.ctrl.more_header ≠ 0
  · rw [if_pos hm] at hlen
    have r1 : readBytes B (24 + 6 * d.ctrl.destinations + (if d.ctrl.from_ ≠ 0 then 6 else 0))
        ARISR_CTRL_SECTION_SIZE = some (buildCtrl2 P d.ctrl2 n) := by
      rw [readBytes_in (by simp only [ARISR_CTRL_SECTION_SIZE]; omega)]
      simpa [ARISR_CTRL_SECTION_SIZE] using h2 hm
    simp only [hc]
    rw [if_pos hm, if_pos hm, if_pos hm, r1, Option.some_bind, parseCtrl2_buildCtrl2 hL hF hn]
    rfl
  · simp only [hc]
    rw [if_neg hm, if_neg hm, if_neg hm]
    rfl

/-- Section "CRC HEADER" on a built buffer. -/
theorem parseCrcHeader_wire {E : Crypt} {d : ARISR_CHUNK} {B : List Nat}
    (hlen : headerEnd d + 2 ≤ B.length)
    (hcrc : (B.drop (headerEnd d)).take 2
      = crcBytes (E.ARISR_crypt_crc16_calculate (B.take (headerEnd d))))
    (i5 : d.crc_header = crcBytes (E.ARISR_crypt_crc16_calculate (B.take (headerEnd d))))
    (b : ARISR_CHUNK) :
    parseCrcHeader E B (b, headerEnd d)
      = some (Sum.inr ({ b with crc_header := d.crc_header }, headerEnd d + 2)) := by
  unfold parseCrcHeader
  have r1 : readBytes B (headerEnd d) ARISR_CRC_SIZE = some d.crc_header := by
    rw [readBytes_in (by simpa [ARISR_CRC_SIZE] using hlen), i5]
    simpa [ARISR_CRC_SIZE] using hcrc
  have r2 : readBytes B 0 (headerEnd d) = some (B.take (headerEnd d)) := by
    rw [readBytes_in (by omega)]
    simp
  simp only []
  rw [r1, Option.some_bind, r2, Option.some_bind]
  simp only [i5, crcValue_crcBytes, ne_eq, not_true_eq_false, if_false, ARISR_CRC_SIZE]

/-- Section "END" on a built buffer. -/
theorem parseEnd_wire {d : ARISR_CHUNK} {B : List Nat} (wf : WfBuild d) {p : Nat}
    (hlen : p + 4 ≤ B.length) (he : B.drop p = d.id) (b : ARISR_CHUNK) :
    parseEnd B d.id (b, p) = some (kARISR_OK, { b with end_ := d.id }) := by
  unfold parseEnd
  have r1 : readBytes B p ARISR_PROTO_ID_SIZE = some d.id := by
    rw [readBytes_in (by simpa [ARISR_PROTO_ID_SIZE] using hlen), he]
    simp [ARISR_PROTO_ID_SIZE, ← wf.id_len]
  have r2 : readBytes d.id 0 ARISR_PROTO_ID_SIZE = some d.id := by
    have := readBytes_all d.id
    rwa [wf.id_len] at this
  simp only []
  rw [r1, Option.some_bind, r2, Option.some_bind]
  simp

/-- Section "DATA" on a built buffer that carries a payload. -/
theorem parseData_wire_present {E : Crypt} {d : ARISR_CHUNK} {key B enc plain : List Nat}
    {p : Nat} (hm : d.ctrl.more_header ≠ 0) (henc : 0 < enc.length)
    (hdrop : B.drop p = enc ++ (crcBytes (E.ARISR_crypt_crc16_calculate enc) ++ d.id))
    (i6 : d.crc_data = crcBytes (E.ARISR_crypt_crc16_calculate enc))
    (hdec : E.ARISR_aes_data_decrypt (dataKey key) enc enc.length = (kARISR_OK, plain))
    (b : ARISR_CHUNK) (hc : b.ctrl = d.ctrl) (hl : b.ctrl2.data_length = enc.length) :
    parseData E B key (b, p)
      = some (Sum.inr ({ b with crc_data := d.crc_data, data := some plain,
                                ctrl2 := { b.ctrl2 with data_length := plain.length } },
          p + enc.length + 2)) := by
  unfold parseData
  have hlen : p + enc.length + 2 + d.id.length ≤ B.length := by
    have := congrArg List.length hdrop
    simp only [List.length_drop, List.length_append, crcBytes_length] at this
    omega
  have r1 : readBytes B (p + enc.length) ARISR_CRC_SIZE = some d.crc_data := by
    rw [readBytes_in (by simp only [ARISR_CRC_SIZE]; omega), ← List.drop_drop, hdrop,
      List.drop_left' rfl, i6]
    exact congrArg some (List.take_left' (crcBytes_length _))
  have r2 : readBytes B p enc.length = some enc := by
    rw [readBytes_in (by omega), hdrop]
    exact congrArg some (List.take_left' rfl)
  simp only [hc, hl]
  rw [if_pos ⟨hm, henc⟩, r1, Option.some_bind, r2, Option.some_bind]
  simp only [i6, crcValue_crcBytes, hdec, ne_eq, not_true_eq_false, if_false, ARISR_CRC_SIZE]

/-- Section "DATA" on a buffer without payload. -/
theorem parseData_wire_absent {E : Crypt} {key B : List Nat} {p : Nat} (b : ARISR_CHUNK)
    (h : b.ctrl.more_header = 0 ∨ b.ctrl2.data_length = 0) :
    parseData E B key (b, p) = some (Sum.inr (b, p)) := by
  unfold parseData
  have : ¬ (b.ctrl.more_header ≠ 0 ∧ b.ctrl2.data_length > 0) := by
    rintro ⟨h1, h2⟩
    rcases h with h | h
    · exact h1 h
    · omega
  rw [if_neg this]

theorem memcpy_some (b : List Nat) (p : Nat) (s : List Nat) (h : p + s.length ≤ b.length) :
    ∃ b2, memcpy b p s = some b2 ∧ b2.length = b.length := by
  refine ⟨_, if_pos h, ?_⟩
  simp
  omega

/-- An optional section of the emission succeeds when it fits the buffer. -/
theorem optional_some {c : Prop} [Decidable c] (b : List Nat) (p k : Nat) (s : List Nat)
    (hs : s.length = k) (h : p + (if c then k else 0) ≤ b.length) :
    ∃ b2, (if c then (memcpy b p s).map (fun buffer => (buffer, p + k))
          else some (b, p)) = some (b2, p + (if c then k else 0)) ∧ b2.length = b.length := by
  by_cases hc : c
  · rw [if_pos hc] at h
    obtain ⟨b2, e, l⟩ := memcpy_some b p s (by omega)
    exact ⟨b2, by rw [if_pos hc, if_pos hc, e]; rfl, l⟩
  · exact ⟨b, by rw [if_neg hc, if_neg hc]; rfl, rfl⟩

/-- The emission phase succeeds on a buffer of exactly the size of the wire
layout, when the tag encryption succeeds and `destinationsB` is readable. -/
theorem buildEmit_some {P : Interface} {E : Crypt} {d : ARISR_CHUNK} {key : List Nat}
    {size : Nat} {enc : List Nat} (wf : WfBuild d)
    (hB : d.ctrl.destinations > 0 →
      ∃ l, d.destinationsB = some l ∧ l.length = 6 * d.ctrl.destinations)
    (hsize : size = 30 + 6 * d.ctrl.destinations +
      (if d.ctrl.from_ ≠ 0 then 6 else 0) + (if d.ctrl.more_header ≠ 0 then 4 else 0) +
      enc.length + (if d.ctrl.more_header ≠ 0 ∧ d.ctrl2.data_length > 0 then 2 else 0))
    (haris : (E.ARISR_aes_aris_encrypt key d.aris).1 = kARISR_OK) :
    ∃ r, buildEmit P E d key size enc = some r ∧ r.err = kARISR_OK := by
  obtain ⟨h1, h2, h3, h4, h5⟩ := wf
  obtain ⟨b1, hb1, l1⟩ := memcpy_some (List.replicate size 0) 0 (d.id ++ d.aris)
    (by simp [h1, h2]; omega)
  simp only [List.length_replicate] at l1
  have I1 : Holds b1 8 (d.id ++ d.aris) size :=
    memcpy_holds_eq (holds_zero size) hb1 (by simp [h1, h2]) (by simp)
  have htag : readBytes b1 ARISR_PROTO_ID_SIZE ARISR_PROTO_ARIS_SIZE = some d.aris := by
    rw [readBytes_in (by simp [ARISR_PROTO_ID_SIZE, ARISR_PROTO_ARIS_SIZE]; omega)]
    have := I1.2.2
    have e : b1 = (d.id ++ d.aris) ++ b1.drop 8 := by
      conv_lhs => rw [← List.take_append_drop 8 b1, this]
    rw [e, List.append_assoc]
    simp only [ARISR_PROTO_ID_SIZE, ARISR_PROTO_ARIS_SIZE]
    rw [List.drop_left' h1, List.take_left' h2]
  obtain ⟨b2, hb2, l2⟩ := memcpy_some b1 ARISR_PROTO_ID_SIZE
    (arr ARISR_PROTO_ARIS_SIZE (E.ARISR_aes_aris_encrypt key d.aris).2)
    (by simp [arr_length, ARISR_PROTO_ID_SIZE, ARISR_PROTO_ARIS_SIZE]; omega)
  obtain ⟨b3, hb3, l3⟩ := memcpy_some b2 8 (buildCtrl1 P d.ctrl)
    (by rw [buildCtrl1_length]; omega)
  obtain ⟨b4, hb4, l4⟩ := memcpy_some b3 12 (d.origin ++ d.destinationA)
    (by simp [h3, h4]; omega)
  have hx5 : ∃ b5, (if d.ctrl.destinations > 0 then
        (readPtr d.destinationsB (d.ctrl.destinations * ARISR_ADDRESS_SIZE)).bind fun src =>
        (memcpy b4 24 src).map fun buffer =>
          (buffer, 24 + d.ctrl.destinations * ARISR_ADDRESS_SIZE)
      else some (b4, 24)) = some (b5, 24 + 6 * d.ctrl.destinations) ∧ b5.length = size := by
    by_cases hN : d.ctrl.destinations > 0
    · obtain ⟨l, hl, hll⟩ := hB hN
      have r : readPtr d.destinationsB (d.ctrl.destinations * ARISR_ADDRESS_SIZE) = some l := by
        rw [hl]
        simp only [readPtr, ARISR_ADDRESS_SIZE]
        rw [Nat.mul_comm, ← hll]
        exact readBytes_all l
      obtain ⟨b5, e, l5⟩ := memcpy_some b4 24 l (by omega)
      refine ⟨b5, ?_, by omega⟩
      rw [if_pos hN, r, Option.some_bind, e]
      simp [ARISR_ADDRESS_SIZE, Nat.mul_comm]
    · have : d.ctrl.destinations = 0 := by omega
      exact ⟨b4, by rw [if_neg hN, this], by omega⟩
  obtain ⟨b5, hb5, l5⟩ := hx5
  obtain ⟨b6, hb6, l6⟩ := optional_some (c := d.ctrl.from_ ≠ 0) b5
    (24 + 6 * d.ctrl.destinations) ARISR_ADDRESS_SIZE d.destinationC h5
    (by simp only [ARISR_ADDRESS_SIZE]; split_ifs at hsize ⊢ <;> omega)
  obtain ⟨b7, hb7, l7⟩ := optional_some (c := d.ctrl.more_header ≠ 0) b6
    (24 + 6 * d.ctrl.destinations + (if d.ctrl.from_ ≠ 0 then ARISR_ADDRESS_SIZE else 0))
    ARISR_CTRL2_SECTION_SIZE (buildCtrl2 P d.ctrl2 enc.length) (buildCtrl2_length _ _ _)
    (by simp only [ARISR_ADDRESS_SIZE, ARISR_CTRL2_SECTION_SIZE]
        split_ifs at hsize ⊢ <;> omega)
  obtain ⟨b8, hb8, l8⟩ := memcpy_some b7
    (24 + 6 * d.ctrl.destinations + (if d.ctrl.from_ ≠ 0 then ARISR_ADDRESS_SIZE else 0)
      + (if d.ctrl.more_header ≠ 0 then ARISR_CTRL2_SECTION_SIZE else 0))
    (crcBytes (E.ARISR_crypt_crc16_calculate (b7.take
      (24 + 6 * d.ctrl.destinations + (if d.ctrl.from_ ≠ 0 then ARISR_ADDRESS_SIZE else 0)
        + (if d.ctrl.more_header ≠ 0 then ARISR_CTRL2_SECTION_SIZE else 0)))))
    (by simp only [ARISR_ADDRESS_SIZE, ARISR_CTRL2_SECTION_SIZE, crcBytes_length]
        split_ifs at hsize ⊢ <;> omega)
  obtain ⟨b9, hb9, l9⟩ := memcpy_some b8
    (24 + 6 * d.ctrl.destinations + (if d.ctrl.from_ ≠ 0 then ARISR_ADDRESS_SIZE else 0)
      + (if d.ctrl.more_header ≠ 0 then ARISR_CTRL2_SECTION_SIZE else 0) + 2) enc
    (by simp only [ARISR_ADDRESS_SIZE, ARISR_CTRL2_SECTION_SIZE]
        split_ifs at hsize ⊢ <;> omega)
  obtain ⟨b10, hb10, l10⟩ := optional_some
    (c := d.ctrl.more_header ≠ 0 ∧ d.ctrl2.data_length > 0) b9
    (24 + 6 * d.ctrl.destinations + (if d.ctrl.from_ ≠ 0 then ARISR_ADDRESS_SIZE else 0)
      + (if d.ctrl.more_header ≠ 0 then ARISR_CTRL2_SECTION_SIZE else 0) + 2 + enc.length) 2
    (crcBytes (E.ARISR_crypt_crc16_calculate enc)) (crcBytes_length _)
    (by simp only [ARISR_ADDRESS_SIZE, ARISR_CTRL2_SECTION_SIZE]
        split_ifs at hsize ⊢ <;> omega)
  obtain ⟨b11, hb11, l11⟩ := memcpy_some b10
    (24 + 6 * d.ctrl.destinations + (if d.ctrl.from_ ≠ 0 then ARISR_ADDRESS_SIZE else 0)
      + (if d.ctrl.more_header ≠ 0 then ARISR_CTRL2_SECTION_SIZE else 0) + 2 + enc.length
      + (if d.ctrl.more_header ≠ 0 ∧ d.ctrl2.data_length > 0 then 2 else 0)) d.id
    (by simp only [ARISR_ADDRESS_SIZE, ARISR_CTRL2_SECTION_SIZE, h1]
        split_ifs at hsize ⊢ <;> omega)
  refine ⟨⟨kARISR_OK, some b11, some size⟩, ?_, rfl⟩
  unfold buildEmit
  refine Option.bind_eq_some.mpr ⟨b1, hb1, ?_⟩
  refine Option.bind_eq_some.mpr ⟨d.aris, htag, ?_⟩
  refine Option.bind_eq_some.mpr ⟨b2, hb2, ?_⟩
  rw [if_neg (by simp [haris])]
  refine Option.bind_eq_some.mpr ⟨b3, hb3, ?_⟩
  refine Option.bind_eq_some.mpr ⟨b4, hb4, ?_⟩
  refine Option.bind_eq_some.mpr ⟨(b5, 24 + 6 * d.ctrl.destinations), hb5, ?_⟩
  refine Option.bind_eq_some.mpr ⟨(b6, _), hb6, ?_⟩
  refine Option.bind_eq_some.mpr ⟨(b7, _), hb7, ?_⟩
  refine Option.bind_eq_some.mpr ⟨b8, hb8, ?_⟩
  refine Option.bind_eq_some.mpr ⟨b9, hb9, ?_⟩
  refine Option.bind_eq_some.mpr ⟨(b10, _), hb10, ?_⟩
  refine Option.bind_eq_some.mpr ⟨b11, hb11, ?_⟩
  rfl

theorem wireDestinationsB_length_of {d : ARISR_CHUNK}
    (hB : d.ctrl.destinations > 0 →
      ∃ l, d.destinationsB = some l ∧ l.length = 6 * d.ctrl.destinations) :
    (wireDestinationsB d).length =
      (if d.ctrl.destinations > 0 then d.ctrl.destinations * ARISR_ADDRESS_SIZE else 0) := by
  unfold wireDestinationsB
  by_cases hN : d.ctrl.destinations > 0
  · obtain ⟨l, hl, hll⟩ := hB hN
    rw [if_pos hN, if_pos hN, hl]
    simp [ARISR_ADDRESS_SIZE, hll]
    omega
  · rw [if_neg hN, if_neg hN]
    rfl

theorem buildSize_status {E : Crypt} {d : ARISR_CHUNK} {key : List Nat}
    (h : d.ctrl.more_header ≠ 0 → d.ctrl2.data_length > 0 →
      (E.ARISR_aes_data_encrypt (dataKey key) d.data d.ctrl2.data_length).1 = kARISR_OK) :
    (buildSize E d key).1 = kARISR_OK := by
  unfold buildSize
  by_cases c3 : d.ctrl.more_header = 0
  · simp [c3]
  · by_cases c4 : d.ctrl2.data_length > 0
    · simp [c3, c4, h c3 c4]
    · simp [c3, c4]

/-- Forward evaluation of `ARISR_proto_build`: when the primitives and the
allocator succeed, `destinationsB` is readable and the size fits 32 bits, the
builder returns `kARISR_OK` with the wire layout. -/
theorem build_eval {P : Interface} {E : Crypt} {d : ARISR_CHUNK} {key : List Nat}
    (wf : WfBuild d)
    (hB : d.ctrl.destinations > 0 →
      ∃ l, d.destinationsB = some l ∧ l.length = 6 * d.ctrl.destinations)
    (haris : (E.ARISR_aes_aris_encrypt key d.aris).1 = kARISR_OK)
    (hdata : d.ctrl.more_header ≠ 0 → d.ctrl2.data_length > 0 →
      (E.ARISR_aes_data_encrypt (dataKey key) d.data d.ctrl2.data_length).1 = kARISR_OK)
    (hmalloc : E.malloc (wire P E d key (buildEnc E d key)).length = true)
    (hsize : (wire P E d key (buildEnc E d key)).length < 2 ^ 32) :
    ARISR_proto_build P E (some d) key
      = some ⟨kARISR_OK, some (wire P E d key (buildEnc E d key)),
          some (wire P E d key (buildEnc E d key)).length⟩ := by
  have hst := buildSize_status hdata
  obtain ⟨e1, e2, -⟩ := buildSize_ok hst
  have hlen := wire_length P E key wf (buildEnc E d key) (wireDestinationsB_length_of hB)
  have hsz : (buildSize E d key).2.2 % 2 ^ 32 = (wire P E d key (buildEnc E d key)).length := by
    rw [e2, ← hlen]
    exact Nat.mod_eq_of_lt hsize
  obtain ⟨r, hr, hok⟩ := @buildEmit_some P E d key
    (wire P E d key (buildEnc E d key)).length (buildEnc E d key) wf hB hlen haris
  have hb : ARISR_proto_build P E (some d) key = some r := by
    simp only [ARISR_proto_build]
    rw [if_neg (by simp [hst]), hsz, if_neg (by simp [hmalloc]), e1]
    exact hr
  obtain ⟨r1, r2, -⟩ := build_ok wf hb hok
  rw [hb]
  cases r
  simp only at r1 r2 hok
  subst r1 r2 hok
  rfl

theorem readable_destinationsB {P : Interface} {E : Crypt} {d : ARISR_CHUNK} {key : List Nat}
    (inv : Invariants P E d key) :
    d.ctrl.destinations > 0 →
      ∃ l, d.destinationsB = some l ∧ l.length = 6 * d.ctrl.destinations := by
  intro hN
  have h1 := inv.i2.1
  have h2 := inv.i2.2 hN
  cases hd : d.destinationsB with
  | none => exact absurd hd h2
  | some l =>
    rw [hd] at h1
    exact ⟨l, rfl, h1⟩

/-- C1 (amended). Round trip: for every decoded frame that satisfies I1 to I6,
whose control field values fit the bit windows of a proper layout and whose
payload length can be described by the ctrl2 length field, and for every key
under which the primitives succeed and are inverse to each other, with the
allocations succeeding and the size below 2^32, `ARISR_proto_build` returns
`kARISR_OK` and `ARISR_proto_parse` of its bytes returns `kARISR_OK` with a frame
equal to the original in every field, `ctrl2.data_length` being the plaintext
length reported by the data decryption. -/
theorem C1_round_trip (P : Interface) (E : Crypt) (W : Widths) (d : ARISR_CHUNK)
    (key : List Nat) (wf : WfBuild d) (hL : Layout P W) (hF : Fits W d)
    (inv : Invariants P E d key) (hI : Inverse E d key) (hp : PayloadFits P E W d key)
    (hmb : E.malloc (wire P E d key (buildEnc E d key)).length = true)
    (hmp : d.ctrl.destinations > 0 →
      E.malloc (d.ctrl.destinations * ARISR_ADDRESS_SIZE) = true)
    (hsize : (wire P E d key (buildEnc E d key)).length < 2 ^ 32) :
    RoundTrip P E d key := by
  have hB := readable_destinationsB inv
  have hb := build_eval wf hB hI.aris_ok hI.data_ok hmb hsize
  have hs := build_header_sections P E d key _ _ wf hb
  have ht := build_tail_sections P E d key _ _ wf hb
  have hlen := wire_length P E key wf (buildEnc E d key) (wireDestinationsB_length_of hB)
  obtain ⟨-, s4, s8, s12, s18, s24, sB, -, -, sC, s2⟩ := hs
  obtain ⟨t1, t2⟩ := ht
  generalize hBdef : wire P E d key (buildEnc E d key) = B at *
  have hE : headerEnd d = 24 + 6 * d.ctrl.destinations + (if d.ctrl.from_ ≠ 0 then 6 else 0) +
    (if d.ctrl.more_header ≠ 0 then 4 else 0) := rfl
  have i5 : d.crc_header
      = crcBytes (E.ARISR_crypt_crc16_calculate (B.take (headerEnd d))) := by
    rw [t1]; exact inv.i5
  have p1 := parseIdAris_wire (B := B) wf (by omega) s4 s8 hI.aris_inv
  have p2 := parseCtrl1Section_wire (B := B) hL hF (by omega) s12
  have p3 := parseAddresses_wire (B := B) (by omega) s18 s24
  have p4 := parseDestinationsB_wire (E := E) (B := B) (by omega) sB hB hmp
  have p5 := parseDestinationC_wire (B := B) (by split_ifs at hlen ⊢ <;> omega) sC inv.i4
  have p6 := parseCtrl2Section_wire (B := B) hL hF hp.quotient
    (by rw [hE]; split_ifs at hlen ⊢ <;> omega) s2
  have p7 := parseCrcHeader_wire (E := E) (B := B) (by rw [hE]; split_ifs at hlen ⊢ <;> omega)
    (by rw [t2]; exact List.take_left' (crcBytes_length _)) i5
  have chain : parseBody P E B key d.id
      = (parseData E B key
          ({ zeroChunk with
              id := d.id, aris := d.aris, ctrl := d.ctrl, origin := d.origin,
              destinationA := d.destinationA,
              destinationsB := if d.ctrl.destinations > 0 then d.destinationsB else none,
              destinationC := d.destinationC,
              ctrl2 := if d.ctrl.more_header ≠ 0 then
                  { data_length := (buildEnc E d key).length / P.ARISR_DATA_MULT
                      * P.ARISR_DATA_MULT,
                    feature := d.ctrl2.feature, neg_answer := d.ctrl2.neg_answer,
                    freq_switch := d.ctrl2.freq_switch }
                else ⟨0, 0, 0, 0⟩,
              crc_header := d.crc_header }, headerEnd d + 2)).bind fun s =>
            match s with
            | Sum.inl ret => some ret
            | Sum.inr st => parseEnd B d.id st := by
    unfold parseBody
    simp only [Step.next]
    rw [p1, Option.some_bind]
    simp only []
    rw [p2, Option.some_bind]
    simp only []
    rw [p3, Option.some_bind]
    simp only []
    rw [p4, Option.some_bind]
    simp only []
    rw [p5, Option.some_bind]
    simp only []
    rw [p6, Option.some_bind]
    simp only []
    rw [p7, Option.some_bind]
    all_goals rfl
  have t3 : B.drop (headerEnd d + 2) = buildEnc E d key ++
      ((if d.ctrl.more_header ≠ 0 ∧ d.ctrl2.data_length > 0 then
          crcBytes (E.ARISR_crypt_crc16_calculate (buildEnc E d key)) else []) ++ d.id) := by
    rw [← List.drop_drop, t2, List.drop_left' (crcBytes_length _)]
  by_cases hpay : d.ctrl.more_header ≠ 0 ∧ d.ctrl2.data_length > 0
  · have hm := hpay.1
    have hl := hpay.2
    rw [if_pos hpay] at t3 hlen
    have henc := hp.positive hm hl
    have hdec := hI.data_inv hm hl
    have hq : (buildEnc E d key).length / P.ARISR_DATA_MULT * P.ARISR_DATA_MULT
        = (buildEnc E d key).length := Nat.div_mul_cancel hp.multiple
    have p8 := parseData_wire_present (E := E) (B := B) (p := headerEnd d + 2) hm henc t3
      (inv.i6 hm hl) hdec
    have he : B.drop (headerEnd d + 2 + (buildEnc E d key).length + 2) = d.id := by
      rw [← List.drop_drop, ← List.drop_drop, t3, List.drop_left' rfl,
        List.drop_left' (crcBytes_length _)]
    have p9 := parseEnd_wire (B := B) (p := headerEnd d + 2 + (buildEnc E d key).length + 2)
      wf (by rw [hE]; split_ifs at hlen ⊢ <;> omega) he
    have hparse := chain
    rw [p8, Option.some_bind] at hparse
    simp only [] at hparse
    rw [p9] at hparse
    rotate_left
    · rfl
    · simp only [if_pos hm]
      exact hq
    exact ⟨B, B.length, _, hb,
      fun prior => by
        simp only [ARISR_proto_parse]
        rw [hparse]
        rfl,
      by
        simp only [if_pos hm, hdec, inv.i1, and_self, true_and, Option.getD_some, if_pos hl,
          hm, hl, ne_eq, not_false_eq_true, gt_iff_lt, if_true]
        by_cases hN : d.ctrl.destinations > 0
        · simp [hN]
        · have h0 : d.ctrl.destinations = 0 := by omega
          have := inv.i2.1
          rw [h0] at this
          simp [hN, List.length_eq_zero.mp this]⟩
  · have henc : buildEnc E d key = [] := by
      unfold buildEnc
      rw [if_neg hpay]
    rw [if_neg hpay, henc] at t3 hlen
    simp only [List.nil_append, List.length_nil, Nat.add_zero] at t3 hlen
    have hzero : d.data.getD [] = [] ∧ d.crc_data = [0, 0] ∧
        (d.ctrl.more_header = 0 → d.ctrl2 = ⟨0, 0, 0, 0⟩) := by
      by_cases hm : d.ctrl.more_header = 0
      · obtain ⟨a, b, c⟩ := inv.i3 hm
        exact ⟨b, c, fun _ => a⟩
      · have hl : d.ctrl2.data_length = 0 := by
          by_contra hne
          exact hpay ⟨hm, Nat.pos_of_ne_zero hne⟩
        obtain ⟨a, b⟩ := hp.no_data hm hl
        exact ⟨a, b, fun h => absurd h hm⟩
    have p8 := @parseData_wire_absent E key B (headerEnd d + 2)
    have p9 := parseEnd_wire (B := B) (p := headerEnd d + 2) wf
      (by rw [hE]; split_ifs at hlen ⊢ <;> omega) t3
    have hparse := chain
    rw [henc, p8, Option.some_bind] at hparse
    simp only [] at hparse
    rw [p9] at hparse
    rotate_left
    · by_cases hm : d.ctrl.more_header = 0
      · left; exact hm
      · right
        simp [hm]
    exact ⟨B, B.length, _, hb,
      fun prior => by
        simp only [ARISR_proto_parse]
        rw [hparse]
        rfl,
      by
        simp only [inv.i1, and_self, true_and, if_neg hpay, hzero.1, hzero.2.1]
        by_cases hm : d.ctrl.more_header = 0
        · have := hzero.2.2 hm
          by_cases hN : d.ctrl.destinations > 0
          · simp [hN, hm, this, zeroChunk]
          · have h0 : d.ctrl.destinations = 0 := by omega
            have h2 := inv.i2.1
            rw [h0] at h2
            simp [hN, hm, this, zeroChunk, List.length_eq_zero.mp h2]
        · by_cases hN : d.ctrl.destinations > 0
          · simp [hN, hm, zeroChunk]
          · have h0 : d.ctrl.destinations = 0 := by omega
            have h2 := inv.i2.1
            rw [h0] at h2
            simp [hN, hm, zeroChunk, List.length_eq_zero.mp h2]⟩

theorem wfBuild_frameS4r : WfBuild frameS4r := ⟨rfl, rfl, rfl, rfl, rfl⟩

theorem layout_sample : Layout sampleInterface sampleWidths := by
  constructor <;> decide

theorem fits_frameS4r : Fits sampleWidths frameS4r := by
  constructor <;> decide

set_option maxRecDepth 100000 in
theorem invariants_frameS4r : Invariants sampleInterface sampleCrypt frameS4r sampleKey := by
  constructor <;> decide

set_option maxRecDepth 100000 in
theorem inverse_frameS4r : Inverse sampleCrypt frameS4r sampleKey := by
  constructor <;> decide

set_option maxRecDepth 100000 in
theorem payloadFits_frameS4r :
    PayloadFits sampleInterface sampleCrypt sampleWidths frameS4r sampleKey := by
  constructor <;> decide

set_option maxRecDepth 100000 in
theorem size_frameS4r :
    (wire sampleInterface sampleCrypt frameS4r sampleKey
      (buildEnc sampleCrypt frameS4r sampleKey)).length < 2 ^ 32 := by decide

/-- Witness of C1 (amended) on the payload frame S4: all hypotheses hold for the
sample instance, hence the round trip. -/
theorem C1_round_trip_witness :
    WfBuild frameS4r ∧ Layout sampleInterface sampleWidths ∧ Fits sampleWidths frameS4r ∧
    Invariants sampleInterface sampleCrypt frameS4r sampleKey ∧
    Inverse sampleCrypt frameS4r sampleKey ∧
    PayloadFits sampleInterface sampleCrypt sampleWidths frameS4r sampleKey ∧
    RoundTrip sampleInterface sampleCrypt frameS4r sampleKey :=
  ⟨wfBuild_frameS4r, layout_sample, fits_frameS4r, invariants_frameS4r, inverse_frameS4r,
    payloadFits_frameS4r,
    C1_round_trip sampleInterface sampleCrypt sampleWidths frameS4r sampleKey wfBuild_frameS4r
      layout_sample fits_frameS4r invariants_frameS4r inverse_frameS4r payloadFits_frameS4r
      rfl (fun _ => rfl) size_frameS4r⟩

theorem cleanAndReturn_fst (E : Crypt) (e : ARISR_ERR) (b : ARISR_CHUNK) :
    (ARISR_CLEAN_AND_RETURN E e b).1 = e := rfl

theorem keepsCtrl_parseAddresses (data : List Nat) : KeepsCtrl (parseAddresses data) := by
  intro st s h
  unfold parseAddresses at h
  simp only [Option.bind_eq_some, Option.some.injEq] at h
  obtain ⟨od, -, rfl⟩ := h
  simp

theorem keepsCtrl_parseDestinationsB (E : Crypt) (data : List Nat) :
    KeepsCtrl (parseDestinationsB E data) := by
  intro st s h
  unfold parseDestinationsB at h
  split_ifs at h
  · simp only [Option.some.injEq] at h
    subst h
    simp [cleanAndReturn_fst]
  · simp only [Option.bind_eq_some, Option.some.injEq] at h
    obtain ⟨dB, -, rfl⟩ := h
    simp
  · simp only [Option.some.injEq] at h
    subst h
    simp

theorem keepsCtrl_parseDestinationC (data : List Nat) : KeepsCtrl (parseDestinationC data) := by
  intro st s h
  unfold parseDestinationC at h
  simp only [] at h
  split_ifs at h
  · simp only [Option.bind_eq_some, Option.some.injEq] at h
    obtain ⟨dC, -, rfl⟩ := h
    simp
  · simp only [Option.some.injEq] at h
    subst h
    simp

theorem keepsCtrl_parseCtrl2Section (P : Interface) (data : List Nat) :
    KeepsCtrl (parseCtrl2Section P data) := by
  intro st s h
  unfold parseCtrl2Section at h
  split_ifs at h
  · simp only [Option.bind_eq_some, Option.some.injEq] at h
    obtain ⟨c, -, rfl⟩ := h
    simp
  · simp only [Option.some.injEq] at h
    subst h
    simp

theorem keepsCtrl_parseCrcHeader (E : Crypt) (data : List Nat) :
    KeepsCtrl (parseCrcHeader E data) := by
  intro st s h
  unfold parseCrcHeader at h
  simp only [Option.bind_eq_some] at h
  obtain ⟨c, -, hd, -, h⟩ := h
  split_ifs at h
  · simp only [Option.some.injEq] at h
    subst h
    simp [cleanAndReturn_fst]
  · simp only [Option.some.injEq] at h
    subst h
    simp

theorem keepsCtrl_parseData (E : Crypt) (data key : List Nat) :
    KeepsCtrl (parseData E data key) := by
  intro st s h
  unfold parseData at h
  split_ifs at h
  · simp only [Option.bind_eq_some] at h
    obtain ⟨c, -, ci, -, h⟩ := h
    split_ifs at h with h1 h2
    · simp only [Option.some.injEq] at h
      subst h
      simp [cleanAndReturn_fst]
    · simp only [Option.some.injEq] at h
      subst h
      simpa [cleanAndReturn_fst] using h2
    · simp only [Option.some.injEq] at h
      subst h
      simp
  · simp only [Option.some.injEq] at h
    subst h
    simp

/-- Sequencing with a section that keeps `ctrl`: a continuing outcome still
carries the `ctrl` of the first part, a returned status is still an error. -/
theorem next_keepsCtrl {x : Step} {f : ParseState → Step} {c : ARISR_CHUNK_CTRL}
    (hx : ∀ s, x = some s →
      (∀ r, s = Sum.inl r → r.1 ≠ kARISR_OK) ∧ (∀ st2, s = Sum.inr st2 → st2.1.ctrl = c))
    (hf : KeepsCtrl f) :
    ∀ s, x.next f = some s →
      (∀ r, s = Sum.inl r → r.1 ≠ kARISR_OK) ∧ (∀ st2, s = Sum.inr st2 → st2.1.ctrl = c) := by
  intro s h
  unfold Step.next at h
  simp only [Option.bind_eq_some] at h
  obtain ⟨s1, h1, h2⟩ := h
  obtain ⟨a1, a2⟩ := hx s1 h1
  cases s1 with
  | inl r =>
    simp only [Option.some.injEq] at h2
    subst h2
    exact ⟨fun r2 e => a1 r2 e, fun st2 e => by simp at e⟩
  | inr st1 =>
    simp only at h2
    obtain ⟨b1, b2⟩ := hf st1 s h2
    exact ⟨b1, fun st2 e => by rw [b2 st2 e]; exact a2 st1 rfl⟩

theorem parseIdAris_ctrl1_inv (P : Interface) (E : Crypt) (data key id : List Nat) :
    ∀ s, (parseIdAris E data key id (zeroChunk, 0)).next (parseCtrl1Section P data) = some s →
      (∀ r, s = Sum.inl r → r.1 ≠ kARISR_OK) ∧
      (∀ st2, s = Sum.inr st2 → st2.1.ctrl = parseCtrl1 P ((data.drop 8).take 4)) := by
  intro s h
  unfold Step.next at h
  simp only [Option.bind_eq_some] at h
  obtain ⟨s1, h1, h2⟩ := h
  unfold parseIdAris at h1
  simp only [Option.bind_eq_some] at h1
  obtain ⟨c, -, i, -, h1⟩ := h1
  split_ifs at h1
  · simp only [Option.some.injEq] at h1
    subst h1
    simp only [Option.some.injEq] at h2
    subst h2
    simp
  · simp only [Option.some.injEq] at h1
    subst h1
    simp only [Option.some.injEq] at h2
    subst h2
    simp
  · simp only [Option.some.injEq] at h1
    subst h1
    simp only at h2
    unfold parseCtrl1Section at h2
    simp only [Option.bind_eq_some, Option.some.injEq] at h2
    obtain ⟨cw, hcw, rfl⟩ := h2
    have := (readBytes_eq_some hcw).2.1
    simp only [Nat.zero_add, ARISR_PROTO_CRYPT_SIZE, ARISR_CTRL_SECTION_SIZE] at this
    simp [this]

/-- Every frame `ARISR_proto_parse` returns with `kARISR_OK` carries the nine
fields extracted from the bytes [8,12) of the input. -/
theorem parseBody_ok_ctrl {P : Interface} {E : Crypt} {data key id : List Nat}
    {G : ARISR_CHUNK} (h : parseBody P E data key id = some (kARISR_OK, G)) :
    G.ctrl = parseCtrl1 P ((data.drop 8).take 4) := by
  unfold parseBody at h
  simp only [Option.bind_eq_some] at h
  obtain ⟨s, hs, h⟩ := h
  have inv := next_keepsCtrl (next_keepsCtrl (next_keepsCtrl (next_keepsCtrl (next_keepsCtrl
    (next_keepsCtrl (parseIdAris_ctrl1_inv P E data key id)
      (keepsCtrl_parseAddresses data))
      (keepsCtrl_parseDestinationsB E data))
      (keepsCtrl_parseDestinationC data))
      (keepsCtrl_parseCtrl2Section P data))
      (keepsCtrl_parseCrcHeader E data))
      (keepsCtrl_parseData E data key) s hs
  cases s with
  | inl r =>
    simp only [Option.some.injEq] at h
    have := inv.1 r rfl
    rw [h] at this
    exact absurd rfl this
  | inr st =>
    simp only at h
    unfold parseEnd at h
    simp only [Option.bind_eq_some] at h
    obtain ⟨e, -, i, -, h⟩ := h
    split_ifs at h
    · simp at h
    · simp only [Option.some.injEq, Prod.mk.injEq, true_and] at h
      subst h
      exact inv.2 st rfl

/-- A round trip forces the parser to read back the ctrl1 fields the builder
packed. -/
theorem roundTrip_ctrl {P : Interface} {E : Crypt} {d : ARISR_CHUNK} {key : List Nat}
    (wf : WfBuild d) (h : RoundTrip P E d key) :
    parseCtrl1 P (buildCtrl1 P d.ctrl) = d.ctrl := by
  obtain ⟨B, n, G, hb, hp, -, -, hc, -⟩ := h
  have h12 := (build_header_sections P E d key B n wf hb).2.2.2.1
  have hp0 := hp zeroChunk
  simp only [ARISR_proto_parse, Option.map_eq_some'] at hp0
  obtain ⟨r, hr, hr2⟩ := hp0
  obtain ⟨e, G2⟩ := r
  simp only [Prod.mk.injEq, Option.some.injEq] at hr2
  obtain ⟨rfl, rfl⟩ := hr2
  rw [← h12, ← parseBody_ok_ctrl hr, hc]

theorem testBit_255 (k : Nat) : (255 : Nat).testBit k = decide (k < 8) :=
  Nat.testBit_two_pow_sub_one 8 k

theorem testBit_window (w m s k : Nat) :
    (((w &&& (m % 2 ^ 32)) >>> s) % 256).testBit k
      = (decide (k < 8) && (w.testBit (s + k) && (decide (s + k < 32) && m.testBit (s + k)))) := by
  rw [testBit_mod_256, Nat.testBit_shiftRight, Nat.testBit_and, Nat.testBit_mod_two_pow]

theorem testBit_ones (s t : Nat) :
    ((255 <<< s) % 2 ^ 32).testBit t
      = (decide (t < 32) && (decide (s ≤ t) && decide (t - s < 8))) := by
  rw [Nat.testBit_mod_two_pow, Nat.testBit_shiftLeft, testBit_255]

/-- A field that reads back 255 from the word holding 255 at its own shift has
a window of eight mask bits inside the word. -/
theorem own_window {s m : Nat}
    (h : ((((255 <<< s) % 2 ^ 32) &&& (m % 2 ^ 32)) >>> s) % 256 = 255) :
    s + 7 < 32 ∧ ∀ k, k < 8 → m.testBit (s + k) = true := by
  have key : ∀ k, k < 8 → (s + k < 32 ∧ m.testBit (s + k) = true) := by
    intro k hk
    have := congrArg (fun x => x.testBit k) h
    simp only [testBit_window, testBit_ones, testBit_255, hk, decide_True, Bool.true_and,
      Bool.and_eq_true, decide_eq_true_eq] at this
    exact ⟨this.2.1, this.2.2⟩
  exact ⟨(key 7 (by norm_num)).1, fun k hk => (key k hk).2⟩

/-- A field that reads back 0 from the word holding 255 at another shift has a
window disjoint from the eight bits at that shift. -/
theorem other_window {si sj mj : Nat} (hj : sj + 7 < 32)
    (hm : ∀ k, k < 8 → mj.testBit (sj + k) = true)
    (h : ((((255 <<< si) % 2 ^ 32) &&& (mj % 2 ^ 32)) >>> sj) % 256 = 0) :
    sj + 8 ≤ si ∨ si + 8 ≤ sj := by
  have key : ∀ k, k < 8 → ¬ (si ≤ sj + k ∧ sj + k - si < 8) := by
    intro k hk hc
    have := congrArg (fun x => x.testBit k) h
    have h32 : sj + k < 32 := by omega
    simp only [testBit_window, testBit_ones, hk, hm k hk, h32, hc.1, hc.2, decide_True,
      Bool.true_and, Bool.and_self, Nat.zero_testBit] at this
    exact absurd this (by decide)
  have k0 := key 0 (by norm_num)
  have k7 := key 7 (by norm_num)
  omega

theorem getField_be32Bytes_raw {w : Nat} (hw : w < 2 ^ 32) (m s : Nat) :
    ARISR_proto_ctrl_getField (some (be32Bytes w)) m s
      = ((w &&& (m % 2 ^ 32)) >>> (s % 256)) % 256 := by
  simp only [ARISR_proto_ctrl_getField]
  rw [be32_be32Bytes_nil, Nat.mod_eq_of_lt hw]

theorem orField_zero_value (w s : Nat) : orField w 0 s = w := by
  simp [orField]

theorem orField_zero_word (v s : Nat) :
    orField 0 v s = ((v % 256) <<< (s % 256)) % 2 ^ 32 := by
  simp [orField]

/-- The hypotheses of the round trip, other than the fit of the field values,
hold for the probe frame of any byte-valued control word that selects no
optional section. -/
theorem probeFrame_hypotheses (P : Interface) (E : Crypt) (key : List Nat)
    (hT : TagInverse E key) (c : ARISR_CHUNK_CTRL)
    (hd : c.destinations = 0) (hf : c.from_ = 0) (hm : c.more_header = 0)
    (hb : c.version < 256 ∧ c.option < 256 ∧ c.sequence < 256 ∧ c.retry < 256 ∧
      c.more_data < 256 ∧ c.identifier < 256) :
    WfBuild (probeFrame P E key c) ∧ CtrlBytes (probeFrame P E key c) ∧
      Invariants P E (probeFrame P E key c) key ∧ Inverse E (probeFrame P E key c) key := by
  have henc : buildEnc E (probeFrame P E key c) key = [] := by
    simp [buildEnc, probeFrame, hm]
  refine ⟨⟨rfl, rfl, rfl, rfl, rfl⟩, ?_, ?_, ?_⟩
  · constructor <;> simp [probeFrame, zeroChunk, hd, hf, hm, hb]
  · constructor
    · rfl
    · simp [probeFrame, zeroChunk, hd]
    · intro _; simp [probeFrame, zeroChunk]
    · intro _; rfl
    · rw [henc]; rfl
    · intro h; exact absurd hm h
  · obtain ⟨a1, a2⟩ := hT (probeFrame P E key c).aris rfl
    constructor
    · exact a1
    · exact a2
    · intro h; exact absurd hm h
    · intro h; exact absurd hm h

set_option maxRecDepth 10000 in
/-- C1 (as stated) fails: whatever the (mask, shift) constants, the primitives
(the tag decryption undoing the tag encryption, the allocator succeeding) and
the key are, the round trip does not hold for every frame that satisfies I1 to
I6, even among frames whose control fields are bytes.  Five frames that differ
from the all-zero frame in one ctrl1 field of value 255 would need five disjoint
8-bit windows in the 32-bit control word. -/
theorem C1_round_trip_counterexample :
    ¬ ∃ (P : Interface) (E : Crypt) (key : List Nat),
      TagInverse E key ∧ (∀ n, E.malloc n = true) ∧
      ∀ d : ARISR_CHUNK, WfBuild d → CtrlBytes d → Invariants P E d key → Inverse E d key →
        RoundTrip P E d key := by
  rintro ⟨P, E, key, hT, -, H⟩
  have probe : ∀ c : ARISR_CHUNK_CTRL, c.destinations = 0 → c.from_ = 0 → c.more_header = 0 →
      (c.version < 256 ∧ c.option < 256 ∧ c.sequence < 256 ∧ c.retry < 256 ∧
        c.more_data < 256 ∧ c.identifier < 256) →
      parseCtrl1 P (be32Bytes (ctrl1Word P c)) = c := by
    intro c hd hf hm hb
    obtain ⟨wf, cb, inv, hI⟩ := probeFrame_hypotheses P E key hT c hd hf hm hb
    have := roundTrip_ctrl wf (H (probeFrame P E key c) wf cb inv hI)
    rwa [buildCtrl1_eq] at this
  have hV := probe probeVersion rfl rfl rfl (by decide)
  have hO := probe probeOption rfl rfl rfl (by decide)
  have hS := probe probeSequence rfl rfl rfl (by decide)
  have hR := probe probeRetry rfl rfl rfl (by decide)
  have hM := probe probeMoreData rfl rfl rfl (by decide)
  have wV : ctrl1Word P probeVersion
      = (255 <<< (P.ARISR_CTRL_VERSION_SHIFT % 256)) % 2 ^ 32 := by
    simp [ctrl1Word, probeVersion, orField_zero_value, orField_zero_word]
  have wO : ctrl1Word P probeOption
      = (255 <<< (P.ARISR_CTRL_OPTION_SHIFT % 256)) % 2 ^ 32 := by
    simp [ctrl1Word, probeOption, orField_zero_value, orField_zero_word]
  have wS : ctrl1Word P probeSequence
      = (255 <<< (P.ARISR_CTRL_SEQUENCE_SHIFT % 256)) % 2 ^ 32 := by
    simp [ctrl1Word, probeSequence, orField_zero_value, orField_zero_word]
  have wR : ctrl1Word P probeRetry
      = (255 <<< (P.ARISR_CTRL_RETRY_SHIFT % 256)) % 2 ^ 32 := by
    simp [ctrl1Word, probeRetry, orField_zero_value, orField_zero_word]
  have wM : ctrl1Word P probeMoreData
      = (255 <<< (P.ARISR_CTRL_MD_SHIFT % 256)) % 2 ^ 32 := by
    simp [ctrl1Word, probeMoreData, orField_zero_value, orField_zero_word]
  have lt : ∀ s : Nat, (255 <<< s) % 2 ^ 32 < 2 ^ 32 := fun s => Nat.mod_lt _ (by norm_num)
  rw [wV] at hV
  rw [wO] at hO
  rw [wS] at hS
  rw [wR] at hR
  rw [wM] at hM
  simp only [parseCtrl1, getField_be32Bytes_raw (lt _)] at hV hO hS hR hM
  -- own windows
  obtain ⟨bV, mV⟩ := own_window (congrArg ARISR_CHUNK_CTRL.version hV)
  obtain ⟨bO, mO⟩ := own_window (congrArg ARISR_CHUNK_CTRL.option hO)
  obtain ⟨bS, mS⟩ := own_window (congrArg ARISR_CHUNK_CTRL.sequence hS)
  obtain ⟨bR, mR⟩ := own_window (congrArg ARISR_CHUNK_CTRL.retry hR)
  obtain ⟨bM, mM⟩ := own_window (congrArg ARISR_CHUNK_CTRL.more_data hM)
  -- pairwise disjointness
  have dVO := other_window bO mO (congrArg ARISR_CHUNK_CTRL.option hV)
  have dVS := other_window bS mS (congrArg ARISR_CHUNK_CTRL.sequence hV)
  have dVR := other_window bR mR (congrArg ARISR_CHUNK_CTRL.retry hV)
  have dVM := other_window bM mM (congrArg ARISR_CHUNK_CTRL.more_data hV)
  have dOS := other_window bS mS (congrArg ARISR_CHUNK_CTRL.sequence hO)
  have dOR := other_window bR mR (congrArg ARISR_CHUNK_CTRL.retry hO)
  have dOM := other_window bM mM (congrArg ARISR_CHUNK_CTRL.more_data hO)
  have dSR := other_window bR mR (congrArg ARISR_CHUNK_CTRL.retry hS)
  have dSM := other_window bM mM (congrArg ARISR_CHUNK_CTRL.more_data hS)
  have dRM := other_window bM mM (congrArg ARISR_CHUNK_CTRL.more_data hR)
  omega

theorem setField_snd (c : List Nat) (v s : Nat) :
    (ARISR_proto_ctrl_setField (some c) v s).2 = some (setLocal c v s) := by
  simp [setLocal, ARISR_proto_ctrl_setField]

theorem setPair_eq (x sa y sb : Nat) :
    setPair x sa y sb = some (be32Bytes (orField (orField 0 x sa) y sb)) := by
  have h0 : (0 : Nat) < 2 ^ 32 := by norm_num
  rw [setPair, setField_snd, setField_snd, zeros_eq_be32Bytes, setLocal_word _ _ h0,
    setLocal_word _ _ (orField_lt _ _ h0)]

theorem fitsMask_lt {v mask shift : Nat} (hm : mask < 2 ^ 32) (h : FitsMask v mask shift) :
    v <<< shift < 2 ^ 32 := by
  unfold FitsMask at h
  rw [← h]
  exact Nat.lt_of_le_of_lt Nat.and_le_right hm

/-- Two values that fit disjoint masks: the first one is read back. -/
theorem and_or_fits {X Y ma mb : Nat} (hd : ma &&& mb = 0) (fx : X &&& ma = X)
    (fy : Y &&& mb = Y) : (X ||| Y) &&& ma = X ∧ (X ||| Y) &&& mb = Y := by
  constructor <;>
  · apply Nat.eq_of_testBit_eq
    intro i
    have h1 := congrArg (fun n => n.testBit i) fx
    have h2 := congrArg (fun n => n.testBit i) fy
    have h3 := congrArg (fun n => n.testBit i) hd
    simp only [Nat.testBit_and, Nat.zero_testBit] at h1 h2 h3
    simp only [Nat.testBit_and, Nat.testBit_or]
    revert h1 h2 h3
    cases X.testBit i <;> cases Y.testBit i <;> cases ma.testBit i <;>
      cases mb.testBit i <;> simp

theorem isolated_of_fits {ma sa mb sb x y : Nat} (hd : ma &&& mb = 0)
    (hma : ma < 2 ^ 32) (hmb : mb < 2 ^ 32) (hsa : sa < 32) (hsb : sb < 32)
    (hx : x < 256) (hy : y < 256) (fx : FitsMask x ma sa) (fy : FitsMask y mb sb) :
    Isolated ma sa mb sb x y := by
  have lx := fitsMask_lt hma fx
  have ly := fitsMask_lt hmb fy
  have hW : orField (orField 0 x sa) y sb = (x <<< sa) ||| (y <<< sb) := by
    simp only [orField, Nat.mod_eq_of_lt hx, Nat.mod_eq_of_lt hy,
      Nat.mod_eq_of_lt (show sa < 256 by omega), Nat.mod_eq_of_lt (show sb < 256 by omega),
      Nat.mod_eq_of_lt lx, Nat.mod_eq_of_lt ly, Nat.zero_or]
  have hlt : (x <<< sa) ||| (y <<< sb) < 2 ^ 32 := Nat.or_lt_two_pow lx ly
  obtain ⟨ea, eb⟩ := and_or_fits hd fx fy
  unfold Isolated
  rw [setPair_eq, hW]
  simp only [ARISR_proto_ctrl_getField, be32_be32Bytes_nil, Nat.mod_eq_of_lt hlt,
    Nat.mod_eq_of_lt hma, Nat.mod_eq_of_lt hmb, Nat.mod_eq_of_lt (show sa < 256 by omega),
    Nat.mod_eq_of_lt (show sb < 256 by omega), ea, eb, Nat.shiftLeft_shiftRight,
    Nat.mod_eq_of_lt hx, Nat.mod_eq_of_lt hy, and_self]

/-- Claim C11, as amended: for two fields with disjoint 32-bit masks, valid
shifts and byte values `x`, `y` that fit their masks (no bit of `x << shift_a`
outside `mask_a`, none of `y << shift_b` outside `mask_b`), setting `x` at
`shift_a` and then `y` at `shift_b` on a zeroed word and reading both fields back
with `ARISR_proto_ctrl_getField` gives `x` and `y`. -/
theorem C11_bitfield_isolation (mask_a shift_a mask_b shift_b x y : Nat)
    (hd : mask_a &&& mask_b = 0) (hma : mask_a < 2 ^ 32) (hmb : mask_b < 2 ^ 32)
    (hsa : shift_a < 32) (hsb : shift_b < 32) (hx : x < 256) (hy : y < 256)
    (fx : FitsMask x mask_a shift_a) (fy : FitsMask y mask_b shift_b) :
    ARISR_proto_ctrl_getField
      (ARISR_proto_ctrl_setField
        (ARISR_proto_ctrl_setField (some (List.replicate 4 0)) x shift_a).2 y shift_b).2
      mask_a shift_a = x ∧
    ARISR_proto_ctrl_getField
      (ARISR_proto_ctrl_setField
        (ARISR_proto_ctrl_setField (some (List.replicate 4 0)) x shift_a).2 y shift_b).2
      mask_b shift_b = y :=
  isolated_of_fits hd hma hmb hsa hsb hx hy fx fy

/-- Witness of C11 on the `option` and `sequence` fields of the sample layout. -/
theorem C11_bitfield_isolation_witness :
    (0x03E00000 &&& 0x000FF000 = 0 ∧ FitsMask 17 0x03E00000 21 ∧ FitsMask 200 0x000FF000 12) ∧
    (ARISR_proto_ctrl_getField
      (ARISR_proto_ctrl_setField
        (ARISR_proto_ctrl_setField (some (List.replicate 4 0)) 17 21).2 200 12).2
      0x03E00000 21 = 17 ∧
    ARISR_proto_ctrl_getField
      (ARISR_proto_ctrl_setField
        (ARISR_proto_ctrl_setField (some (List.replicate 4 0)) 17 21).2 200 12).2
      0x000FF000 12 = 200) :=
  ⟨⟨by decide, by decide, by decide⟩,
   C11_bitfield_isolation 0x03E00000 21 0x000FF000 12 17 200 (by decide) (by decide) (by decide)
     (by decide) (by decide) (by decide) (by decide) (by decide) (by decide)⟩

/-- Claim C11 as stated fails: the masks `0x01` (shift 0) and `0xFE` (shift 1)
are disjoint, yet setting `x = 2` in the first field and `y = 0` in the second
on a zeroed word reads back 0 from the first field and 1 from the second:
`ARISR_proto_ctrl_setField` ORs the whole byte, it does not mask it. -/
theorem C11_bitfield_isolation_counterexample :
    ¬ ∀ mask_a shift_a mask_b shift_b x y : Nat,
      mask_a &&& mask_b = 0 → mask_a < 2 ^ 32 → mask_b < 2 ^ 32 → shift_a < 32 → shift_b < 32 →
      x < 256 → y < 256 → Isolated mask_a shift_a mask_b shift_b x y := by
  intro h
  have := h 0x01 0 0xFE 1 2 0 (by decide) (by decide) (by decide) (by decide) (by decide)
    (by decide) (by decide)
  revert this
  decide

theorem next_inl (r : ARISR_ERR × ARISR_CHUNK) (f : ParseState → Step) :
    Step.next (some (Sum.inl r)) f = some (Sum.inl r) := rfl

theorem next_inr (st : ParseState) (f : ParseState → Step) :
    Step.next (some (Sum.inr st)) f = f st := rfl

theorem next_none (f : ParseState → Step) : Step.next none f = none := rfl

theorem readBytes_slice {data : List Nat} {p n : Nat} (h : p + n ≤ data.length) :
    readBytes data p n = some (slice data p n) := by
  simp [readBytes, slice, h]

theorem readBytes_none {data : List Nat} {p n : Nat} (h : data.length < p + n) :
    readBytes data p n = none := by
  simp [readBytes]; omega

theorem cleanAndReturn_eq (E : Crypt) (e : ARISR_ERR) (b : ARISR_CHUNK) :
    ARISR_CLEAN_AND_RETURN E e b = (e, cleaned E b) := rfl

theorem slice_take4 {data : List Nat} :
    (slice data 0 8).take 4 = slice data 0 4 := by
  simp [slice, List.take_take]

theorem slice_drop4 {data : List Nat} :
    (slice data 0 8).drop 4 = slice data 4 4 := by
  simp only [slice, List.drop_zero]
  rw [List.drop_take]

/-- Section "ID & ARIS" on a buffer of at least 8 bytes. -/
theorem parseIdAris_eq {E : Crypt} {data key id : List Nat} (h8 : 8 ≤ data.length)
    (h4 : 4 ≤ id.length) :
    parseIdAris E data key id (zeroChunk, 0) =
      if slice data 0 4 ≠ slice id 0 4 then
        some (Sum.inl (kARISR_ERR_NOT_SAME_ID,
          { zeroChunk with id := slice data 0 4, aris := slice data 4 4 }))
      else if (E.ARISR_aes_aris_decrypt key (slice data 4 4)).1 ≠ kARISR_OK then
        some (Sum.inl (kARISR_ERR_NOT_SAME_ARIS,
          { zeroChunk with
            id := slice data 0 4
            aris := arr 4 (E.ARISR_aes_aris_decrypt key (slice data 4 4)).2 }))
      else some (Sum.inr ({ zeroChunk with
            id := slice data 0 4
            aris := arr 4 (E.ARISR_aes_aris_decrypt key (slice data 4 4)).2 }, 8)) := by
  unfold parseIdAris
  rw [readBytes_slice (show 0 + ARISR_PROTO_CRYPT_SIZE ≤ data.length from by
      simpa [ARISR_PROTO_CRYPT_SIZE] using h8),
    readBytes_slice (show 0 + ARISR_PROTO_ID_SIZE ≤ id.length from by
      simpa [ARISR_PROTO_ID_SIZE] using h4)]
  simp only [Option.some_bind, ARISR_PROTO_CRYPT_SIZE, ARISR_PROTO_ID_SIZE,
    ARISR_PROTO_ARIS_SIZE, slice_take4, slice_drop4, Nat.zero_add]
theorem slice_take_le {data : List Nat} {p n m : Nat} (h : m ≤ n) :
    (slice data p n).take m = slice data p m := by
  simp [slice, List.take_take, Nat.min_eq_left h]

theorem slice_drop_add {data : List Nat} {p n m : Nat} :
    (slice data p (m + n)).drop m = slice data (p + m) n := by
  simp only [slice]
  rw [List.drop_take, List.drop_drop, Nat.add_sub_cancel_left, Nat.add_comm p m]

/-- Section "CTRL 1" when the four bytes lie inside the input. -/
theorem parseCtrl1Section_eq {P : Interface} {data : List Nat} (b : ARISR_CHUNK) (p : Nat)
    (h : p + 4 ≤ data.length) :
    parseCtrl1Section P data (b, p) =
      some (Sum.inr ({ b with ctrl := parseCtrl1 P (slice data p 4) }, p + 4)) := by
  unfold parseCtrl1Section
  simp only [ARISR_CTRL_SECTION_SIZE]
  rw [readBytes_slice h]
  rfl

/-- Section "ORIGIN & DESTINATION" when the twelve bytes lie inside the input. -/
theorem parseAddresses_eq {data : List Nat} (b : ARISR_CHUNK) (p : Nat)
    (h : p + 12 ≤ data.length) :
    parseAddresses data (b, p) =
      some (Sum.inr ({ b with origin := slice data p 6, destinationA := slice data (p + 6) 6 },
        p + 12)) := by
  unfold parseAddresses
  simp only [ARISR_ADDRESS_SIZE, Nat.reduceMul]
  rw [readBytes_slice h]
  simp only [Option.some_bind, slice_take_le (show 6 ≤ 12 by omega)]
  rw [show (12 : Nat) = 6 + 6 from rfl, slice_drop_add]

/-- Section "DESTINATIONS B": no address, failed allocation, or a copy. -/
theorem parseDestinationsB_eq {E : Crypt} {data : List Nat} (b : ARISR_CHUNK) (p : Nat)
    (h : b.ctrl.destinations > 0 → E.malloc (b.ctrl.destinations * ARISR_ADDRESS_SIZE) = true →
      p + 6 * b.ctrl.destinations ≤ data.length) :
    parseDestinationsB E data (b, p) =
      if b.ctrl.destinations > 0 then
        if E.malloc (b.ctrl.destinations * ARISR_ADDRESS_SIZE) = false then
          some (Sum.inl (kARISR_ERR_GENERIC, cleaned E b))
        else some (Sum.inr ({ b with
            destinationsB := some (slice data p (6 * b.ctrl.destinations)) },
          p + 6 * b.ctrl.destinations))
      else some (Sum.inr (b, p)) := by
  unfold parseDestinationsB
  by_cases hN : b.ctrl.destinations > 0
  · by_cases hm : E.malloc (b.ctrl.destinations * ARISR_ADDRESS_SIZE) = false
    · simp only [hN, hm, if_true, cleanAndReturn_eq]
    · simp only [Bool.not_eq_false] at hm
      have hl := h hN hm
      have hm6 : E.malloc (b.ctrl.destinations * 6) = true := hm
      simp only [hN, if_true, ARISR_ADDRESS_SIZE, hm6, Bool.true_eq_false, if_false]
      rw [Nat.mul_comm b.ctrl.destinations 6, readBytes_slice hl]
      rfl
  · simp only [hN, if_false]

/-- Section "DESTINATION C". -/
theorem parseDestinationC_eq {data : List Nat} (b : ARISR_CHUNK) (p : Nat)
    (h : b.ctrl.from_ ≠ 0 → p + 6 ≤ data.length) :
    parseDestinationC data (b, p) =
      some (Sum.inr
        ({ b with destinationC :=
            if b.ctrl.from_ ≠ 0 then slice data p 6 else List.replicate 6 0 },
         p + (if b.ctrl.from_ ≠ 0 then 6 else 0))) := by
  unfold parseDestinationC
  by_cases hf : b.ctrl.from_ ≠ 0
  · simp only [hf, ne_eq, not_false_eq_true, if_true, ARISR_ADDRESS_SIZE]
    rw [readBytes_slice (h hf)]
    rfl
  · simp only [hf, ne_eq, if_false, ARISR_ADDRESS_SIZE, Nat.add_zero]

/-- Section "CTRL 2". -/
theorem parseCtrl2Section_eq {P : Interface} {data : List Nat} (b : ARISR_CHUNK) (p : Nat)
    (h : b.ctrl.more_header ≠ 0 → p + 4 ≤ data.length) :
    parseCtrl2Section P data (b, p) =
      some (Sum.inr
        ({ b with ctrl2 :=
            if b.ctrl.more_header ≠ 0 then parseCtrl2 P (slice data p 4) else ⟨0, 0, 0, 0⟩ },
         p + (if b.ctrl.more_header ≠ 0 then 4 else 0))) := by
  unfold parseCtrl2Section
  by_cases hf : b.ctrl.more_header ≠ 0
  · simp only [hf, ne_eq, not_false_eq_true, if_true, ARISR_CTRL_SECTION_SIZE,
      ARISR_CTRL2_SECTION_SIZE]
    rw [readBytes_slice (h hf)]
    rfl
  · simp only [hf, ne_eq, if_false, Nat.add_zero]
theorem slice_zero (data : List Nat) (n : Nat) : slice data 0 n = data.take n := by
  simp [slice]

/-- Section "CRC HEADER" when the two CRC bytes lie inside the input. -/
theorem parseCrcHeader_eq {E : Crypt} {data : List Nat} (b : ARISR_CHUNK) (p : Nat)
    (h : p + 2 ≤ data.length) :
    parseCrcHeader E data (b, p) =
      if E.ARISR_crypt_crc16_calculate (data.take p) % 65536 ≠ crcValue (slice data p 2) then
        some (Sum.inl (kARISR_ERR_NOT_SAME_CRC_HEADER,
          cleaned E { b with crc_header := slice data p 2 }))
      else some (Sum.inr ({ b with crc_header := slice data p 2 }, p + 2)) := by
  unfold parseCrcHeader
  simp only [ARISR_CRC_SIZE]
  rw [readBytes_slice h, readBytes_slice (show 0 + p ≤ data.length by omega), slice_zero]
  simp only [Option.some_bind, cleanAndReturn_eq]

/-- Section "DATA". -/
theorem parseData_eq {E : Crypt} {data key : List Nat} (b : ARISR_CHUNK) (p : Nat)
    (h : b.ctrl.more_header ≠ 0 ∧ b.ctrl2.data_length > 0 →
      p + b.ctrl2.data_length + 2 ≤ data.length) :
    parseData E data key (b, p) =
      if b.ctrl.more_header ≠ 0 ∧ b.ctrl2.data_length > 0 then
        if E.ARISR_crypt_crc16_calculate (slice data p b.ctrl2.data_length) % 65536 ≠
            crcValue (slice data (p + b.ctrl2.data_length) 2) then
          some (Sum.inl (kARISR_ERR_NOT_SAME_CRC_DATA,
            cleaned E { b with crc_data := slice data (p + b.ctrl2.data_length) 2 }))
        else if (E.ARISR_aes_data_decrypt (dataKey key) (slice data p b.ctrl2.data_length)
            b.ctrl2.data_length).1 ≠ kARISR_OK then
          some (Sum.inl ((E.ARISR_aes_data_decrypt (dataKey key)
            (slice data p b.ctrl2.data_length) b.ctrl2.data_length).1,
            cleaned E { b with crc_data := slice data (p + b.ctrl2.data_length) 2 }))
        else
          some (Sum.inr ({ b with
              crc_data := slice data (p + b.ctrl2.data_length) 2
              data := some (E.ARISR_aes_data_decrypt (dataKey key)
                (slice data p b.ctrl2.data_length) b.ctrl2.data_length).2
              ctrl2 := { b.ctrl2 with
                data_length := (E.ARISR_aes_data_decrypt (dataKey key)
                  (slice data p b.ctrl2.data_length) b.ctrl2.data_length).2.length } },
            p + b.ctrl2.data_length + 2))
      else some (Sum.inr (b, p)) := by
  unfold parseData
  by_cases hd : b.ctrl.more_header ≠ 0 ∧ b.ctrl2.data_length > 0
  · have hl := h hd
    rw [if_pos hd, if_pos hd]
    simp only [ARISR_CRC_SIZE]
    rw [readBytes_slice hl, readBytes_slice (show p + b.ctrl2.data_length ≤ data.length by omega)]
    simp only [Option.some_bind, cleanAndReturn_eq]
  · rw [if_neg hd, if_neg hd]

/-- Section "END" when the four trailer bytes lie inside the input. -/
theorem parseEnd_eq {data id : List Nat} (b : ARISR_CHUNK) (p : Nat)
    (h : p + 4 ≤ data.length) (h4 : 4 ≤ id.length) :
    parseEnd data id (b, p) =
      if slice data p 4 ≠ slice id 0 4 then
        some (kARISR_ERR_NOT_SAME_END, { b with end_ := slice data p 4 })
      else some (kARISR_OK, { b with end_ := slice data p 4 }) := by
  unfold parseEnd
  simp only [ARISR_PROTO_ID_SIZE]
  rw [readBytes_slice h, readBytes_slice (show 0 + 4 ≤ id.length by omega)]
  simp only [Option.some_bind]

theorem parseEnd_none {data id : List Nat} (b : ARISR_CHUNK) (p : Nat)
    (h : data.length < p + 4) : parseEnd data id (b, p) = none := by
  unfold parseEnd
  simp only [ARISR_PROTO_ID_SIZE]
  rw [readBytes_none h]
  rfl
theorem parseCtrl1Section_none {P : Interface} {data : List Nat} (b : ARISR_CHUNK) (p : Nat)
    (h : data.length < p + 4) : parseCtrl1Section P data (b, p) = none := by
  unfold parseCtrl1Section
  simp only [ARISR_CTRL_SECTION_SIZE]
  rw [readBytes_none h]
  rfl

theorem parseAddresses_none {data : List Nat} (b : ARISR_CHUNK) (p : Nat)
    (h : data.length < p + 12) : parseAddresses data (b, p) = none := by
  unfold parseAddresses
  simp only [ARISR_ADDRESS_SIZE, Nat.reduceMul]
  rw [readBytes_none h]
  rfl

theorem parseDestinationsB_none {E : Crypt} {data : List Nat} (b : ARISR_CHUNK) (p : Nat)
    (hN : b.ctrl.destinations > 0)
    (hm : E.malloc (b.ctrl.destinations * ARISR_ADDRESS_SIZE) = true)
    (h : data.length < p + 6 * b.ctrl.destinations) :
    parseDestinationsB E data (b, p) = none := by
  unfold parseDestinationsB
  have hm6 : E.malloc (b.ctrl.destinations * 6) = true := hm
  simp only [hN, if_true, ARISR_ADDRESS_SIZE, hm6, Bool.true_eq_false, if_false]
  rw [Nat.mul_comm b.ctrl.destinations 6, readBytes_none h]
  rfl

theorem parseDestinationC_none {data : List Nat} (b : ARISR_CHUNK) (p : Nat)
    (hf : b.ctrl.from_ ≠ 0) (h : data.length < p + 6) :
    parseDestinationC data (b, p) = none := by
  unfold parseDestinationC
  simp only [hf, ne_eq, not_false_eq_true, if_true, ARISR_ADDRESS_SIZE]
  rw [readBytes_none h]
  rfl

theorem parseCtrl2Section_none {P : Interface} {data : List Nat} (b : ARISR_CHUNK) (p : Nat)
    (hf : b.ctrl.more_header ≠ 0) (h : data.length < p + 4) :
    parseCtrl2Section P data (b, p) = none := by
  unfold parseCtrl2Section
  simp only [hf, ne_eq, not_false_eq_true, if_true, ARISR_CTRL_SECTION_SIZE]
  rw [readBytes_none h]
  rfl

theorem parseCrcHeader_none {E : Crypt} {data : List Nat} (b : ARISR_CHUNK) (p : Nat)
    (h : data.length < p + 2) : parseCrcHeader E data (b, p) = none := by
  unfold parseCrcHeader
  simp only [ARISR_CRC_SIZE]
  rw [readBytes_none h]
  rfl

theorem parseData_none {E : Crypt} {data key : List Nat} (b : ARISR_CHUNK) (p : Nat)
    (hd : b.ctrl.more_header ≠ 0 ∧ b.ctrl2.data_length > 0)
    (h : data.length < p + b.ctrl2.data_length + 2) :
    parseData E data key (b, p) = none := by
  unfold parseData
  rw [if_pos hd]
  simp only [ARISR_CRC_SIZE]
  rw [readBytes_none h]
  rfl

theorem parseIdAris_none {E : Crypt} {data key id : List Nat} (st : ParseState)
    (h : data.length < 8 ∨ id.length < 4) : parseIdAris E data key id st = none := by
  unfold parseIdAris
  by_cases h8 : 8 ≤ data.length
  · have h4 : id.length < 4 := by omega
    rw [readBytes_slice (show 0 + ARISR_PROTO_CRYPT_SIZE ≤ data.length from by
        simpa [ARISR_PROTO_CRYPT_SIZE] using h8),
      readBytes_none (show id.length < 0 + ARISR_PROTO_ID_SIZE from by
        simpa [ARISR_PROTO_ID_SIZE] using h4)]
    rfl
  · rw [readBytes_none (show data.length < 0 + ARISR_PROTO_CRYPT_SIZE from by
        simp only [ARISR_PROTO_CRYPT_SIZE]; omega)]
    rfl

/-- Section "DESTINATIONS B" when the allocation succeeds and the addresses lie
inside the input. -/
theorem parseDestinationsB_ok {E : Crypt} {data : List Nat} (b : ARISR_CHUNK) (p : Nat)
    (hm : b.ctrl.destinations > 0 → E.malloc (b.ctrl.destinations * ARISR_ADDRESS_SIZE) = true)
    (hl : p + 6 * b.ctrl.destinations ≤ data.length) :
    parseDestinationsB E data (b, p) =
      some (Sum.inr ({ b with
          destinationsB :=
            if b.ctrl.destinations > 0 then some (slice data p (6 * b.ctrl.destinations))
            else b.destinationsB },
        p + 6 * b.ctrl.destinations)) := by
  rw [parseDestinationsB_eq b p (fun _ _ => hl)]
  by_cases hN : b.ctrl.destinations > 0
  · rw [if_pos hN, if_neg (by simp [hm hN]), if_pos hN]
  · rw [if_neg hN, if_neg hN]
    have h0 : b.ctrl.destinations = 0 := by omega
    simp [h0]

/-- The sections "DESTINATIONS B", "DESTINATION C" and "CTRL 2" on an input
that holds the whole header. -/
theorem header_tail_eq {P : Interface} {E : Crypt} {data : List Nat} (b : ARISR_CHUNK)
    (hm : b.ctrl.destinations > 0 → E.malloc (b.ctrl.destinations * ARISR_ADDRESS_SIZE) = true)
    (hl : 24 + 6 * b.ctrl.destinations + (if b.ctrl.from_ ≠ 0 then 6 else 0) +
      (if b.ctrl.more_header ≠ 0 then 4 else 0) ≤ data.length) :
    ((parseDestinationsB E data (b, 24)).next (parseDestinationC data)).next
        (parseCtrl2Section P data) =
      some (Sum.inr ({ b with
          destinationsB :=
            if b.ctrl.destinations > 0 then some (slice data 24 (6 * b.ctrl.destinations))
            else b.destinationsB
          destinationC :=
            if b.ctrl.from_ ≠ 0 then slice data (24 + 6 * b.ctrl.destinations) 6
            else List.replicate 6 0
          ctrl2 :=
            if b.ctrl.more_header ≠ 0 then
              parseCtrl2 P (slice data
                (24 + 6 * b.ctrl.destinations + (if b.ctrl.from_ ≠ 0 then 6 else 0)) 4)
            else ⟨0, 0, 0, 0⟩ },
        24 + 6 * b.ctrl.destinations + (if b.ctrl.from_ ≠ 0 then 6 else 0) +
          (if b.ctrl.more_header ≠ 0 then 4 else 0))) := by
  rw [parseDestinationsB_ok b 24 hm (by omega), next_inr, parseDestinationC_eq, next_inr,
    parseCtrl2Section_eq]
  · intro hf
    have hf2 : b.ctrl.more_header ≠ 0 := hf
    rw [if_pos hf2] at hl
    exact hl
  · intro hf
    have hf2 : b.ctrl.from_ ≠ 0 := hf
    rw [if_pos hf2] at hl
    show 24 + 6 * b.ctrl.destinations + 6 ≤ data.length
    omega

/-- The same sections followed by "CRC HEADER" on an input that ends before the
stored header CRC: the function reads outside the input. -/
theorem header_tail_none {P : Interface} {E : Crypt} {data : List Nat} (b : ARISR_CHUNK)
    (h24 : 24 ≤ data.length)
    (hm : b.ctrl.destinations > 0 → E.malloc (b.ctrl.destinations * ARISR_ADDRESS_SIZE) = true)
    (hl : data.length < 24 + 6 * b.ctrl.destinations + (if b.ctrl.from_ ≠ 0 then 6 else 0) +
      (if b.ctrl.more_header ≠ 0 then 4 else 0) + 2) :
    (((parseDestinationsB E data (b, 24)).next (parseDestinationC data)).next
        (parseCtrl2Section P data)).next (parseCrcHeader E data) = none := by
  by_cases hall : 24 + 6 * b.ctrl.destinations + (if b.ctrl.from_ ≠ 0 then 6 else 0) +
      (if b.ctrl.more_header ≠ 0 then 4 else 0) ≤ data.length
  · rw [header_tail_eq b hm hall, next_inr, parseCrcHeader_none _ _ hl]
  · by_cases hB : 24 + 6 * b.ctrl.destinations ≤ data.length
    · rw [parseDestinationsB_ok b 24 hm hB, next_inr]
      by_cases hC : b.ctrl.from_ ≠ 0 ∧ data.length < 24 + 6 * b.ctrl.destinations + 6
      · rw [parseDestinationC_none]
        · rfl
        · exact hC.1
        · exact hC.2
      · have hCl : b.ctrl.from_ ≠ 0 → 24 + 6 * b.ctrl.destinations + 6 ≤ data.length := by
          intro hf
          by_contra hx
          exact hC ⟨hf, by omega⟩
        rw [parseDestinationC_eq, next_inr, parseCtrl2Section_none]
        · rfl
        · show b.ctrl.more_header ≠ 0
          intro h0
          rw [if_neg (not_not.mpr h0)] at hall
          by_cases hf : b.ctrl.from_ ≠ 0
          · rw [if_pos hf] at hall
            have := hCl hf
            omega
          · rw [if_neg hf] at hall
            omega
        · show data.length < 24 + 6 * b.ctrl.destinations +
            (if b.ctrl.from_ ≠ 0 then 6 else 0) + 4
          by_cases h0 : b.ctrl.more_header ≠ 0
          · rw [if_pos h0] at hall
            omega
          · rw [if_neg h0] at hall
            by_cases hf : b.ctrl.from_ ≠ 0
            · rw [if_pos hf] at hall ⊢
              have := hCl hf
              omega
            · rw [if_neg hf] at hall ⊢
              omega
        · exact hCl
    · have hN : b.ctrl.destinations > 0 := by omega
      rw [parseDestinationsB_none b 24 hN (hm hN) (by omega)]
      rfl
/-- The sections up to "ORIGIN & DESTINATION" on an input of at least 24 bytes
that passes the id check and the tag decryption. -/
theorem parse_upto_addresses {P : Interface} {E : Crypt} {data key id : List Nat}
    (h4 : 4 ≤ id.length) (h24 : 24 ≤ data.length) (hid : slice data 0 4 = slice id 0 4)
    (har : (E.ARISR_aes_aris_decrypt key (slice data 4 4)).1 = kARISR_OK) :
    ((parseIdAris E data key id (zeroChunk, 0)).next (parseCtrl1Section P data)).next
        (parseAddresses data) =
      some (Sum.inr ({ zeroChunk with
          id := slice data 0 4
          aris := arr 4 (E.ARISR_aes_aris_decrypt key (slice data 4 4)).2
          ctrl := inCtrl P data
          origin := slice data 12 6
          destinationA := slice data 18 6 }, 24)) := by
  rw [parseIdAris_eq (by omega) h4, if_neg (not_not.mpr hid), if_neg (not_not.mpr har), next_inr,
    parseCtrl1Section_eq _ _ (by omega), next_inr, parseAddresses_eq _ _ (by omega)]
  rfl

/-- The sections up to "CTRL 2" on an input that holds the whole header. -/
theorem parseHeader_ok {P : Interface} {E : Crypt} {data key id : List Nat}
    (h4 : 4 ≤ id.length) (hid : slice data 0 4 = slice id 0 4)
    (har : (E.ARISR_aes_aris_decrypt key (slice data 4 4)).1 = kARISR_OK)
    (hm : (inCtrl P data).destinations > 0 →
      E.malloc ((inCtrl P data).destinations * ARISR_ADDRESS_SIZE) = true)
    (hl : inHeaderEnd P data ≤ data.length) :
    (((((parseIdAris E data key id (zeroChunk, 0)).next (parseCtrl1Section P data)).next
        (parseAddresses data)).next (parseDestinationsB E data)).next
        (parseDestinationC data)).next (parseCtrl2Section P data) =
      some (Sum.inr (inHeaderFrame P E data key, inHeaderEnd P data)) := by
  have h24 : 24 ≤ data.length := by unfold inHeaderEnd at hl; omega
  rw [parse_upto_addresses h4 h24 hid har, next_inr]
  exact header_tail_eq _ hm hl

/-- The sections up to "CRC HEADER" on an input that ends before the stored
header CRC. -/
theorem parseHeader_none {P : Interface} {E : Crypt} {data key id : List Nat}
    (h4 : 4 ≤ id.length) (h24 : 24 ≤ data.length) (hid : slice data 0 4 = slice id 0 4)
    (har : (E.ARISR_aes_aris_decrypt key (slice data 4 4)).1 = kARISR_OK)
    (hm : (inCtrl P data).destinations > 0 →
      E.malloc ((inCtrl P data).destinations * ARISR_ADDRESS_SIZE) = true)
    (hl : data.length < inHeaderEnd P data + 2) :
    ((((((parseIdAris E data key id (zeroChunk, 0)).next (parseCtrl1Section P data)).next
        (parseAddresses data)).next (parseDestinationsB E data)).next
        (parseDestinationC data)).next (parseCtrl2Section P data)).next
        (parseCrcHeader E data) = none := by
  rw [parse_upto_addresses h4 h24 hid har, next_inr]
  exact header_tail_none _ h24 hm hl

/-- The sections up to "DESTINATIONS B" when the allocation fails. -/
theorem parseHeader_malloc {P : Interface} {E : Crypt} {data key id : List Nat}
    (h4 : 4 ≤ id.length) (h24 : 24 ≤ data.length) (hid : slice data 0 4 = slice id 0 4)
    (har : (E.ARISR_aes_aris_decrypt key (slice data 4 4)).1 = kARISR_OK)
    (hN : (inCtrl P data).destinations > 0)
    (hm : E.malloc ((inCtrl P data).destinations * ARISR_ADDRESS_SIZE) = false) :
    (((parseIdAris E data key id (zeroChunk, 0)).next (parseCtrl1Section P data)).next
        (parseAddresses data)).next (parseDestinationsB E data) =
      some (Sum.inl (kARISR_ERR_GENERIC, cleaned E (inFixedFrame P E data key))) := by
  rw [parse_upto_addresses h4 h24 hid har, next_inr, parseDestinationsB_eq]
  · rw [if_pos (show _ from hN), if_pos (show _ from hm)]
    rfl
  · intro _ h
    change E.malloc ((inCtrl P data).destinations * ARISR_ADDRESS_SIZE) = true at h
    rw [hm] at h
    exact absurd h (by simp)
/-- The trailer check on the frame the earlier sections leave behind. -/
theorem parseEnd_trace {P : Interface} {E : Crypt} {data key id : List Nat}
    (h4 : 4 ≤ id.length) (b : ARISR_CHUNK)
    (hb : { b with end_ := slice data (inEndPos P data) 4 } = inFrame P E data key) :
    parseEnd data id (b, inEndPos P data) = traceEnd P E data key id := by
  unfold traceEnd
  by_cases hl : data.length < inEndPos P data + 4
  · rw [if_pos hl, parseEnd_none _ _ hl]
  · rw [if_neg hl, parseEnd_eq _ _ (by omega) h4, hb]

/-- Section "DATA" on the frame the header sections leave behind. -/
theorem parseData_in {P : Interface} {E : Crypt} {data key : List Nat}
    (hl : inHasData P data → inHeaderEnd P data + 2 + inDataLen P data + 2 ≤ data.length) :
    parseData E data key
        ({ inHeaderFrame P E data key with crc_header := slice data (inHeaderEnd P data) 2 },
          inHeaderEnd P data + 2) =
      if inHasData P data then
        if E.ARISR_crypt_crc16_calculate (inCipher P data) % 65536 ≠
            crcValue (slice data (inHeaderEnd P data + 2 + inDataLen P data) 2) then
          some (Sum.inl (kARISR_ERR_NOT_SAME_CRC_DATA, cleaned E (inDataFrame P E data key)))
        else if (E.ARISR_aes_data_decrypt (dataKey key) (inCipher P data)
            (inDataLen P data)).1 ≠ kARISR_OK then
          some (Sum.inl ((E.ARISR_aes_data_decrypt (dataKey key) (inCipher P data)
            (inDataLen P data)).1, cleaned E (inDataFrame P E data key)))
        else
          some (Sum.inr ({ inHeaderFrame P E data key with
              crc_header := slice data (inHeaderEnd P data) 2
              crc_data := slice data (inHeaderEnd P data + 2 + inDataLen P data) 2
              data := some (E.ARISR_aes_data_decrypt (dataKey key) (inCipher P data)
                (inDataLen P data)).2
              ctrl2 := { inCtrl2 P data with
                data_length := (E.ARISR_aes_data_decrypt (dataKey key) (inCipher P data)
                  (inDataLen P data)).2.length } },
            inHeaderEnd P data + 2 + inDataLen P data + 2))
      else
        some (Sum.inr
          ({ inHeaderFrame P E data key with crc_header := slice data (inHeaderEnd P data) 2 },
            inHeaderEnd P data + 2)) :=
  parseData_eq _ _ hl

/-- Section "DATA" on an input that ends before the stored data CRC. -/
theorem parseData_in_none {P : Interface} {E : Crypt} {data key : List Nat}
    (hd : inHasData P data)
    (hl : data.length < inHeaderEnd P data + 2 + inDataLen P data + 2) :
    parseData E data key
        ({ inHeaderFrame P E data key with crc_header := slice data (inHeaderEnd P data) 2 },
          inHeaderEnd P data + 2) = none :=
  parseData_none _ _ hd hl

/-- The function `parseBody` makes the checks of `parseTrace`, in that order. -/
theorem parseBody_eq_trace (P : Interface) (E : Crypt) (data key id : List Nat) :
    parseBody P E data key id = parseTrace P E data key id := by
  unfold parseTrace parseBody
  by_cases hlen : data.length < 8 ∨ id.length < 4
  · rw [if_pos hlen, parseIdAris_none _ hlen]
    rfl
  rw [if_neg hlen]
  have h8 : 8 ≤ data.length := by omega
  have h4 : 4 ≤ id.length := by omega
  by_cases hid : slice data 0 4 ≠ slice id 0 4
  · rw [if_pos hid, parseIdAris_eq h8 h4, if_pos hid]
    rfl
  rw [if_neg hid]
  by_cases har : (E.ARISR_aes_aris_decrypt key (slice data 4 4)).1 ≠ kARISR_OK
  · rw [if_pos har, parseIdAris_eq h8 h4, if_neg hid, if_pos har]
    rfl
  rw [if_neg har]
  have hid2 := not_not.mp hid
  have har2 := not_not.mp har
  by_cases h24 : data.length < 24
  · rw [if_pos h24, parseIdAris_eq h8 h4, if_neg hid, if_neg har, next_inr]
    by_cases h12 : data.length < 12
    · rw [parseCtrl1Section_none _ _ (by omega)]
      rfl
    · rw [parseCtrl1Section_eq _ _ (by omega), next_inr, parseAddresses_none _ _ (by omega)]
      rfl
  rw [if_neg h24]
  have h24' : 24 ≤ data.length := by omega
  by_cases hmal : (inCtrl P data).destinations > 0 ∧
      E.malloc ((inCtrl P data).destinations * ARISR_ADDRESS_SIZE) = false
  · rw [if_pos hmal, parseHeader_malloc h4 h24' hid2 har2 hmal.1 hmal.2]
    rfl
  rw [if_neg hmal]
  have hm : (inCtrl P data).destinations > 0 →
      E.malloc ((inCtrl P data).destinations * ARISR_ADDRESS_SIZE) = true := by
    intro hN
    by_contra hx
    exact hmal ⟨hN, by simpa using hx⟩
  by_cases hh : data.length < inHeaderEnd P data + 2
  · rw [if_pos hh, parseHeader_none h4 h24' hid2 har2 hm hh]
    rfl
  rw [if_neg hh, parseHeader_ok h4 hid2 har2 hm (by omega), next_inr,
    parseCrcHeader_eq _ _ (by omega)]
  by_cases hcrc : E.ARISR_crypt_crc16_calculate (data.take (inHeaderEnd P data)) % 65536 ≠
      crcValue (slice data (inHeaderEnd P data) 2)
  · rw [if_pos hcrc, if_pos hcrc]
    rfl
  rw [if_neg hcrc, if_neg hcrc, next_inr]
  by_cases hd : inHasData P data
  · rw [if_pos hd]
    by_cases hdl : data.length < inHeaderEnd P data + 2 + inDataLen P data + 2
    · rw [if_pos hdl, parseData_in_none hd hdl]
      rfl
    rw [if_neg hdl, parseData_in (fun _ => by omega), if_pos hd]
    by_cases hcd : E.ARISR_crypt_crc16_calculate (inCipher P data) % 65536 ≠
        crcValue (slice data (inHeaderEnd P data + 2 + inDataLen P data) 2)
    · rw [if_pos hcd, if_pos hcd]
      rfl
    rw [if_neg hcd, if_neg hcd]
    by_cases hdec : (E.ARISR_aes_data_decrypt (dataKey key) (inCipher P data)
        (inDataLen P data)).1 ≠ kARISR_OK
    · rw [if_pos hdec, if_pos hdec]
      rfl
    rw [if_neg hdec, if_neg hdec]
    have hp : inHeaderEnd P data + 2 + inDataLen P data + 2 = inEndPos P data := by
      unfold inEndPos
      rw [if_pos hd]
      omega
    simp only [Option.some_bind]
    rw [hp]
    apply parseEnd_trace h4
    unfold inFrame
    rw [if_pos hd]
  · rw [if_neg hd, parseData_in (fun hx => absurd hx hd), if_neg hd]
    have hp : inHeaderEnd P data + 2 = inEndPos P data := by
      unfold inEndPos
      rw [if_neg hd]
    simp only [Option.some_bind]
    rw [hp]
    apply parseEnd_trace h4
    unfold inFrame
    rw [if_neg hd]

/-- The function `ARISR_proto_parse` on non-null arguments, through `parseTrace`. -/
theorem parse_eq_trace (P : Interface) (E : Crypt) (prior : ARISR_CHUNK)
    (data key id : List Nat) :
    ARISR_proto_parse P E (some prior) (some data) key id =
      (parseTrace P E data key id).map fun r => (r.1, some r.2) := by
  simp only [ARISR_proto_parse, parseBody_eq_trace]

theorem inHeaderEnd_ge (P : Interface) (data : List Nat) : 24 ≤ inHeaderEnd P data := by
  unfold inHeaderEnd
  omega

/-- The trace of an input that reaches the header CRC check. -/
theorem trace_of_reachesCrc {P : Interface} {E : Crypt} {data key id : List Nat}
    (h : ReachesCrc P E data key id) :
    parseTrace P E data key id =
      if ¬ HeaderCrcOk P E data then
        some (kARISR_ERR_NOT_SAME_CRC_HEADER, cleaned E (inCrcFrame P E data key))
      else if inHasData P data then
        if data.length < inHeaderEnd P data + 2 + inDataLen P data + 2 then none
        else if ¬ DataCrcOk P E data then
          some (kARISR_ERR_NOT_SAME_CRC_DATA, cleaned E (inDataFrame P E data key))
        else if (inDecrypt P E data key).1 ≠ kARISR_OK then
          some ((inDecrypt P E data key).1, cleaned E (inDataFrame P E data key))
        else traceEnd P E data key id
      else traceEnd P E data key id := by
  obtain ⟨⟨h4, h24, hid, har⟩, hm, hl⟩ := h
  unfold parseTrace
  rw [if_neg (show ¬ (data.length < 8 ∨ id.length < 4) by omega), if_neg (not_not.mpr hid),
    if_neg (not_not.mpr har), if_neg (show ¬ data.length < 24 by omega),
    if_neg (show ¬ ((inCtrl P data).destinations > 0 ∧
      E.malloc ((inCtrl P data).destinations * ARISR_ADDRESS_SIZE) = false) from
        fun hx => by rw [hm hx.1] at hx; exact absurd hx.2 (by simp)),
    if_neg (show ¬ data.length < inHeaderEnd P data + 2 by omega)]
  rfl

/-- The trace of an input that reaches the trailer check. -/
theorem trace_of_reachesEnd {P : Interface} {E : Crypt} {data key id : List Nat}
    (h : ReachesEnd P E data key id) :
    parseTrace P E data key id =
      if slice data (inEndPos P data) 4 ≠ slice id 0 4 then
        some (kARISR_ERR_NOT_SAME_END, inFrame P E data key)
      else some (kARISR_OK, inFrame P E data key) := by
  obtain ⟨hc, hx, hd, hl⟩ := h
  rw [trace_of_reachesCrc hc, if_neg (not_not.mpr hx)]
  have he : traceEnd P E data key id =
      if slice data (inEndPos P data) 4 ≠ slice id 0 4 then
        some (kARISR_ERR_NOT_SAME_END, inFrame P E data key)
      else some (kARISR_OK, inFrame P E data key) := by
    unfold traceEnd
    rw [if_neg (show ¬ data.length < inEndPos P data + 4 by omega)]
  by_cases hh : inHasData P data
  · have hl2 : ¬ data.length < inHeaderEnd P data + 2 + inDataLen P data + 2 := by
      unfold inEndPos at hl
      rw [if_pos hh] at hl
      omega
    rw [if_pos hh, if_neg hl2, if_neg (not_not.mpr (hd hh).1), if_neg (not_not.mpr (hd hh).2), he]
  · rw [if_neg hh, he]

/-- Every run is what `parseTrace` computes. -/
theorem trace_of_run {P : Interface} {E : Crypt} {data key id : List Nat}
    {r : ARISR_ERR × ARISR_CHUNK} (h : ParseRun P E data key id r) :
    parseTrace P E data key id = some r := by
  cases h with
  | not_same_id h8 h4 hid =>
    unfold parseTrace
    rw [if_neg (show ¬ (data.length < 8 ∨ id.length < 4) by omega), if_pos hid]
  | not_same_aris h8 h4 hid har =>
    unfold parseTrace
    rw [if_neg (show ¬ (data.length < 8 ∨ id.length < 4) by omega), if_neg (not_not.mpr hid),
      if_pos har]
  | no_memory hs hN hm =>
    obtain ⟨h4, h24, hid, har⟩ := hs
    unfold parseTrace
    rw [if_neg (show ¬ (data.length < 8 ∨ id.length < 4) by omega), if_neg (not_not.mpr hid),
      if_neg (not_not.mpr har), if_neg (show ¬ data.length < 24 by omega), if_pos ⟨hN, hm⟩]
  | crc_header hc hx => rw [trace_of_reachesCrc hc, if_pos hx]
  | crc_data hd hx =>
    obtain ⟨hc, hok, hh, hl⟩ := hd
    rw [trace_of_reachesCrc hc, if_neg (not_not.mpr hok), if_pos hh,
      if_neg (show ¬ data.length < inHeaderEnd P data + 2 + inDataLen P data + 2 by omega),
      if_pos hx]
  | decrypt hd hx he =>
    obtain ⟨hc, hok, hh, hl⟩ := hd
    rw [trace_of_reachesCrc hc, if_neg (not_not.mpr hok), if_pos hh,
      if_neg (show ¬ data.length < inHeaderEnd P data + 2 + inDataLen P data + 2 by omega),
      if_neg (not_not.mpr hx), if_pos he]
  | not_same_end he hx => rw [trace_of_reachesEnd he, if_pos hx]
  | ok he hx => rw [trace_of_reachesEnd he, if_neg (not_not.mpr hx)]
/-- Whatever `parseTrace` computes is a run. -/
theorem run_of_trace {P : Interface} {E : Crypt} {data key id : List Nat}
    {r : ARISR_ERR × ARISR_CHUNK} (h : parseTrace P E data key id = some r) :
    ParseRun P E data key id r := by
  have h0 := h
  unfold parseTrace at h
  by_cases hlen : data.length < 8 ∨ id.length < 4
  · rw [if_pos hlen] at h
    exact absurd h (by simp)
  rw [if_neg hlen] at h
  have h8 : 8 ≤ data.length := by omega
  have h4 : 4 ≤ id.length := by omega
  by_cases hid : slice data 0 4 ≠ slice id 0 4
  · rw [if_pos hid, Option.some.injEq] at h
    subst h
    exact .not_same_id h8 h4 hid
  rw [if_neg hid] at h
  have hid2 := not_not.mp hid
  by_cases har : (E.ARISR_aes_aris_decrypt key (slice data 4 4)).1 ≠ kARISR_OK
  · rw [if_pos har, Option.some.injEq] at h
    subst h
    exact .not_same_aris h8 h4 hid2 har
  rw [if_neg har] at h
  have har2 := not_not.mp har
  by_cases h24 : data.length < 24
  · rw [if_pos h24] at h
    exact absurd h (by simp)
  rw [if_neg h24] at h
  have hs : PassesIdAris E data key id := ⟨h4, by omega, hid2, har2⟩
  by_cases hmal : (inCtrl P data).destinations > 0 ∧
      E.malloc ((inCtrl P data).destinations * ARISR_ADDRESS_SIZE) = false
  · rw [if_pos hmal, Option.some.injEq] at h
    subst h
    exact .no_memory hs hmal.1 hmal.2
  rw [if_neg hmal] at h
  have hm : (inCtrl P data).destinations > 0 →
      E.malloc ((inCtrl P data).destinations * ARISR_ADDRESS_SIZE) = true := by
    intro hN
    by_contra hx
    exact hmal ⟨hN, by simpa using hx⟩
  by_cases hh : data.length < inHeaderEnd P data + 2
  · rw [if_pos hh] at h
    exact absurd h (by simp)
  rw [if_neg hh] at h
  have hc : ReachesCrc P E data key id := ⟨hs, hm, by omega⟩
  clear h
  rw [trace_of_reachesCrc hc] at h0
  rename' h0 => h
  by_cases hcrc : HeaderCrcOk P E data
  swap
  · rw [if_pos (show _ from hcrc), Option.some.injEq] at h
    subst h
    exact .crc_header hc hcrc
  rw [if_neg (show ¬ _ from not_not.mpr hcrc)] at h
  have hend : ∀ (_ : inHasData P data → DataCrcOk P E data ∧ (inDecrypt P E data key).1 = kARISR_OK),
      traceEnd P E data key id = some r → ParseRun P E data key id r := by
    intro hd he
    unfold traceEnd at he
    by_cases hl : data.length < inEndPos P data + 4
    · rw [if_pos hl] at he
      exact absurd he (by simp)
    rw [if_neg hl] at he
    have hre : ReachesEnd P E data key id := ⟨hc, hcrc, hd, by omega⟩
    by_cases hx : slice data (inEndPos P data) 4 ≠ slice id 0 4
    · rw [if_pos hx, Option.some.injEq] at he
      subst he
      exact .not_same_end hre hx
    · rw [if_neg hx, Option.some.injEq] at he
      subst he
      exact .ok hre (not_not.mp hx)
  by_cases hd : inHasData P data
  · rw [if_pos hd] at h
    by_cases hdl : data.length < inHeaderEnd P data + 2 + inDataLen P data + 2
    · rw [if_pos hdl] at h
      exact absurd h (by simp)
    rw [if_neg hdl] at h
    have hrd : ReachesData P E data key id := ⟨hc, hcrc, hd, by omega⟩
    by_cases hcd : DataCrcOk P E data
    swap
    · rw [if_pos (show _ from hcd), Option.some.injEq] at h
      subst h
      exact .crc_data hrd hcd
    rw [if_neg (show ¬ _ from not_not.mpr hcd)] at h
    by_cases hdec : (inDecrypt P E data key).1 ≠ kARISR_OK
    · rw [if_pos (show _ from hdec), Option.some.injEq] at h
      subst h
      exact .decrypt hrd hcd hdec
    rw [if_neg (show ¬ _ from hdec)] at h
    exact hend (fun _ => ⟨hcd, not_not.mp hdec⟩) h
  · rw [if_neg hd] at h
    exact hend (fun hx => absurd hx hd) h

/-- The runs of `ARISR_proto_parse`: `parseBody` returns `r` exactly when `r`
is a run on the input. -/
theorem parseBody_iff_run {P : Interface} {E : Crypt} {data key id : List Nat}
    {r : ARISR_ERR × ARISR_CHUNK} :
    parseBody P E data key id = some r ↔ ParseRun P E data key id r := by
  rw [parseBody_eq_trace]
  exact ⟨run_of_trace, trace_of_run⟩

/-- The function `ARISR_proto_parse` on non-null arguments returns `(e, some G)`
exactly when `(e, G)` is a run on the input. -/
theorem parse_iff_run {P : Interface} {E : Crypt} {prior : ARISR_CHUNK}
    {data key id : List Nat} {r : ARISR_ERR × Option ARISR_CHUNK} :
    ARISR_proto_parse P E (some prior) (some data) key id = some r ↔
      ∃ G, r = (r.1, some G) ∧ ParseRun P E data key id (r.1, G) := by
  simp only [ARISR_proto_parse, Option.map_eq_some']
  constructor
  · rintro ⟨a, ha, rfl⟩
    exact ⟨a.2, rfl, parseBody_iff_run.mp ha⟩
  · rintro ⟨G, hr, hG⟩
    exact ⟨(r.1, G), parseBody_iff_run.mpr hG, hr.symm⟩

/-- A result of `ARISR_proto_parse` on non-null arguments is a run. -/
theorem parse_run {P : Interface} {E : Crypt} {prior : ARISR_CHUNK} {data key id : List Nat}
    {e : ARISR_ERR} {og : Option ARISR_CHUNK}
    (h : ARISR_proto_parse P E (some prior) (some data) key id = some (e, og)) :
    ∃ G, og = some G ∧ ParseRun P E data key id (e, G) := by
  obtain ⟨G, hr, hG⟩ := parse_iff_run.mp h
  simp only [Prod.mk.injEq, true_and] at hr
  exact ⟨G, hr, hG⟩

/-- A run gives the result of `ARISR_proto_parse` on non-null arguments. -/
theorem parse_of_run {P : Interface} {E : Crypt} (prior : ARISR_CHUNK) {data key id : List Nat}
    {e : ARISR_ERR} {G : ARISR_CHUNK} (h : ParseRun P E data key id (e, G)) :
    ARISR_proto_parse P E (some prior) (some data) key id = some (e, some G) :=
  parse_iff_run.mpr ⟨G, rfl, h⟩

/-- Claim C12: on a non-null frame pointer and an input of at least 8 bytes
(the extent the function reads before the check), `ARISR_proto_parse` returns
`NOT_SAME_ID` exactly when the first four input bytes differ from the expected
id, and then the frame holds the copied `id` and `aris` bytes and is zero
elsewhere (no decryption, CRC check or allocation has taken place).  The payload
decryption of `lib_arisr_crypt.h` is external and its failure code is returned
unchanged, so the statement is about a decryption that does not itself report
`NOT_SAME_ID` on the payload of this input. -/
theorem C12_parse_not_same_id (P : Interface) (E : Crypt) (prior : ARISR_CHUNK)
    (data key id : List Nat) (h8 : 8 ≤ data.length) (h4 : 4 ≤ id.length)
    (hdec : (inDecrypt P E data key).1 ≠ kARISR_ERR_NOT_SAME_ID) :
    (slice data 0 4 ≠ slice id 0 4 →
      ARISR_proto_parse P E (some prior) (some data) key id =
        some (kARISR_ERR_NOT_SAME_ID,
          some { zeroChunk with id := slice data 0 4, aris := slice data 4 4 })) ∧
    (∀ r, ARISR_proto_parse P E (some prior) (some data) key id = some r →
      (r.1 = kARISR_ERR_NOT_SAME_ID ↔ slice data 0 4 ≠ slice id 0 4)) := by
  constructor
  · intro hid
    exact parse_of_run prior (.not_same_id h8 h4 hid)
  · rintro ⟨e, og⟩ hr
    obtain ⟨G, -, hG⟩ := parse_run hr
    show e = kARISR_ERR_NOT_SAME_ID ↔ _
    cases hG with
    | not_same_id _ _ hid => exact ⟨fun _ => hid, fun _ => rfl⟩
    | not_same_aris _ _ hid _ => exact ⟨fun h => ARISR_ERR.noConfusion h, fun h => absurd hid h⟩
    | no_memory hs _ _ => exact ⟨fun h => ARISR_ERR.noConfusion h, fun h => absurd hs.id_eq h⟩
    | crc_header hc _ =>
      exact ⟨fun h => ARISR_ERR.noConfusion h, fun h => absurd hc.start.id_eq h⟩
    | crc_data hd _ =>
      exact ⟨fun h => ARISR_ERR.noConfusion h, fun h => absurd hd.crc.start.id_eq h⟩
    | decrypt hd _ _ => exact ⟨fun h => absurd h hdec, fun h => absurd hd.crc.start.id_eq h⟩
    | not_same_end he _ =>
      exact ⟨fun h => ARISR_ERR.noConfusion h, fun h => absurd he.crc.start.id_eq h⟩
    | ok he _ => exact ⟨fun h => ARISR_ERR.noConfusion h, fun h => absurd he.crc.start.id_eq h⟩

set_option maxRecDepth 100000 in
/-- Witness of C12: the sample frame `wireS1` parsed with another expected id. -/
theorem C12_parse_not_same_id_witness :
    slice wireS1 0 4 ≠ slice [1, 2, 3, 4] 0 4 ∧
    ARISR_proto_parse sampleInterface sampleCrypt (some frameS4) (some wireS1) sampleKey
        [1, 2, 3, 4] =
      some (kARISR_ERR_NOT_SAME_ID,
        some { zeroChunk with id := [0x11, 0x22, 0x33, 0x44], aris := [70, 87, 78, 88] }) :=
  ⟨by decide,
   (C12_parse_not_same_id sampleInterface sampleCrypt frameS4 wireS1 sampleKey [1, 2, 3, 4]
     (by decide) (by decide) (by decide)).1 (by decide)⟩
theorem reachesCrc_withTag {P : Interface} {E : Crypt} {data key id : List Nat}
    (tag : List Nat → List Nat → List Nat) (h : ReachesCrc P E data key id) :
    ReachesCrc P (withTag E tag) data key id :=
  ⟨⟨h.1.1, h.1.2, h.1.3, h.1.4⟩, h.2, h.3⟩

theorem reachesData_withTag {P : Interface} {E : Crypt} {data key id : List Nat}
    (tag : List Nat → List Nat → List Nat) (h : ReachesData P E data key id) :
    ReachesData P (withTag E tag) data key id :=
  ⟨reachesCrc_withTag tag h.1, h.2, h.3, h.4⟩

theorem reachesEnd_withTag {P : Interface} {E : Crypt} {data key id : List Nat}
    (tag : List Nat → List Nat → List Nat) (h : ReachesEnd P E data key id) :
    ReachesEnd P (withTag E tag) data key id :=
  ⟨reachesCrc_withTag tag h.1, h.2, h.3, h.4⟩

/-- A run keeps its status when the bytes the tag decryption writes change. -/
theorem run_withTag {P : Interface} {E : Crypt} {data key id : List Nat}
    (tag : List Nat → List Nat → List Nat) {e : ARISR_ERR} {G : ARISR_CHUNK}
    (h : ParseRun P E data key id (e, G)) :
    ∃ G2, ParseRun P (withTag E tag) data key id (e, G2) := by
  cases h with
  | not_same_id h8 h4 hid => exact ⟨_, .not_same_id h8 h4 hid⟩
  | not_same_aris h8 h4 hid har => exact ⟨_, .not_same_aris h8 h4 hid har⟩
  | no_memory hs hN hm => exact ⟨_, .no_memory ⟨hs.1, hs.2, hs.3, hs.4⟩ hN hm⟩
  | crc_header hc hx => exact ⟨_, .crc_header (reachesCrc_withTag tag hc) hx⟩
  | crc_data hd hx => exact ⟨_, .crc_data (reachesData_withTag tag hd) hx⟩
  | decrypt hd hx he => exact ⟨_, .decrypt (reachesData_withTag tag hd) hx he⟩
  | not_same_end he hx => exact ⟨_, .not_same_end (reachesEnd_withTag tag he) hx⟩
  | ok he hx => exact ⟨_, .ok (reachesEnd_withTag tag he) hx⟩

theorem withTag_withTag (E : Crypt) (tag : List Nat → List Nat → List Nat) :
    withTag (withTag E tag) (fun k b => (E.ARISR_aes_aris_decrypt k b).2) = E := rfl

/-- The status `parseTrace` computes does not depend on the bytes the tag
decryption writes. -/
theorem trace_code_withTag (P : Interface) (E : Crypt) (tag : List Nat → List Nat → List Nat)
    (data key id : List Nat) :
    (parseTrace P (withTag E tag) data key id).map Prod.fst =
      (parseTrace P E data key id).map Prod.fst := by
  cases h1 : parseTrace P E data key id with
  | some r =>
    obtain ⟨G2, hG2⟩ := run_withTag tag (run_of_trace h1 : ParseRun P E data key id (r.1, r.2))
    rw [trace_of_run hG2]
    rfl
  | none =>
    cases h2 : parseTrace P (withTag E tag) data key id with
    | none => rfl
    | some r =>
      obtain ⟨G2, hG2⟩ := run_withTag (fun k b => (E.ARISR_aes_aris_decrypt k b).2)
        (run_of_trace h2 : ParseRun P (withTag E tag) data key id (r.1, r.2))
      rw [withTag_withTag] at hG2
      rw [trace_of_run hG2] at h1
      exact absurd h1 (by simp)

/-- Claim C13: on an input of at least 8 bytes whose first four bytes equal
the expected id, `ARISR_proto_parse` returns `NOT_SAME_ARIS` exactly when the
tag decryption reports a failure, whatever its code; and the status
`ARISR_proto_parse` returns is the same whatever bytes the tag decryption
writes into `aris` (the tag is never compared with a constant).  The payload
decryption is external and its failure code is returned unchanged, so the
statement is about a decryption that does not itself report `NOT_SAME_ARIS` on
the payload of this input. -/
theorem C13_parse_not_same_aris (P : Interface) (E : Crypt) (prior : ARISR_CHUNK)
    (data key id : List Nat) (h8 : 8 ≤ data.length) (h4 : 4 ≤ id.length)
    (hid : slice data 0 4 = slice id 0 4)
    (hdec : (inDecrypt P E data key).1 ≠ kARISR_ERR_NOT_SAME_ARIS) :
    ((E.ARISR_aes_aris_decrypt key (slice data 4 4)).1 ≠ kARISR_OK →
      ARISR_proto_parse P E (some prior) (some data) key id =
        some (kARISR_ERR_NOT_SAME_ARIS,
          some { zeroChunk with
            id := slice data 0 4
            aris := arr 4 (E.ARISR_aes_aris_decrypt key (slice data 4 4)).2 })) ∧
    (∀ r, ARISR_proto_parse P E (some prior) (some data) key id = some r →
      (r.1 = kARISR_ERR_NOT_SAME_ARIS ↔
        (E.ARISR_aes_aris_decrypt key (slice data 4 4)).1 ≠ kARISR_OK)) ∧
    (∀ tag : List Nat → List Nat → List Nat,
      (ARISR_proto_parse P (withTag E tag) (some prior) (some data) key id).map Prod.fst =
        (ARISR_proto_parse P E (some prior) (some data) key id).map Prod.fst) := by
  refine ⟨fun har => parse_of_run prior (.not_same_aris h8 h4 hid har), ?_, ?_⟩
  · rintro ⟨e, og⟩ hr
    obtain ⟨G, -, hG⟩ := parse_run hr
    show e = kARISR_ERR_NOT_SAME_ARIS ↔ _
    cases hG with
    | not_same_id _ _ hx => exact absurd hid hx
    | not_same_aris _ _ _ har => exact ⟨fun _ => har, fun _ => rfl⟩
    | no_memory hs _ _ => exact ⟨fun h => ARISR_ERR.noConfusion h, fun h => absurd hs.aris_ok h⟩
    | crc_header hc _ =>
      exact ⟨fun h => ARISR_ERR.noConfusion h, fun h => absurd hc.start.aris_ok h⟩
    | crc_data hd _ =>
      exact ⟨fun h => ARISR_ERR.noConfusion h, fun h => absurd hd.crc.start.aris_ok h⟩
    | decrypt hd _ _ => exact ⟨fun h => absurd h hdec, fun h => absurd hd.crc.start.aris_ok h⟩
    | not_same_end he _ =>
      exact ⟨fun h => ARISR_ERR.noConfusion h, fun h => absurd he.crc.start.aris_ok h⟩
    | ok he _ => exact ⟨fun h => ARISR_ERR.noConfusion h, fun h => absurd he.crc.start.aris_ok h⟩
  · intro tag
    have := trace_code_withTag P E tag data key id
    rw [parse_eq_trace, parse_eq_trace, Option.map_map, Option.map_map]
    exact this

set_option maxRecDepth 100000 in
/-- Witness of C13: the sample frame `wireS1` under a tag decryption that fails
with code 7. -/
theorem C13_parse_not_same_aris_witness :
    (slice wireS1 0 4 = slice [0x11, 0x22, 0x33, 0x44] 0 4 ∧
      (sampleCryptTagFails.ARISR_aes_aris_decrypt sampleKey (slice wireS1 4 4)).1 ≠ kARISR_OK) ∧
    ARISR_proto_parse sampleInterface sampleCryptTagFails (some frameS4) (some wireS1) sampleKey
        [0x11, 0x22, 0x33, 0x44] =
      some (kARISR_ERR_NOT_SAME_ARIS,
        some { zeroChunk with id := [0x11, 0x22, 0x33, 0x44], aris := [70, 87, 78, 88] }) :=
  ⟨⟨by decide, by decide⟩,
   (C13_parse_not_same_aris sampleInterface sampleCryptTagFails frameS4 wireS1 sampleKey
     [0x11, 0x22, 0x33, 0x44] (by decide) (by decide) (by decide) (by decide)).1 (by decide)⟩

theorem slice_set (l : List Nat) (i v p n : Nat) :
    slice (l.set i v) p n = if i < p then slice l p n else (slice l p n).set (i - p) v := by
  unfold slice
  rw [List.drop_set]
  split
  · rfl
  · rw [List.set_take]

theorem slice_length {l : List Nat} {p n : Nat} (h : p + n ≤ l.length) :
    (slice l p n).length = n := by
  simp [slice]
  omega

theorem slice_set_out {l : List Nat} {i p n : Nat} (v : Nat) (h : i < p ∨ p + n ≤ i) :
    slice (l.set i v) p n = slice l p n := by
  rw [slice_set]
  split
  · rfl
  · apply List.set_eq_of_length_le
    simp only [slice, List.length_take, List.length_drop]
    omega

theorem take_set_out {l : List Nat} {i n : Nat} (v : Nat) (h : n ≤ i) :
    (l.set i v).take n = l.take n := by
  rw [← slice_zero, ← slice_zero]
  exact slice_set_out v (Or.inr (by omega))

theorem slice_two {l : List Nat} {p : Nat} (h : p + 2 ≤ l.length) :
    slice l p 2 = [l.getD p 0, l.getD (p + 1) 0] := by
  apply List.ext_getElem?
  intro j
  simp only [slice, List.getElem?_take, List.getElem?_drop]
  match j with
  | 0 => simp [List.getD_eq_getElem?_getD, List.getElem?_eq_getElem (show p < l.length by omega)]
  | 1 => simp [List.getD_eq_getElem?_getD, List.getElem?_eq_getElem (show p + 1 < l.length by omega)]
  | j + 2 => simp

theorem crcValue_pair {a b : Nat} (ha : a < 256) (hb : b < 256) :
    crcValue [a, b] = a * 256 + b := by
  have e : a <<< 8 = 2 ^ 8 * a := by rw [Nat.shiftLeft_eq, Nat.mul_comm]
  simp only [crcValue, List.getD_cons_zero, List.getD_cons_succ, Nat.mod_eq_of_lt ha,
    Nat.mod_eq_of_lt hb]
  rw [Nat.mod_eq_of_lt (by rw [e]; omega), e,
    ← Nat.mul_add_lt_is_or (show b < 2 ^ 8 by omega) a]
  omega

theorem crcValue_inj {a b c d : Nat} (ha : a < 256) (hb : b < 256) (hc : c < 256)
    (hd : d < 256) (h : crcValue [a, b] = crcValue [c, d]) : a = c ∧ b = d := by
  rw [crcValue_pair ha hb, crcValue_pair hc hd] at h
  omega
theorem slice_of_take {l : List Nat} {p n m : Nat} (h : p + n ≤ m) :
    slice (l.take m) p n = slice l p n := by
  unfold slice
  rw [List.drop_take, List.take_take, Nat.min_eq_left (by omega)]

theorem slice_congr_take {d1 d2 : List Nat} {p n : Nat} (m : Nat) (h : d1.take m = d2.take m)
    (hp : p + n ≤ m) : slice d1 p n = slice d2 p n := by
  rw [← slice_of_take hp, h, slice_of_take hp]

/-- The control word, hence the offset of `crc_header`, depends on the first 24
bytes of the input only. -/
theorem inCtrl_congr {P : Interface} {d1 d2 : List Nat} (h : d1.take 24 = d2.take 24) :
    inCtrl P d1 = inCtrl P d2 := by
  unfold inCtrl
  rw [slice_congr_take 24 h (by omega)]

theorem inHeaderEnd_congr {P : Interface} {d1 d2 : List Nat} (h : d1.take 24 = d2.take 24) :
    inHeaderEnd P d1 = inHeaderEnd P d2 := by
  unfold inHeaderEnd
  rw [inCtrl_congr h]

/-- Reaching the header CRC check depends on the first 24 bytes and the length
of the input only. -/
theorem reachesCrc_congr {P : Interface} {E : Crypt} {d1 d2 key id : List Nat}
    (hl : inHeaderEnd P d1 + 2 ≤ d2.length) (h : d1.take 24 = d2.take 24)
    (hc : ReachesCrc P E d1 key id) : ReachesCrc P E d2 key id := by
  obtain ⟨⟨h4, h24, hid, har⟩, hm, hlen⟩ := hc
  have hge := inHeaderEnd_ge P d1
  refine ⟨⟨h4, by omega, ?_, ?_⟩, ?_, ?_⟩
  · rw [← slice_congr_take 24 h (by omega)]
    exact hid
  · rw [← slice_congr_take 24 h (by omega)]
    exact har
  · rw [← inCtrl_congr h]
    exact hm
  · rw [← inHeaderEnd_congr h]
    exact hl

/-- Changing one of the two stored bytes of a CRC field changes its value. -/
theorem crcValue_set_ne {l : List Nat} {p i v : Nat} (hl : p + 2 ≤ l.length)
    (hb : ∀ b ∈ l, b < 256) (hv : v < 256) (hi : i = p ∨ i = p + 1) (hne : l.getD i 0 ≠ v) :
    crcValue (slice (l.set i v) p 2) ≠ crcValue (slice l p 2) := by
  have h0 : l.getD p 0 < 256 := by
    rw [List.getD_eq_getElem?_getD, List.getElem?_eq_getElem (show p < l.length by omega)]
    exact hb _ (List.getElem_mem _)
  have h1 : l.getD (p + 1) 0 < 256 := by
    rw [List.getD_eq_getElem?_getD, List.getElem?_eq_getElem (show p + 1 < l.length by omega)]
    exact hb _ (List.getElem_mem _)
  rw [slice_set, if_neg (by omega), slice_two hl]
  intro he
  rcases hi with rfl | rfl
  · rw [Nat.sub_self, List.set_cons_zero] at he
    exact hne (crcValue_inj hv h1 h0 h1 he).1.symm
  · rw [Nat.add_sub_cancel_left, List.set_cons_succ, List.set_cons_zero] at he
    exact hne (crcValue_inj h0 hv h0 h1 he).2.symm

/-- Claim C14: on an input that passes the id and aris steps, whose
`destinationsB` allocation succeeds and that holds the header up to the stored
CRC at offset `h = 24 + 6 * N + (6 if from ≠ 0) + (4 if more_header ≠ 0)`
(`inHeaderEnd`), `ARISR_proto_parse` returns `NOT_SAME_CRC_HEADER`, with a
cleaned frame, exactly when `crc16(bytes[0..h))` differs from the big-endian
value stored at `bytes[h]`, `bytes[h+1]`; and changing one of these two bytes in
a buffer that parses with `OK` makes it return `NOT_SAME_CRC_HEADER`.  The payload
decryption is external and its failure code is returned unchanged, so the
"exactly when" is about a decryption that does not itself report
`NOT_SAME_CRC_HEADER` on the payload of this input. -/
theorem C14_parse_crc_header (P : Interface) (E : Crypt) (prior : ARISR_CHUNK)
    (data key id : List Nat) (hc : ReachesCrc P E data key id)
    (hdec : (inDecrypt P E data key).1 ≠ kARISR_ERR_NOT_SAME_CRC_HEADER) :
    (E.ARISR_crypt_crc16_calculate (data.take (inHeaderEnd P data)) % 65536 ≠
        crcValue (slice data (inHeaderEnd P data) 2) →
      ARISR_proto_parse P E (some prior) (some data) key id =
        some (kARISR_ERR_NOT_SAME_CRC_HEADER, some (cleaned E (inCrcFrame P E data key)))) ∧
    (∀ r, ARISR_proto_parse P E (some prior) (some data) key id = some r →
      (r.1 = kARISR_ERR_NOT_SAME_CRC_HEADER ↔
        E.ARISR_crypt_crc16_calculate (data.take (inHeaderEnd P data)) % 65536 ≠
          crcValue (slice data (inHeaderEnd P data) 2))) ∧
    (∀ G i v, ARISR_proto_parse P E (some prior) (some data) key id =
        some (kARISR_OK, some G) →
      (∀ b ∈ data, b < 256) → v < 256 →
      (i = inHeaderEnd P data ∨ i = inHeaderEnd P data + 1) → data.getD i 0 ≠ v →
      ARISR_proto_parse P E (some prior) (some (data.set i v)) key id =
        some (kARISR_ERR_NOT_SAME_CRC_HEADER,
          some (cleaned E (inCrcFrame P E (data.set i v) key)))) := by
  refine ⟨fun hx => parse_of_run prior (.crc_header hc hx), ?_, ?_⟩
  · rintro ⟨e, og⟩ hr
    obtain ⟨G, -, hG⟩ := parse_run hr
    show e = kARISR_ERR_NOT_SAME_CRC_HEADER ↔ ¬ HeaderCrcOk P E data
    cases hG with
    | not_same_id _ _ hx => exact absurd hc.start.id_eq hx
    | not_same_aris _ _ _ hx => exact absurd hc.start.aris_ok hx
    | no_memory _ hN hm =>
      have := hc.malloc_ok hN
      rw [hm] at this
      exact absurd this (by simp)
    | crc_header _ hx => exact ⟨fun _ => hx, fun _ => rfl⟩
    | crc_data hd _ => exact ⟨fun h => ARISR_ERR.noConfusion h, fun h => absurd hd.crc_ok h⟩
    | decrypt hd _ _ => exact ⟨fun h => absurd h hdec, fun h => absurd hd.crc_ok h⟩
    | not_same_end he _ => exact ⟨fun h => ARISR_ERR.noConfusion h, fun h => absurd he.crc_ok h⟩
    | ok he _ => exact ⟨fun h => ARISR_ERR.noConfusion h, fun h => absurd he.crc_ok h⟩
  · intro G i v hok hb hv hi hne
    obtain ⟨G2, -, hG⟩ := parse_run hok
    have hcrc : HeaderCrcOk P E data := by
      generalize hk : kARISR_OK = k at hG
      cases hG with
      | ok he _ => exact he.crc_ok
      | decrypt hd _ he => exact absurd hk.symm he
      | _ => exact ARISR_ERR.noConfusion hk
    have h24 := inHeaderEnd_ge P data
    have hi2 : inHeaderEnd P data ≤ i := by omega
    have hpre : data.take 24 = (data.set i v).take 24 := (take_set_out v (by omega)).symm
    have hc2 := reachesCrc_congr (by simpa using hc.len) hpre hc
    have hh := inHeaderEnd_congr (P := P) hpre
    apply parse_of_run prior
    apply ParseRun.crc_header hc2
    unfold HeaderCrcOk
    rw [← hh, take_set_out v hi2]
    unfold HeaderCrcOk at hcrc
    rw [hcrc]
    exact fun he => crcValue_set_ne hc.len hb hv hi hne he.symm
set_option maxRecDepth 100000 in
/-- Witness of C14 on scenario S5: the bytes of `wireS1` with bit 0 of byte 8
flipped reach the header CRC check and fail it. -/
theorem C14_parse_crc_header_witness :
    (ReachesCrc sampleInterface sampleCrypt wireS5 sampleKey [0x11, 0x22, 0x33, 0x44] ∧
      sampleCrypt.ARISR_crypt_crc16_calculate (wireS5.take (inHeaderEnd sampleInterface wireS5))
        % 65536 ≠ crcValue (slice wireS5 (inHeaderEnd sampleInterface wireS5) 2)) ∧
    ARISR_proto_parse sampleInterface sampleCrypt (some frameS4) (some wireS5) sampleKey
        [0x11, 0x22, 0x33, 0x44] =
      some (kARISR_ERR_NOT_SAME_CRC_HEADER, some zeroChunk) :=
  ⟨⟨⟨⟨by decide, by decide, by decide, by decide⟩, by decide, by decide⟩, by decide⟩,
   (C14_parse_crc_header sampleInterface sampleCrypt frameS4 wireS5 sampleKey
     [0x11, 0x22, 0x33, 0x44]
     ⟨⟨by decide, by decide, by decide, by decide⟩, by decide, by decide⟩ (by decide)).1
     (by decide)⟩

theorem reachesData_withDecrypt {P : Interface} {E : Crypt} {data key id : List Nat}
    (dec : List Nat → List Nat → Nat → ARISR_ERR × List Nat)
    (h : ReachesData P E data key id) : ReachesData P (withDecrypt E dec) data key id :=
  ⟨⟨⟨h.1.1.1, h.1.1.2, h.1.1.3, h.1.1.4⟩, h.1.2, h.1.3⟩, h.2, h.3, h.4⟩

/-- Claim C15: on an input that passes the header CRC check with
`more_header ≠ 0` and `L = (ctrl2 data_length field) * DATA_MULT > 0`
(`inDataLen`), and that holds the `L` payload bytes and the stored data CRC,
`ARISR_proto_parse` returns `NOT_SAME_CRC_DATA`, with a cleaned frame, exactly
when `crc16` of the ciphertext `bytes[d..d+L)`, `d = h + 2`, differs from the
big-endian value stored at `bytes[d+L]`, `bytes[d+L+1]`; the payload decryption
is not consulted for this: with any other decryption function the mismatch
gives the same result.  The failure code of the external payload decryption is
returned unchanged, so the "exactly when" is about a decryption that does not
itself report `NOT_SAME_CRC_DATA` on this ciphertext. -/
theorem C15_parse_crc_data (P : Interface) (E : Crypt) (prior : ARISR_CHUNK)
    (data key id : List Nat) (hd : ReachesData P E data key id)
    (hdec : (inDecrypt P E data key).1 ≠ kARISR_ERR_NOT_SAME_CRC_DATA) :
    (E.ARISR_crypt_crc16_calculate
          (slice data (inHeaderEnd P data + 2) (inDataLen P data)) % 65536 ≠
        crcValue (slice data (inHeaderEnd P data + 2 + inDataLen P data) 2) →
      ARISR_proto_parse P E (some prior) (some data) key id =
        some (kARISR_ERR_NOT_SAME_CRC_DATA, some (cleaned E (inDataFrame P E data key)))) ∧
    (∀ r, ARISR_proto_parse P E (some prior) (some data) key id = some r →
      (r.1 = kARISR_ERR_NOT_SAME_CRC_DATA ↔
        E.ARISR_crypt_crc16_calculate
            (slice data (inHeaderEnd P data + 2) (inDataLen P data)) % 65536 ≠
          crcValue (slice data (inHeaderEnd P data + 2 + inDataLen P data) 2))) ∧
    (E.ARISR_crypt_crc16_calculate
          (slice data (inHeaderEnd P data + 2) (inDataLen P data)) % 65536 ≠
        crcValue (slice data (inHeaderEnd P data + 2 + inDataLen P data) 2) →
      ∀ dec, ARISR_proto_parse P (withDecrypt E dec) (some prior) (some data) key id =
        some (kARISR_ERR_NOT_SAME_CRC_DATA, some (cleaned E (inDataFrame P E data key)))) := by
  refine ⟨fun hx => parse_of_run prior (.crc_data hd hx), ?_, ?_⟩
  · rintro ⟨e, og⟩ hr
    obtain ⟨G, -, hG⟩ := parse_run hr
    show e = kARISR_ERR_NOT_SAME_CRC_DATA ↔ ¬ DataCrcOk P E data
    have hc := hd.crc
    cases hG with
    | not_same_id _ _ hx => exact absurd hc.start.id_eq hx
    | not_same_aris _ _ _ hx => exact absurd hc.start.aris_ok hx
    | no_memory _ hN hm =>
      have := hc.malloc_ok hN
      rw [hm] at this
      exact absurd this (by simp)
    | crc_header _ hx => exact absurd hd.crc_ok hx
    | crc_data _ hx => exact ⟨fun _ => hx, fun _ => rfl⟩
    | decrypt _ hx _ => exact ⟨fun h => absurd h hdec, fun h => absurd hx h⟩
    | not_same_end he _ =>
      exact ⟨fun h => ARISR_ERR.noConfusion h, fun h => absurd (he.data_ok hd.has_data).1 h⟩
    | ok he _ =>
      exact ⟨fun h => ARISR_ERR.noConfusion h, fun h => absurd (he.data_ok hd.has_data).1 h⟩
  · intro hx dec
    exact parse_of_run prior (.crc_data (reachesData_withDecrypt dec hd) hx)

set_option maxRecDepth 100000 in
/-- Witness of C15: the bytes of `wireS4` with one payload byte changed reach
the data CRC check and fail it. -/
theorem C15_parse_crc_data_witness :
    ReachesData sampleInterface sampleCrypt wireS4x sampleKey [0x11, 0x22, 0x33, 0x44] ∧
    ARISR_proto_parse sampleInterface sampleCrypt (some frameS1) (some wireS4x) sampleKey
        [0x11, 0x22, 0x33, 0x44] =
      some (kARISR_ERR_NOT_SAME_CRC_DATA, some zeroChunk) :=
  ⟨⟨⟨⟨by decide, by decide, by decide, by decide⟩, by decide, by decide⟩, by decide,
      by decide, by decide⟩,
   (C15_parse_crc_data sampleInterface sampleCrypt frameS1 wireS4x sampleKey
     [0x11, 0x22, 0x33, 0x44]
     ⟨⟨⟨by decide, by decide, by decide, by decide⟩, by decide, by decide⟩, by decide,
      by decide, by decide⟩ (by decide)).1 (by decide)⟩

theorem take_of_take_eq {d1 d2 : List Nat} {m n : Nat} (hn : n ≤ m)
    (h : d1.take m = d2.take m) : d1.take n = d2.take n := by
  have e : ∀ d : List Nat, d.take n = (d.take m).take n := by
    intro d
    rw [List.take_take, Nat.min_eq_left hn]
  rw [e d1, e d2, h]

/-- The second control word and the payload length depend on the header bytes
of the input only. -/
theorem inCtrl2_congr {P : Interface} {d1 d2 : List Nat} {m : Nat}
    (h : d1.take m = d2.take m) (hm : inHeaderEnd P d1 ≤ m) :
    inCtrl2 P d1 = inCtrl2 P d2 := by
  have h24 := inHeaderEnd_ge P d1
  have hc := inCtrl_congr (P := P) (take_of_take_eq (by omega) h)
  unfold inCtrl2 inPosCtrl2 inPosC
  rw [← hc]
  by_cases hmh : (inCtrl P d1).more_header ≠ 0
  · rw [if_pos hmh, if_pos hmh]
    unfold inHeaderEnd at hm
    rw [if_pos hmh] at hm
    rw [slice_congr_take m h (by omega)]
  · rw [if_neg hmh, if_neg hmh]

theorem inDataLen_congr {P : Interface} {d1 d2 : List Nat} {m : Nat}
    (h : d1.take m = d2.take m) (hm : inHeaderEnd P d1 ≤ m) :
    inDataLen P d1 = inDataLen P d2 := by
  unfold inDataLen
  rw [inCtrl2_congr h hm]

theorem inHasData_congr {P : Interface} {d1 d2 : List Nat} {m : Nat}
    (h : d1.take m = d2.take m) (hm : inHeaderEnd P d1 ≤ m) :
    inHasData P d1 ↔ inHasData P d2 := by
  have h24 := inHeaderEnd_ge P d1
  unfold inHasData
  rw [inDataLen_congr h hm, inCtrl_congr (P := P) (take_of_take_eq (by omega) h)]

theorem inEndPos_congr {P : Interface} {d1 d2 : List Nat} {m : Nat}
    (h : d1.take m = d2.take m) (hm : inHeaderEnd P d1 ≤ m) :
    inEndPos P d1 = inEndPos P d2 := by
  have h24 := inHeaderEnd_ge P d1
  unfold inEndPos
  simp only [inHasData_congr h hm, inDataLen_congr h hm,
    inHeaderEnd_congr (P := P) (take_of_take_eq (by omega) h)]

theorem inHeaderEnd_le_endPos (P : Interface) (data : List Nat) :
    inHeaderEnd P data + 2 ≤ inEndPos P data := by
  unfold inEndPos
  omega

/-- The frame at the header CRC depends on the header bytes of the input only. -/
theorem inHeaderFrame_congr {P : Interface} {E : Crypt} {d1 d2 key : List Nat} {m : Nat}
    (h : d1.take m = d2.take m) (hm : inHeaderEnd P d1 ≤ m) :
    inHeaderFrame P E d1 key = inHeaderFrame P E d2 key := by
  have h24 := inHeaderEnd_ge P d1
  have hc := inCtrl_congr (P := P) (take_of_take_eq (by omega) h)
  have hB : (inCtrl P d1).destinations > 0 →
      slice d1 24 (6 * (inCtrl P d1).destinations) =
        slice d2 24 (6 * (inCtrl P d1).destinations) := by
    intro _
    apply slice_congr_take m h
    unfold inHeaderEnd at hm
    omega
  have hC : (inCtrl P d1).from_ ≠ 0 → slice d1 (inPosC P d1) 6 = slice d2 (inPosC P d1) 6 := by
    intro hf
    apply slice_congr_take m h
    unfold inHeaderEnd at hm
    rw [if_pos hf] at hm
    unfold inPosC
    omega
  have hP : inPosC P d2 = inPosC P d1 := by
    unfold inPosC
    rw [hc]
  unfold inHeaderFrame
  rw [← inCtrl2_congr h hm, hP, ← hc, slice_congr_take m h (show 0 + 4 ≤ m by omega),
    slice_congr_take m h (show 4 + 4 ≤ m by omega),
    slice_congr_take m h (show 12 + 6 ≤ m by omega),
    slice_congr_take m h (show 18 + 6 ≤ m by omega)]
  by_cases hN : (inCtrl P d1).destinations > 0 <;> by_cases hf : (inCtrl P d1).from_ ≠ 0
  · rw [if_pos hN, if_pos hN, if_pos hf, if_pos hf, hB hN, hC hf]
  · rw [if_pos hN, if_pos hN, if_neg hf, if_neg hf, hB hN]
  · rw [if_neg hN, if_neg hN, if_pos hf, if_pos hf, hC hf]
  · rw [if_neg hN, if_neg hN, if_neg hf, if_neg hf]

theorem headerCrcOk_congr {P : Interface} {E : Crypt} {d1 d2 : List Nat} {m : Nat}
    (h : d1.take m = d2.take m) (hm : inHeaderEnd P d1 + 2 ≤ m) :
    HeaderCrcOk P E d1 ↔ HeaderCrcOk P E d2 := by
  have h24 := inHeaderEnd_ge P d1
  unfold HeaderCrcOk
  rw [← inHeaderEnd_congr (P := P) (take_of_take_eq (by omega) h),
    take_of_take_eq (show inHeaderEnd P d1 ≤ m by omega) h, slice_congr_take m h (by omega)]

theorem slice_zero_len (l : List Nat) (p : Nat) : slice l p 0 = [] := by
  simp [slice]

/-- The ciphertext depends on the bytes up to the end of the payload only. -/
theorem inCipher_congr {P : Interface} {d1 d2 : List Nat} {m : Nat}
    (h : d1.take m = d2.take m) (hm : inHeaderEnd P d1 + 2 + inDataLen P d1 ≤ m) :
    inCipher P d1 = inCipher P d2 := by
  have h24 := inHeaderEnd_ge P d1
  unfold inCipher
  rw [← inDataLen_congr h (by omega),
    ← inHeaderEnd_congr (P := P) (take_of_take_eq (by omega) h), slice_congr_take m h (by omega)]

theorem inDecrypt_congr {P : Interface} {E : Crypt} {d1 d2 key : List Nat} {m : Nat}
    (h : d1.take m = d2.take m) (hm : inHeaderEnd P d1 + 2 + inDataLen P d1 ≤ m) :
    inDecrypt P E d1 key = inDecrypt P E d2 key := by
  unfold inDecrypt
  rw [inCipher_congr h hm, inDataLen_congr h (by omega)]

theorem dataCrcOk_congr {P : Interface} {E : Crypt} {d1 d2 : List Nat} {m : Nat}
    (h : d1.take m = d2.take m) (hm : inHeaderEnd P d1 + 2 + inDataLen P d1 + 2 ≤ m) :
    DataCrcOk P E d1 ↔ DataCrcOk P E d2 := by
  have h24 := inHeaderEnd_ge P d1
  unfold DataCrcOk
  rw [← inCipher_congr h (by omega), ← inDataLen_congr h (by omega),
    ← inHeaderEnd_congr (P := P) (take_of_take_eq (by omega) h), slice_congr_take m h (by omega)]

/-- Reaching the trailer check depends on the bytes before the trailer only. -/
theorem reachesEnd_congr {P : Interface} {E : Crypt} {d1 d2 key id : List Nat} {m : Nat}
    (h : d1.take m = d2.take m) (hm : inEndPos P d1 ≤ m) (hl : inEndPos P d1 + 4 ≤ d2.length)
    (he : ReachesEnd P E d1 key id) : ReachesEnd P E d2 key id := by
  have h24 := inHeaderEnd_ge P d1
  have hle := inHeaderEnd_le_endPos P d1
  obtain ⟨hc, hx, hd, -⟩ := he
  refine ⟨reachesCrc_congr (by omega) (take_of_take_eq (by omega) h) hc,
    (headerCrcOk_congr h (by omega)).mp hx, ?_, ?_⟩
  · intro hh2
    have hh1 := (inHasData_congr (P := P) h (by omega)).mpr hh2
    have hb : inHeaderEnd P d1 + 2 + inDataLen P d1 + 2 ≤ m := by
      unfold inEndPos at hm
      rw [if_pos hh1] at hm
      omega
    rw [← dataCrcOk_congr h hb, ← inDecrypt_congr h (by omega)]
    exact hd hh1
  · rw [← inEndPos_congr h (by omega)]
    exact hl

/-- The final frame depends on the bytes before the trailer, and on the
trailer through `end` only. -/
theorem inFrame_congr {P : Interface} {E : Crypt} {d1 d2 key : List Nat} {m : Nat}
    (h : d1.take m = d2.take m) (hm : inEndPos P d1 ≤ m) :
    inFrame P E d2 key = { inFrame P E d1 key with end_ := slice d2 (inEndPos P d1) 4 } := by
  have h24 := inHeaderEnd_ge P d1
  have hle := inHeaderEnd_le_endPos P d1
  have e1 := @inHeaderFrame_congr P E d1 d2 key m h (show inHeaderEnd P d1 ≤ m by omega)
  have e2 := inHeaderEnd_congr (P := P) (take_of_take_eq (show 24 ≤ m by omega) h)
  have e3 := inEndPos_congr (P := P) h (show inHeaderEnd P d1 ≤ m by omega)
  have e4 := inCtrl2_congr (P := P) h (show inHeaderEnd P d1 ≤ m by omega)
  have e5 := inDataLen_congr (P := P) h (show inHeaderEnd P d1 ≤ m by omega)
  have e6 : slice d1 (inHeaderEnd P d1) 2 = slice d2 (inHeaderEnd P d1) 2 :=
    slice_congr_take m h (by omega)
  unfold inFrame
  by_cases hh1 : inHasData P d1
  · have hh2 := (inHasData_congr (P := P) h (by omega)).mp hh1
    have hb : inHeaderEnd P d1 + 2 + inDataLen P d1 + 2 ≤ m := by
      unfold inEndPos at hm
      rw [if_pos hh1] at hm
      omega
    have e7 := inCipher_congr (P := P) h (show inHeaderEnd P d1 + 2 + inDataLen P d1 ≤ m by omega)
    have e8 : slice d1 (inHeaderEnd P d1 + 2 + inDataLen P d1) 2 =
        slice d2 (inHeaderEnd P d1 + 2 + inDataLen P d1) 2 := slice_congr_take m h (by omega)
    rw [if_pos hh1, if_pos hh2, ← e1, ← e2, ← e3, ← e4, ← e5, ← e6, ← e7, ← e8]
  · have hh2 : ¬ inHasData P d2 := fun hx => hh1 ((inHasData_congr (P := P) h (by omega)).mpr hx)
    rw [if_neg hh1, if_neg hh2, ← e1, ← e2, ← e3, ← e6]
/-- A run with status `kARISR_OK` passed every check, and its frame is `inFrame`. -/
theorem run_ok_inv {P : Interface} {E : Crypt} {data key id : List Nat} {G : ARISR_CHUNK}
    (h : ParseRun P E data key id (kARISR_OK, G)) :
    ReachesEnd P E data key id ∧ slice data (inEndPos P data) 4 = slice id 0 4 ∧
      G = inFrame P E data key := by
  generalize hk : kARISR_OK = k at h
  cases h with
  | ok he hx => exact ⟨he, hx, rfl⟩
  | decrypt hd _ he => exact absurd hk.symm he
  | _ => exact ARISR_ERR.noConfusion hk

theorem parse_ok_inv {P : Interface} {E : Crypt} {prior : ARISR_CHUNK}
    {data key id : List Nat} {G : ARISR_CHUNK}
    (h : ARISR_proto_parse P E (some prior) (some data) key id = some (kARISR_OK, some G)) :
    ReachesEnd P E data key id ∧ slice data (inEndPos P data) 4 = slice id 0 4 ∧
      G = inFrame P E data key := by
  obtain ⟨G2, hG2, hr⟩ := parse_run h
  rw [Option.some.injEq] at hG2
  subst hG2
  exact run_ok_inv hr

/-- The input with its trailer overwritten by `v`. -/
theorem overwrite_trailer {data v : List Nat} {e : Nat} (he : e + 4 ≤ data.length)
    (hv : v.length = 4) :
    (data.take e ++ v ++ data.drop (e + 4)).take e = data.take e ∧
    (data.take e ++ v ++ data.drop (e + 4)).length = data.length ∧
    slice (data.take e ++ v ++ data.drop (e + 4)) e 4 = v := by
  have hl : (data.take e).length = e := by
    rw [List.length_take]
    omega
  refine ⟨?_, ?_, ?_⟩
  · rw [List.append_assoc, List.take_append_of_le_length (by omega), List.take_take, Nat.min_self]
  · simp only [List.length_append, List.length_take, List.length_drop]
    omega
  · unfold slice
    rw [List.append_assoc, List.drop_append_of_le_length (by omega),
      List.drop_of_length_le (by omega), List.nil_append,
      List.take_append_of_le_length (by omega), List.take_of_length_le (by omega)]

/-- Claim C16: on an input that passes every earlier step, `ARISR_proto_parse`
returns `NOT_SAME_END` when the four bytes after the last section (at
`inEndPos`: after `crc_header`, or after `crc_data` when a payload is present)
differ from the expected id, and `OK` otherwise; every frame returned with `OK`
has `end = id =` expected id; and overwriting the trailer of a buffer that
parses with `OK` by four bytes other than the id gives `NOT_SAME_END`, the frame
being the one of the `OK` run with the new `end`. -/
theorem C16_parse_trailer (P : Interface) (E : Crypt) (prior : ARISR_CHUNK)
    (data key id : List Nat) :
    (ReachesEnd P E data key id →
      ARISR_proto_parse P E (some prior) (some data) key id =
        some (if slice data (inEndPos P data) 4 ≠ slice id 0 4 then
            (kARISR_ERR_NOT_SAME_END, some (inFrame P E data key))
          else (kARISR_OK, some (inFrame P E data key)))) ∧
    (∀ G, ARISR_proto_parse P E (some prior) (some data) key id = some (kARISR_OK, some G) →
      G.end_ = G.id ∧ G.id = slice id 0 4) ∧
    (∀ G v, ARISR_proto_parse P E (some prior) (some data) key id = some (kARISR_OK, some G) →
      v.length = 4 → v ≠ slice id 0 4 →
      ARISR_proto_parse P E (some prior)
          (some (data.take (inEndPos P data) ++ v ++ data.drop (inEndPos P data + 4))) key id =
        some (kARISR_ERR_NOT_SAME_END, some { G with end_ := v })) := by
  refine ⟨?_, ?_, ?_⟩
  · intro he
    by_cases hx : slice data (inEndPos P data) 4 ≠ slice id 0 4
    · rw [if_pos hx]
      exact parse_of_run prior (.not_same_end he hx)
    · rw [if_neg hx]
      exact parse_of_run prior (.ok he (not_not.mp hx))
  · intro G hok
    obtain ⟨he, hx, rfl⟩ := parse_ok_inv hok
    have hid := he.crc.start.id_eq
    have e1 : (inFrame P E data key).end_ = slice data (inEndPos P data) 4 := by
      unfold inFrame
      split <;> rfl
    have e2 : (inFrame P E data key).id = slice data 0 4 := by
      unfold inFrame
      split <;> rfl
    rw [e1, e2, hx, hid]
    exact ⟨rfl, rfl⟩
  · intro G v hok hv hne
    obtain ⟨he, hx, rfl⟩ := parse_ok_inv hok
    obtain ⟨h1, h2, h3⟩ := overwrite_trailer he.len hv
    have hpre := h1.symm
    have hend := inEndPos_congr (P := P) hpre
      (show inHeaderEnd P data ≤ inEndPos P data by
        have := inHeaderEnd_le_endPos P data
        omega)
    have he2 := reachesEnd_congr hpre (Nat.le_refl _) (by rw [h2]; exact he.len) he
    have hf := @inFrame_congr P E _ _ key _ hpre (Nat.le_refl _)
    rw [h3] at hf
    rw [← hf]
    apply parse_of_run prior
    apply ParseRun.not_same_end he2
    rw [← hend, h3]
    exact hne

set_option maxRecDepth 100000 in
/-- Witness of C16 on scenario S6: `wireS1` parses with `OK`, and with its
trailing four bytes overwritten by zeros it gives `NOT_SAME_END`. -/
theorem C16_parse_trailer_witness :
    ARISR_proto_parse sampleInterface sampleCrypt (some frameS4) (some wireS1) sampleKey
        [0x11, 0x22, 0x33, 0x44] = some (kARISR_OK, some frameS1r) ∧
    ARISR_proto_parse sampleInterface sampleCrypt (some frameS4) (some wireS6) sampleKey
        [0x11, 0x22, 0x33, 0x44] =
      some (kARISR_ERR_NOT_SAME_END, some { frameS1r with end_ := [0, 0, 0, 0] }) :=
  ⟨by decide,
   (C16_parse_trailer sampleInterface sampleCrypt frameS4 wireS1 sampleKey
     [0x11, 0x22, 0x33, 0x44]).2.2 frameS1r [0, 0, 0, 0] (by decide) (by decide) (by decide)⟩

/-- The header fields of the final frame. -/
theorem inFrame_header (P : Interface) (E : Crypt) (data key : List Nat) :
    (inFrame P E data key).id = slice data 0 4 ∧
    (inFrame P E data key).ctrl = inCtrl P data ∧
    (inFrame P E data key).origin = slice data 12 6 ∧
    (inFrame P E data key).destinationA = slice data 18 6 ∧
    (inFrame P E data key).destinationsB =
      (if (inCtrl P data).destinations > 0 then
        some (slice data 24 (6 * (inCtrl P data).destinations))
      else none) ∧
    (inFrame P E data key).destinationC =
      (if (inCtrl P data).from_ ≠ 0 then slice data (inPosC P data) 6
      else List.replicate 6 0) ∧
    (inFrame P E data key).crc_header = slice data (inHeaderEnd P data) 2 ∧
    (inFrame P E data key).end_ = slice data (inEndPos P data) 4 := by
  unfold inFrame
  split <;> exact ⟨rfl, rfl, rfl, rfl, rfl, rfl, rfl, rfl⟩

/-- The payload fields of the final frame of an input with a payload. -/
theorem inFrame_payload {P : Interface} (E : Crypt) {data : List Nat} (key : List Nat)
    (h : inHasData P data) :
    (inFrame P E data key).data = some (inDecrypt P E data key).2 ∧
    (inFrame P E data key).ctrl2 =
      { inCtrl2 P data with data_length := (inDecrypt P E data key).2.length } ∧
    (inFrame P E data key).crc_data =
      slice data (inHeaderEnd P data + 2 + inDataLen P data) 2 := by
  unfold inFrame
  rw [if_pos h]
  exact ⟨rfl, rfl, rfl⟩

/-- The payload fields of the final frame of an input without payload. -/
theorem inFrame_no_payload {P : Interface} (E : Crypt) {data : List Nat} (key : List Nat)
    (h : ¬ inHasData P data) :
    (inFrame P E data key).data = none ∧
    (inFrame P E data key).ctrl2 = inCtrl2 P data ∧
    (inFrame P E data key).crc_data = List.replicate 2 0 := by
  unfold inFrame
  rw [if_neg h]
  exact ⟨rfl, rfl, rfl⟩

/-- The on-wire payload length of an input with `more_header ≠ 0`: the length
field of the second control word times `ARISR_DATA_MULT`. -/
theorem inDataLen_eq {P : Interface} {data : List Nat} (h : (inCtrl P data).more_header ≠ 0) :
    inDataLen P data =
      ARISR_proto_ctrl_getField (some (slice data (inPosCtrl2 P data) 4))
        P.ARISR_CTRL2_DATA_LENGTH_MASK P.ARISR_CTRL2_DATA_LENGTH_SHIFT * P.ARISR_DATA_MULT := by
  unfold inDataLen inCtrl2
  rw [if_pos h]
  rfl

/-- Claim C18, as amended: on an input that `ARISR_proto_parse` accepts,
`frame.ctrl` holds the nine `getField` values of the word at bytes [8,12)
(`parseCtrl1`), `origin` is bytes [12,18), `destinationA` bytes [18,24),
`destinationsB` is exactly the `6 * N` bytes at offset 24 with
`N = frame.ctrl.destinations` (null when `N = 0`), `destinationC` is the next 6
bytes when `ctrl.from ≠ 0` and zero otherwise, and with `ctrl.more_header ≠ 0`
the fields `feature`, `neg_answer` and `freq_switch` of `ctrl2` are the
`getField` values of the next 4 bytes, while `ctrl2.data_length` is the length
of the plaintext the payload decryption returns when the length field times
`ARISR_DATA_MULT` is positive, and 0 otherwise. -/
theorem C18_parse_header_extraction (P : Interface) (E : Crypt) (prior : ARISR_CHUNK)
    (data key id : List Nat) (G : ARISR_CHUNK)
    (hok : ARISR_proto_parse P E (some prior) (some data) key id = some (kARISR_OK, some G)) :
    G.ctrl = parseCtrl1 P (slice data 8 4) ∧
    G.origin = slice data 12 6 ∧ G.destinationA = slice data 18 6 ∧
    G.destinationsB =
      (if G.ctrl.destinations > 0 then some (slice data 24 (6 * G.ctrl.destinations))
      else none) ∧
    (slice data 24 (6 * G.ctrl.destinations)).length = 6 * G.ctrl.destinations ∧
    G.destinationC =
      (if G.ctrl.from_ ≠ 0 then slice data (24 + 6 * G.ctrl.destinations) 6
      else List.replicate 6 0) ∧
    (G.ctrl.more_header ≠ 0 →
      G.ctrl2.feature =
        ARISR_proto_ctrl_getField
          (some (slice data
            (24 + 6 * G.ctrl.destinations + (if G.ctrl.from_ ≠ 0 then 6 else 0)) 4))
          P.ARISR_CTRL2_FEATURE_MASK P.ARISR_CTRL2_FEATURE_SHIFT ∧
      G.ctrl2.neg_answer =
        ARISR_proto_ctrl_getField
          (some (slice data
            (24 + 6 * G.ctrl.destinations + (if G.ctrl.from_ ≠ 0 then 6 else 0)) 4))
          P.ARISR_CTRL2_NEG_ANSWER_MASK P.ARISR_CTRL2_NEG_ANSWER_SHIFT ∧
      G.ctrl2.freq_switch =
        ARISR_proto_ctrl_getField
          (some (slice data
            (24 + 6 * G.ctrl.destinations + (if G.ctrl.from_ ≠ 0 then 6 else 0)) 4))
          P.ARISR_CTRL2_FREQ_SWITCH_MASK P.ARISR_CTRL2_FREQ_SWITCH_SHIFT ∧
      G.ctrl2.data_length =
        (if ARISR_proto_ctrl_getField
            (some (slice data
              (24 + 6 * G.ctrl.destinations + (if G.ctrl.from_ ≠ 0 then 6 else 0)) 4))
            P.ARISR_CTRL2_DATA_LENGTH_MASK P.ARISR_CTRL2_DATA_LENGTH_SHIFT * P.ARISR_DATA_MULT > 0
        then (inDecrypt P E data key).2.length else 0)) := by
  obtain ⟨he, -, rfl⟩ := parse_ok_inv hok
  obtain ⟨-, hc, ho, hA, hB, hC, -, -⟩ := inFrame_header P E data key
  have hlen := he.crc.len
  rw [hc]
  refine ⟨rfl, ho, hA, hB, ?_, hC, ?_⟩
  · apply slice_length
    unfold inHeaderEnd at hlen
    omega
  · intro hmh
    have hp : inPosCtrl2 P data =
        24 + 6 * (inCtrl P data).destinations + (if (inCtrl P data).from_ ≠ 0 then 6 else 0) :=
      rfl
    have hL := inDataLen_eq hmh
    rw [hp] at hL
    have hz : inCtrl2 P data = parseCtrl2 P (slice data (inPosCtrl2 P data) 4) := by
      unfold inCtrl2
      rw [if_pos hmh]
    rw [← hL]
    by_cases hh : inHasData P data
    · obtain ⟨-, hc2, -⟩ := inFrame_payload E key hh
      rw [hc2, hz, if_pos hh.2]
      exact ⟨rfl, rfl, rfl, rfl⟩
    · obtain ⟨-, hc2, -⟩ := inFrame_no_payload E key hh
      have h0 : ¬ inDataLen P data > 0 := fun hx => hh ⟨hmh, hx⟩
      rw [hc2, if_neg h0]
      refine ⟨by rw [hz]; rfl, by rw [hz]; rfl, by rw [hz]; rfl, ?_⟩
      have : (inCtrl2 P data).data_length = inDataLen P data := rfl
      omega

set_option maxRecDepth 100000 in
/-- Witness of C18 on scenario S4. -/
theorem C18_parse_header_extraction_witness :
    ARISR_proto_parse sampleInterface sampleCrypt (some frameS1) (some wireS4) sampleKey
        [0x11, 0x22, 0x33, 0x44] = some (kARISR_OK, some frameS4r) ∧
    frameS4r.destinationsB =
      (if frameS4r.ctrl.destinations > 0 then
        some (slice wireS4 24 (6 * frameS4r.ctrl.destinations))
      else none) :=
  ⟨by decide,
   (C18_parse_header_extraction sampleInterface sampleCrypt frameS1 wireS4 sampleKey
     [0x11, 0x22, 0x33, 0x44] frameS4r (by decide)).2.2.2.1⟩

set_option maxRecDepth 100000 in
/-- Claim C18 as stated fails for `ctrl2.data_length`: the sample buffer
`wireS4` parses with `OK` and `more_header ≠ 0`, its length field reads 2 with
`getField`, and the frame holds `data_length = 16`, the length of the decrypted
payload (the field is multiplied by `ARISR_DATA_MULT` and then replaced by the
plaintext length). -/
theorem C18_parse_header_extraction_counterexample :
    ARISR_proto_parse sampleInterface sampleCrypt (some frameS1) (some wireS4) sampleKey
        [0x11, 0x22, 0x33, 0x44] = some (kARISR_OK, some frameS4r) ∧
    frameS4r.ctrl.more_header ≠ 0 ∧
    frameS4r.ctrl2.data_length ≠
      ARISR_proto_ctrl_getField
        (some (slice wireS4
          (24 + 6 * frameS4r.ctrl.destinations + (if frameS4r.ctrl.from_ ≠ 0 then 6 else 0)) 4))
        sampleInterface.ARISR_CTRL2_DATA_LENGTH_MASK
        sampleInterface.ARISR_CTRL2_DATA_LENGTH_SHIFT := by
  decide

/-- Claim C19 (invariant I3 after parse): on an input that `ARISR_proto_parse`
accepts with `more_header = 0`, the four ctrl2 fields of the frame are zero,
`data` is null, `crc_data` is `00 00`, `end` is read from the four bytes right
after `crc_header`, and the result is the same whatever bytes follow these four
in the input. -/
theorem C19_parse_no_more_header (P : Interface) (E : Crypt) (prior : ARISR_CHUNK)
    (data key id : List Nat) (G : ARISR_CHUNK)
    (hok : ARISR_proto_parse P E (some prior) (some data) key id = some (kARISR_OK, some G))
    (hmh : G.ctrl.more_header = 0) :
    G.ctrl2 = ⟨0, 0, 0, 0⟩ ∧ G.data = none ∧ G.crc_data = [0, 0] ∧
    G.end_ = slice data (inHeaderEnd P data + 2) 4 ∧
    (∀ tail : List Nat,
      ARISR_proto_parse P E (some prior)
          (some (data.take (inHeaderEnd P data + 2 + 4) ++ tail)) key id =
        some (kARISR_OK, some G)) := by
  obtain ⟨he, hx, rfl⟩ := parse_ok_inv hok
  obtain ⟨-, hc, -, -, -, -, -, hend⟩ := inFrame_header P E data key
  rw [hc] at hmh
  have hh : ¬ inHasData P data := fun h => h.1 hmh
  obtain ⟨hd, hc2, hcd⟩ := inFrame_no_payload E key hh
  have hp : inEndPos P data = inHeaderEnd P data + 2 := by
    unfold inEndPos
    rw [if_neg hh]
  have hz : inCtrl2 P data = ⟨0, 0, 0, 0⟩ := by
    unfold inCtrl2
    rw [if_neg (not_not.mpr hmh)]
  have hlen := he.len
  rw [hp] at hlen hend hx
  refine ⟨by rw [hc2, hz], hd, hcd, hend, ?_⟩
  intro tail
  have hl : (data.take (inHeaderEnd P data + 2 + 4)).length = inHeaderEnd P data + 2 + 4 := by
    rw [List.length_take]
    omega
  have hpre : data.take (inHeaderEnd P data + 2 + 4) =
      (data.take (inHeaderEnd P data + 2 + 4) ++ tail).take (inHeaderEnd P data + 2 + 4) := by
    rw [List.take_append_of_le_length (by omega), List.take_take, Nat.min_self]
  have he2 := reachesEnd_congr hpre (by omega)
    (by rw [List.length_append, hl, hp]; omega) he
  have hend2 := inEndPos_congr (P := P) hpre (by omega)
  have hs : slice (data.take (inHeaderEnd P data + 2 + 4) ++ tail) (inHeaderEnd P data + 2) 4 =
      slice data (inHeaderEnd P data + 2) 4 :=
    (slice_congr_take _ hpre (by omega)).symm
  have hf := @inFrame_congr P E _ _ key _ hpre (show inEndPos P data ≤ _ by omega)
  rw [hp, hs, ← hend] at hf
  have hf2 : inFrame P E (data.take (inHeaderEnd P data + 2 + 4) ++ tail) key =
      inFrame P E data key := hf
  rw [← hf2]
  apply parse_of_run prior
  apply ParseRun.ok he2
  rw [← hend2, hp, hs]
  exact hx

set_option maxRecDepth 100000 in
/-- Witness of C19 on scenario S1, followed by three more bytes. -/
theorem C19_parse_no_more_header_witness :
    ARISR_proto_parse sampleInterface sampleCrypt (some frameS4) (some wireS1) sampleKey
        [0x11, 0x22, 0x33, 0x44] = some (kARISR_OK, some frameS1r) ∧
    ARISR_proto_parse sampleInterface sampleCrypt (some frameS4)
        (some (wireS1.take (inHeaderEnd sampleInterface wireS1 + 2 + 4) ++ [7, 8, 9])) sampleKey
        [0x11, 0x22, 0x33, 0x44] = some (kARISR_OK, some frameS1r) :=
  ⟨by decide,
   (C19_parse_no_more_header sampleInterface sampleCrypt frameS4 wireS1 sampleKey
     [0x11, 0x22, 0x33, 0x44] frameS1r (by decide) (by decide)).2.2.2.2 [7, 8, 9]⟩

/-- Claim C20: on an input that `ARISR_proto_parse` accepts with
`more_header ≠ 0` and on-wire length `L > 0`, the payload decryption succeeds
on exactly the `L` bytes that follow `crc_header`, `frame.data` is the plaintext
it returns, `frame.ctrl2.data_length` is the length of that plaintext,
`crc_data` is read at offset `h + 2 + L` and `end` at `h + 2 + L + 2`: the cursor
advances by the on-wire length `L`, the length field of the second control word
times `ARISR_DATA_MULT`. -/
theorem C20_parse_payload (P : Interface) (E : Crypt) (prior : ARISR_CHUNK)
    (data key id : List Nat) (G : ARISR_CHUNK)
    (hok : ARISR_proto_parse P E (some prior) (some data) key id = some (kARISR_OK, some G))
    (hmh : G.ctrl.more_header ≠ 0) (hL : inDataLen P data > 0) :
    (E.ARISR_aes_data_decrypt (dataKey key)
      (slice data (inHeaderEnd P data + 2) (inDataLen P data)) (inDataLen P data)).1
        = kARISR_OK ∧
    G.data = some (E.ARISR_aes_data_decrypt (dataKey key)
      (slice data (inHeaderEnd P data + 2) (inDataLen P data)) (inDataLen P data)).2 ∧
    G.ctrl2.data_length = (E.ARISR_aes_data_decrypt (dataKey key)
      (slice data (inHeaderEnd P data + 2) (inDataLen P data)) (inDataLen P data)).2.length ∧
    G.crc_data = slice data (inHeaderEnd P data + 2 + inDataLen P data) 2 ∧
    G.end_ = slice data (inHeaderEnd P data + 2 + inDataLen P data + 2) 4 ∧
    inHeaderEnd P data + 2 + inDataLen P data + 2 + 4 ≤ data.length ∧
    inDataLen P data =
      ARISR_proto_ctrl_getField (some (slice data (inPosCtrl2 P data) 4))
        P.ARISR_CTRL2_DATA_LENGTH_MASK P.ARISR_CTRL2_DATA_LENGTH_SHIFT * P.ARISR_DATA_MULT := by
  obtain ⟨he, -, rfl⟩ := parse_ok_inv hok
  obtain ⟨-, hc, -, -, -, -, -, hend⟩ := inFrame_header P E data key
  rw [hc] at hmh
  have hh : inHasData P data := ⟨hmh, hL⟩
  obtain ⟨hd, hc2, hcd⟩ := inFrame_payload E key hh
  have hp : inEndPos P data = inHeaderEnd P data + 2 + inDataLen P data + 2 := by
    unfold inEndPos
    rw [if_pos hh]
    omega
  have hlen := he.len
  rw [hp] at hlen hend
  exact ⟨(he.data_ok hh).2, hd, by rw [hc2]; rfl, hcd, hend, hlen, inDataLen_eq hmh⟩

set_option maxRecDepth 100000 in
/-- Witness of C20 on scenario S4: sixteen ciphertext bytes at offset 54. -/
theorem C20_parse_payload_witness :
    (ARISR_proto_parse sampleInterface sampleCrypt (some frameS1) (some wireS4) sampleKey
        [0x11, 0x22, 0x33, 0x44] = some (kARISR_OK, some frameS4r) ∧
      inDataLen sampleInterface wireS4 = 16 ∧ inHeaderEnd sampleInterface wireS4 = 52) ∧
    frameS4r.data = some (sampleCrypt.ARISR_aes_data_decrypt (dataKey sampleKey)
      (slice wireS4 (inHeaderEnd sampleInterface wireS4 + 2) (inDataLen sampleInterface wireS4))
      (inDataLen sampleInterface wireS4)).2 :=
  ⟨⟨by decide, by decide, by decide⟩,
   (C20_parse_payload sampleInterface sampleCrypt frameS1 wireS4 sampleKey
     [0x11, 0x22, 0x33, 0x44] frameS4r (by decide) (by decide) (by decide)).2.1⟩

theorem flip_ne (b k : Nat) : b ^^^ 2 ^ k ≠ b := by
  intro h
  have := congrArg (fun n => n.testBit k) h
  simp only [Nat.testBit_xor, Nat.testBit_two_pow_self, Bool.xor_true] at this
  cases hb : b.testBit k <;> simp [hb] at this

theorem flip_lt {b k : Nat} (hb : b < 256) (hk : k < 8) : b ^^^ 2 ^ k < 256 := by
  have h2 : 2 ^ k < 2 ^ 8 := Nat.pow_lt_pow_right (by omega) hk
  exact Nat.xor_lt_two_pow (n := 8) hb h2

theorem flipBit_length (l : List Nat) (i k : Nat) : (flipBit l i k).length = l.length := by
  simp [flipBit]

theorem getD_lt_of_bytes {l : List Nat} (hb : ∀ b ∈ l, b < 256) (i : Nat) : l.getD i 0 < 256 := by
  rw [List.getD_eq_getElem?_getD]
  by_cases h : i < l.length
  · rw [List.getElem?_eq_getElem h]
    exact hb _ (List.getElem_mem _)
  · rw [List.getElem?_eq_none (by omega)]
    decide

theorem getD_take {l : List Nat} {i n : Nat} (h : i < n) : (l.take n).getD i 0 = l.getD i 0 := by
  rw [List.getD_eq_getElem?_getD, List.getD_eq_getElem?_getD, List.getElem?_take_of_lt h]

theorem getD_slice {l : List Nat} {i p n : Nat} (h : i < n) :
    (slice l p n).getD i 0 = l.getD (p + i) 0 := by
  rw [List.getD_eq_getElem?_getD, List.getD_eq_getElem?_getD]
  unfold slice
  rw [List.getElem?_take_of_lt h, List.getElem?_drop]

/-- A flip below `n` is a flip of the first `n` bytes. -/
theorem flipBit_take {l : List Nat} {i n : Nat} (k : Nat) (h : i < n) :
    (flipBit l i k).take n = flipBit (l.take n) i k := by
  unfold flipBit
  rw [List.set_take, getD_take h]

/-- A flip inside a section is a flip of that section. -/
theorem flipBit_slice {l : List Nat} {i p n : Nat} (k : Nat) (h1 : p ≤ i) (h2 : i < p + n) :
    slice (flipBit l i k) p n = flipBit (slice l p n) (i - p) k := by
  unfold flipBit
  rw [slice_set, if_neg (by omega), getD_slice (by omega), Nat.add_sub_cancel' h1]

/-- A flip outside a section leaves it unchanged. -/
theorem flipBit_slice_out {l : List Nat} {i p n : Nat} (k : Nat) (h : i < p ∨ p + n ≤ i) :
    slice (flipBit l i k) p n = slice l p n :=
  slice_set_out _ h

theorem flipBit_take_out {l : List Nat} {i n : Nat} (k : Nat) (h : n ≤ i) :
    (flipBit l i k).take n = l.take n :=
  take_set_out _ h

/-- A flip inside a section changes it. -/
theorem flipBit_slice_ne {l : List Nat} {i p n : Nat} (k : Nat) (h1 : p ≤ i) (h2 : i < p + n)
    (hl : p + n ≤ l.length) : slice (flipBit l i k) p n ≠ slice l p n := by
  intro h
  have := congrArg (fun s => s.getD (i - p) 0) h
  simp only at this
  rw [getD_slice (by omega), getD_slice (by omega), Nat.add_sub_cancel' h1] at this
  unfold flipBit at this
  rw [List.getD_eq_getElem?_getD, List.getElem?_set_self (by omega)] at this
  exact flip_ne _ _ this

theorem bytes_take {l : List Nat} (hb : ∀ b ∈ l, b < 256) (n : Nat) :
    ∀ b ∈ l.take n, b < 256 :=
  fun b h => hb b (List.mem_of_mem_take h)

theorem bytes_slice {l : List Nat} (hb : ∀ b ∈ l, b < 256) (p n : Nat) :
    ∀ b ∈ slice l p n, b < 256 :=
  fun b h => hb b (List.mem_of_mem_drop (List.mem_of_mem_take h))

theorem inHeaderEnd_of_sameLayout {P : Interface} {d1 d2 : List Nat} (h : SameLayout P d1 d2) :
    inHeaderEnd P d2 = inHeaderEnd P d1 := by
  obtain ⟨h1, h2, h3⟩ := h
  unfold inHeaderEnd
  rw [h1]
  simp only [h2, h3]

/-- A single-bit flip in the header bytes `[4, h)` that keeps the layout: the
tag decryption fails or the header CRC does not match. -/
theorem flip_in_header {P : Interface} {E : Crypt} {B key id : List Nat} {i k : Nat}
    (he : ReachesEnd P E B key id) (hbytes : ∀ b ∈ B, b < 256) (hdet : DetectsFlips E)
    (h4 : 4 ≤ i) (hi : i < inHeaderEnd P B) (hk : k < 8)
    (hlay : SameLayout P B (flipBit B i k)) :
    ParseRun P E (flipBit B i k) key id (kARISR_ERR_NOT_SAME_ARIS,
        { zeroChunk with
          id := slice (flipBit B i k) 0 4
          aris := arr 4 (E.ARISR_aes_aris_decrypt key (slice (flipBit B i k) 4 4)).2 }) ∨
      ParseRun P E (flipBit B i k) key id (kARISR_ERR_NOT_SAME_CRC_HEADER,
        cleaned E (inCrcFrame P E (flipBit B i k) key)) := by
  have hc := he.crc
  have hh := inHeaderEnd_of_sameLayout hlay
  have hid : slice (flipBit B i k) 0 4 = slice id 0 4 := by
    rw [flipBit_slice_out k (Or.inr (by omega))]
    exact hc.start.id_eq
  have hlen : (flipBit B i k).length = B.length := flipBit_length B i k
  by_cases har : (E.ARISR_aes_aris_decrypt key (slice (flipBit B i k) 4 4)).1 = kARISR_OK
  · right
    have hc2 : ReachesCrc P E (flipBit B i k) key id := by
      refine ⟨⟨hc.start.id_len, by rw [hlen]; exact hc.start.len, hid, har⟩, ?_, ?_⟩
      · rw [hlay.1]
        exact hc.malloc_ok
      · rw [hh, hlen]
        exact hc.len
    apply ParseRun.crc_header hc2
    unfold HeaderCrcOk
    rw [hh, flipBit_take k hi, flipBit_slice_out k (Or.inl hi)]
    have hok : HeaderCrcOk P E B := he.crc_ok
    unfold HeaderCrcOk at hok
    rw [← hok]
    have hl : i < (B.take (inHeaderEnd P B)).length := by
      rw [List.length_take]
      have := hc.len
      omega
    exact hdet _ i k (bytes_take hbytes _) hl hk
  · left
    exact .not_same_aris (by rw [hlen]; have := hc.start.len; omega) hc.start.id_len hid har

/-- Changing a stored CRC byte by a bit flip changes the CRC value read. -/
theorem crcValue_flip_ne {l : List Nat} {p i : Nat} (k : Nat) (hl : p + 2 ≤ l.length)
    (hb : ∀ b ∈ l, b < 256) (hk : k < 8) (h1 : p ≤ i) (h2 : i < p + 2) :
    crcValue (slice (flipBit l i k) p 2) ≠ crcValue (slice l p 2) :=
  crcValue_set_ne hl hb (flip_lt (getD_lt_of_bytes hb i) hk) (by omega) (flip_ne _ _).symm

/-- Claim C17, as amended: for a buffer `B` that `ARISR_proto_parse` accepts
(as the output of `ARISR_proto_build` of a round-tripping frame is), a CRC
primitive that detects single-bit changes, and a bit position inside the frame
whose flip, when it lies in the header, leaves `destinations` as it is and
does not change whether `from` and `more_header` are zero, parsing the flipped
buffer returns one of `NOT_SAME_ID`, `NOT_SAME_ARIS`, `NOT_SAME_CRC_HEADER`,
`NOT_SAME_CRC_DATA`, `NOT_SAME_END`. -/
theorem C17_crc_sensitivity (P : Interface) (E : Crypt) (prior : ARISR_CHUNK)
    (B key id : List Nat) (G : ARISR_CHUNK) (i k : Nat)
    (hok : ARISR_proto_parse P E (some prior) (some B) key id = some (kARISR_OK, some G))
    (hbytes : ∀ b ∈ B, b < 256) (hdet : DetectsFlips E)
    (hi : i < inEndPos P B + 4) (hk : k < 8)
    (hlay : i < inHeaderEnd P B → SameLayout P B (flipBit B i k)) :
    ∃ e og, ARISR_proto_parse P E (some prior) (some (flipBit B i k)) key id = some (e, og) ∧
      IsViolation e := by
  obtain ⟨he, hx, -⟩ := parse_ok_inv hok
  have hc := he.crc
  have h24 := inHeaderEnd_ge P B
  have hle := inHeaderEnd_le_endPos P B
  have hlen : (flipBit B i k).length = B.length := flipBit_length B i k
  have hlenB := he.len
  by_cases c1 : i < 4
  · -- id bytes
    refine ⟨_, _, parse_of_run prior (.not_same_id (by rw [hlen]; omega) hc.start.id_len ?_),
      Or.inl rfl⟩
    rw [← hc.start.id_eq]
    exact flipBit_slice_ne k (Nat.zero_le _) (by omega) (by omega)
  by_cases c2 : i < inHeaderEnd P B
  · -- header bytes after the id
    rcases flip_in_header he hbytes hdet (by omega) c2 hk (hlay c2) with h | h
    · exact ⟨_, _, parse_of_run prior h, Or.inr (Or.inl rfl)⟩
    · exact ⟨_, _, parse_of_run prior h, Or.inr (Or.inr (Or.inl rfl))⟩
  have hpre24 : B.take 24 = (flipBit B i k).take 24 := (flipBit_take_out k (by omega)).symm
  have hc2 : ReachesCrc P E (flipBit B i k) key id :=
    reachesCrc_congr (by rw [hlen]; exact hc.len) hpre24 hc
  have hh : inHeaderEnd P B = inHeaderEnd P (flipBit B i k) := inHeaderEnd_congr hpre24
  by_cases c3 : i < inHeaderEnd P B + 2
  · -- stored header CRC
    refine ⟨_, _, parse_of_run prior (.crc_header hc2 ?_), Or.inr (Or.inr (Or.inl rfl))⟩
    unfold HeaderCrcOk
    rw [← hh, flipBit_take_out k (by omega)]
    have hok2 : HeaderCrcOk P E B := he.crc_ok
    unfold HeaderCrcOk at hok2
    rw [hok2]
    exact fun hx2 => crcValue_flip_ne k hc.len hbytes hk (by omega) c3 hx2.symm
  have hpre : B.take (inHeaderEnd P B + 2) = (flipBit B i k).take (inHeaderEnd P B + 2) :=
    (flipBit_take_out k (by omega)).symm
  have hcrc2 : HeaderCrcOk P E (flipBit B i k) :=
    (headerCrcOk_congr hpre (Nat.le_refl _)).mp he.crc_ok
  have hL : inDataLen P B = inDataLen P (flipBit B i k) := inDataLen_congr hpre (by omega)
  have hhd : inHasData P B ↔ inHasData P (flipBit B i k) := inHasData_congr hpre (by omega)
  have hend : inEndPos P B = inEndPos P (flipBit B i k) := inEndPos_congr hpre (by omega)
  by_cases c4 : i < inEndPos P B
  · -- payload or stored data CRC
    have hd : inHasData P B := by
      by_contra hn
      unfold inEndPos at c4
      rw [if_neg hn] at c4
      omega
    have hp : inEndPos P B = inHeaderEnd P B + 2 + inDataLen P B + 2 := by
      unfold inEndPos
      rw [if_pos hd]
      omega
    have hrd : ReachesData P E (flipBit B i k) key id :=
      ⟨hc2, hcrc2, hhd.mp hd, by rw [← hh, ← hL, hlen]; omega⟩
    refine ⟨_, _, parse_of_run prior (.crc_data hrd ?_),
      Or.inr (Or.inr (Or.inr (Or.inl rfl)))⟩
    have hok2 : DataCrcOk P E B := (he.data_ok hd).1
    unfold DataCrcOk inCipher at hok2 ⊢
    rw [← hh, ← hL]
    by_cases c5 : i < inHeaderEnd P B + 2 + inDataLen P B
    · rw [flipBit_slice k (by omega) (by omega), flipBit_slice_out k (Or.inl c5), ← hok2]
      have hl : i - (inHeaderEnd P B + 2) <
          (slice B (inHeaderEnd P B + 2) (inDataLen P B)).length := by
        rw [slice_length (by omega)]
        omega
      exact hdet _ _ k (bytes_slice hbytes _ _) hl hk
    · rw [flipBit_slice_out k (Or.inr (by omega)), hok2]
      exact fun hx2 => crcValue_flip_ne k (by omega) hbytes hk (by omega) (by omega) hx2.symm
  · -- trailer
    have hpre2 : B.take (inEndPos P B) = (flipBit B i k).take (inEndPos P B) :=
      (flipBit_take_out k (by omega)).symm
    have he2 := reachesEnd_congr hpre2 (Nat.le_refl _) (by rw [hlen]; exact hlenB) he
    refine ⟨_, _, parse_of_run prior (.not_same_end he2 ?_),
      Or.inr (Or.inr (Or.inr (Or.inr rfl)))⟩
    rw [← hend, ← hx]
    exact flipBit_slice_ne k (by omega) hi hlenB

/-- One step of the sample checksum. -/
theorem sampleStep_inj {a a2 b : Nat} (ha : a < 65536) (ha2 : a2 < 65536)
    (h : (a * 31 + b + 1) % 65536 = (a2 * 31 + b + 1) % 65536) : a = a2 := by
  omega

theorem sampleFold_lt (l : List Nat) {a : Nat} (ha : a < 65536) :
    l.foldl (fun acc b => (acc * 31 + b + 1) % 65536) a < 65536 := by
  induction l generalizing a with
  | nil => exact ha
  | cons x xs ih => exact ih (Nat.mod_lt _ (by norm_num))

theorem sampleFold_inj (l : List Nat) {a a2 : Nat} (ha : a < 65536) (ha2 : a2 < 65536)
    (h : l.foldl (fun acc b => (acc * 31 + b + 1) % 65536) a =
      l.foldl (fun acc b => (acc * 31 + b + 1) % 65536) a2) : a = a2 := by
  induction l generalizing a a2 with
  | nil => exact h
  | cons x xs ih =>
    simp only [List.foldl_cons] at h
    exact sampleStep_inj ha ha2 (ih (Nat.mod_lt _ (by norm_num)) (Nat.mod_lt _ (by norm_num)) h)

/-- The sample checksum detects every single-bit change of a byte string. -/
theorem detectsFlips_sample : DetectsFlips sampleCrypt := by
  intro l i k hb hi hk
  have hsplit : l = l.take i ++ l.getD i 0 :: l.drop (i + 1) := by
    rw [List.getD_eq_getElem?_getD, List.getElem?_eq_getElem hi, Option.getD_some]
    simp
  have hflip : flipBit l i k = l.take i ++ (l.getD i 0 ^^^ 2 ^ k) :: l.drop (i + 1) := by
    unfold flipBit
    rw [List.set_eq_take_append_cons_drop, if_pos hi]
  have hx := getD_lt_of_bytes hb i
  have hy := flip_lt hx hk
  have hne := flip_ne (l.getD i 0) k
  show (flipBit l i k).foldl (fun acc b => (acc * 31 + b + 1) % 65536) 7 % 65536 ≠
    l.foldl (fun acc b => (acc * 31 + b + 1) % 65536) 7 % 65536
  rw [Nat.mod_eq_of_lt (sampleFold_lt _ (by norm_num)),
    Nat.mod_eq_of_lt (sampleFold_lt _ (by norm_num)), hflip]
  conv => rhs; rw [hsplit]
  simp only [List.foldl_append, List.foldl_cons]
  intro h
  have hA := sampleFold_lt (l.take i) (show 7 < 65536 by norm_num)
  have := sampleFold_inj _ (Nat.mod_lt _ (by norm_num)) (Nat.mod_lt _ (by norm_num)) h
  omega

/-- Flipping the only set bit of the word `1 << s` clears the word. -/
theorem flip_word {s : Nat} (hs : s < 32) :
    flipBit (be32Bytes (1 <<< s)) (3 - s / 8) (s % 8) = [0, 0, 0, 0] := by
  interval_cases s <;> decide

theorem relayTrap_word (P : Interface) (E : Crypt) (key : List Nat)
    (hs : P.ARISR_CTRL_FROM_SHIFT < 32) :
    buildCtrl1 P (relayTrap E key).ctrl = be32Bytes (1 <<< P.ARISR_CTRL_FROM_SHIFT) := by
  rw [buildCtrl1_eq]
  congr 1
  simp only [ctrl1Word, relayTrap, orField_zero_value]
  rw [orField_zero_word, Nat.mod_eq_of_lt (show 1 < 256 by norm_num),
    Nat.mod_eq_of_lt (show P.ARISR_CTRL_FROM_SHIFT < 256 by omega)]
  apply Nat.mod_eq_of_lt
  rw [Nat.shiftLeft_eq, Nat.one_mul]
  exact Nat.pow_lt_pow_right (by omega) hs

theorem relayTrap_fits {W : Widths} (E : Crypt) (key : List Nat) (hW : 0 < W.from_) :
    Fits W (relayTrap E key) := by
  have h1 : 1 < 2 ^ W.from_ := by
    calc 1 < 2 ^ 1 := by norm_num
      _ ≤ 2 ^ W.from_ := Nat.pow_le_pow_right (by omega) hW
  constructor <;> first | exact h1 | exact Nat.pow_pos (by omega)

theorem relayTrap_wf (E : Crypt) (key : List Nat) : WfBuild (relayTrap E key) := by
  constructor <;> simp [relayTrap, crcBytes]

theorem relayTrap_bytes (E : Crypt) (key : List Nat) : CtrlBytes (relayTrap E key) := by
  constructor <;> simp [relayTrap, zeroChunk]
theorem arr4_cases (l : List Nat) : ∃ t0 t1 t2 t3, arr 4 l = [t0, t1, t2, t3] := by
  have h := arr_length 4 l
  match hm : arr 4 l, h with
  | [t0, t1, t2, t3], _ => exact ⟨t0, t1, t2, t3, rfl⟩

/-- The 30 header bytes of the wire layout of `relayTrap`. -/
theorem relayTrap_header (P : Interface) (E : Crypt) (key : List Nat) :
    wireHeader P E (relayTrap E key) key 0 =
      [0x11, 0x22, 0x33, 0x44] ++ arr 4 (E.ARISR_aes_aris_encrypt key [65, 82, 73, 83]).2 ++
        buildCtrl1 P (relayTrap E key).ctrl ++ [1, 1, 1, 1, 1, 1, 2, 2, 2, 2, 2, 2] ++
        (crcBytes (E.ARISR_crypt_crc16_calculate (relayShort E key)) ++
          [0x11, 0x22, 0x33, 0x44]) := by
  simp [wireHeader, wireAris, wireDestinationsB, relayTrap, zeroChunk, ARISR_PROTO_ARIS_SIZE]

theorem relayTrap_wire (P : Interface) (E : Crypt) (key : List Nat) :
    wire P E (relayTrap E key) key [] =
      wireHeader P E (relayTrap E key) key 0 ++
        crcBytes (E.ARISR_crypt_crc16_calculate (wireHeader P E (relayTrap E key) key 0)) ++
        [0x11, 0x22, 0x33, 0x44] := by
  simp [wire, relayTrap, zeroChunk]
theorem take24_split (l : List Nat) :
    l.take 24 = slice l 0 8 ++ slice l 8 4 ++ slice l 12 12 := by
  have e1 : l.take 24 = l.take 12 ++ (l.drop 12).take 12 := by
    rw [show (24 : Nat) = 12 + 12 from rfl, List.take_add]
  have e2 : l.take 12 = l.take 8 ++ (l.drop 8).take 4 := by
    rw [show (12 : Nat) = 8 + 4 from rfl, List.take_add]
  rw [e1, e2]
  simp [slice]

theorem getField_zeros (mask shift : Nat) :
    ARISR_proto_ctrl_getField (some [0, 0, 0, 0]) mask shift = 0 := by
  simp [ARISR_proto_ctrl_getField, be32]

/-- The wire buffer of `relayTrap` is accepted, and so is the buffer with the
`from` bit of its control word flipped. -/
theorem relayTrap_runs {P : Interface} {W : Widths} {E : Crypt} {key : List Nat}
    (hL : Layout P W) (hW : 0 < W.from_) (hT : TagInverse E key)
    (hM : ∀ n, E.malloc n = true) :
    (∃ G, ParseRun P E (wire P E (relayTrap E key) key []) key [0x11, 0x22, 0x33, 0x44]
      (kARISR_OK, G)) ∧
    (∃ G, ParseRun P E
      (flipBit (wire P E (relayTrap E key) key []) (8 + (3 - P.ARISR_CTRL_FROM_SHIFT / 8))
        (P.ARISR_CTRL_FROM_SHIFT % 8)) key [0x11, 0x22, 0x33, 0x44] (kARISR_OK, G)) := by
  have hs : P.ARISR_CTRL_FROM_SHIFT < 32 := by
    have := (hL.inside1 (P.ARISR_CTRL_FROM_SHIFT, W.from_) (by simp [windows1])).2
    simp only at this
    omega
  obtain ⟨t0, t1, t2, t3, ht⟩ := arr4_cases (E.ARISR_aes_aris_encrypt key [65, 82, 73, 83]).2
  obtain ⟨-, hdec⟩ := hT [65, 82, 73, 83] rfl
  rw [ht] at hdec
  have hshort : relayShort E key =
      [0x11, 0x22, 0x33, 0x44, t0, t1, t2, t3, 0, 0, 0, 0,
        1, 1, 1, 1, 1, 1, 2, 2, 2, 2, 2, 2] := by
    unfold relayShort
    rw [ht]
    rfl
  generalize hc : E.ARISR_crypt_crc16_calculate (relayShort E key) = c at *
  have hhdr : wireHeader P E (relayTrap E key) key 0 =
      [0x11, 0x22, 0x33, 0x44, t0, t1, t2, t3] ++
        be32Bytes (1 <<< P.ARISR_CTRL_FROM_SHIFT) ++
        [1, 1, 1, 1, 1, 1, 2, 2, 2, 2, 2, 2] ++ (crcBytes c ++ [0x11, 0x22, 0x33, 0x44]) := by
    rw [relayTrap_header, relayTrap_word P E key hs, ht, hc]
    rfl
  generalize hB : wire P E (relayTrap E key) key [] = B
  rw [relayTrap_wire] at hB
  generalize hd : E.ARISR_crypt_crc16_calculate (wireHeader P E (relayTrap E key) key 0) = d
    at hB
  rw [hhdr] at hB hd
  have hlen : B.length = 36 := by
    rw [← hB]
    rfl
  have s0 : slice B 0 4 = [0x11, 0x22, 0x33, 0x44] := by rw [← hB]; rfl
  have s4 : slice B 4 4 = [t0, t1, t2, t3] := by rw [← hB]; rfl
  have s8 : slice B 8 4 = be32Bytes (1 <<< P.ARISR_CTRL_FROM_SHIFT) := by rw [← hB]; rfl
  have s08 : slice B 0 8 = [0x11, 0x22, 0x33, 0x44, t0, t1, t2, t3] := by rw [← hB]; rfl
  have s12 : slice B 12 12 = [1, 1, 1, 1, 1, 1, 2, 2, 2, 2, 2, 2] := by rw [← hB]; rfl
  have s24 : slice B 24 2 = crcBytes c := by rw [← hB]; rfl
  have s26 : slice B 26 4 = [0x11, 0x22, 0x33, 0x44] := by rw [← hB]; rfl
  have s30 : slice B 30 2 = crcBytes d := by rw [← hB]; rfl
  have s32 : slice B 32 4 = [0x11, 0x22, 0x33, 0x44] := by rw [← hB]; rfl
  have t30 : B.take 30 = [0x11, 0x22, 0x33, 0x44, t0, t1, t2, t3] ++
        be32Bytes (1 <<< P.ARISR_CTRL_FROM_SHIFT) ++
        [1, 1, 1, 1, 1, 1, 2, 2, 2, 2, 2, 2] ++ (crcBytes c ++ [0x11, 0x22, 0x33, 0x44]) := by
    rw [← hB]
    rfl
  have sid : slice [0x11, 0x22, 0x33, 0x44] 0 4 = [0x11, 0x22, 0x33, 0x44] := rfl
  constructor
  · -- the buffer itself
    have hctrl : inCtrl P B = (relayTrap E key).ctrl := by
      unfold inCtrl
      rw [s8, ← relayTrap_word P E key hs]
      exact parseCtrl1_buildCtrl1 hL (relayTrap_fits E key hW)
    have hh : inHeaderEnd P B = 30 := by
      unfold inHeaderEnd
      rw [hctrl]
      rfl
    have hnd : ¬ inHasData P B := fun h => h.1 (by rw [hctrl]; rfl)
    have hend : inEndPos P B = 32 := by
      unfold inEndPos
      rw [if_neg hnd, hh]
    refine ⟨_, .ok ⟨⟨⟨by decide, by omega, by rw [s0, sid], by rw [s4, hdec]⟩,
      fun _ => hM _, by omega⟩, ?_, fun h => absurd h hnd, by omega⟩ (by rw [hend, s32, sid])⟩
    unfold HeaderCrcOk
    rw [hh, t30, s30, hd, crcValue_crcBytes]
  · -- the buffer with the `from` bit flipped
    have hi1 : 8 ≤ 8 + (3 - P.ARISR_CTRL_FROM_SHIFT / 8) := by omega
    have hi2 : 8 + (3 - P.ARISR_CTRL_FROM_SHIFT / 8) < 8 + 4 := by omega
    generalize hB2 : flipBit B (8 + (3 - P.ARISR_CTRL_FROM_SHIFT / 8))
      (P.ARISR_CTRL_FROM_SHIFT % 8) = B2
    have hlen2 : B2.length = 36 := by rw [← hB2, flipBit_length, hlen]
    have r0 : slice B2 0 4 = [0x11, 0x22, 0x33, 0x44] := by
      rw [← hB2, flipBit_slice_out _ (Or.inr (by omega)), s0]
    have r4 : slice B2 4 4 = [t0, t1, t2, t3] := by
      rw [← hB2, flipBit_slice_out _ (Or.inr (by omega)), s4]
    have r08 : slice B2 0 8 = [0x11, 0x22, 0x33, 0x44, t0, t1, t2, t3] := by
      rw [← hB2, flipBit_slice_out _ (Or.inr (by omega)), s08]
    have r8 : slice B2 8 4 = [0, 0, 0, 0] := by
      rw [← hB2, flipBit_slice _ hi1 hi2, s8, Nat.add_sub_cancel_left, flip_word hs]
    have r12 : slice B2 12 12 = [1, 1, 1, 1, 1, 1, 2, 2, 2, 2, 2, 2] := by
      rw [← hB2, flipBit_slice_out _ (Or.inl (by omega)), s12]
    have r24 : slice B2 24 2 = crcBytes c := by
      rw [← hB2, flipBit_slice_out _ (Or.inl (by omega)), s24]
    have r26 : slice B2 26 4 = [0x11, 0x22, 0x33, 0x44] := by
      rw [← hB2, flipBit_slice_out _ (Or.inl (by omega)), s26]
    have hctrl : inCtrl P B2 = ⟨0, 0, 0, 0, 0, 0, 0, 0, 0⟩ := by
      unfold inCtrl
      rw [r8]
      simp only [parseCtrl1, getField_zeros]
    have hh : inHeaderEnd P B2 = 24 := by
      unfold inHeaderEnd
      rw [hctrl]
      rfl
    have hnd : ¬ inHasData P B2 := fun h => h.1 (by rw [hctrl])
    have hend : inEndPos P B2 = 26 := by
      unfold inEndPos
      rw [if_neg hnd, hh]
    refine ⟨_, .ok ⟨⟨⟨by decide, by omega, by rw [r0, sid], by rw [r4, hdec]⟩,
      fun _ => hM _, by omega⟩, ?_, fun h => absurd h hnd, by omega⟩ (by rw [hend, r26, sid])⟩
    unfold HeaderCrcOk
    rw [hh, take24_split, r08, r8, r12, r24, crcValue_crcBytes, ← hc, hshort]
    rfl
theorem relayTrap_build {P : Interface} {E : Crypt} {key : List Nat}
    (hT : TagInverse E key) (hM : ∀ n, E.malloc n = true) :
    ARISR_proto_build P E (some (relayTrap E key)) key =
      some ⟨kARISR_OK, some (wire P E (relayTrap E key) key []), some 36⟩ := by
  have wf := relayTrap_wf E key
  have hlen : (wire P E (relayTrap E key) key []).length = 36 := by
    rw [wire_length P E key wf [] rfl]
    rfl
  have hN : ¬ (relayTrap E key).ctrl.destinations > 0 := by
    show ¬ (0 : Nat) > 0
    omega
  have h := @build_eval P E (relayTrap E key) key wf (fun h => absurd h hN)
    (hT [65, 82, 73, 83] rfl).1 (fun h => absurd rfl h) (hM _) (by
      show (wire P E (relayTrap E key) key []).length < 2 ^ 32
      rw [hlen]
      norm_num)
  have he : buildEnc E (relayTrap E key) key = [] := rfl
  rw [he, hlen] at h
  exact h

set_option maxRecDepth 100000 in
/-- Claim C17 as stated fails, whatever the CRC function: a relay frame whose
`destinationC` holds the CRC of its own header without the relay section,
followed by the id, builds to a buffer that parses with `OK`, and flipping the
`from` bit of its control word gives a buffer that parses with `OK` again, as
the shorter frame without relay.  Under the sample instance this is bit 4 of
byte 9 of `wireTrap`.  The same happens when the flip changes `destinations`
(bit 2 of byte 8 of `wireDestTrap`, whose one `destinationsB` address holds the
CRC and the id) and when it clears `more_header` (bit 0 of byte 11 of
`wireMhTrap`, whose second control word and header CRC read as a header CRC and
the id): both buffers are returned by `ARISR_proto_build`, parse with `OK`, and
parse with `OK` again after the flip.  The last part states the first case for
every interface with a proper bit layout that has a `from` field and for all
primitives with an invertible tag encryption and a successful allocator. -/
theorem C17_crc_sensitivity_counterexample :
    (ARISR_proto_build sampleInterface sampleCrypt (some (relayTrap sampleCrypt sampleKey))
        sampleKey = some ⟨kARISR_OK, some wireTrap, some 36⟩ ∧
      ARISR_proto_parse sampleInterface sampleCrypt (some zeroChunk) (some wireTrap) sampleKey
        [0x11, 0x22, 0x33, 0x44] =
          some (kARISR_OK, some { relayTrap sampleCrypt sampleKey with crc_header := [11, 245] }) ∧
      ARISR_proto_parse sampleInterface sampleCrypt (some zeroChunk)
        (some (flipBit wireTrap 9 4)) sampleKey [0x11, 0x22, 0x33, 0x44] =
          some (kARISR_OK, some frameS1r)) ∧
    (ARISR_proto_build sampleInterface sampleCrypt (some destTrap) sampleKey =
        some ⟨kARISR_OK, some wireDestTrap, some 36⟩ ∧
      ARISR_proto_parse sampleInterface sampleCrypt (some zeroChunk) (some wireDestTrap)
        sampleKey [0x11, 0x22, 0x33, 0x44] =
          some (kARISR_OK, some { destTrap with crc_header := [158, 97] }) ∧
      ARISR_proto_parse sampleInterface sampleCrypt (some zeroChunk)
        (some (flipBit wireDestTrap 8 2)) sampleKey [0x11, 0x22, 0x33, 0x44] =
          some (kARISR_OK, some frameS1r)) ∧
    (ARISR_proto_build sampleInterface sampleCrypt (some mhTrap) sampleKey =
        some ⟨kARISR_OK, some wireMhTrap, some 34⟩ ∧
      ARISR_proto_parse sampleInterface sampleCrypt (some zeroChunk) (some wireMhTrap)
        sampleKey [16, 0, 150, 215] =
          some (kARISR_OK, some { mhTrap with crc_header := [150, 215] }) ∧
      ARISR_proto_parse sampleInterface sampleCrypt (some zeroChunk)
        (some (flipBit wireMhTrap 11 0)) sampleKey [16, 0, 150, 215] =
          some (kARISR_OK,
            some { frameS1 with
              id := [16, 0, 150, 215], crc_header := [0, 115], end_ := [16, 0, 150, 215] })) ∧
    ¬ ∃ (P : Interface) (W : Widths) (E : Crypt) (key : List Nat),
      Layout P W ∧ 0 < W.from_ ∧ TagInverse E key ∧ (∀ n, E.malloc n = true) ∧
        Sensitive P E key := by
  refine ⟨by decide, by decide, by decide, ?_⟩
  rintro ⟨P, W, E, key, hL, hW, hT, hM, hS⟩
  obtain ⟨⟨G1, h1⟩, ⟨G2, h2⟩⟩ := relayTrap_runs hL hW hT hM
  have hlen : (wire P E (relayTrap E key) key []).length = 36 := by
    rw [wire_length P E key (relayTrap_wf E key) [] rfl]
    rfl
  obtain ⟨e, og, hp, hv⟩ := hS zeroChunk (relayTrap E key) _ 36 G1
    (8 + (3 - P.ARISR_CTRL_FROM_SHIFT / 8)) (P.ARISR_CTRL_FROM_SHIFT % 8)
    (relayTrap_wf E key) (relayTrap_bytes E key) (relayTrap_build hT hM)
    (parse_of_run zeroChunk h1) (by rw [hlen]; omega) (Nat.mod_lt _ (by norm_num))
  have h3 := parse_of_run (P := P) (E := E) zeroChunk h2
  have hid : (relayTrap E key).id = [0x11, 0x22, 0x33, 0x44] := rfl
  rw [hid, h3] at hp
  simp only [Option.some.injEq, Prod.mk.injEq] at hp
  obtain ⟨rfl, -⟩ := hp
  rcases hv with h | h | h | h | h <;> exact ARISR_ERR.noConfusion h

set_option maxRecDepth 100000 in
/-- Witness of C17 on scenario S4: bit 0 of byte 48 of `wireS4`, the first byte
of the second control word, lies in the header and changes the on-wire payload
length; the flipped buffer is rejected. -/
theorem C17_crc_sensitivity_witness :
    (ARISR_proto_parse sampleInterface sampleCrypt (some frameS1) (some wireS4) sampleKey
        [0x11, 0x22, 0x33, 0x44] = some (kARISR_OK, some frameS4r) ∧
      48 < inHeaderEnd sampleInterface wireS4 ∧
      SameLayout sampleInterface wireS4 (flipBit wireS4 48 0) ∧
      inDataLen sampleInterface (flipBit wireS4 48 0) ≠ inDataLen sampleInterface wireS4) ∧
    ∃ e og, ARISR_proto_parse sampleInterface sampleCrypt (some frameS1)
        (some (flipBit wireS4 48 0)) sampleKey [0x11, 0x22, 0x33, 0x44] = some (e, og) ∧
      IsViolation e :=
  ⟨⟨by decide, by decide, by decide, by decide⟩,
   C17_crc_sensitivity sampleInterface sampleCrypt frameS1 wireS4 sampleKey
     [0x11, 0x22, 0x33, 0x44] frameS4r 48 0 (by decide) (by decide) detectsFlips_sample
     (by decide) (by decide) (fun _ => by decide)⟩

theorem setLocal_any (c : List Nat) (v s : Nat) :
    setLocal c v s = be32Bytes (orField (be32 c) v s) ++ c.drop 4 := by
  simp [setLocal, ARISR_proto_ctrl_setField, orField]

theorem be32Bytes_drop (w : Nat) (l : List Nat) : (be32Bytes w ++ l).drop 4 = l := by
  simp [be32Bytes]

theorem setLocal_tail {w : Nat} (l : List Nat) (v s : Nat) (h : w < 2 ^ 32) :
    setLocal (be32Bytes w ++ l) v s = be32Bytes (orField w v s) ++ l := by
  rw [setLocal_any, be32_be32Bytes, Nat.mod_eq_of_lt h, be32Bytes_drop]

theorem orField_comm (w x s y t : Nat) :
    orField (orField w x s) y t = orField (orField w y t) x s := by
  simp only [orField, Nat.or_assoc]
  congr 1
  exact Nat.or_comm _ _

theorem orField_idem (w x s : Nat) : orField (orField w x s) x s = orField w x s := by
  simp only [orField, Nat.or_assoc, Nat.or_self]

theorem orField_or (a w v s : Nat) : orField (a ||| w) v s = a ||| orField w v s := by
  simp only [orField, Nat.or_assoc]

/-- The nine fields ORed into the word `w` in the order of `ARISR_proto_pack`. -/
theorem packWord_eq (P : Interface) (c : ARISR_CHUNK_CTRL) (w : Nat) :
    orField (orField (orField (orField (orField (orField (orField (orField (orField w
      c.version P.ARISR_CTRL_VERSION_SHIFT)
      c.destinations P.ARISR_CTRL_DESTS_SHIFT)
      c.option P.ARISR_CTRL_OPTION_SHIFT)
      c.from_ P.ARISR_CTRL_FROM_SHIFT)
      c.sequence P.ARISR_CTRL_SEQUENCE_SHIFT)
      c.retry P.ARISR_CTRL_RETRY_SHIFT)
      c.more_data P.ARISR_CTRL_MD_SHIFT)
      c.identifier P.ARISR_CTRL_ID_SHIFT)
      c.more_header P.ARISR_CTRL_MH_SHIFT = w ||| ctrl1Word P c := by
  unfold ctrl1Word
  rw [orField_comm _ c.option _ c.from_]
  have e : w = w ||| 0 := by simp
  conv_lhs => rw [e]
  simp only [orField_or]

/-- The word `ARISR_proto_pack` leaves in `buffer->ctrl`: the word it held
before the call ORed with the nine shifted field values. -/
theorem packCtrl1_eq (P : Interface) (c : ARISR_CHUNK_CTRL) (ctrl : List Nat) :
    packCtrl1 P c ctrl = be32Bytes (be32 ctrl ||| ctrl1Word P c) ++ ctrl.drop 4 := by
  have h0 : be32 ctrl < 2 ^ 32 := be32_lt ctrl
  have h1 := orField_lt c.version P.ARISR_CTRL_VERSION_SHIFT h0
  have h2 := orField_lt c.destinations P.ARISR_CTRL_DESTS_SHIFT h1
  have h3 := orField_lt c.option P.ARISR_CTRL_OPTION_SHIFT h2
  have h4 := orField_lt c.from_ P.ARISR_CTRL_FROM_SHIFT h3
  have h5 := orField_lt c.sequence P.ARISR_CTRL_SEQUENCE_SHIFT h4
  have h6 := orField_lt c.retry P.ARISR_CTRL_RETRY_SHIFT h5
  have h7 := orField_lt c.more_data P.ARISR_CTRL_MD_SHIFT h6
  have h8 := orField_lt c.identifier P.ARISR_CTRL_ID_SHIFT h7
  rw [← packWord_eq]
  simp only [packCtrl1]
  rw [setLocal_any ctrl, setLocal_tail _ _ _ h1, setLocal_tail _ _ _ h2, setLocal_tail _ _ _ h3,
    setLocal_tail _ _ _ h4, setLocal_tail _ _ _ h5, setLocal_tail _ _ _ h6,
    setLocal_tail _ _ _ h7, setLocal_tail _ _ _ h8]

theorem be32_zeros : be32 (List.replicate 4 0) = 0 := by decide

theorem packCtrl1_zero (P : Interface) (c : ARISR_CHUNK_CTRL) :
    packCtrl1 P c (List.replicate 4 0) = buildCtrl1 P c := by
  rw [packCtrl1_eq, buildCtrl1_eq, be32_zeros]
  simp

theorem setField_fst (c : List Nat) (v s : Nat) :
    (ARISR_proto_ctrl_setField (some c) v s).1 = kARISR_OK := rfl

theorem setLocal_comm (c : List Nat) (x s y t : Nat) :
    setLocal (setLocal c x s) y t = setLocal (setLocal c y t) x s := by
  have h0 : be32 c < 2 ^ 32 := be32_lt c
  rw [setLocal_any c, setLocal_any c, setLocal_tail _ _ _ (orField_lt _ _ h0),
    setLocal_tail _ _ _ (orField_lt _ _ h0), orField_comm]

theorem setLocal_idem (c : List Nat) (x s : Nat) :
    setLocal (setLocal c x s) x s = setLocal c x s := by
  have h0 : be32 c < 2 ^ 32 := be32_lt c
  rw [setLocal_any c, setLocal_tail _ _ _ (orField_lt _ _ h0), orField_idem]

/-- Claim C30: `ARISR_proto_ctrl_setField` is order-independent and idempotent.
For every control word `w` (the bytes behind `ctrl`), all values `x`, `y` and
shifts `s`, `t`: setting `x` at `s` and then `y` at `t` leaves the same bytes
as setting `y` at `t` and then `x` at `s`; setting `x` at `s` twice leaves the
same bytes as setting it once; every call returns `kARISR_OK`.  Hence the nine
fields set on a zeroed word in the order of `ARISR_proto_pack` (`option` before
`from`) give the word `ARISR_proto_build` computes (`from` before `option`),
and on any word `w` the order of `ARISR_proto_pack` gives `w` ORed with the
word of `ARISR_proto_build`. -/
theorem C30_setField_order_independent (P : Interface) (k : ARISR_CHUNK_CTRL) (w : List Nat)
    (x y s t : Nat) :
    (ARISR_proto_ctrl_setField (ARISR_proto_ctrl_setField (some w) x s).2 y t).2 =
      (ARISR_proto_ctrl_setField (ARISR_proto_ctrl_setField (some w) y t).2 x s).2 ∧
    (ARISR_proto_ctrl_setField (ARISR_proto_ctrl_setField (some w) x s).2 x s).2 =
      (ARISR_proto_ctrl_setField (some w) x s).2 ∧
    (ARISR_proto_ctrl_setField (ARISR_proto_ctrl_setField (some w) x s).2 y t).1 = kARISR_OK ∧
    packCtrl1 P k (List.replicate 4 0) = buildCtrl1 P k ∧
    packCtrl1 P k w = be32Bytes (be32 w ||| be32 (buildCtrl1 P k)) ++ w.drop 4 := by
  refine ⟨?_, ?_, ?_, packCtrl1_zero P k, ?_⟩
  · simp only [setField_snd, setLocal_comm w x s y t]
  · simp only [setField_snd, setLocal_idem]
  · simp only [setField_snd, setField_fst]
  · rw [packCtrl1_eq, be32_buildCtrl1]

/-- Claim C28: `ARISR_proto_parse` is stateless.  For every byte buffer, key
and expected id, the status and the whole resulting frame are the same for any
two prior contents of the output frame, and they are the value of a function
(`parseBody`) of the bytes, the key and the expected id only: the function
starts with `memset(buffer, 0, sizeof(ARISR_CHUNK))`. -/
theorem C28_parse_stateless (P : Interface) (E : Crypt) (prior1 prior2 : ARISR_CHUNK)
    (data key id : List Nat) :
    ARISR_proto_parse P E (some prior1) (some data) key id =
      ARISR_proto_parse P E (some prior2) (some data) key id ∧
    ARISR_proto_parse P E (some prior1) (some data) key id =
      (parseBody P E data key id).map fun r => (r.1, some r.2) :=
  ⟨rfl, rfl⟩

/-- Frames of the failing runs of `ARISR_proto_parse`: every run with a status
other than `kARISR_OK` leaves a frame without owned memory, except the run that
ends with `kARISR_ERR_NOT_SAME_END`, which leaves the whole decoded frame. -/
theorem parse_failure_frame {P : Interface} {E : Crypt} {prior : ARISR_CHUNK}
    {data key id : List Nat} {e : ARISR_ERR} {G : ARISR_CHUNK} (hz : ZeroesPart E.memsetRaw)
    (h : ARISR_proto_parse P E (some prior) (some data) key id = some (e, some G))
    (he : e ≠ kARISR_OK) :
    (G.destinationsB = none ∧ G.data = none) ∨
      (e = kARISR_ERR_NOT_SAME_END ∧ G = inFrame P E data key) := by
  obtain ⟨G2, hG, hr⟩ := parse_run h
  cases hG
  generalize hk : (e, G) = r at hr
  cases hr with
  | not_same_id h8 h4 hid => cases hk; exact Or.inl ⟨rfl, rfl⟩
  | not_same_aris h8 h4 hid har => cases hk; exact Or.inl ⟨rfl, rfl⟩
  | no_memory hs hN hm => cases hk; exact Or.inl ⟨hz.destinationsB _ rfl, hz.data _ rfl⟩
  | crc_header hc hx => cases hk; exact Or.inl ⟨hz.destinationsB _ rfl, hz.data _ rfl⟩
  | crc_data hd hx => cases hk; exact Or.inl ⟨hz.destinationsB _ rfl, hz.data _ rfl⟩
  | decrypt hd hx hf => cases hk; exact Or.inl ⟨hz.destinationsB _ rfl, hz.data _ rfl⟩
  | not_same_end hre hx => cases hk; exact Or.inr ⟨rfl, rfl⟩
  | ok hre hx => cases hk; exact absurd rfl he

set_option maxRecDepth 100000 in
/-- Claim C23 fails on the code at the input `wireS4e` (the wire buffer of
scenario S4 with a zero trailer): `ARISR_proto_parse` returns
`kARISR_ERR_NOT_SAME_END` and the output frame still holds the 18 bytes of
`destinationsB` and the 16 decrypted payload bytes, since the `return` after the
trailer comparison does not go through `ARISR_CLEAN_AND_RETURN`. -/
theorem C23_parse_failure_atomicity :
    ARISR_proto_parse sampleInterface sampleCrypt (some zeroChunk) (some wireS4e) sampleKey
        [0x11, 0x22, 0x33, 0x44] = some (kARISR_ERR_NOT_SAME_END, some frameS4e) ∧
    frameS4e.destinationsB = some [3, 3, 3, 3, 3, 3, 4, 4, 4, 4, 4, 4, 5, 5, 5, 5, 5, 5] ∧
    frameS4e.data = some (List.replicate 16 0xAA) := by
  decide

set_option maxRecDepth 100000 in
/-- Claim C22 fails on the code: `ARISR_proto_build` compares neither `origin`
nor `destinationA` with zero.  For scenario S1 with an all-zero `origin` it
returns `kARISR_OK` with a 30-byte wire buffer whose bytes [12,18) are zero,
and likewise for an all-zero `destinationA` (bytes [18,24)); the sibling
`ARISR_proto_pack` rejects the same two frames with `kARISR_ERR_NULL_ORIGIN`
and `kARISR_ERR_NULL_DESTINATION`. -/
theorem C22_build_address_validation :
    ARISR_proto_build sampleInterface sampleCrypt (some frameNullOrigin) sampleKey =
      some ⟨kARISR_OK,
        some [17, 34, 51, 68, 70, 87, 78, 88, 0, 0, 0, 0, 0, 0, 0, 0, 0, 0, 2, 2, 2, 2, 2, 2,
          37, 4, 17, 34, 51, 68], some 30⟩ ∧
    ARISR_proto_build sampleInterface sampleCrypt (some frameNullDestination) sampleKey =
      some ⟨kARISR_OK,
        some [17, 34, 51, 68, 70, 87, 78, 88, 0, 0, 0, 0, 1, 1, 1, 1, 1, 1, 0, 0, 0, 0, 0, 0,
          244, 164, 17, 34, 51, 68], some 30⟩ ∧
    (ARISR_proto_pack sampleInterface sampleCrypt (some zeroRaw) (some frameNullOrigin)
      sampleKey).map Prod.fst = some kARISR_ERR_NULL_ORIGIN ∧
    (ARISR_proto_pack sampleInterface sampleCrypt (some zeroRaw) (some frameNullDestination)
      sampleKey).map Prod.fst = some kARISR_ERR_NULL_DESTINATION := by
  decide

/-- The control word `ARISR_proto_parse` reads from a buffer built from `d`
gives back the nine fields of `d`, for field values that fit their windows. -/
theorem build_inCtrl {P : Interface} {W : Widths} {E : Crypt} {d : ARISR_CHUNK}
    {key B : List Nat} {n : Nat} (hL : Layout P W) (hF : Fits W d) (wf : WfBuild d)
    (h : ARISR_proto_build P E (some d) key = some ⟨kARISR_OK, some B, some n⟩) :
    inCtrl P B = d.ctrl := by
  have hs := (build_header_sections P E d key B n wf h).2.2.2.1
  unfold inCtrl slice
  rw [hs, parseCtrl1_buildCtrl1 hL hF]

theorem build_inHeaderEnd {P : Interface} {W : Widths} {E : Crypt} {d : ARISR_CHUNK}
    {key B : List Nat} {n : Nat} (hL : Layout P W) (hF : Fits W d) (wf : WfBuild d)
    (h : ARISR_proto_build P E (some d) key = some ⟨kARISR_OK, some B, some n⟩) :
    inHeaderEnd P B = headerEnd d ∧
      inPosCtrl2 P B = 24 + 6 * d.ctrl.destinations + (if d.ctrl.from_ ≠ 0 then 6 else 0) := by
  unfold inHeaderEnd inPosCtrl2 inPosC headerEnd
  rw [build_inCtrl hL hF wf h]
  exact ⟨rfl, rfl⟩

/-- The second control word of a built buffer, as the parser reads it. -/
theorem build_inCtrl2 {P : Interface} {W : Widths} {E : Crypt} {d : ARISR_CHUNK}
    {key B : List Nat} {n : Nat} (hL : Layout P W) (hF : Fits W d) (wf : WfBuild d)
    (h : ARISR_proto_build P E (some d) key = some ⟨kARISR_OK, some B, some n⟩)
    (hmh : d.ctrl.more_header ≠ 0) :
    slice B (inPosCtrl2 P B) 4 = buildCtrl2 P d.ctrl2 (buildEnc E d key).length ∧
    inDataLen P B =
      ARISR_proto_ctrl_getField (some (buildCtrl2 P d.ctrl2 (buildEnc E d key).length))
        P.ARISR_CTRL2_DATA_LENGTH_MASK P.ARISR_CTRL2_DATA_LENGTH_SHIFT * P.ARISR_DATA_MULT := by
  have hs := (build_header_sections P E d key B n wf h).2.2.2.2.2.2.2.2.2.2 hmh
  have e1 : slice B (inPosCtrl2 P B) 4 = buildCtrl2 P d.ctrl2 (buildEnc E d key).length := by
    rw [(build_inHeaderEnd hL hF wf h).2]
    exact hs
  refine ⟨e1, ?_⟩
  unfold inDataLen inCtrl2
  rw [build_inCtrl hL hF wf h, if_pos hmh, e1]
  rfl

theorem slice_drop_eq (l : List Nat) (a b n : Nat) :
    slice l (a + b) n = ((l.drop a).drop b).take n := by
  unfold slice
  rw [List.drop_drop, Nat.add_comm]

/-- The tail of a built buffer at the offsets the parser computes, for a payload
whose length the parser reads back from the control word. -/
theorem build_tail_offsets {P : Interface} {W : Widths} {E : Crypt} {d : ARISR_CHUNK}
    {key B : List Nat} {n : Nat} (hL : Layout P W) (hF : Fits W d) (wf : WfBuild d)
    (h : ARISR_proto_build P E (some d) key = some ⟨kARISR_OK, some B, some n⟩)
    (hmh : d.ctrl.more_header ≠ 0) (hdl : d.ctrl2.data_length > 0)
    (hlen : inDataLen P B = (buildEnc E d key).length) (hpos : 0 < (buildEnc E d key).length) :
    slice B (inHeaderEnd P B + 2) (inDataLen P B) = buildEnc E d key ∧
    slice B (inHeaderEnd P B + 2 + inDataLen P B) 2 =
      crcBytes (E.ARISR_crypt_crc16_calculate (buildEnc E d key)) ∧
    inEndPos P B = headerEnd d + 2 + (buildEnc E d key).length + 2 ∧
    slice B (inEndPos P B) 4 = d.id ∧ inEndPos P B + 4 = B.length := by
  obtain ⟨-, ht⟩ := build_tail_sections P E d key B n wf h
  have hh := (build_inHeaderEnd hL hF wf h).1
  have hhas : inHasData P B := by
    refine ⟨?_, ?_⟩
    · rw [build_inCtrl hL hF wf h]; exact hmh
    · rw [hlen]; exact hpos
  have hend : inEndPos P B = headerEnd d + 2 + (buildEnc E d key).length + 2 := by
    unfold inEndPos
    rw [if_pos hhas, hlen, hh]
    omega
  rw [if_pos ⟨hmh, hdl⟩] at ht
  have hB : B.length = headerEnd d + 2 + (buildEnc E d key).length + 2 + 4 := by
    have := congrArg List.length ht
    simp only [List.length_drop, List.length_append, crcBytes_length, wf.id_len] at this
    have hle : headerEnd d ≤ B.length := by
      by_contra hc
      have : B.drop (headerEnd d) = [] := List.drop_eq_nil_of_le (by omega)
      rw [this] at ht
      omega
    omega
  refine ⟨?_, ?_, hend, ?_, by rw [hend, hB]⟩
  · rw [hlen, hh, slice_drop_eq, ht]
    simp [crcBytes, List.take_append_eq_append_take]
  · rw [hlen, hh, Nat.add_assoc, slice_drop_eq, ht]
    rw [← List.append_assoc, List.drop_left' (by simp [crcBytes_length])]
    simp [crcBytes]
  · rw [hend, Nat.add_assoc, Nat.add_assoc, slice_drop_eq, ht]
    rw [← List.append_assoc, ← List.append_assoc,
      List.drop_left' (by simp [crcBytes_length])]
    simp [wf.id_len]

/-- Claim C21, as amended: data_length scaling.  Let `P` be a proper bit layout
and `d` a frame whose control values fit their windows, with `more_header ≠ 0`
and `ctrl2.data_length > 0`, for which `ARISR_proto_build` returns `kARISR_OK`
with the buffer `B`, and let `enc_len` be the length of the ciphertext.  If
`enc_len` is a multiple of `ARISR_DATA_MULT` and the quotient fits the width of
the length field, then the field of the ctrl2 word in `B`, read with
`ARISR_proto_ctrl_getField` and multiplied by `ARISR_DATA_MULT`, is `enc_len`
(it is the payload length `ARISR_proto_parse` uses); and if moreover
`enc_len > 0`, the parser finds the ciphertext, `crc_data` and `end` where the
builder wrote them: the ciphertext at `h + 2`, its CRC at `h + 2 + enc_len`, the
trailer `id` at `h + 2 + enc_len + 2`, which ends the buffer. -/
theorem C21_data_length_scaling (P : Interface) (W : Widths) (E : Crypt) (d : ARISR_CHUNK)
    (key B : List Nat) (n : Nat) (hL : Layout P W) (hF : Fits W d) (wf : WfBuild d)
    (hb : ARISR_proto_build P E (some d) key = some ⟨kARISR_OK, some B, some n⟩)
    (hmh : d.ctrl.more_header ≠ 0) (hdl : d.ctrl2.data_length > 0)
    (hmul : P.ARISR_DATA_MULT ∣ (buildEnc E d key).length)
    (hq : (buildEnc E d key).length / P.ARISR_DATA_MULT < 2 ^ W.data_length) :
    ARISR_proto_ctrl_getField
        (some (slice B (24 + 6 * d.ctrl.destinations + (if d.ctrl.from_ ≠ 0 then 6 else 0)) 4))
        P.ARISR_CTRL2_DATA_LENGTH_MASK P.ARISR_CTRL2_DATA_LENGTH_SHIFT * P.ARISR_DATA_MULT
      = (buildEnc E d key).length ∧
    inDataLen P B = (buildEnc E d key).length ∧
    (0 < (buildEnc E d key).length →
      slice B (inHeaderEnd P B + 2) (inDataLen P B) = buildEnc E d key ∧
      slice B (inHeaderEnd P B + 2 + inDataLen P B) 2 =
        crcBytes (E.ARISR_crypt_crc16_calculate (buildEnc E d key)) ∧
      inEndPos P B = headerEnd d + 2 + (buildEnc E d key).length + 2 ∧
      slice B (inEndPos P B) 4 = d.id ∧ inEndPos P B + 4 = B.length) := by
  obtain ⟨e1, e2⟩ := build_inCtrl2 hL hF wf hb hmh
  have e3 : ARISR_proto_ctrl_getField
        (some (buildCtrl2 P d.ctrl2 (buildEnc E d key).length))
        P.ARISR_CTRL2_DATA_LENGTH_MASK P.ARISR_CTRL2_DATA_LENGTH_SHIFT * P.ARISR_DATA_MULT
      = (buildEnc E d key).length := by
    have := congrArg ARISR_CHUNK_CTRL2.data_length (parseCtrl2_buildCtrl2 hL hF hq)
    simp only [parseCtrl2] at this
    rw [this]
    exact Nat.div_mul_cancel hmul
  have e4 : inDataLen P B = (buildEnc E d key).length := by rw [e2, e3]
  refine ⟨?_, e4, fun hpos => build_tail_offsets hL hF wf hb hmh hdl e4 hpos⟩
  rw [← (build_inHeaderEnd hL hF wf hb).2, e1, e3]

theorem fits_frameS4 : Fits sampleWidths frameS4 := by
  constructor <;> decide

set_option maxRecDepth 100000 in
/-- Witness of C21 on scenario S4: the 16 ciphertext bytes are two units of
`ARISR_DATA_MULT = 8`. -/
theorem C21_data_length_scaling_witness :
    (sampleInterface.ARISR_DATA_MULT ∣ (buildEnc sampleCrypt frameS4 sampleKey).length ∧
      (buildEnc sampleCrypt frameS4 sampleKey).length / sampleInterface.ARISR_DATA_MULT
        < 2 ^ sampleWidths.data_length) ∧
    inDataLen sampleInterface wireS4 = (buildEnc sampleCrypt frameS4 sampleKey).length ∧
    (buildEnc sampleCrypt frameS4 sampleKey).length = 16 :=
  ⟨⟨by decide, by decide⟩,
   (C21_data_length_scaling sampleInterface sampleWidths sampleCrypt frameS4 sampleKey wireS4 76
     layout_sample fits_frameS4 wfBuild_frameS4 build_frameS4 (by decide) (by decide)
     (by decide) (by decide)).2.1,
   by decide⟩

theorem buildEnc_frameBig : (buildEnc sampleCrypt frameBig sampleKey).length = 2048 := by
  have h : frameBig.ctrl.more_header ≠ 0 ∧ frameBig.ctrl2.data_length > 0 := by decide
  unfold buildEnc
  rw [if_pos h]
  simp only [sampleCrypt, frameBig, Option.getD_some, List.length_map, List.length_take,
    List.length_replicate, Nat.min_self]

theorem wfBuild_frameBig : WfBuild frameBig := ⟨rfl, rfl, rfl, rfl, rfl⟩

theorem fits_frameBig : Fits sampleWidths frameBig := by
  constructor <;> decide

/-- Under the sample instance `ARISR_proto_build` accepts `frameBig` and
returns its wire layout, 2108 bytes. -/
theorem build_frameBig :
    ARISR_proto_build sampleInterface sampleCrypt (some frameBig) sampleKey =
      some ⟨kARISR_OK,
        some (wire sampleInterface sampleCrypt frameBig sampleKey
          (buildEnc sampleCrypt frameBig sampleKey)),
        some (wire sampleInterface sampleCrypt frameBig sampleKey
          (buildEnc sampleCrypt frameBig sampleKey)).length⟩ := by
  have hB : frameBig.ctrl.destinations > 0 →
      ∃ l, frameBig.destinationsB = some l ∧ l.length = 6 * frameBig.ctrl.destinations :=
    fun _ => ⟨_, rfl, rfl⟩
  apply build_eval wfBuild_frameBig hB rfl (fun _ _ => rfl) rfl
  rw [wire_length sampleInterface sampleCrypt sampleKey wfBuild_frameBig _
    (wireDestinationsB_length_of hB), buildEnc_frameBig]
  decide

theorem endPos_no_payload {P : Interface} {B : List Nat} (h : inDataLen P B = 0) :
    inEndPos P B = inHeaderEnd P B + 2 := by
  have hn : ¬ inHasData P B := fun hx => by
    have := hx.2
    omega
  unfold inEndPos
  rw [if_neg hn]

set_option maxRecDepth 100000 in
/-- Claim C21 as stated fails.  Under the sample instance `ARISR_proto_build`
returns `kARISR_OK` for `frameBig` (`more_header = 1`, `data_length = 2048`);
the ciphertext has 2048 bytes, a multiple of `ARISR_DATA_MULT = 8`; the builder
passes `2048 / 8 = 256` to `ARISR_proto_ctrl_setField`, whose `data` parameter is
an `ARISR_UINT8`, so the length field of the ctrl2 word at offset 48 is 0.  Read
back and multiplied by 8 it gives 0, not 2048; the parser then takes the payload
length to be 0 and looks for the trailer at offset 54, while the builder wrote it
at offset 2104 of the 2108 bytes. -/
theorem C21_data_length_scaling_counterexample :
    ∃ B n,
      ARISR_proto_build sampleInterface sampleCrypt (some frameBig) sampleKey =
        some ⟨kARISR_OK, some B, some n⟩ ∧
      frameBig.ctrl.more_header ≠ 0 ∧ frameBig.ctrl2.data_length > 0 ∧
      (buildEnc sampleCrypt frameBig sampleKey).length = 2048 ∧
      sampleInterface.ARISR_DATA_MULT ∣ (buildEnc sampleCrypt frameBig sampleKey).length ∧
      ARISR_proto_ctrl_getField (some (slice B 48 4))
          sampleInterface.ARISR_CTRL2_DATA_LENGTH_MASK
          sampleInterface.ARISR_CTRL2_DATA_LENGTH_SHIFT * sampleInterface.ARISR_DATA_MULT = 0 ∧
      inDataLen sampleInterface B = 0 ∧
      inEndPos sampleInterface B = 54 ∧ B.length = 2108 := by
  have hB : frameBig.ctrl.destinations > 0 →
      ∃ l, frameBig.destinationsB = some l ∧ l.length = 6 * frameBig.ctrl.destinations :=
    fun _ => ⟨_, rfl, rfl⟩
  have hmh : frameBig.ctrl.more_header ≠ 0 := by decide
  obtain ⟨e1, e2⟩ := build_inCtrl2 layout_sample fits_frameBig wfBuild_frameBig build_frameBig hmh
  obtain ⟨e3, e4⟩ := build_inHeaderEnd layout_sample fits_frameBig wfBuild_frameBig build_frameBig
  rw [buildEnc_frameBig] at e1 e2
  have e5 : ARISR_proto_ctrl_getField (some (buildCtrl2 sampleInterface frameBig.ctrl2 2048))
      sampleInterface.ARISR_CTRL2_DATA_LENGTH_MASK
      sampleInterface.ARISR_CTRL2_DATA_LENGTH_SHIFT * sampleInterface.ARISR_DATA_MULT = 0 := by
    decide
  have e6 : inPosCtrl2 sampleInterface (wire sampleInterface sampleCrypt frameBig sampleKey
      (buildEnc sampleCrypt frameBig sampleKey)) = 48 := by rw [e4]; decide
  have e7 : headerEnd frameBig = 52 := by decide
  rw [e5] at e2
  refine ⟨_, _, build_frameBig, hmh, by decide, buildEnc_frameBig, ?_, ?_, e2, ?_, ?_⟩
  · rw [buildEnc_frameBig]; decide
  · rw [← e6, e1]; exact e5
  · rw [endPos_no_payload e2, e3, e7]
  · rw [wire_length sampleInterface sampleCrypt sampleKey wfBuild_frameBig _
      (wireDestinationsB_length_of hB), buildEnc_frameBig]
    decide

theorem rawClean_eq (e : ARISR_ERR) (b : ARISR_CHUNK_RAW) :
    ARISR_RAW_CLEAN_AND_RETURN e b = (e, zeroRaw) := rfl

/-- `ARISR_proto_pack` written over the tag it encrypts: the three early
returns leave the raw frame with `id` and `aris` written only. -/
theorem packBody_eq (P : Interface) (E : Crypt) (b : ARISR_CHUNK_RAW) (d : ARISR_CHUNK)
    (key : List Nat) :
    packBody P E b d key =
      if (E.ARISR_aes_aris_encrypt key (packTag d)).1 ≠ kARISR_OK then
        some ((E.ARISR_aes_aris_encrypt key (packTag d)).1, packHead E b d key)
      else if d.origin = List.replicate 6 0 then
        some (kARISR_ERR_NULL_ORIGIN, packHead E b d key)
      else if d.destinationA = List.replicate 6 0 then
        some (kARISR_ERR_NULL_DESTINATION, packHead E b d key)
      else packSections P E d key (packHead E b d key) := by
  unfold packBody packHead packTag
  by_cases h0 : d.aris.getD 0 0 = 0
  · dsimp only
    rw [if_pos h0, if_pos h0]
    rfl
  · dsimp only
    rw [if_neg h0, if_neg h0]
    rfl

theorem readPtr_eq_some {p : Option (List Nat)} {n : Nat} {src : List Nat}
    (h : readPtr p n = some src) : ∃ l, p = some l ∧ n ≤ l.length ∧ src = l.take n := by
  cases p with
  | none => simp [readPtr] at h
  | some l =>
    have := readBytes_eq_some h
    exact ⟨l, rfl, by omega, by simpa using this.2.1⟩

theorem readPtr_some {l : List Nat} {n : Nat} (h : n ≤ l.length) :
    readPtr (some l) n = some (l.take n) := by
  simp [readPtr, readBytes, h]

theorem wireDestinationsB_some {d : ARISR_CHUNK} {l : List Nat} (hN : d.ctrl.destinations > 0)
    (h : d.destinationsB = some l) :
    wireDestinationsB d = l.take (d.ctrl.destinations * ARISR_ADDRESS_SIZE) := by
  simp [wireDestinationsB, hN, h]

/-- The steps "destinationsB" and "destinationC" of `ARISR_proto_pack`: the
three outcomes. -/
theorem packAddresses_cases {E : Crypt} {d : ARISR_CHUNK} {b : ARISR_CHUNK_RAW}
    {s : (ARISR_ERR × ARISR_CHUNK_RAW) ⊕ ARISR_CHUNK_RAW} (h : packAddresses E d b = some s) :
    s = Sum.inl (kARISR_ERR_GENERIC, zeroRaw) ∨
    (s = Sum.inr (packAddressed d b) ∧
      (d.ctrl.destinations > 0 →
        E.malloc (d.ctrl.destinations * ARISR_ADDRESS_SIZE) = true ∧
        ∃ l, d.destinationsB = some l ∧ d.ctrl.destinations * ARISR_ADDRESS_SIZE ≤ l.length) ∧
      (d.ctrl.from_ ≠ 0 → E.malloc ARISR_ADDRESS_SIZE = true)) := by
  unfold packAddresses at h
  by_cases hN : d.ctrl.destinations > 0
  · rw [if_pos hN] at h
    by_cases hm : E.malloc (d.ctrl.destinations * ARISR_ADDRESS_SIZE) = false
    · rw [if_pos hm] at h
      simp only [Option.some_bind, Option.some.injEq] at h
      exact Or.inl (by rw [← h, rawClean_eq])
    · rw [if_neg hm] at h
      have hm2 : E.malloc (d.ctrl.destinations * ARISR_ADDRESS_SIZE) = true := by simpa using hm
      cases hr : readPtr d.destinationsB (d.ctrl.destinations * ARISR_ADDRESS_SIZE) with
      | none => rw [hr] at h; simp at h
      | some src =>
        rw [hr] at h
        obtain ⟨l, hl, hlen, hsrc⟩ := readPtr_eq_some hr
        simp only [Option.some_bind] at h
        by_cases hf : d.ctrl.from_ ≠ 0
        · rw [if_pos hf] at h
          by_cases hm6 : E.malloc ARISR_ADDRESS_SIZE = false
          · rw [if_pos hm6] at h
            simp only [Option.some.injEq] at h
            exact Or.inl (by rw [← h, rawClean_eq])
          · rw [if_neg hm6] at h
            simp only [Option.some.injEq] at h
            refine Or.inr ⟨?_, fun _ => ⟨hm2, l, hl, hlen⟩, fun _ => by simpa using hm6⟩
            rw [← h, hsrc, ← wireDestinationsB_some hN hl]
            simp [packAddressed, hN, hf]
        · rw [if_neg hf] at h
          simp only [Option.some.injEq] at h
          refine Or.inr ⟨?_, fun _ => ⟨hm2, l, hl, hlen⟩, fun hx => absurd hx hf⟩
          rw [← h, hsrc, ← wireDestinationsB_some hN hl]
          simp [packAddressed, hN, hf]
  · rw [if_neg hN] at h
    simp only [Option.some_bind] at h
    by_cases hf : d.ctrl.from_ ≠ 0
    · rw [if_pos hf] at h
      by_cases hm6 : E.malloc ARISR_ADDRESS_SIZE = false
      · rw [if_pos hm6] at h
        simp only [Option.some.injEq] at h
        exact Or.inl (by rw [← h, rawClean_eq])
      · rw [if_neg hm6] at h
        simp only [Option.some.injEq] at h
        refine Or.inr ⟨?_, fun hx => absurd hx hN, fun _ => by simpa using hm6⟩
        rw [← h]
        simp [packAddressed, hN, hf]
    · rw [if_neg hf] at h
      simp only [Option.some.injEq] at h
      refine Or.inr ⟨?_, fun hx => absurd hx hN, fun hx => absurd hx hf⟩
      rw [← h]
      simp [packAddressed, hN, hf]

/-- The steps "destinationsB" and "destinationC" of `ARISR_proto_pack` succeed
when the allocations succeed and `destinationsB` is readable. -/
theorem packAddresses_eval {E : Crypt} {d : ARISR_CHUNK} (b : ARISR_CHUNK_RAW)
    (hB : d.ctrl.destinations > 0 →
        E.malloc (d.ctrl.destinations * ARISR_ADDRESS_SIZE) = true ∧
        ∃ l, d.destinationsB = some l ∧ d.ctrl.destinations * ARISR_ADDRESS_SIZE ≤ l.length)
    (hC : d.ctrl.from_ ≠ 0 → E.malloc ARISR_ADDRESS_SIZE = true) :
    packAddresses E d b = some (Sum.inr (packAddressed d b)) := by
  unfold packAddresses
  by_cases hN : d.ctrl.destinations > 0
  · obtain ⟨hm, l, hl, hlen⟩ := hB hN
    rw [if_pos hN, if_neg (by simp [hm]), hl, readPtr_some hlen]
    simp only [Option.some_bind]
    by_cases hf : d.ctrl.from_ ≠ 0
    · rw [if_pos hf, if_neg (by simp [hC hf]), ← wireDestinationsB_some hN hl]
      simp [packAddressed, hN, hf]
    · rw [if_neg hf, ← wireDestinationsB_some hN hl]
      simp [packAddressed, hN, hf]
  · rw [if_neg hN]
    simp only [Option.some_bind]
    by_cases hf : d.ctrl.from_ ≠ 0
    · rw [if_pos hf, if_neg (by simp [hC hf])]
      simp [packAddressed, hN, hf]
    · rw [if_neg hf]
      simp [packAddressed, hN, hf]

theorem packEnc_pos {E : Crypt} {d : ARISR_CHUNK} {key : List Nat} (h : PackHasData d) :
    packEnc E d key = (E.ARISR_aes_data_encrypt (dataKey key) d.data d.ctrl2.data_length).2 :=
  if_pos h

theorem packEnc_neg {E : Crypt} {d : ARISR_CHUNK} {key : List Nat} (h : ¬ PackHasData d) :
    packEnc E d key = [] :=
  if_neg h

/-- The step "ctrl2" of `ARISR_proto_pack`: the three outcomes. -/
theorem packCtrl2_cases {P : Interface} {E : Crypt} {d : ARISR_CHUNK} {key : List Nat}
    {b : ARISR_CHUNK_RAW} :
    packCtrl2 P E d key b = Sum.inl (kARISR_ERR_GENERIC, zeroRaw) ∨
    (PackHasData d ∧
      (E.ARISR_aes_data_encrypt (dataKey key) d.data d.ctrl2.data_length).1 ≠ kARISR_OK ∧
      packCtrl2 P E d key b =
        Sum.inl ((E.ARISR_aes_data_encrypt (dataKey key) d.data d.ctrl2.data_length).1,
          zeroRaw)) ∨
    (packCtrl2 P E d key b = Sum.inr (packSecond P E d key b) ∧
      (d.ctrl.more_header ≠ 0 → E.malloc ARISR_CTRL2_SECTION_SIZE = true) ∧
      (PackHasData d →
        (E.ARISR_aes_data_encrypt (dataKey key) d.data d.ctrl2.data_length).1 = kARISR_OK)) := by
  unfold packCtrl2
  by_cases hmh : d.ctrl.more_header ≠ 0
  · rw [if_pos hmh]
    by_cases hd : d.ctrl2.data_length > 0 ∧ d.data ≠ none
    · have hp : PackHasData d := ⟨hmh, hd.1, hd.2⟩
      by_cases he : (E.ARISR_aes_data_encrypt (dataKey key) d.data d.ctrl2.data_length).1
          ≠ kARISR_OK
      · refine Or.inr (Or.inl ⟨hp, he, ?_⟩)
        simp only [if_pos hd, if_pos he, rawClean_eq]
      · have he2 : (E.ARISR_aes_data_encrypt (dataKey key) d.data d.ctrl2.data_length).1
            = kARISR_OK := by simpa using he
        by_cases hm : E.malloc ARISR_CTRL2_SECTION_SIZE = false
        · refine Or.inl ?_
          simp only [if_pos hd, if_neg he, if_pos hm, rawClean_eq]
        · refine Or.inr (Or.inr ⟨?_, fun _ => by simpa using hm, fun _ => he2⟩)
          simp only [if_pos hd, if_neg he, if_neg hm, packSecond, if_pos hp, if_pos hmh,
            packEnc_pos hp]
    · have hp : ¬ PackHasData d := fun hx => hd ⟨hx.2.1, hx.2.2⟩
      by_cases hm : E.malloc ARISR_CTRL2_SECTION_SIZE = false
      · refine Or.inl ?_
        simp only [if_neg hd, if_pos hm, rawClean_eq]
      · refine Or.inr (Or.inr ⟨?_, fun _ => by simpa using hm, fun hx => absurd hx hp⟩)
        simp only [if_neg hd, if_neg hm, packSecond, if_neg hp, if_pos hmh, packEnc_neg hp,
          List.length_nil]
  · have hp : ¬ PackHasData d := fun hx => hmh hx.1
    rw [if_neg hmh]
    refine Or.inr (Or.inr ⟨?_, fun hx => absurd hx hmh, fun hx => absurd hx hp⟩)
    simp only [packSecond, if_neg hp, if_neg hmh]

theorem packCtrl2_eval {P : Interface} {E : Crypt} {d : ARISR_CHUNK} {key : List Nat}
    (b : ARISR_CHUNK_RAW)
    (hm : d.ctrl.more_header ≠ 0 → E.malloc ARISR_CTRL2_SECTION_SIZE = true)
    (he : PackHasData d →
      (E.ARISR_aes_data_encrypt (dataKey key) d.data d.ctrl2.data_length).1 = kARISR_OK) :
    packCtrl2 P E d key b = Sum.inr (packSecond P E d key b) := by
  rcases @packCtrl2_cases P E d key b with h | h | h
  · unfold packCtrl2 at h ⊢
    by_cases hmh : d.ctrl.more_header ≠ 0
    · rw [if_pos hmh] at h
      have hm4 := hm hmh
      by_cases hd : d.ctrl2.data_length > 0 ∧ d.data ≠ none
      · have hp : PackHasData d := ⟨hmh, hd.1, hd.2⟩
        simp [if_pos hd, he hp, hm4] at h
      · simp [if_neg hd, hm4] at h
    · rw [if_neg hmh] at h
      cases h
  · exact absurd (he h.1) h.2.1
  · exact h.1

/-- The raw frame after the second part of `ARISR_proto_pack`, started on the
raw frame `b`. -/
theorem packRaw_eq (P : Interface) (E : Crypt) (b : ARISR_CHUNK_RAW) (d : ARISR_CHUNK)
    (key : List Nat) :
    packRaw P E b d key =
      { packSecond P E d key (packAddressed d
          { packHead E b d key with
            ctrl := packCtrl1 P d.ctrl b.ctrl, origin := d.origin,
            destinationA := d.destinationA }) with
        crc_header := List.replicate ARISR_CRC_SIZE 0
        crc_data := List.replicate ARISR_CRC_SIZE 0
        end_ := d.id } := rfl

/-- The outcomes of `ARISR_proto_pack` after the address checks. -/
theorem packSections_cases {P : Interface} {E : Crypt} {b : ARISR_CHUNK_RAW} {d : ARISR_CHUNK}
    {key : List Nat} {r : ARISR_ERR × ARISR_CHUNK_RAW}
    (h : packSections P E d key (packHead E b d key) = some r) :
    r = (kARISR_ERR_GENERIC, zeroRaw) ∨
    (PackHasData d ∧
      (E.ARISR_aes_data_encrypt (dataKey key) d.data d.ctrl2.data_length).1 ≠ kARISR_OK ∧
      r = ((E.ARISR_aes_data_encrypt (dataKey key) d.data d.ctrl2.data_length).1, zeroRaw)) ∨
    (r = (kARISR_OK, packRaw P E b d key) ∧
      (d.ctrl.destinations > 0 →
        E.malloc (d.ctrl.destinations * ARISR_ADDRESS_SIZE) = true ∧
        ∃ l, d.destinationsB = some l ∧ d.ctrl.destinations * ARISR_ADDRESS_SIZE ≤ l.length) ∧
      (d.ctrl.from_ ≠ 0 → E.malloc ARISR_ADDRESS_SIZE = true) ∧
      (d.ctrl.more_header ≠ 0 → E.malloc ARISR_CTRL2_SECTION_SIZE = true) ∧
      (PackHasData d →
        (E.ARISR_aes_data_encrypt (dataKey key) d.data d.ctrl2.data_length).1 = kARISR_OK)) := by
  unfold packSections at h
  simp only [Option.bind_eq_some] at h
  obtain ⟨s, hs, h⟩ := h
  rcases packAddresses_cases hs with e | ⟨e, hB, hC⟩
  · subst e
    simp only [Option.some.injEq] at h
    exact Or.inl h.symm
  · subst e
    simp only at h
    rcases @packCtrl2_cases P E d key (packAddressed d
        { packHead E b d key with
          ctrl := packCtrl1 P d.ctrl (packHead E b d key).ctrl, origin := d.origin,
          destinationA := d.destinationA }) with e | ⟨hp, hne, e⟩ | ⟨e, hm, he⟩
    · rw [e] at h
      simp only [Option.some.injEq] at h
      exact Or.inl h.symm
    · rw [e] at h
      simp only [Option.some.injEq] at h
      exact Or.inr (Or.inl ⟨hp, hne, h.symm⟩)
    · rw [e] at h
      simp only [Option.some.injEq] at h
      exact Or.inr (Or.inr ⟨by rw [← h]; rfl, hB, hC, hm, he⟩)

theorem packSections_eval {P : Interface} {E : Crypt} (b : ARISR_CHUNK_RAW) {d : ARISR_CHUNK}
    {key : List Nat} (h : PackOk E d key) :
    packSections P E d key (packHead E b d key) = some (kARISR_OK, packRaw P E b d key) := by
  unfold packSections
  simp only
  rw [packAddresses_eval _ h.destinationsB h.destinationC]
  simp only [Option.some_bind]
  rw [packCtrl2_eval _ h.ctrl2 h.data_ok]
  rfl

/-- `ARISR_proto_pack` returns `kARISR_OK` exactly under the conditions
`PackOk`, and then leaves the raw frame `packRaw`. -/
theorem packBody_ok_iff {P : Interface} {E : Crypt} {b : ARISR_CHUNK_RAW} {d : ARISR_CHUNK}
    {key : List Nat} {R : ARISR_CHUNK_RAW} :
    packBody P E b d key = some (kARISR_OK, R) ↔ PackOk E d key ∧ R = packRaw P E b d key := by
  rw [packBody_eq]
  constructor
  · intro h
    by_cases ha : (E.ARISR_aes_aris_encrypt key (packTag d)).1 ≠ kARISR_OK
    · rw [if_pos ha] at h
      simp only [Option.some.injEq, Prod.mk.injEq] at h
      exact absurd h.1 ha
    rw [if_neg ha] at h
    by_cases ho : d.origin = List.replicate 6 0
    · rw [if_pos ho] at h
      simp at h
    rw [if_neg ho] at h
    by_cases hd : d.destinationA = List.replicate 6 0
    · rw [if_pos hd] at h
      simp at h
    rw [if_neg hd] at h
    rcases packSections_cases h with e | ⟨_, hne, e⟩ | ⟨e, hB, hC, hm, he⟩
    · simp at e
    · simp only [Prod.mk.injEq] at e
      exact absurd e.1.symm hne
    · simp only [Prod.mk.injEq, true_and] at e
      exact ⟨⟨by simpa using ha, ho, hd, hB, hC, hm, he⟩, e⟩
  · rintro ⟨h, rfl⟩
    rw [if_neg (by simp [h.aris_ok]), if_neg h.origin, if_neg h.destinationA]
    exact packSections_eval b h

/-- Every outcome of `ARISR_proto_pack` on non-null arguments. -/
theorem packBody_cases {P : Interface} {E : Crypt} {b : ARISR_CHUNK_RAW} {d : ARISR_CHUNK}
    {key : List Nat} {r : ARISR_ERR × ARISR_CHUNK_RAW} (h : packBody P E b d key = some r) :
    ((E.ARISR_aes_aris_encrypt key (packTag d)).1 ≠ kARISR_OK ∧
      r = ((E.ARISR_aes_aris_encrypt key (packTag d)).1, packHead E b d key)) ∨
    ((E.ARISR_aes_aris_encrypt key (packTag d)).1 = kARISR_OK ∧ d.origin = List.replicate 6 0 ∧
      r = (kARISR_ERR_NULL_ORIGIN, packHead E b d key)) ∨
    ((E.ARISR_aes_aris_encrypt key (packTag d)).1 = kARISR_OK ∧ d.origin ≠ List.replicate 6 0 ∧
      d.destinationA = List.replicate 6 0 ∧
      r = (kARISR_ERR_NULL_DESTINATION, packHead E b d key)) ∨
    ((E.ARISR_aes_aris_encrypt key (packTag d)).1 = kARISR_OK ∧ d.origin ≠ List.replicate 6 0 ∧
      d.destinationA ≠ List.replicate 6 0 ∧
      (r = (kARISR_ERR_GENERIC, zeroRaw) ∨
       (PackHasData d ∧
        (E.ARISR_aes_data_encrypt (dataKey key) d.data d.ctrl2.data_length).1 ≠ kARISR_OK ∧
        r = ((E.ARISR_aes_data_encrypt (dataKey key) d.data d.ctrl2.data_length).1, zeroRaw)) ∨
       r = (kARISR_OK, packRaw P E b d key))) := by
  rw [packBody_eq] at h
  by_cases ha : (E.ARISR_aes_aris_encrypt key (packTag d)).1 ≠ kARISR_OK
  · rw [if_pos ha] at h
    simp only [Option.some.injEq] at h
    exact Or.inl ⟨ha, h.symm⟩
  rw [if_neg ha] at h
  have ha2 : (E.ARISR_aes_aris_encrypt key (packTag d)).1 = kARISR_OK := by simpa using ha
  by_cases ho : d.origin = List.replicate 6 0
  · rw [if_pos ho] at h
    simp only [Option.some.injEq] at h
    exact Or.inr (Or.inl ⟨ha2, ho, h.symm⟩)
  rw [if_neg ho] at h
  by_cases hd : d.destinationA = List.replicate 6 0
  · rw [if_pos hd] at h
    simp only [Option.some.injEq] at h
    exact Or.inr (Or.inr (Or.inl ⟨ha2, ho, hd, h.symm⟩))
  rw [if_neg hd] at h
  refine Or.inr (Or.inr (Or.inr ⟨ha2, ho, hd, ?_⟩))
  rcases packSections_cases h with e | e | e
  · exact Or.inl e
  · exact Or.inr (Or.inl e)
  · exact Or.inr (Or.inr e.1)

theorem pack_some {P : Interface} {E : Crypt} {b : ARISR_CHUNK_RAW} {d : ARISR_CHUNK}
    {key : List Nat} {e : ARISR_ERR} {oR : Option ARISR_CHUNK_RAW}
    (h : ARISR_proto_pack P E (some b) (some d) key = some (e, oR)) :
    ∃ R, oR = some R ∧ packBody P E b d key = some (e, R) := by
  simp only [ARISR_proto_pack, Option.map_eq_some'] at h
  obtain ⟨r, hr, h⟩ := h
  simp only [Prod.mk.injEq] at h
  exact ⟨r.2, h.2.symm, by rw [hr, ← h.1]⟩

theorem pack_of_body {P : Interface} {E : Crypt} {b : ARISR_CHUNK_RAW} {d : ARISR_CHUNK}
    {key : List Nat} {r : ARISR_ERR × ARISR_CHUNK_RAW} (h : packBody P E b d key = some r) :
    ARISR_proto_pack P E (some b) (some d) key = some (r.1, some r.2) := by
  simp [ARISR_proto_pack, h]

/-- Claim C29: `ARISR_proto_pack` validates the addresses after encrypting the
tag.  For every frame `d` (packed into any raw frame `b`) on which the tag
encryption succeeds, and a payload encryption that does not itself report
`kARISR_ERR_NULL_ORIGIN` or `kARISR_ERR_NULL_DESTINATION`: whenever the function
returns, it returns `kARISR_ERR_NULL_ORIGIN` exactly when the six `origin` bytes
are zero and `kARISR_ERR_NULL_DESTINATION` exactly when `origin` is not zero and
the six `destinationA` bytes are; in both cases it does return, and the raw
frame it leaves is `b` with `id` and the encrypted tag written: the pointers
`destinationsB`, `destinationC`, `ctrl2`, `data` and the control word are as
before the call, nothing was allocated.  The tag that is encrypted is the
constant `"ARIS"` when `aris[0]` is 0, and `aris` otherwise. -/
theorem C29_pack_address_validation (P : Interface) (E : Crypt) (b : ARISR_CHUNK_RAW)
    (d : ARISR_CHUNK) (key : List Nat)
    (haris : (E.ARISR_aes_aris_encrypt key (packTag d)).1 = kARISR_OK)
    (hencO : (E.ARISR_aes_data_encrypt (dataKey key) d.data d.ctrl2.data_length).1
      ≠ kARISR_ERR_NULL_ORIGIN)
    (hencD : (E.ARISR_aes_data_encrypt (dataKey key) d.data d.ctrl2.data_length).1
      ≠ kARISR_ERR_NULL_DESTINATION) :
    (∀ e oR, ARISR_proto_pack P E (some b) (some d) key = some (e, oR) →
      (e = kARISR_ERR_NULL_ORIGIN ↔ d.origin = List.replicate 6 0) ∧
      (e = kARISR_ERR_NULL_DESTINATION ↔
        d.origin ≠ List.replicate 6 0 ∧ d.destinationA = List.replicate 6 0)) ∧
    (d.origin = List.replicate 6 0 →
      ARISR_proto_pack P E (some b) (some d) key =
        some (kARISR_ERR_NULL_ORIGIN, some (packHead E b d key))) ∧
    (d.origin ≠ List.replicate 6 0 → d.destinationA = List.replicate 6 0 →
      ARISR_proto_pack P E (some b) (some d) key =
        some (kARISR_ERR_NULL_DESTINATION, some (packHead E b d key))) ∧
    ((packHead E b d key).destinationsB = b.destinationsB ∧
      (packHead E b d key).destinationC = b.destinationC ∧
      (packHead E b d key).ctrl2 = b.ctrl2 ∧ (packHead E b d key).data = b.data ∧
      (packHead E b d key).ctrl = b.ctrl) ∧
    (packHead E b d key).aris = arr 4 (E.ARISR_aes_aris_encrypt key (packTag d)).2 ∧
    (d.aris.getD 0 0 = 0 → packTag d = [65, 82, 73, 83]) ∧
    (d.aris.getD 0 0 ≠ 0 → packTag d = d.aris) := by
  refine ⟨fun e oR h => ?_, fun ho => ?_, fun ho hd => ?_, ⟨rfl, rfl, rfl, rfl, rfl⟩, rfl,
    fun h0 => if_pos h0, fun h0 => if_neg h0⟩
  · obtain ⟨R, -, hb⟩ := pack_some h
    rcases packBody_cases hb with ⟨hne, -⟩ | ⟨-, ho, hr⟩ | ⟨-, ho, hd, hr⟩ | ⟨-, ho, hd, hr⟩
    · exact absurd haris hne
    · simp only [Prod.mk.injEq] at hr
      rw [hr.1]
      exact ⟨⟨fun _ => ho, fun _ => rfl⟩, ⟨fun hx => (by cases hx), fun hx => absurd ho hx.1⟩⟩
    · simp only [Prod.mk.injEq] at hr
      rw [hr.1]
      exact ⟨⟨fun hx => (by cases hx), fun hx => absurd hx ho⟩, ⟨fun _ => ⟨ho, hd⟩, fun _ => rfl⟩⟩
    · have hne : e ≠ kARISR_ERR_NULL_ORIGIN ∧ e ≠ kARISR_ERR_NULL_DESTINATION := by
        rcases hr with hr | ⟨-, -, hr⟩ | hr <;> simp only [Prod.mk.injEq] at hr <;> rw [hr.1]
        · exact ⟨by decide, by decide⟩
        · exact ⟨hencO, hencD⟩
        · exact ⟨by decide, by decide⟩
      exact ⟨⟨fun hx => absurd hx hne.1, fun hx => absurd hx ho⟩,
        ⟨fun hx => absurd hx hne.2, fun hx => absurd hx.2 hd⟩⟩
  · have := pack_of_body (((packBody_eq P E b d key).trans
      (by rw [if_neg (by simp [haris]), if_pos ho])) :
        packBody P E b d key = some (kARISR_ERR_NULL_ORIGIN, packHead E b d key))
    exact this
  · have := pack_of_body (((packBody_eq P E b d key).trans
      (by rw [if_neg (by simp [haris]), if_neg ho, if_pos hd])) :
        packBody P E b d key = some (kARISR_ERR_NULL_DESTINATION, packHead E b d key))
    exact this

/-- Witness of C29 on scenario S1 with an all-zero `origin`, packed into a zeroed
raw frame under the sample instance. -/
theorem C29_pack_address_validation_witness :
    (sampleCrypt.ARISR_aes_aris_encrypt sampleKey (packTag frameNullOrigin)).1 = kARISR_OK ∧
    frameNullOrigin.origin = List.replicate 6 0 ∧
    ARISR_proto_pack sampleInterface sampleCrypt (some zeroRaw) (some frameNullOrigin) sampleKey =
      some (kARISR_ERR_NULL_ORIGIN,
        some (packHead sampleCrypt zeroRaw frameNullOrigin sampleKey)) :=
  ⟨by decide, by decide,
   (C29_pack_address_validation sampleInterface sampleCrypt zeroRaw frameNullOrigin sampleKey
     (by decide) (by decide) (by decide)).2.1 (by decide)⟩

/-- The control words after a successful `ARISR_proto_pack`: `buffer->ctrl` is
the word it held before the call ORed with the nine shifted fields, and
`buffer->ctrl2`, freshly allocated and zeroed, holds the four shifted ctrl2
fields whatever the raw frame held before. -/
theorem pack_ctrl_words {P : Interface} {E : Crypt} {b : ARISR_CHUNK_RAW} {d : ARISR_CHUNK}
    {key : List Nat} {R : ARISR_CHUNK_RAW}
    (h : ARISR_proto_pack P E (some b) (some d) key = some (kARISR_OK, some R)) :
    R.ctrl = be32Bytes (be32 b.ctrl ||| ctrl1Word P d.ctrl) ++ b.ctrl.drop 4 ∧
    (d.ctrl.more_header ≠ 0 →
      R.ctrl2 = some (be32Bytes (ctrl2Word P d.ctrl2 (packEnc E d key).length))) := by
  obtain ⟨R2, hR, hb⟩ := pack_some h
  cases hR
  obtain ⟨-, rfl⟩ := packBody_ok_iff.mp hb
  refine ⟨packCtrl1_eq P d.ctrl b.ctrl, fun hmh => ?_⟩
  simp only [packRaw, if_pos hmh, buildCtrl2_eq]

set_option maxRecDepth 100000 in
/-- Claim C27 fails on the code for the first control word: `ARISR_proto_pack`
calls `ARISR_proto_ctrl_setField` on `buffer->ctrl` without zeroing it.  Packing
scenario S1 (all nine fields 0) into a raw frame whose control word holds
`AE 3C 8D C9` returns `kARISR_OK` and leaves `AE 3C 8D C9` in `ctrl`, while the OR
of the nine shifted fields is `00 00 00 00`, the word the same call leaves in a
zeroed raw frame. -/
theorem C27_pack_ctrl_zeroing :
    (ARISR_proto_pack sampleInterface sampleCrypt (some rawStale) (some frameS1) sampleKey).map
        (fun r => (r.1, r.2.map fun R => R.ctrl)) = some (kARISR_OK, some [174, 60, 141, 201]) ∧
    (ARISR_proto_pack sampleInterface sampleCrypt (some zeroRaw) (some frameS1) sampleKey).map
        (fun r => (r.1, r.2.map fun R => R.ctrl)) = some (kARISR_OK, some [0, 0, 0, 0]) ∧
    be32Bytes (ctrl1Word sampleInterface frameS1.ctrl) = [0, 0, 0, 0] := by
  decide

theorem zeroesPart_full : ZeroesPart fun _ => zeroChunk :=
  ⟨fun _ => rfl, fun _ _ => rfl, fun _ _ => rfl⟩

theorem zeroesPart_butEnd : ZeroesPart reachButEnd :=
  ⟨fun _ => rfl, fun _ _ => rfl, fun _ _ => rfl⟩

/-- Whatever part of the decoded frame the `memset` of
`ARISR_proto_chunk_clean` reaches: the call returns `kARISR_OK`, leaves both
pointers null, and a second call returns `kARISR_OK` and changes nothing. -/
theorem chunk_clean_idem {E : Crypt} (hz : ZeroesPart E.memsetRaw) (F : ARISR_CHUNK) :
    ∃ G, ARISR_proto_chunk_clean E (some F) = (kARISR_OK, some G) ∧
      G.destinationsB = none ∧ G.data = none ∧
      ARISR_proto_chunk_clean E (some G) = (kARISR_OK, some G) := by
  refine ⟨E.memsetRaw { F with destinationsB := none, data := none }, rfl,
    hz.destinationsB _ rfl, hz.data _ rfl, ?_⟩
  have hB := hz.destinationsB { F with destinationsB := none, data := none } rfl
  have hD := hz.data { F with destinationsB := none, data := none } rfl
  have e : ∀ G : ARISR_CHUNK, G.destinationsB = none → G.data = none →
      { G with destinationsB := none, data := none } = G := by
    intro G h1 h2
    cases G
    simp only at h1 h2
    subst h1 h2
    rfl
  simp only [ARISR_proto_chunk_clean, e _ hB hD, hz.idem]

/-- Claim C24 fails on the code for `ARISR_proto_chunk_clean`: the function
frees both owned regions, sets their pointers to `NULL` and then zeroes
`sizeof(ARISR_CHUNK_RAW)` bytes of the decoded frame, the size of the other
structure; the frame it leaves is `memsetRaw` of the frame with both pointers
null.  Under a layout in which these bytes end before the last field, the
cleanup of scenario S4 returns `kARISR_OK` and leaves the trailer `11 22 33 44`
in `end`, so not every field of the decoded shell is zero; only under a layout
in which they cover the decoded frame does it leave the zero shell.  For every
`memset` that zeroes some part of the frame the status, the null pointers and
the idempotence hold.  `ARISR_proto_raw_chunk_clean`, whose `memset` has the
size of its own structure, does what the claim says on every raw frame `R`: the
four pointers are null, the shell is zero (`zeroRaw`), and a second call changes
nothing.  On a null pointer both functions return `kARISR_ERR_GENERIC`. -/
theorem C24_cleanup_idempotent (E : Crypt) (F : ARISR_CHUNK) (R : ARISR_CHUNK_RAW) :
    ARISR_proto_chunk_clean E (some F) =
      (kARISR_OK, some (E.memsetRaw { F with destinationsB := none, data := none })) ∧
    ARISR_proto_chunk_clean sampleCryptShort (some frameS4) =
      (kARISR_OK, some { zeroChunk with end_ := [0x11, 0x22, 0x33, 0x44] }) ∧
    ARISR_proto_chunk_clean sampleCrypt (some frameS4) = (kARISR_OK, some zeroChunk) ∧
    (ZeroesPart E.memsetRaw →
      ∃ G, ARISR_proto_chunk_clean E (some F) = (kARISR_OK, some G) ∧
        G.destinationsB = none ∧ G.data = none ∧
        ARISR_proto_chunk_clean E (some G) = (kARISR_OK, some G)) ∧
    (∃ S, ARISR_proto_raw_chunk_clean (some R) = (kARISR_OK, some S) ∧
      S.destinationsB = none ∧ S.destinationC = none ∧ S.ctrl2 = none ∧ S.data = none ∧
      S = zeroRaw ∧ ARISR_proto_raw_chunk_clean (some S) = (kARISR_OK, some S)) ∧
    (ARISR_proto_chunk_clean E none).1 = kARISR_ERR_GENERIC ∧
    (ARISR_proto_raw_chunk_clean none).1 = kARISR_ERR_GENERIC :=
  ⟨rfl, by decide, by decide, fun hz => chunk_clean_idem hz F,
    ⟨zeroRaw, rfl, rfl, rfl, rfl, rfl, rfl, rfl⟩, rfl, rfl⟩

theorem rnext_inl (r : ARISR_ERR × ARISR_CHUNK_RAW) (f : RawState → RawStep) :
    RawStep.next (some (Sum.inl r)) f = some (Sum.inl r) := rfl

theorem rnext_inr (st : RawState) (f : RawState → RawStep) :
    RawStep.next (some (Sum.inr st)) f = f st := rfl

theorem rnext_none (f : RawState → RawStep) : RawStep.next none f = none := rfl

/-- Section "id and aris" of `ARISR_proto_recv` on a buffer of at least 8 bytes. -/
theorem recvIdAris_eq {E : Crypt} {data key id : List Nat} (h8 : 8 ≤ data.length)
    (h4 : 4 ≤ id.length) :
    recvIdAris E data key id (zeroRaw, 0) =
      if slice data 0 4 ≠ slice id 0 4 then
        some (Sum.inl (kARISR_ERR_NOT_SAME_ID,
          { zeroRaw with id := slice data 0 4, aris := slice data 4 4 }))
      else if (E.ARISR_aes_aris_decrypt key (slice data 4 4)).1 ≠ kARISR_OK then
        some (Sum.inl (kARISR_ERR_NOT_SAME_ARIS,
          { zeroRaw with
            id := slice data 0 4
            aris := arr 4 (E.ARISR_aes_aris_decrypt key (slice data 4 4)).2 }))
      else some (Sum.inr ({ zeroRaw with
            id := slice data 0 4
            aris := arr 4 (E.ARISR_aes_aris_decrypt key (slice data 4 4)).2 }, 8)) := by
  unfold recvIdAris
  rw [readBytes_slice (show 0 + ARISR_PROTO_CRYPT_SIZE ≤ data.length from by
      simpa [ARISR_PROTO_CRYPT_SIZE] using h8),
    readBytes_slice (show 0 + ARISR_PROTO_ID_SIZE ≤ id.length from by
      simpa [ARISR_PROTO_ID_SIZE] using h4)]
  simp only [Option.some_bind, ARISR_PROTO_CRYPT_SIZE, ARISR_PROTO_ID_SIZE,
    ARISR_PROTO_ARIS_SIZE, slice_take4, slice_drop4, Nat.zero_add]

theorem recvIdAris_none {E : Crypt} {data key id : List Nat} (st : RawState)
    (h : data.length < 8 ∨ id.length < 4) : recvIdAris E data key id st = none := by
  unfold recvIdAris
  by_cases h8 : 8 ≤ data.length
  · have h4 : id.length < 4 := by omega
    rw [readBytes_slice (show 0 + ARISR_PROTO_CRYPT_SIZE ≤ data.length from by
        simpa [ARISR_PROTO_CRYPT_SIZE] using h8),
      readBytes_none (show id.length < 0 + ARISR_PROTO_ID_SIZE from by
        simpa [ARISR_PROTO_ID_SIZE] using h4)]
    rfl
  · rw [readBytes_none (show data.length < 0 + ARISR_PROTO_CRYPT_SIZE from by
        simp only [ARISR_PROTO_CRYPT_SIZE]; omega)]
    rfl

theorem recvCtrl_eq {data : List Nat} (b : ARISR_CHUNK_RAW) (p : Nat)
    (h : p + 4 ≤ data.length) :
    recvCtrl data (b, p) = some (Sum.inr ({ b with ctrl := slice data p 4 }, p + 4)) := by
  unfold recvCtrl
  simp only [ARISR_CTRL_SECTION_SIZE]
  rw [readBytes_slice h]
  rfl

theorem recvCtrl_none {data : List Nat} (b : ARISR_CHUNK_RAW) (p : Nat)
    (h : data.length < p + 4) : recvCtrl data (b, p) = none := by
  unfold recvCtrl
  simp only [ARISR_CTRL_SECTION_SIZE]
  rw [readBytes_none h]
  rfl

theorem recvAddresses_eq {data : List Nat} (b : ARISR_CHUNK_RAW) (p : Nat)
    (h : p + 12 ≤ data.length) :
    recvAddresses data (b, p) =
      some (Sum.inr ({ b with origin := slice data p 6, destinationA := slice data (p + 6) 6 },
        p + 12)) := by
  unfold recvAddresses
  simp only [ARISR_ADDRESS_SIZE, Nat.reduceMul]
  rw [readBytes_slice h]
  simp only [Option.some_bind, slice_take_le (show 6 ≤ 12 by omega)]
  rw [show (12 : Nat) = 6 + 6 from rfl, slice_drop_add]

theorem recvAddresses_none {data : List Nat} (b : ARISR_CHUNK_RAW) (p : Nat)
    (h : data.length < p + 12) : recvAddresses data (b, p) = none := by
  unfold recvAddresses
  simp only [ARISR_ADDRESS_SIZE, Nat.reduceMul]
  rw [readBytes_none h]
  rfl

/-- The sections up to "origin and destinationA" of `ARISR_proto_recv`. -/
theorem recv_upto_addresses {E : Crypt} {data key id : List Nat}
    (h4 : 4 ≤ id.length) (h24 : 24 ≤ data.length) (hid : slice data 0 4 = slice id 0 4)
    (har : (E.ARISR_aes_aris_decrypt key (slice data 4 4)).1 = kARISR_OK) :
    ((recvIdAris E data key id (zeroRaw, 0)).next (recvCtrl data)).next
        (recvAddresses data) =
      some (Sum.inr ({ zeroRaw with
          id := slice data 0 4
          aris := arr 4 (E.ARISR_aes_aris_decrypt key (slice data 4 4)).2
          ctrl := slice data 8 4
          origin := slice data 12 6
          destinationA := slice data 18 6 }, 24)) := by
  rw [recvIdAris_eq (by omega) h4, if_neg (not_not.mpr hid), if_neg (not_not.mpr har), rnext_inr,
    recvCtrl_eq _ _ (by omega), rnext_inr, recvAddresses_eq _ _ (by omega)]

/-- Section "destinationsB" of `ARISR_proto_recv`: failed allocation, or a copy. -/
theorem recvDestinationsB_eq {P : Interface} {E : Crypt} {data : List Nat}
    (b : ARISR_CHUNK_RAW) (p : Nat)
    (h : rawDestinations P b > 0 → E.malloc (rawDestinations P b * ARISR_ADDRESS_SIZE) = true →
      p + 6 * rawDestinations P b ≤ data.length) :
    recvDestinationsB P E data (b, p) =
      if rawDestinations P b > 0 then
        if E.malloc (rawDestinations P b * ARISR_ADDRESS_SIZE) = false then
          some (Sum.inl (kARISR_ERR_GENERIC, zeroRaw))
        else some (Sum.inr ({ b with
            destinationsB := some (slice data p (6 * rawDestinations P b)) },
          p + 6 * rawDestinations P b))
      else some (Sum.inr (b, p)) := by
  unfold recvDestinationsB
  by_cases hN : rawDestinations P b > 0
  · by_cases hm : E.malloc (rawDestinations P b * ARISR_ADDRESS_SIZE) = false
    · simp only [hN, hm, if_true, rawClean_eq]
    · simp only [Bool.not_eq_false] at hm
      have hl := h hN hm
      have hm6 : E.malloc (rawDestinations P b * 6) = true := hm
      simp only [hN, if_true, ARISR_ADDRESS_SIZE, hm6, Bool.true_eq_false, if_false]
      rw [Nat.mul_comm (rawDestinations P b) 6, readBytes_slice hl]
      rfl
  · simp only [hN, if_false]

theorem recvDestinationsB_none {P : Interface} {E : Crypt} {data : List Nat}
    (b : ARISR_CHUNK_RAW) (p : Nat) (hN : rawDestinations P b > 0)
    (hm : E.malloc (rawDestinations P b * ARISR_ADDRESS_SIZE) = true)
    (h : data.length < p + 6 * rawDestinations P b) :
    recvDestinationsB P E data (b, p) = none := by
  unfold recvDestinationsB
  have hm6 : E.malloc (rawDestinations P b * 6) = true := hm
  simp only [hN, if_true, ARISR_ADDRESS_SIZE, hm6, Bool.true_eq_false, if_false]
  rw [Nat.mul_comm (rawDestinations P b) 6, readBytes_none h]
  rfl

theorem recvDestinationsB_ok {P : Interface} {E : Crypt} {data : List Nat}
    (b : ARISR_CHUNK_RAW) (p : Nat)
    (hm : rawDestinations P b > 0 → E.malloc (rawDestinations P b * ARISR_ADDRESS_SIZE) = true)
    (hl : p + 6 * rawDestinations P b ≤ data.length) :
    recvDestinationsB P E data (b, p) =
      some (Sum.inr ({ b with
          destinationsB :=
            if rawDestinations P b > 0 then some (slice data p (6 * rawDestinations P b))
            else b.destinationsB },
        p + 6 * rawDestinations P b)) := by
  rw [recvDestinationsB_eq b p (fun _ _ => hl)]
  by_cases hN : rawDestinations P b > 0
  · rw [if_pos hN, if_neg (by simp [hm hN]), if_pos hN]
  · rw [if_neg hN, if_neg hN]
    have h0 : rawDestinations P b = 0 := by omega
    simp [h0]

/-- Section "destinationC" of `ARISR_proto_recv` when its allocation succeeds. -/
theorem recvDestinationC_eq {P : Interface} {E : Crypt} {data : List Nat}
    (b : ARISR_CHUNK_RAW) (p : Nat) (hm : rawFrom P b ≠ 0 → E.malloc ARISR_ADDRESS_SIZE = true)
    (h : rawFrom P b ≠ 0 → p + 6 ≤ data.length) :
    recvDestinationC P E data (b, p) =
      some (Sum.inr
        ({ b with destinationC :=
            if rawFrom P b ≠ 0 then some (slice data p 6) else b.destinationC },
         p + (if rawFrom P b ≠ 0 then 6 else 0))) := by
  unfold recvDestinationC
  by_cases hf : rawFrom P b ≠ 0
  · have hm6 : E.malloc 6 = true := hm hf
    simp only [hf, ne_eq, not_false_eq_true, if_true, ARISR_ADDRESS_SIZE, hm6,
      Bool.true_eq_false, if_false]
    rw [readBytes_slice (h hf)]
    rfl
  · simp only [hf, ne_eq, if_false, Nat.add_zero]

theorem recvDestinationC_none {P : Interface} {E : Crypt} {data : List Nat}
    (b : ARISR_CHUNK_RAW) (p : Nat) (hf : rawFrom P b ≠ 0)
    (hm : E.malloc ARISR_ADDRESS_SIZE = true) (h : data.length < p + 6) :
    recvDestinationC P E data (b, p) = none := by
  unfold recvDestinationC
  have hm6 : E.malloc 6 = true := hm
  simp only [hf, ne_eq, not_false_eq_true, if_true, ARISR_ADDRESS_SIZE, hm6,
    Bool.true_eq_false, if_false]
  rw [readBytes_none h]
  rfl

/-- Section "ctrl2" of `ARISR_proto_recv` when its allocation succeeds. -/
theorem recvCtrl2_eq {P : Interface} {E : Crypt} {data : List Nat}
    (b : ARISR_CHUNK_RAW) (p : Nat)
    (hm : rawMoreHeaders P b ≠ 0 → E.malloc ARISR_CTRL2_SECTION_SIZE = true)
    (h : rawMoreHeaders P b ≠ 0 → p + 4 ≤ data.length) :
    recvCtrl2 P E data (b, p) =
      some (Sum.inr
        ({ b with ctrl2 := if rawMoreHeaders P b ≠ 0 then some (slice data p 4) else none },
         p + (if rawMoreHeaders P b ≠ 0 then 4 else 0))) := by
  unfold recvCtrl2
  by_cases hf : rawMoreHeaders P b ≠ 0
  · have hm4 : E.malloc 4 = true := hm hf
    simp only [hf, ne_eq, not_false_eq_true, if_true, ARISR_CTRL2_SECTION_SIZE, hm4,
      Bool.true_eq_false, if_false]
    rw [readBytes_slice (h hf)]
    rfl
  · simp only [hf, ne_eq, if_false, Nat.add_zero]

theorem recvCtrl2_none {P : Interface} {E : Crypt} {data : List Nat}
    (b : ARISR_CHUNK_RAW) (p : Nat) (hf : rawMoreHeaders P b ≠ 0)
    (hm : E.malloc ARISR_CTRL2_SECTION_SIZE = true) (h : data.length < p + 4) :
    recvCtrl2 P E data (b, p) = none := by
  unfold recvCtrl2
  have hm4 : E.malloc 4 = true := hm
  simp only [hf, ne_eq, not_false_eq_true, if_true, ARISR_CTRL2_SECTION_SIZE, hm4,
    Bool.true_eq_false, if_false]
  rw [readBytes_none h]
  rfl

/-- Section "crc_header" of `ARISR_proto_recv`. -/
theorem recvCrcHeader_eq {E : Crypt} {data : List Nat} (b : ARISR_CHUNK_RAW) (p : Nat)
    (h : p + 2 ≤ data.length) :
    recvCrcHeader E data (b, p) =
      if E.ARISR_crypt_crc16_calculate (data.take p) % 65536 ≠ crcValue (slice data p 2) then
        some (Sum.inl (kARISR_ERR_NOT_SAME_CRC_HEADER, zeroRaw))
      else some (Sum.inr ({ b with crc_header := slice data p 2 }, p + 2)) := by
  unfold recvCrcHeader
  simp only [ARISR_CRC_SIZE]
  rw [readBytes_slice h, readBytes_slice (show 0 + p ≤ data.length by omega), slice_zero]
  simp only [Option.some_bind, rawClean_eq]

theorem recvCrcHeader_none {E : Crypt} {data : List Nat} (b : ARISR_CHUNK_RAW) (p : Nat)
    (h : data.length < p + 2) : recvCrcHeader E data (b, p) = none := by
  unfold recvCrcHeader
  simp only [ARISR_CRC_SIZE]
  rw [readBytes_none h]
  rfl

/-- The sections "destinationsB", "destinationC" and "ctrl2" of
`ARISR_proto_recv` on an input that holds the whole header. -/
theorem recv_tail_eq {P : Interface} {E : Crypt} {data : List Nat} (b : ARISR_CHUNK_RAW)
    (hm : rawDestinations P b > 0 → E.malloc (rawDestinations P b * ARISR_ADDRESS_SIZE) = true)
    (hC : rawFrom P b ≠ 0 → E.malloc ARISR_ADDRESS_SIZE = true)
    (h2 : rawMoreHeaders P b ≠ 0 → E.malloc ARISR_CTRL2_SECTION_SIZE = true)
    (hl : 24 + 6 * rawDestinations P b + (if rawFrom P b ≠ 0 then 6 else 0) +
      (if rawMoreHeaders P b ≠ 0 then 4 else 0) ≤ data.length) :
    ((recvDestinationsB P E data (b, 24)).next (recvDestinationC P E data)).next
        (recvCtrl2 P E data) =
      some (Sum.inr ({ b with
          destinationsB :=
            if rawDestinations P b > 0 then some (slice data 24 (6 * rawDestinations P b))
            else b.destinationsB
          destinationC :=
            if rawFrom P b ≠ 0 then some (slice data (24 + 6 * rawDestinations P b) 6)
            else b.destinationC
          ctrl2 :=
            if rawMoreHeaders P b ≠ 0 then
              some (slice data
                (24 + 6 * rawDestinations P b + (if rawFrom P b ≠ 0 then 6 else 0)) 4)
            else none },
        24 + 6 * rawDestinations P b + (if rawFrom P b ≠ 0 then 6 else 0) +
          (if rawMoreHeaders P b ≠ 0 then 4 else 0))) := by
  rw [recvDestinationsB_ok b 24 hm (by omega), rnext_inr, recvDestinationC_eq, rnext_inr,
    recvCtrl2_eq]
  · rfl
  · exact h2
  · intro hf
    have hf2 : rawMoreHeaders P b ≠ 0 := hf
    rw [if_pos hf2] at hl
    exact hl
  · exact hC
  · intro hf
    have hf2 : rawFrom P b ≠ 0 := hf
    rw [if_pos hf2] at hl
    show 24 + 6 * rawDestinations P b + 6 ≤ data.length
    omega

/-- The same sections followed by "crc_header" on an input that ends before the
stored header CRC. -/
theorem recv_tail_none {P : Interface} {E : Crypt} {data : List Nat} (b : ARISR_CHUNK_RAW)
    (h24 : 24 ≤ data.length)
    (hm : rawDestinations P b > 0 → E.malloc (rawDestinations P b * ARISR_ADDRESS_SIZE) = true)
    (hC : rawFrom P b ≠ 0 → E.malloc ARISR_ADDRESS_SIZE = true)
    (h2 : rawMoreHeaders P b ≠ 0 → E.malloc ARISR_CTRL2_SECTION_SIZE = true)
    (hl : data.length < 24 + 6 * rawDestinations P b + (if rawFrom P b ≠ 0 then 6 else 0) +
      (if rawMoreHeaders P b ≠ 0 then 4 else 0) + 2) :
    (((recvDestinationsB P E data (b, 24)).next (recvDestinationC P E data)).next
        (recvCtrl2 P E data)).next (recvCrcHeader E data) = none := by
  by_cases hall : 24 + 6 * rawDestinations P b + (if rawFrom P b ≠ 0 then 6 else 0) +
      (if rawMoreHeaders P b ≠ 0 then 4 else 0) ≤ data.length
  · rw [recv_tail_eq b hm hC h2 hall, rnext_inr, recvCrcHeader_none _ _ hl]
  · by_cases hB : 24 + 6 * rawDestinations P b ≤ data.length
    · rw [recvDestinationsB_ok b 24 hm hB, rnext_inr]
      by_cases hCn : rawFrom P b ≠ 0 ∧ data.length < 24 + 6 * rawDestinations P b + 6
      · rw [recvDestinationC_none]
        · rfl
        · exact hCn.1
        · exact hC hCn.1
        · exact hCn.2
      · have hCl : rawFrom P b ≠ 0 → 24 + 6 * rawDestinations P b + 6 ≤ data.length := by
          intro hf
          by_contra hx
          exact hCn ⟨hf, by omega⟩
        have hmh : rawMoreHeaders P b ≠ 0 := by
          intro h0
          rw [if_neg (not_not.mpr h0)] at hall
          by_cases hf : rawFrom P b ≠ 0
          · rw [if_pos hf] at hall
            have := hCl hf
            omega
          · rw [if_neg hf] at hall
            omega
        rw [recvDestinationC_eq, rnext_inr, recvCtrl2_none]
        · rfl
        · exact hmh
        · exact h2 hmh
        · show data.length < 24 + 6 * rawDestinations P b +
            (if rawFrom P b ≠ 0 then 6 else 0) + 4
          rw [if_pos hmh] at hall
          omega
        · exact hC
        · exact hCl
    · have hN : rawDestinations P b > 0 := by omega
      rw [recvDestinationsB_none b 24 hN (hm hN) (by omega)]
      rfl

/-- The sections of `ARISR_proto_recv` up to "ctrl2" on an input that holds the
whole header. -/
theorem recvHeader_ok {P : Interface} {E : Crypt} {data key id : List Nat}
    (h4 : 4 ≤ id.length) (hid : slice data 0 4 = slice id 0 4)
    (har : (E.ARISR_aes_aris_decrypt key (slice data 4 4)).1 = kARISR_OK)
    (hm : (inCtrl P data).destinations > 0 →
      E.malloc ((inCtrl P data).destinations * ARISR_ADDRESS_SIZE) = true)
    (hA : RecvAllocs P E data) (hl : inHeaderEnd P data ≤ data.length) :
    (((((recvIdAris E data key id (zeroRaw, 0)).next (recvCtrl data)).next
        (recvAddresses data)).next (recvDestinationsB P E data)).next
        (recvDestinationC P E data)).next (recvCtrl2 P E data) =
      some (Sum.inr (inRawHeader P E data key, inHeaderEnd P data)) := by
  have h24 : 24 ≤ data.length := by unfold inHeaderEnd at hl; omega
  rw [recv_upto_addresses h4 h24 hid har, rnext_inr]
  exact recv_tail_eq _ hm hA.destinationC hA.ctrl2 hl

theorem recvHeader_none {P : Interface} {E : Crypt} {data key id : List Nat}
    (h4 : 4 ≤ id.length) (h24 : 24 ≤ data.length) (hid : slice data 0 4 = slice id 0 4)
    (har : (E.ARISR_aes_aris_decrypt key (slice data 4 4)).1 = kARISR_OK)
    (hm : (inCtrl P data).destinations > 0 →
      E.malloc ((inCtrl P data).destinations * ARISR_ADDRESS_SIZE) = true)
    (hA : RecvAllocs P E data) (hl : data.length < inHeaderEnd P data + 2) :
    ((((((recvIdAris E data key id (zeroRaw, 0)).next (recvCtrl data)).next
        (recvAddresses data)).next (recvDestinationsB P E data)).next
        (recvDestinationC P E data)).next (recvCtrl2 P E data)).next
        (recvCrcHeader E data) = none := by
  rw [recv_upto_addresses h4 h24 hid har, rnext_inr]
  exact recv_tail_none _ h24 hm hA.destinationC hA.ctrl2 hl

theorem recvDestinationsB_fail {P : Interface} {E : Crypt} {data : List Nat}
    (b : ARISR_CHUNK_RAW) (p : Nat) (hN : rawDestinations P b > 0)
    (hm : E.malloc (rawDestinations P b * ARISR_ADDRESS_SIZE) = false) :
    recvDestinationsB P E data (b, p) = some (Sum.inl (kARISR_ERR_GENERIC, zeroRaw)) := by
  unfold recvDestinationsB
  rw [if_pos hN, if_pos hm]
  rfl

theorem recvHeader_malloc {P : Interface} {E : Crypt} {data key id : List Nat}
    (h4 : 4 ≤ id.length) (h24 : 24 ≤ data.length) (hid : slice data 0 4 = slice id 0 4)
    (har : (E.ARISR_aes_aris_decrypt key (slice data 4 4)).1 = kARISR_OK)
    (hN : (inCtrl P data).destinations > 0)
    (hm : E.malloc ((inCtrl P data).destinations * ARISR_ADDRESS_SIZE) = false) :
    (((recvIdAris E data key id (zeroRaw, 0)).next (recvCtrl data)).next
        (recvAddresses data)).next (recvDestinationsB P E data) =
      some (Sum.inl (kARISR_ERR_GENERIC, zeroRaw)) := by
  rw [recv_upto_addresses h4 h24 hid har, rnext_inr]
  exact recvDestinationsB_fail _ _ hN hm

theorem rawDataLength_in {P : Interface} {E : Crypt} {data key : List Nat} (c : List Nat)
    (hmh : (inCtrl P data).more_header ≠ 0) :
    rawDataLength P { inRawHeader P E data key with crc_header := c } = recvLen P data := by
  unfold rawDataLength recvLen
  rw [if_pos hmh]
  simp only [inRawHeader, if_pos hmh]

theorem recvLen_of_not {P : Interface} {data : List Nat}
    (hmh : ¬ (inCtrl P data).more_header ≠ 0) : recvLen P data = 0 := by
  unfold recvLen
  rw [if_neg hmh]

/-- Section "data" of `ARISR_proto_recv` on the raw frame the header sections
leave behind. -/
theorem recvData_in {P : Interface} {E : Crypt} {data key : List Nat}
    (hA : RecvAllocs P E data)
    (hl : recvHasData P data → inHeaderEnd P data + 2 + recvLen P data + 2 ≤ data.length) :
    recvData P E data
        ({ inRawHeader P E data key with crc_header := slice data (inHeaderEnd P data) 2 },
          inHeaderEnd P data + 2) =
      if recvHasData P data then
        if E.ARISR_crypt_crc16_calculate
              (slice data (inHeaderEnd P data + 2) (recvLen P data)) % 65536 ≠
            crcValue (slice data (inHeaderEnd P data + 2 + recvLen P data) 2) then
          some (Sum.inl (kARISR_ERR_NOT_SAME_CRC_DATA, zeroRaw))
        else
          some (Sum.inr ({ inRawHeader P E data key with
              crc_header := slice data (inHeaderEnd P data) 2
              data := some (slice data (inHeaderEnd P data + 2) (recvLen P data))
              crc_data := slice data (inHeaderEnd P data + 2 + recvLen P data) 2 },
            inHeaderEnd P data + 2 + recvLen P data + 2))
      else
        some (Sum.inr
          ({ inRawHeader P E data key with crc_header := slice data (inHeaderEnd P data) 2 },
            inHeaderEnd P data + 2)) := by
  unfold recvData
  by_cases hmh : (inCtrl P data).more_header ≠ 0
  · have hc : rawMoreHeaders P
          { inRawHeader P E data key with crc_header := slice data (inHeaderEnd P data) 2 } ≠ 0 ∧
        ({ inRawHeader P E data key with
          crc_header := slice data (inHeaderEnd P data) 2 } : ARISR_CHUNK_RAW).ctrl2 ≠ none := by
      refine ⟨hmh, ?_⟩
      simp only [inRawHeader, if_pos hmh]
      exact Option.some_ne_none _
    rw [if_pos hc]
    simp only [rawDataLength_in _ hmh]
    by_cases hd : recvLen P data > 0
    · have hh : recvHasData P data := ⟨hmh, hd⟩
      have hlen := hl hh
      rw [if_pos hd, if_pos hh, if_neg (by simp [hA.data hh])]
      simp only [ARISR_CRC_SIZE]
      rw [readBytes_slice (show inHeaderEnd P data + 2 + recvLen P data ≤ data.length by omega),
        readBytes_slice hlen]
      simp only [Option.some_bind, rawClean_eq]
    · have hh : ¬ recvHasData P data := fun hx => hd hx.2
      rw [if_neg hd, if_neg hh]
  · have hc : ¬ (rawMoreHeaders P
          { inRawHeader P E data key with crc_header := slice data (inHeaderEnd P data) 2 } ≠ 0 ∧
        ({ inRawHeader P E data key with
          crc_header := slice data (inHeaderEnd P data) 2 } : ARISR_CHUNK_RAW).ctrl2 ≠ none) :=
      fun hx => hmh hx.1
    have hh : ¬ recvHasData P data := fun hx => hmh hx.1
    rw [if_neg hc, if_neg hh]

theorem recvData_in_none {P : Interface} {E : Crypt} {data key : List Nat}
    (hA : RecvAllocs P E data) (hh : recvHasData P data)
    (hl : data.length < inHeaderEnd P data + 2 + recvLen P data + 2) :
    recvData P E data
        ({ inRawHeader P E data key with crc_header := slice data (inHeaderEnd P data) 2 },
          inHeaderEnd P data + 2) = none := by
  unfold recvData
  have hmh := hh.1
  have hc : rawMoreHeaders P
        { inRawHeader P E data key with crc_header := slice data (inHeaderEnd P data) 2 } ≠ 0 ∧
      ({ inRawHeader P E data key with
        crc_header := slice data (inHeaderEnd P data) 2 } : ARISR_CHUNK_RAW).ctrl2 ≠ none := by
    refine ⟨hmh, ?_⟩
    simp only [inRawHeader, if_pos hmh]
    exact Option.some_ne_none _
  rw [if_pos hc]
  simp only [rawDataLength_in _ hmh]
  rw [if_pos hh.2, if_neg (by simp [hA.data hh])]
  simp only [ARISR_CRC_SIZE]
  by_cases h1 : inHeaderEnd P data + 2 + recvLen P data ≤ data.length
  · rw [readBytes_slice h1, readBytes_none hl]
    rfl
  · rw [readBytes_none (by omega)]
    rfl

theorem recvEnd_eq {data id : List Nat} (b : ARISR_CHUNK_RAW) (p : Nat)
    (h : p + 4 ≤ data.length) (h4 : 4 ≤ id.length) :
    recvEnd data id (b, p) =
      if slice data p 4 ≠ slice id 0 4 then some (kARISR_ERR_NOT_SAME_END, zeroRaw)
      else some (kARISR_OK, { b with end_ := slice data p 4 }) := by
  unfold recvEnd
  simp only [ARISR_PROTO_ID_SIZE]
  rw [readBytes_slice h, readBytes_slice (show 0 + 4 ≤ id.length by omega)]
  simp only [Option.some_bind, rawClean_eq]

theorem recvEnd_none {data id : List Nat} (b : ARISR_CHUNK_RAW) (p : Nat)
    (h : data.length < p + 4) : recvEnd data id (b, p) = none := by
  unfold recvEnd
  simp only [ARISR_PROTO_ID_SIZE]
  rw [readBytes_none h]
  rfl

theorem recvEnd_trace {P : Interface} {E : Crypt} {data key id : List Nat}
    (h4 : 4 ≤ id.length) (b : ARISR_CHUNK_RAW)
    (hb : { b with end_ := slice data (recvEndPos P data) 4 } = inRaw P E data key) :
    recvEnd data id (b, recvEndPos P data) = recvTraceEnd P E data key id := by
  unfold recvTraceEnd
  by_cases hl : data.length < recvEndPos P data + 4
  · rw [if_pos hl, recvEnd_none _ _ hl]
  · rw [if_neg hl, recvEnd_eq _ _ (by omega) h4, hb]

/-- When its additional allocations succeed, `ARISR_proto_recv` makes the checks
of `recvTrace`, in that order. -/
theorem recvBody_eq_trace {P : Interface} {E : Crypt} {data : List Nat} (key id : List Nat)
    (hA : RecvAllocs P E data) : recvBody P E data key id = recvTrace P E data key id := by
  unfold recvTrace recvBody
  by_cases hlen : data.length < 8 ∨ id.length < 4
  · rw [if_pos hlen, recvIdAris_none _ hlen]
    rfl
  rw [if_neg hlen]
  have h8 : 8 ≤ data.length := by omega
  have h4 : 4 ≤ id.length := by omega
  by_cases hid : slice data 0 4 ≠ slice id 0 4
  · rw [if_pos hid, recvIdAris_eq h8 h4, if_pos hid]
    rfl
  rw [if_neg hid]
  by_cases har : (E.ARISR_aes_aris_decrypt key (slice data 4 4)).1 ≠ kARISR_OK
  · rw [if_pos har, recvIdAris_eq h8 h4, if_neg hid, if_pos har]
    rfl
  rw [if_neg har]
  have hid2 := not_not.mp hid
  have har2 := not_not.mp har
  by_cases h24 : data.length < 24
  · rw [if_pos h24, recvIdAris_eq h8 h4, if_neg hid, if_neg har, rnext_inr]
    by_cases h12 : data.length < 12
    · rw [recvCtrl_none _ _ (by omega)]
      rfl
    · rw [recvCtrl_eq _ _ (by omega), rnext_inr, recvAddresses_none _ _ (by omega)]
      rfl
  rw [if_neg h24]
  have h24' : 24 ≤ data.length := by omega
  by_cases hmal : (inCtrl P data).destinations > 0 ∧
      E.malloc ((inCtrl P data).destinations * ARISR_ADDRESS_SIZE) = false
  · rw [if_pos hmal, recvHeader_malloc h4 h24' hid2 har2 hmal.1 hmal.2]
    rfl
  rw [if_neg hmal]
  have hm : (inCtrl P data).destinations > 0 →
      E.malloc ((inCtrl P data).destinations * ARISR_ADDRESS_SIZE) = true := by
    intro hN
    by_contra hx
    exact hmal ⟨hN, by simpa using hx⟩
  by_cases hh : data.length < inHeaderEnd P data + 2
  · rw [if_pos hh, recvHeader_none h4 h24' hid2 har2 hm hA hh]
    rfl
  rw [if_neg hh, recvHeader_ok h4 hid2 har2 hm hA (by omega), rnext_inr,
    recvCrcHeader_eq _ _ (by omega)]
  by_cases hcrc : E.ARISR_crypt_crc16_calculate (data.take (inHeaderEnd P data)) % 65536 ≠
      crcValue (slice data (inHeaderEnd P data) 2)
  · rw [if_pos hcrc, if_pos hcrc]
    rfl
  rw [if_neg hcrc, if_neg hcrc, rnext_inr]
  by_cases hd : recvHasData P data
  · rw [if_pos hd]
    by_cases hdl : data.length < inHeaderEnd P data + 2 + recvLen P data + 2
    · rw [if_pos hdl, recvData_in_none hA hd hdl]
      rfl
    rw [if_neg hdl, recvData_in hA (fun _ => by omega), if_pos hd]
    by_cases hcd : E.ARISR_crypt_crc16_calculate
          (slice data (inHeaderEnd P data + 2) (recvLen P data)) % 65536 ≠
        crcValue (slice data (inHeaderEnd P data + 2 + recvLen P data) 2)
    · rw [if_pos hcd, if_pos hcd]
      rfl
    rw [if_neg hcd, if_neg hcd]
    have hp : inHeaderEnd P data + 2 + recvLen P data + 2 = recvEndPos P data := by
      unfold recvEndPos
      rw [if_pos hd]
      omega
    simp only [Option.some_bind]
    rw [hp]
    apply recvEnd_trace h4
    unfold inRaw
    rw [if_pos hd]
  · rw [if_neg hd, recvData_in hA (fun hx => absurd hx hd), if_neg hd]
    have hp : inHeaderEnd P data + 2 = recvEndPos P data := by
      unfold recvEndPos
      rw [if_neg hd]
    simp only [Option.some_bind]
    rw [hp]
    apply recvEnd_trace h4
    unfold inRaw
    rw [if_neg hd]

theorem recv_eq_trace {P : Interface} {E : Crypt} (prior : ARISR_CHUNK_RAW)
    {data : List Nat} (key id : List Nat) (hA : RecvAllocs P E data) :
    ARISR_proto_recv P E (some prior) (some data) key id =
      (recvTrace P E data key id).map fun r => (r.1, some r.2) := by
  simp only [ARISR_proto_recv, recvBody_eq_trace key id hA]

theorem recvAllocs_sample (data : List Nat) : RecvAllocs sampleInterface sampleCrypt data :=
  ⟨fun _ => rfl, fun _ => rfl, fun _ => rfl⟩

theorem memcpy_at {pre rest s : List Nat} {p : Nat} (hp : pre.length = p)
    (h : s.length ≤ rest.length) :
    memcpy (pre ++ rest) p s = some ((pre ++ s) ++ rest.drop s.length) := by
  unfold memcpy
  rw [if_pos (by simp; omega)]
  congr 1
  rw [List.take_left' hp, List.drop_append_eq_append_drop]
  have : p + s.length - pre.length = s.length := by omega
  rw [List.drop_eq_nil_of_le (by omega), this]
  simp

theorem readPtr_section {p : Option (List Nat)} {n : Nat}
    (h : ∃ l, p = some l ∧ n ≤ l.length) :
    readPtr p n = some (rawSection p n) ∧ (rawSection p n).length = n := by
  obtain ⟨l, rfl, hl⟩ := h
  refine ⟨readPtr_some hl, ?_⟩
  simp [rawSection]
  omega

/-- One optional section of the emission of `ARISR_proto_send`. -/
theorem optional_at {c : Prop} [Decidable c] {pre rest : List Nat} {p k : Nat}
    (src : Option (List Nat)) (hp : pre.length = p)
    (hsrc : c → ∃ l, src = some l ∧ k ≤ l.length)
    (h : (if c then k else 0) ≤ rest.length) :
    (if c then
        (readPtr src k).bind fun s =>
        (memcpy (pre ++ rest) p s).map fun buffer => (buffer, p + k)
      else some (pre ++ rest, p)) =
      some ((pre ++ (if c then rawSection src k else [])) ++
        rest.drop (if c then k else 0), p + (if c then k else 0)) := by
  by_cases hc : c
  · obtain ⟨e, l⟩ := readPtr_section (hsrc hc)
    rw [if_pos hc] at h
    simp only [if_pos hc, e, Option.some_bind]
    rw [memcpy_at hp (by omega), l]
    rfl
  · simp only [if_neg hc, List.append_nil, List.drop_zero, Nat.add_zero]

theorem rawSection_length {p : Option (List Nat)} {n : Nat}
    (h : ∃ l, p = some l ∧ n ≤ l.length) : (rawSection p n).length = n :=
  (readPtr_section h).2

theorem rawWireHeader_length {P : Interface} {R : ARISR_CHUNK_RAW} (wf : WfRaw R)
    (hr : SendReadable P R) :
    (rawWireHeader P R).length =
      24 + (if rawDestinations P R > 0 then ARISR_ADDRESS_SIZE * rawDestinations P R else 0) +
        (if rawFrom P R ≠ 0 then ARISR_ADDRESS_SIZE else 0) +
        (if rawMoreHeaders P R ≠ 0 then ARISR_CTRL2_SECTION_SIZE else 0) := by
  unfold rawWireHeader
  simp only [List.length_append, wf.id_len, wf.aris_len, wf.ctrl_len, wf.origin_len,
    wf.destinationA_len]
  congr 1
  · congr 1
    · congr 1
      by_cases h : rawDestinations P R > 0
      · rw [if_pos h, if_pos h, rawSection_length (hr.destinationsB h)]
      · rw [if_neg h, if_neg h]; rfl
    · by_cases h : rawFrom P R ≠ 0
      · rw [if_pos h, if_pos h, rawSection_length (hr.destinationC h)]
      · rw [if_neg h, if_neg h]; rfl
  · by_cases h : rawMoreHeaders P R ≠ 0
    · rw [if_pos h, if_pos h, rawSection_length (hr.ctrl2 h)]
    · rw [if_neg h, if_neg h]; rfl

theorem rawWireData_length {P : Interface} {E : Crypt} {R : ARISR_CHUNK_RAW}
    (hr : SendReadable P R) :
    (rawWireData P E R).length =
      if rawMoreHeaders P R ≠ 0 ∧ rawDataLength P R > 0 then rawDataLength P R + 2 else 0 := by
  unfold rawWireData
  by_cases h : rawMoreHeaders P R ≠ 0 ∧ rawDataLength P R > 0
  · rw [if_pos h, if_pos h, List.length_append, rawSection_length (hr.data h), crcBytes_length]
  · rw [if_neg h, if_neg h]; rfl

/-- The length of the output of `ARISR_proto_send` is the size the function
computes before the allocation. -/
theorem rawWire_length {P : Interface} {E : Crypt} {R : ARISR_CHUNK_RAW} (wf : WfRaw R)
    (hr : SendReadable P R) : (rawWire P E R).length = sendSize P R := by
  have hL : rawDataLength P R < 256 := Nat.mod_lt _ (by norm_num)
  have hN : rawDestinations P R < 256 := by
    unfold rawDestinations ARISR_proto_ctrl_getField
    exact Nat.mod_lt _ (by norm_num)
  unfold rawWire sendSize
  simp only [List.length_append, rawWireHeader_length wf hr, rawWireData_length hr,
    crcBytes_length, wf.end_len, ARISR_PROTO_ID_SIZE, ARISR_PROTO_ARIS_SIZE,
    ARISR_CTRL_SECTION_SIZE, ARISR_CTRL2_SECTION_SIZE, ARISR_ADDRESS_SIZE, ARISR_CRC_SIZE]
  rw [Nat.mod_eq_of_lt]
  · split_ifs <;> omega
  · split_ifs <;> omega

/-- The payload step of the emission of `ARISR_proto_send`. -/
theorem sendData_at {P : Interface} {E : Crypt} {R : ARISR_CHUNK_RAW} {pre rest : List Nat}
    {p : Nat} (hr : SendReadable P R) (hp : pre.length = p)
    (h : (rawWireData P E R).length ≤ rest.length) :
    (if rawMoreHeaders P R ≠ 0 ∧ rawDataLength P R > 0 then
        (readPtr R.data (rawDataLength P R)).bind fun src =>
        (memcpy (pre ++ rest) p src).bind fun buffer =>
        let p := p + rawDataLength P R
        let crc := E.ARISR_crypt_crc16_calculate src
        (memcpy buffer p (crcBytes crc)).map fun buffer => (buffer, p + 2)
      else some (pre ++ rest, p)) =
      some ((pre ++ rawWireData P E R) ++ rest.drop (rawWireData P E R).length,
        p + (rawWireData P E R).length) := by
  rw [rawWireData_length hr] at h ⊢
  unfold rawWireData
  by_cases hc : rawMoreHeaders P R ≠ 0 ∧ rawDataLength P R > 0
  · obtain ⟨e, l⟩ := readPtr_section (hr.data hc)
    rw [if_pos hc] at h
    simp only [if_pos hc, e, Option.some_bind]
    rw [memcpy_at hp (by omega)]
    simp only [Option.some_bind]
    rw [memcpy_at (by simp [hp, l]) (by simp [crcBytes_length, l]; omega)]
    simp only [Option.map_some', l, crcBytes_length, List.drop_drop, List.append_assoc]
    rw [Nat.add_assoc]
  · simp only [if_neg hc, List.append_nil, List.drop_zero, Nat.add_zero]

/-- The emission phase of `ARISR_proto_send` on a buffer of exactly the size of
the output: every byte is written, whatever the buffer held. -/
theorem sendEmit_eval {P : Interface} {E : Crypt} {R : ARISR_CHUNK_RAW} (wf : WfRaw R)
    (hr : SendReadable P R) (size : Nat) (b0 : List Nat)
    (hlen : b0.length = (rawWire P E R).length) :
    sendEmit P E R size b0 = some ⟨kARISR_OK, some (rawWire P E R), some size⟩ := by
  have hH := rawWireHeader_length wf hr
  have hT : (rawWire P E R).length =
      (rawWireHeader P R).length + 2 + (rawWireData P E R).length + 4 := by
    unfold rawWire
    simp only [List.length_append, crcBytes_length, wf.end_len]
  have h24 : (R.id ++ R.aris ++ R.ctrl ++ R.origin ++ R.destinationA).length = 24 := by
    simp [wf.id_len, wf.aris_len, wf.ctrl_len, wf.origin_len, wf.destinationA_len]
  unfold sendEmit
  have e0 : b0 = [] ++ b0 := rfl
  rw [e0, memcpy_at (show ([] : List Nat).length = 0 from rfl) (by rw [h24]; omega)]
  simp only [Option.some_bind, List.nil_append, h24]
  rw [optional_at R.destinationsB
    (show (R.id ++ R.aris ++ R.ctrl ++ R.origin ++ R.destinationA).length =
      ARISR_PROTO_CRYPT_SIZE + ARISR_CTRL_SECTION_SIZE + ARISR_ADDRESS_SIZE * 2 from h24)
    hr.destinationsB (by simp only [List.length_drop]; split_ifs at hH ⊢ <;> omega)]
  simp only [Option.some_bind]
  rw [optional_at R.destinationC
    (by
      simp only [List.length_append, h24, ARISR_PROTO_CRYPT_SIZE, ARISR_CTRL_SECTION_SIZE,
        ARISR_ADDRESS_SIZE]
      by_cases h : rawDestinations P R > 0
      · rw [if_pos h, if_pos h,
          rawSection_length (by simpa [ARISR_ADDRESS_SIZE] using hr.destinationsB h)]
      · rw [if_neg h, if_neg h]; rfl)
    hr.destinationC
    (by simp only [List.length_drop]; split_ifs at hH ⊢ <;> omega)]
  simp only [Option.some_bind]
  rw [optional_at R.ctrl2
    (by
      have := rawWireHeader_length wf
        { hr with ctrl2 := hr.ctrl2 }
      simp only [List.length_append, h24, ARISR_PROTO_CRYPT_SIZE, ARISR_CTRL_SECTION_SIZE,
        ARISR_ADDRESS_SIZE]
      congr 1
      · by_cases h : rawDestinations P R > 0
        · rw [if_pos h, if_pos h,
            rawSection_length (by simpa [ARISR_ADDRESS_SIZE] using hr.destinationsB h)]
        · rw [if_neg h, if_neg h]; rfl
      · by_cases h : rawFrom P R ≠ 0
        · rw [if_pos h, if_pos h,
            rawSection_length (by simpa [ARISR_ADDRESS_SIZE] using hr.destinationC h)]
        · rw [if_neg h, if_neg h]; rfl)
    hr.ctrl2
    (by simp only [List.length_drop]; split_ifs at hH ⊢ <;> omega)]
  simp only [Option.some_bind]
  rw [← rawWireHeader.eq_1 P R]
  have hD := @rawWireData_length P E R hr
  have hp : (rawWireHeader P R).length =
      ARISR_PROTO_CRYPT_SIZE + ARISR_CTRL_SECTION_SIZE + ARISR_ADDRESS_SIZE * 2 +
        (if rawDestinations P R > 0 then ARISR_ADDRESS_SIZE * rawDestinations P R else 0) +
        (if rawFrom P R ≠ 0 then ARISR_ADDRESS_SIZE else 0) +
        (if rawMoreHeaders P R ≠ 0 then ARISR_CTRL2_SECTION_SIZE else 0) := by
    rw [hH]; rfl
  rw [List.take_left' hp, memcpy_at hp
    (by simp only [crcBytes_length, List.length_drop]; split_ifs at hH ⊢ <;> omega)]
  simp only [Option.some_bind]
  rw [sendData_at hr (by rw [List.length_append, crcBytes_length, hp])
    (by simp only [crcBytes_length, List.length_drop]; split_ifs at hH ⊢ <;> omega)]
  simp only [Option.some_bind]
  rw [memcpy_at (by simp only [List.length_append, crcBytes_length, hp])
    (by simp only [crcBytes_length, List.length_drop, wf.end_len]; split_ifs at hH ⊢ <;> omega)]
  simp only [Option.some_bind, Option.some.injEq, BuildResult.mk.injEq, true_and, and_true]
  rw [List.drop_eq_nil_of_le
    (by simp only [crcBytes_length, List.length_drop, wf.end_len]; split_ifs at hH ⊢ <;> omega)]
  rw [List.append_nil]
  rfl

/-- Forward evaluation of `ARISR_proto_send`: on a raw frame whose sections are
readable, with the allocation succeeding, the function returns `kARISR_OK` with
the bytes `rawWire`, whatever the allocated buffer held. -/
theorem send_eval {P : Interface} {E : Crypt} {R : ARISR_CHUNK_RAW} (wf : WfRaw R)
    (hr : SendReadable P R) (fresh : List Nat) (hm : E.malloc (sendSize P R) = true) :
    ARISR_proto_send P E (some R) fresh =
      some ⟨kARISR_OK, some (rawWire P E R), some (rawWire P E R).length⟩ := by
  simp only [ARISR_proto_send]
  rw [if_neg (by simp [hm]), sendEmit_eval wf hr _ _ (by rw [arr_length, rawWire_length wf hr]),
    rawWire_length wf hr]

theorem be32_setLocal (c : List Nat) (v s : Nat) :
    be32 (setLocal c v s) = orField (be32 c) v s := by
  rw [setLocal_any, be32_be32Bytes, Nat.mod_eq_of_lt (orField_lt _ _ (be32_lt c))]

theorem testBit_winMask (s w i : Nat) :
    (winMask s w).testBit i = (decide (s ≤ i) && decide (i - s < w)) := by
  unfold winMask
  rw [Nat.testBit_shiftLeft, Nat.testBit_two_pow_sub_one]

/-- Bit `k` of the value `ARISR_proto_ctrl_getField` extracts with the mask of a
window of at most eight bits inside the word is bit `s + k` of the word, for
`k` below the width. -/
theorem getField_window_testBit (c : List Nat) {s w : Nat} (k : Nat) (hw : w ≤ 8)
    (hsw : s + w ≤ 32) :
    (ARISR_proto_ctrl_getField (some c) (winMask s w) s).testBit k =
      (decide (k < w) && (be32 c).testBit (s + k)) := by
  simp only [ARISR_proto_ctrl_getField]
  rw [Nat.mod_eq_of_lt (by omega : s < 256), testBit_window, testBit_winMask]
  by_cases hk : k < w
  · have h8 : k < 8 := by omega
    have h32 : s + k < 32 := by omega
    simp [hk, h8, h32]
  · simp [hk]

/-- Claim C31: field-width frame property of `ARISR_proto_ctrl_setField`.  For a
control word `c`, a field of width `w <= 8` at shift `s` with `s + w <= 32` and
mask `(2^w - 1) << s`, and an 8-bit value `v`, the call returns `kARISR_OK` with
a word `r` such that: every bit `i` of `r` is the bit of `c` ORed with bit
`i - s` of `v` when `s <= i < 32`, and `r` is a 32-bit word (bits shifted past
bit 31 are dropped); the bits below the shift are unchanged; when `v < 2^w`,
every bit outside the mask is unchanged; when the field of `c` was zero,
`ARISR_proto_ctrl_getField` on `r` returns `v mod 2^w`, which is `v` when
`v < 2^w`; every set bit `k >= w` of `v` with `s + k < 32` is set in `r` at
position `s + k`, above the field.  A neighbouring field can be changed: on a
zeroed word, the value 2 set in a one-bit field at shift 0 reads back as 0 there
and as 1 from the seven-bit field at shift 1. -/
theorem C31_setField_field_width (c : List Nat) (v s w : Nat) (hw : w ≤ 8)
    (hsw : s + w ≤ 32) (hv : v < 256) :
    (∃ r, ARISR_proto_ctrl_setField (some c) v s = (kARISR_OK, some r) ∧
      be32 r < 2 ^ 32 ∧
      (∀ i, (be32 r).testBit i =
        ((be32 c).testBit i || (decide (i < 32) && (decide (s ≤ i) && v.testBit (i - s))))) ∧
      (∀ i, i < s → (be32 r).testBit i = (be32 c).testBit i) ∧
      (v < 2 ^ w → ∀ i, (winMask s w).testBit i = false →
        (be32 r).testBit i = (be32 c).testBit i) ∧
      (ARISR_proto_ctrl_getField (some c) (winMask s w) s = 0 →
        ARISR_proto_ctrl_getField (some r) (winMask s w) s = v % 2 ^ w ∧
        (v < 2 ^ w → ARISR_proto_ctrl_getField (some r) (winMask s w) s = v)) ∧
      (∀ k, w ≤ k → s + k < 32 → v.testBit k = true → (be32 r).testBit (s + k) = true)) ∧
    (ARISR_proto_ctrl_getField (ARISR_proto_ctrl_setField (some [0, 0, 0, 0]) 2 0).2
        (winMask 0 1) 0 = 0 ∧
     ARISR_proto_ctrl_getField (ARISR_proto_ctrl_setField (some [0, 0, 0, 0]) 2 0).2
        (winMask 1 7) 1 = 1) := by
  refine ⟨⟨setLocal c v s, ?_, be32_lt _, ?_, ?_, ?_, ?_, ?_⟩, by decide, by decide⟩
  · have := setField_snd c v s
    have h1 := setField_fst c v s
    exact Prod.ext h1 this
  · intro i
    rw [be32_setLocal, testBit_orField _ _ _ _ hv (by omega)]
  · intro i hi
    rw [be32_setLocal, testBit_orField _ _ _ _ hv (by omega)]
    have : ¬ s ≤ i := by omega
    simp [this]
  · intro hfit i hi
    rw [be32_setLocal, testBit_orField _ _ _ _ hv (by omega)]
    rw [testBit_winMask] at hi
    by_cases h1 : s ≤ i
    · have h2 : ¬ i - s < w := by simpa [h1] using hi
      have : v.testBit (i - s) = false :=
        Nat.testBit_lt_two_pow (lt_of_lt_of_le hfit
          (Nat.pow_le_pow_right (by norm_num) (by omega)))
      simp [this]
    · simp [h1]
  · intro h0
    have hz : ∀ k, k < w → (be32 c).testBit (s + k) = false := by
      intro k hk
      have := congrArg (fun x => x.testBit k) h0
      simp only [getField_window_testBit c k hw hsw, hk, decide_True, Bool.true_and,
        Nat.zero_testBit] at this
      exact this
    have e : ARISR_proto_ctrl_getField (some (setLocal c v s)) (winMask s w) s = v % 2 ^ w := by
      apply Nat.eq_of_testBit_eq
      intro k
      rw [getField_window_testBit _ k hw hsw, be32_setLocal,
        testBit_orField _ _ _ _ hv (by omega), Nat.testBit_mod_two_pow]
      by_cases hk : k < w
      · have h32 : s + k < 32 := by omega
        simp [hk, hz k hk, h32]
      · simp [hk]
    exact ⟨e, fun hfit => by rw [e, Nat.mod_eq_of_lt hfit]⟩
  · intro k _ h32 hb
    rw [be32_setLocal, testBit_orField _ _ _ _ hv (by omega)]
    simp [h32, hb]

/-- Witness of C31 on the `option` field of the sample layout (width 5 at shift
21): setting 17 into the word `00 00 00 01` reads back 17, and setting 49, which
needs six bits, reads back 17 as well. -/
theorem C31_setField_field_width_witness :
    (5 ≤ 8 ∧ 21 + 5 ≤ 32 ∧ 49 < 256) ∧
    (∃ r, ARISR_proto_ctrl_setField (some [0, 0, 0, 1]) 49 21 = (kARISR_OK, some r) ∧
      ARISR_proto_ctrl_getField (some r) (winMask 21 5) 21 = 17 ∧
      (be32 r).testBit 26 = true) := by
  obtain ⟨⟨r, h1, -, -, -, -, h5, h6⟩, -⟩ :=
    C31_setField_field_width [0, 0, 0, 1] 49 21 5 (by decide) (by decide) (by decide)
  exact ⟨by decide, r, h1, (h5 (by decide)).1, h6 5 (by decide) (by decide) (by decide)⟩

/-- An input on which `ARISR_proto_recv` returns `kARISR_OK`: the raw frame is
`inRaw`, the payload window and the trailer are those of the eight-bit length. -/
theorem recvTrace_ok_raw {P : Interface} {E : Crypt} {data key id : List Nat}
    {R : ARISR_CHUNK_RAW} (h : recvTrace P E data key id = some (kARISR_OK, R)) :
    R = inRaw P E data key ∧
      (recvHasData P data →
        inHeaderEnd P data + 2 + recvLen P data + 2 ≤ data.length ∧
        E.ARISR_crypt_crc16_calculate
            (slice data (inHeaderEnd P data + 2) (recvLen P data)) % 65536 =
          crcValue (slice data (inHeaderEnd P data + 2 + recvLen P data) 2)) ∧
      recvEndPos P data + 4 ≤ data.length ∧
      slice data (recvEndPos P data) 4 = slice id 0 4 := by
  unfold recvTrace at h
  by_cases hlen : data.length < 8 ∨ id.length < 4
  · rw [if_pos hlen] at h; cases h
  rw [if_neg hlen] at h
  by_cases hid : slice data 0 4 ≠ slice id 0 4
  · rw [if_pos hid] at h; cases h
  rw [if_neg hid] at h
  by_cases har : (E.ARISR_aes_aris_decrypt key (slice data 4 4)).1 ≠ kARISR_OK
  · rw [if_pos har] at h; cases h
  rw [if_neg har] at h
  by_cases h24 : data.length < 24
  · rw [if_pos h24] at h; cases h
  rw [if_neg h24] at h
  by_cases hmal : (inCtrl P data).destinations > 0 ∧
      E.malloc ((inCtrl P data).destinations * ARISR_ADDRESS_SIZE) = false
  · rw [if_pos hmal] at h; cases h
  rw [if_neg hmal] at h
  by_cases hh : data.length < inHeaderEnd P data + 2
  · rw [if_pos hh] at h; cases h
  rw [if_neg hh] at h
  by_cases hcrc : E.ARISR_crypt_crc16_calculate (data.take (inHeaderEnd P data)) % 65536 ≠
      crcValue (slice data (inHeaderEnd P data) 2)
  · rw [if_pos hcrc] at h; cases h
  rw [if_neg hcrc] at h
  have hend : recvTraceEnd P E data key id = some (kARISR_OK, R) →
      recvEndPos P data + 4 ≤ data.length ∧
      slice data (recvEndPos P data) 4 = slice id 0 4 ∧ R = inRaw P E data key := by
    intro h
    unfold recvTraceEnd at h
    by_cases hl : data.length < recvEndPos P data + 4
    · rw [if_pos hl] at h; cases h
    rw [if_neg hl] at h
    by_cases ht : slice data (recvEndPos P data) 4 ≠ slice id 0 4
    · rw [if_pos ht] at h; cases h
    rw [if_neg ht] at h
    simp only [Option.some.injEq, Prod.mk.injEq, true_and] at h
    exact ⟨by omega, not_not.mp ht, h.symm⟩
  by_cases hd : recvHasData P data
  · rw [if_pos hd] at h
    by_cases hdl : data.length < inHeaderEnd P data + 2 + recvLen P data + 2
    · rw [if_pos hdl] at h; cases h
    rw [if_neg hdl] at h
    by_cases hcd : E.ARISR_crypt_crc16_calculate
          (slice data (inHeaderEnd P data + 2) (recvLen P data)) % 65536 ≠
        crcValue (slice data (inHeaderEnd P data + 2 + recvLen P data) 2)
    · rw [if_pos hcd] at h; cases h
    rw [if_neg hcd] at h
    obtain ⟨e1, e2, e3⟩ := hend h
    exact ⟨e3, fun _ => ⟨by omega, not_not.mp hcd⟩, e1, e2⟩
  · rw [if_neg hd] at h
    obtain ⟨e1, e2, e3⟩ := hend h
    exact ⟨e3, fun hx => absurd hx hd, e1, e2⟩

theorem inRaw_moreHeaders (P : Interface) (E : Crypt) (data key : List Nat) :
    rawMoreHeaders P (inRaw P E data key) = (inCtrl P data).more_header := by
  unfold inRaw
  split_ifs <;> rfl

theorem inRaw_dataLength {P : Interface} (E : Crypt) {data : List Nat} (key : List Nat)
    (hmh : (inCtrl P data).more_header ≠ 0) :
    rawDataLength P (inRaw P E data key) = recvLen P data := by
  unfold rawDataLength recvLen inRaw
  rw [if_pos hmh]
  split_ifs <;> simp only [inRawHeader, if_pos hmh]

/-- The raw frame `ARISR_proto_recv` returns with `kARISR_OK`, in terms of the
eight-bit payload length read from its own second control word. -/
theorem recv_ok_sections {P : Interface} {E : Crypt} {prior R : ARISR_CHUNK_RAW}
    {data key id : List Nat} (hA : RecvAllocs P E data)
    (h : ARISR_proto_recv P E (some prior) (some data) key id = some (kARISR_OK, some R)) :
    (if rawMoreHeaders P R ≠ 0 ∧ rawDataLength P R > 0 then
      R.data = some (slice data (inHeaderEnd P data + 2) (rawDataLength P R)) ∧
      R.crc_data = slice data (inHeaderEnd P data + 2 + rawDataLength P R) 2 ∧
      E.ARISR_crypt_crc16_calculate
          (slice data (inHeaderEnd P data + 2) (rawDataLength P R)) % 65536 =
        crcValue R.crc_data ∧
      R.end_ = slice data (inHeaderEnd P data + 2 + rawDataLength P R + 2) 4 ∧
      inHeaderEnd P data + 2 + rawDataLength P R + 2 + 4 ≤ data.length
    else
      R.data = none ∧ R.crc_data = [0, 0] ∧
      R.end_ = slice data (inHeaderEnd P data + 2) 4 ∧
      inHeaderEnd P data + 2 + 4 ≤ data.length) ∧
    R.end_ = slice id 0 4 := by
  rw [recv_eq_trace prior key id hA] at h
  cases ht : recvTrace P E data key id with
  | none => rw [ht] at h; cases h
  | some r =>
    rw [ht] at h
    simp only [Option.map_some', Option.some.injEq, Prod.mk.injEq] at h
    obtain ⟨e, R2⟩ := r
    simp only at h
    obtain ⟨rfl, rfl⟩ := h
    obtain ⟨rfl, hd, hl, hid⟩ := recvTrace_ok_raw ht
    rw [inRaw_moreHeaders]
    by_cases hc : recvHasData P data
    · have hL := inRaw_dataLength E key hc.1
      obtain ⟨hlen, hcrc⟩ := hd hc
      rw [hL, if_pos (show (inCtrl P data).more_header ≠ 0 ∧ recvLen P data > 0 from hc)]
      have he : recvEndPos P data = inHeaderEnd P data + 2 + recvLen P data + 2 := by
        unfold recvEndPos
        rw [if_pos hc]
        omega
      rw [he] at hl hid
      unfold inRaw
      simp only [if_pos hc, he]
      exact ⟨⟨trivial, trivial, hcrc, trivial, hl⟩, hid⟩
    · have he : recvEndPos P data = inHeaderEnd P data + 2 := by
        unfold recvEndPos
        rw [if_neg hc]
      rw [he] at hl hid
      have hcond : ¬ ((inCtrl P data).more_header ≠ 0 ∧
          rawDataLength P (inRaw P E data key) > 0) := by
        intro hx
        rw [inRaw_dataLength E key hx.1] at hx
        exact hc hx
      rw [if_neg hcond]
      unfold inRaw
      simp only [if_neg hc, he]
      exact ⟨⟨rfl, rfl, trivial, hl⟩, hid⟩

theorem rawDataLength_of_dvd {P : Interface} {b : ARISR_CHUNK_RAW}
    (h : 256 ∣ ARISR_proto_ctrl_getField b.ctrl2 P.ARISR_CTRL2_DATA_LENGTH_MASK
      P.ARISR_CTRL2_DATA_LENGTH_SHIFT * P.ARISR_DATA_MULT) : rawDataLength P b = 0 :=
  Nat.mod_eq_zero_of_dvd h

theorem wfRaw_rawWrap : WfRaw rawWrap := ⟨rfl, rfl, rfl, rfl, rfl, rfl⟩

set_option maxRecDepth 100000 in
theorem sendReadable_rawWrap : SendReadable sampleInterface rawWrap :=
  ⟨fun _ => ⟨_, rfl, by decide⟩, fun _ => ⟨_, rfl, by decide⟩, fun _ => ⟨_, rfl, by decide⟩,
    fun _ => ⟨_, rfl, by decide⟩⟩

/-- Forward evaluation of `ARISR_proto_recv` from the header CRC on: on an input
that passes the header checks and holds the trailer where the eight-bit payload
length places it, the function returns the status of the data CRC check over
that length, then of the trailer check, and `kARISR_OK` with the raw frame
`inRaw` when both pass. -/
theorem recv_eval {P : Interface} {E : Crypt} (prior : ARISR_CHUNK_RAW) {data key id : List Nat}
    (hA : RecvAllocs P E data) (hc : ReachesCrc P E data key id) (hx : HeaderCrcOk P E data)
    (hend : recvEndPos P data + 4 ≤ data.length) :
    ARISR_proto_recv P E (some prior) (some data) key id =
      some (if recvHasData P data ∧
              E.ARISR_crypt_crc16_calculate
                (slice data (inHeaderEnd P data + 2) (recvLen P data)) % 65536 ≠
              crcValue (slice data (inHeaderEnd P data + 2 + recvLen P data) 2) then
            (kARISR_ERR_NOT_SAME_CRC_DATA, some zeroRaw)
          else if slice data (recvEndPos P data) 4 ≠ slice id 0 4 then
            (kARISR_ERR_NOT_SAME_END, some zeroRaw)
          else (kARISR_OK, some (inRaw P E data key))) := by
  rw [recv_eq_trace prior key id hA]
  have h24 := hc.start.len
  have h4 := hc.start.id_len
  unfold recvTrace
  rw [if_neg (by omega), if_neg (not_not.mpr hc.start.id_eq),
    if_neg (not_not.mpr hc.start.aris_ok), if_neg (by omega),
    if_neg (fun h => by
      have := hc.malloc_ok h.1
      rw [h.2] at this
      cases this),
    if_neg (by have := hc.len; omega),
    if_neg (show ¬ (E.ARISR_crypt_crc16_calculate (data.take (inHeaderEnd P data)) % 65536 ≠
      crcValue (slice data (inHeaderEnd P data) 2)) from not_not.mpr hx)]
  have hte : recvTraceEnd P E data key id =
      some (if slice data (recvEndPos P data) 4 ≠ slice id 0 4 then
          (kARISR_ERR_NOT_SAME_END, zeroRaw)
        else (kARISR_OK, inRaw P E data key)) := by
    unfold recvTraceEnd
    rw [if_neg (by omega)]
    split_ifs <;> rfl
  by_cases hd : recvHasData P data
  · have he : recvEndPos P data = inHeaderEnd P data + 2 + recvLen P data + 2 := by
      unfold recvEndPos
      rw [if_pos hd]
      omega
    rw [if_pos hd, if_neg (by omega)]
    by_cases hcd : E.ARISR_crypt_crc16_calculate
          (slice data (inHeaderEnd P data + 2) (recvLen P data)) % 65536 ≠
        crcValue (slice data (inHeaderEnd P data + 2 + recvLen P data) 2)
    · rw [if_pos hcd, if_pos ⟨hd, hcd⟩]
      rfl
    · rw [if_neg hcd, if_neg (fun h => hcd h.2), hte]
      split_ifs <;> rfl
  · rw [if_neg hd, if_neg (fun h => hd h.1), hte]
    split_ifs <;> rfl

/-- Claim C32: the payload length of the partial-mode functions is an eight-bit
value.  The length both functions compute for a raw frame is the length field
of its second control word times `ARISR_DATA_MULT`, modulo 256 (`recvLen` for
the input of `ARISR_proto_recv`, 0 without `more_header`).
`ARISR_proto_recv`: on every input that passes the header checks (its additional
allocations succeeding) and holds four bytes at the offset where that length
places the trailer, with `h` the offset of `crc_header` and `L` that length: if
`more_headers` is set and `L > 0`, the function compares the CRC of the `L`
bytes at `h + 2` with the two bytes at `h + 2 + L` and returns
`kARISR_ERR_NOT_SAME_CRC_DATA` when they differ; it then compares the four bytes
at `h + 2 + L + 2` (at `h + 2` without a payload) with the expected id and
returns `kARISR_ERR_NOT_SAME_END` when they differ; otherwise it returns
`kARISR_OK` with a raw frame whose payload is those `L` bytes, whose `crc_data`
is the two bytes after them and whose trailer is the four bytes read, or with no
payload and a zero `crc_data`.  When the product is a multiple of 256 the
function takes the input to carry no payload: it reads the trailer at `h + 2`
and returns no `data` and a zero `crc_data`.
`ARISR_proto_send`: on a raw frame whose regions are readable, with the
allocation succeeding, it returns `kARISR_OK` with the header, its CRC, the
first `L` bytes behind `data` and their CRC when `more_headers` is set and
`L > 0`, and the trailer; the size it reports counts `L + 2` bytes for the
payload section in that case and none otherwise; when the product is a multiple
of 256 the output is the header, its CRC and the trailer. -/
theorem C32_partial_length_8bit (P : Interface) (E : Crypt) (prior S : ARISR_CHUNK_RAW)
    (data key id fresh : List Nat) (hA : RecvAllocs P E data)
    (hc : ReachesCrc P E data key id) (hx : HeaderCrcOk P E data)
    (hend : recvEndPos P data + 4 ≤ data.length)
    (wf : WfRaw S) (hr : SendReadable P S) (hm : E.malloc (sendSize P S) = true) :
    (∀ b : ARISR_CHUNK_RAW,
      rawDataLength P b =
        (ARISR_proto_ctrl_getField b.ctrl2 P.ARISR_CTRL2_DATA_LENGTH_MASK
          P.ARISR_CTRL2_DATA_LENGTH_SHIFT * P.ARISR_DATA_MULT) % 256) ∧
    (recvLen P data =
      if (inCtrl P data).more_header ≠ 0 then
        (ARISR_proto_ctrl_getField (some (slice data (inPosCtrl2 P data) 4))
          P.ARISR_CTRL2_DATA_LENGTH_MASK P.ARISR_CTRL2_DATA_LENGTH_SHIFT *
            P.ARISR_DATA_MULT) % 256
      else 0) ∧
    (recvEndPos P data =
      inHeaderEnd P data + 2 + (if recvHasData P data then recvLen P data + 2 else 0)) ∧
    ARISR_proto_recv P E (some prior) (some data) key id =
      some (if recvHasData P data ∧
              E.ARISR_crypt_crc16_calculate
                (slice data (inHeaderEnd P data + 2) (recvLen P data)) % 65536 ≠
              crcValue (slice data (inHeaderEnd P data + 2 + recvLen P data) 2) then
            (kARISR_ERR_NOT_SAME_CRC_DATA, some zeroRaw)
          else if slice data (recvEndPos P data) 4 ≠ slice id 0 4 then
            (kARISR_ERR_NOT_SAME_END, some zeroRaw)
          else (kARISR_OK, some (inRaw P E data key))) ∧
    ((inRaw P E data key).data =
        (if recvHasData P data then
          some (slice data (inHeaderEnd P data + 2) (recvLen P data)) else none) ∧
      (inRaw P E data key).crc_data =
        (if recvHasData P data then
          slice data (inHeaderEnd P data + 2 + recvLen P data) 2 else [0, 0]) ∧
      (inRaw P E data key).end_ = slice data (recvEndPos P data) 4) ∧
    (256 ∣ ARISR_proto_ctrl_getField (some (slice data (inPosCtrl2 P data) 4))
        P.ARISR_CTRL2_DATA_LENGTH_MASK P.ARISR_CTRL2_DATA_LENGTH_SHIFT * P.ARISR_DATA_MULT →
      ARISR_proto_recv P E (some prior) (some data) key id =
        some (if slice data (inHeaderEnd P data + 2) 4 ≠ slice id 0 4 then
            (kARISR_ERR_NOT_SAME_END, some zeroRaw)
          else (kARISR_OK, some (inRaw P E data key))) ∧
      (inRaw P E data key).data = none ∧ (inRaw P E data key).crc_data = [0, 0] ∧
      (inRaw P E data key).end_ = slice data (inHeaderEnd P data + 2) 4) ∧
    ARISR_proto_send P E (some S) fresh =
      some ⟨kARISR_OK,
        some (rawWireHeader P S ++ crcBytes (E.ARISR_crypt_crc16_calculate (rawWireHeader P S)) ++
          (if rawMoreHeaders P S ≠ 0 ∧ rawDataLength P S > 0 then
            rawSection S.data (rawDataLength P S) ++
              crcBytes (E.ARISR_crypt_crc16_calculate (rawSection S.data (rawDataLength P S)))
          else []) ++ S.end_),
        some ((rawWireHeader P S).length + 2 +
          (if rawMoreHeaders P S ≠ 0 ∧ rawDataLength P S > 0 then rawDataLength P S + 2 else 0)
          + 4)⟩ ∧
    (256 ∣ ARISR_proto_ctrl_getField S.ctrl2 P.ARISR_CTRL2_DATA_LENGTH_MASK
        P.ARISR_CTRL2_DATA_LENGTH_SHIFT * P.ARISR_DATA_MULT →
      ARISR_proto_send P E (some S) fresh =
        some ⟨kARISR_OK,
          some (rawWireHeader P S ++
            crcBytes (E.ARISR_crypt_crc16_calculate (rawWireHeader P S)) ++ S.end_),
          some ((rawWireHeader P S).length + 2 + 4)⟩) := by
  have hrecv := recv_eval prior hA hc hx hend
  have hsend : ARISR_proto_send P E (some S) fresh =
      some ⟨kARISR_OK,
        some (rawWireHeader P S ++ crcBytes (E.ARISR_crypt_crc16_calculate (rawWireHeader P S)) ++
          (if rawMoreHeaders P S ≠ 0 ∧ rawDataLength P S > 0 then
            rawSection S.data (rawDataLength P S) ++
              crcBytes (E.ARISR_crypt_crc16_calculate (rawSection S.data (rawDataLength P S)))
          else []) ++ S.end_),
        some ((rawWireHeader P S).length + 2 +
          (if rawMoreHeaders P S ≠ 0 ∧ rawDataLength P S > 0 then rawDataLength P S + 2 else 0)
          + 4)⟩ := by
    rw [send_eval wf hr fresh hm]
    have hT : (rawWire P E S).length = (rawWireHeader P S).length + 2 +
        (if rawMoreHeaders P S ≠ 0 ∧ rawDataLength P S > 0 then rawDataLength P S + 2 else 0)
        + 4 := by
      unfold rawWire
      simp only [List.length_append, crcBytes_length, wf.end_len, rawWireData_length hr]
    rw [hT]
    rfl
  have hraw : (inRaw P E data key).data =
        (if recvHasData P data then
          some (slice data (inHeaderEnd P data + 2) (recvLen P data)) else none) ∧
      (inRaw P E data key).crc_data =
        (if recvHasData P data then
          slice data (inHeaderEnd P data + 2 + recvLen P data) 2 else [0, 0]) ∧
      (inRaw P E data key).end_ = slice data (recvEndPos P data) 4 := by
    unfold inRaw
    by_cases hd : recvHasData P data
    · simp only [if_pos hd, and_self]
    · simp only [if_neg hd]
      exact ⟨rfl, rfl, trivial⟩
  refine ⟨fun _ => rfl, rfl, rfl, hrecv, hraw, fun hdvd => ?_, hsend, fun hdvd => ?_⟩
  · have hn : ¬ recvHasData P data := by
      intro hd
      have h0 : recvLen P data = 0 := by
        unfold recvLen
        rw [if_pos hd.1]
        exact Nat.mod_eq_zero_of_dvd hdvd
      exact absurd hd.2 (by rw [h0]; decide)
    have he : recvEndPos P data = inHeaderEnd P data + 2 := by
      unfold recvEndPos
      rw [if_neg hn]
    rw [hrecv, if_neg (fun h => hn h.1), he]
    obtain ⟨r1, r2, r3⟩ := hraw
    rw [if_neg hn] at r1 r2
    rw [he] at r3
    exact ⟨rfl, r1, r2, r3⟩
  · have h0 := rawDataLength_of_dvd hdvd
    rw [hsend, if_neg (by rw [h0]; exact fun hx => absurd hx.2 (by decide)),
      if_neg (by rw [h0]; exact fun hx => absurd hx.2 (by decide))]
    simp only [List.append_nil, Nat.add_zero]

theorem wfRaw_rawS4 : WfRaw rawS4 := ⟨rfl, rfl, rfl, rfl, rfl, rfl⟩

theorem sendReadable_rawS4 : SendReadable sampleInterface rawS4 :=
  ⟨fun _ => ⟨_, rfl, by decide⟩, fun _ => ⟨_, rfl, by decide⟩, fun _ => ⟨_, rfl, by decide⟩,
    fun _ => ⟨_, rfl, by decide⟩⟩

set_option maxRecDepth 1000000 in
/-- Witness of C32 under the sample instance.  For `wireS4` the length field is
2 and `ARISR_DATA_MULT = 8`: `ARISR_proto_recv` returns `kARISR_OK` with the 16
ciphertext bytes at offset 54 as payload and the two bytes at offset 70 as
`crc_data`, and `ARISR_proto_send` of the raw frame `rawS4` returns the 76 bytes
of `wireS4`.  For a length field of 32 (a product of 256): `ARISR_proto_recv`
returns `kARISR_OK` for the 58 bytes of `wireWrap`, whose trailer follows
`crc_header`, with no payload and a zero `crc_data`, and `ARISR_proto_send` of
the raw frame `rawWrap`, which holds 256 ciphertext bytes, returns these 58
bytes. -/
theorem C32_partial_length_8bit_witness :
    (recvLen sampleInterface wireS4 = 16 ∧
      ARISR_proto_recv sampleInterface sampleCrypt (some rawStale) (some wireS4) sampleKey
        [0x11, 0x22, 0x33, 0x44] = some (kARISR_OK, some rawS4Recv) ∧
      rawS4Recv.data = some (slice wireS4 54 16) ∧ rawS4Recv.crc_data = slice wireS4 70 2 ∧
      ARISR_proto_send sampleInterface sampleCrypt (some rawS4) (List.replicate 100 0xEE) =
        some ⟨kARISR_OK, some wireS4, some 76⟩) ∧
    (ARISR_proto_ctrl_getField rawWrap.ctrl2 sampleInterface.ARISR_CTRL2_DATA_LENGTH_MASK
        sampleInterface.ARISR_CTRL2_DATA_LENGTH_SHIFT * sampleInterface.ARISR_DATA_MULT = 256 ∧
      ARISR_proto_recv sampleInterface sampleCrypt (some rawStale) (some wireWrap) sampleKey
        [0x11, 0x22, 0x33, 0x44] = some (kARISR_OK, some rawWrapRecv) ∧
      rawWrapRecv.data = none ∧ rawWrapRecv.crc_data = [0, 0] ∧
      ARISR_proto_send sampleInterface sampleCrypt (some rawWrap) (List.replicate 100 0xEE) =
        some ⟨kARISR_OK, some wireWrap, some 58⟩) := by
  obtain ⟨-, -, -, a4, -, -, a7, -⟩ :=
    C32_partial_length_8bit sampleInterface sampleCrypt rawStale rawS4 wireS4 sampleKey
      [0x11, 0x22, 0x33, 0x44] (List.replicate 100 0xEE) (recvAllocs_sample wireS4)
      ⟨⟨by decide, by decide, by decide, by decide⟩, fun _ => rfl, by decide⟩ (by decide)
      (by decide) wfRaw_rawS4 sendReadable_rawS4 rfl
  obtain ⟨-, -, -, -, -, b6, -, b8⟩ :=
    C32_partial_length_8bit sampleInterface sampleCrypt rawStale rawWrap wireWrap sampleKey
      [0x11, 0x22, 0x33, 0x44] (List.replicate 100 0xEE) (recvAllocs_sample wireWrap)
      ⟨⟨by decide, by decide, by decide, by decide⟩, fun _ => rfl, by decide⟩ (by decide)
      (by decide) wfRaw_rawWrap sendReadable_rawWrap rfl
  refine ⟨⟨by decide, a4.trans (by decide), by decide, by decide, a7.trans (by decide)⟩,
    by decide, (b6 (by decide)).1.trans (by decide), rfl, rfl, (b8 (by decide)).trans (by decide)⟩

end ARISR
